import Mathlib

/-!
# ChipIdea UDC driver (drivers/usb/chipidea/udc.c): a shallow embedding

The driver state is an explicit record `ci_hdrc`.  Objects the C code reaches
through pointers live in stores indexed by their address: the endpoint array
`ci_hw_ep` is indexed by endpoint index, request objects by a handle.  An
endpoint queue (`qh.queue`) is the ordered list of the handles linked on it, so
`list_empty(&hwreq->queue)` is "the handle is on no endpoint queue" and
`list_del_init(&hwreq->queue)` removes the handle from whichever queue holds it.

Calls that leave the driver (completion callbacks of the function driver,
register writes, freeing of descriptors) are appended to `ci.trace` in program
order.  The two completion callbacks defined in udc.c itself are executed.
What the hardware, the clock and the allocators answer is an explicit
environment argument of the function that asks.

Unsigned 32-bit fields are natural numbers reduced modulo `2 ^ 32` where the
C arithmetic can wrap.
-/

namespace Udc

/-! ## Constants -/

def EAGAIN : Int := 11
def ENOMEM : Int := 12
def EBUSY : Int := 16
def EINVAL : Int := 22
def EPIPE : Int := 32
def EPROTO : Int := 71
def EOVERFLOW : Int := 75
def EILSEQ : Int := 84
def EMSGSIZE : Int := 90
def ECONNRESET : Int := 104
def ESHUTDOWN : Int := 108
def EALREADY : Int := 114
def EINPROGRESS : Int := 115

/-- Direction index of an OUT endpoint (udc.h). -/
def RX : Nat := 0
/-- Direction index of an IN endpoint (udc.h). -/
def TX : Nat := 1

def USB_ENDPOINT_XFER_CONTROL : Nat := 0
def USB_ENDPOINT_XFER_ISOC : Nat := 1
def USB_ENDPOINT_XFER_BULK : Nat := 2
def USB_ENDPOINT_XFER_INT : Nat := 3

def U32 : Nat := 2 ^ 32

/-! Modelled from the spec: ch9.h is not among the sources; the request,
recipient, feature and test selector codes below are those of the standard
USB control-request layout (USB 2.0, with the OTG test selectors), and the
speed codes those of `enum usb_device_speed`. -/

def USB_DIR_OUT : Nat := 0
def USB_DIR_IN : Nat := 128
def USB_TYPE_STANDARD : Nat := 0
def USB_RECIP_MASK : Nat := 31
def USB_RECIP_DEVICE : Nat := 0
def USB_RECIP_INTERFACE : Nat := 1
def USB_RECIP_ENDPOINT : Nat := 2
def USB_REQ_GET_STATUS : Nat := 0
def USB_REQ_CLEAR_FEATURE : Nat := 1
def USB_REQ_SET_FEATURE : Nat := 3
def USB_REQ_SET_ADDRESS : Nat := 5
def USB_REQ_SET_CONFIGURATION : Nat := 9
def USB_ENDPOINT_HALT : Nat := 0
def USB_DEVICE_REMOTE_WAKEUP : Nat := 1
def USB_DEVICE_TEST_MODE : Nat := 2
def USB_DEVICE_B_HNP_ENABLE : Nat := 3
def USB_DEVICE_A_HNP_SUPPORT : Nat := 4
def USB_DEVICE_A_ALT_HNP_SUPPORT : Nat := 5
def USB_ENDPOINT_NUMBER_MASK : Nat := 15
def USB_ENDPOINT_DIR_MASK : Nat := 128
def TEST_J : Nat := 1
def TEST_K : Nat := 2
def TEST_SE0_NAK : Nat := 3
def TEST_PACKET : Nat := 4
def TEST_FORCE_EN : Nat := 5
def TEST_OTG_SRP_REQD : Nat := 6
def TEST_OTG_HNP_REQD : Nat := 7
def USB_SPEED_UNKNOWN : Nat := 0
def USB_SPEED_FULL : Nat := 2
def USB_SPEED_HIGH : Nat := 3

/-- Constants of the driver headers udc.h, bits.h and msm_hsusb.h, which are
not among the sources; they are parameters of the functions that use them. -/
structure Hdr where
  TD_PAGE_COUNT : Nat
  CI_HDRC_PAGE_SIZE : Nat
  CI13XXX_PAGE_SIZE : Nat
  PAGE_SIZE : Nat
  /-- Largest value of the TD_TOTAL_BYTES field of a token. -/
  TD_TOTAL_BYTES : Nat
  TD_RESERVED_MASK : Nat
  TD_ADDR_MASK : Nat
  MSM_EP_PIPE_ID_RESET_VAL : Nat
  MSM_PIPE_ID_MASK : Nat
  MSM_TX_PIPE_ID_OFS : Nat
  OTG_STATUS_SELECTOR : Nat
  HOST_REQUEST_FLAG : Nat
  /-- Largest value of the DEVICEADDR_USBADR field of the device-address
  register (the mask shifted down to bit 0). -/
  DEVICEADDR_USBADR : Nat

/-- Header values of the chipidea driver: five page pointers per descriptor,
4096-byte pages, a 15-bit byte count, a 7-bit device address. -/
def hdr0 : Hdr :=
  { TD_PAGE_COUNT := 5, CI_HDRC_PAGE_SIZE := 4096, CI13XXX_PAGE_SIZE := 4096,
    PAGE_SIZE := 4096, TD_TOTAL_BYTES := 32767, TD_RESERVED_MASK := 4095,
    TD_ADDR_MASK := 4294967264, MSM_EP_PIPE_ID_RESET_VAL := 7967,
    MSM_PIPE_ID_MASK := 31, MSM_TX_PIPE_ID_OFS := 16, OTG_STATUS_SELECTOR := 61440,
    HOST_REQUEST_FLAG := 0, DEVICEADDR_USBADR := 127 }

/-! ## Data model -/

/-- Completion callbacks a request can carry in `req.complete`: the two defined
in udc.c, or one owned by the function driver. -/
inductive Complete where
  | isr_get_status_complete
  | isr_setup_status_complete
  | gadget (fn : Nat)
  deriving DecidableEq, Repr

/-- Link word of a descriptor (`next`): the terminate sentinel, the address of
the next descriptor, or an address tagged MSM_ETD_TYPE. -/
inductive Link where
  | terminate
  | addr (a : Nat)
  | etd (a : Nat)
  deriving DecidableEq, Repr

/-- Hardware transfer descriptor `struct ci_hw_td`, the token decoded into its
fields: the byte count TD_TOTAL_BYTES, the four named bits of TD_STATUS, the
value of the other TD_STATUS bits, and the interrupt-on-complete bits. -/
structure ci_hw_td where
  next : Link
  total_bytes : Nat
  active : Bool
  halted : Bool
  dt_err : Bool
  tr_err : Bool
  status_rest : Nat
  ioc : Bool
  etd_ioc : Bool
  page : List Nat
  deriving DecidableEq, Repr

/-- Software node of a descriptor `struct td_node`: its bus address and the
descriptor it points to. -/
structure td_node where
  dma : Nat
  ptr : ci_hw_td
  deriving DecidableEq, Repr

/-- The `udc_priv` word of a request, decoded by the macros of msm_hsusb.h:
CI13XX_REQ_VENDOR_ID equal to MSM_VENDOR_ID, the MSM_SPS_MODE and
MSM_IS_FINITE_TRANSFER bits, and the pipe id under MSM_PIPE_ID_MASK. -/
structure UdcPriv where
  msm_vendor : Bool
  sps_mode : Bool
  finite_transfer : Bool
  pipe_id : Nat
  deriving DecidableEq, Repr

/-- The part of `struct usb_request` the driver reads and writes. -/
structure usb_request where
  buf : Nat
  length : Nat
  dma : Nat
  zero : Bool
  no_interrupt : Bool
  udc_priv : UdcPriv
  complete : Option Complete
  status : Int
  actual : Nat
  deriving DecidableEq, Repr

/-- Saved attributes of a large request (`hwreq->multi`). -/
structure Multi where
  len : Nat
  actual : Nat
  buf : Nat
  deriving DecidableEq, Repr

/-- Driver request `struct ci_hw_req`; its `queue` link is represented by the
endpoint queues. -/
structure ci_hw_req where
  req : usb_request
  tds : List td_node
  multi : Multi
  deriving DecidableEq, Repr

/-- The fields of `struct usb_endpoint_descriptor` the driver looks at. -/
structure usb_endpoint_descriptor where
  bEndpointAddress : Nat
  bmAttributes : Nat
  wMaxPacketSize : Nat
  deriving DecidableEq, Repr

/-- Overlay descriptor of a queue head (`qh.ptr->td`): link word and status
bits of the token. -/
structure qh_td where
  next : Nat
  active : Bool
  halted : Bool
  dt_err : Bool
  tr_err : Bool
  status_rest : Nat
  deriving DecidableEq, Repr

/-- Endpoint `struct ci_hw_ep`. `queue` is `qh.queue`, oldest request first;
`prime_timer` tells whether the prime timer is pending. -/
structure ci_hw_ep where
  desc : Option usb_endpoint_descriptor
  maxpacket : Nat
  mult : Nat
  dir : Nat
  num : Nat
  type : Nat
  queue : List Nat
  qh : qh_td
  wedge : Bool
  multi_req : Bool
  pending_td : Option td_node
  prime_timer : Bool
  prime_timer_count : Nat
  prime_fail_count : Nat
  dTD_update_fail_count : Nat
  deriving DecidableEq, Repr

/-- Register fields the driver writes. -/
inductive HwField where
  | ENDPTFLUSH (bit : Nat)
  | ENDPTPRIME (bit : Nat)
  | ENDPTPIPEID (num : Nat)
  | ENDPTCTRL_XS (num : Nat) (dir : Nat)
  | DEVICEADDR_USBADR
  | USBCMD_ATDTW
  | PORTSC_PTC
  /-- The interrupt status register, written as a whole. -/
  | USBSTS
  /-- The flush, setup-status and complete registers, written as a whole. -/
  | ENDPTFLUSH_ALL
  | ENDPTSETUPSTAT
  | ENDPTCOMPLETE
  deriving DecidableEq, Repr

/-- Events the platform code is told of through `platdata->notify_event`. -/
inductive CiEvent where
  | RESUME
  | SUSPEND
  deriving DecidableEq, Repr

/-- Calls that leave the driver, in program order. -/
inductive Event where
  /-- `req.complete(ep, req)`: the callback, the endpoint passed, the request
  handle and the request as the callback sees it. -/
  | complete (cb : Complete) (ep : Nat) (h : Nat) (req : usb_request)
  /-- `hw_write` to a register field. -/
  | hw_write (f : HwField) (v : Nat)
  /-- `dma_pool_free` of the descriptor at a bus address. -/
  | td_free (dma : Nat)
  /-- `driver->setup` with the packet words bRequestType, bRequest, wValue,
  wIndex, wLength. -/
  | setup (bRequestType bRequest wValue wIndex wLength : Nat)
  /-- `usb_phy_set_suspend(transceiver, 0)` and the delayed remote wakeup. -/
  | remote_wakeup
  | mod_timer (ep : Nat)
  /-- The callbacks `driver->resume`, `driver->suspend` and
  `driver->disconnect` of the function driver. -/
  | driver_resume
  | driver_suspend
  | driver_disconnect
  /-- The call `platdata->notify_event(ci, event)`. -/
  | notify_event (event : CiEvent)
  /-- The calls `usb_phy_set_suspend(transceiver, v)` and
  `usb_phy_set_power(transceiver, mA)`. -/
  | phy_set_suspend (v : Nat)
  | phy_set_power (mA : Nat)
  deriving DecidableEq, Repr

/-- Controller `struct ci_hdrc`. `ep0out` and `ep0in` are the indices init_eps
gives them, `0` and `hw_ep_max / 2`.  `status` is the handle of the status
request, `status_buf` the address of its two-byte buffer and `status_data` the
16-bit value stored there.  `usbadr`, `rxs`, `txs`, `pipeid` and
`ptc` are the register fields DEVICEADDR_USBADR, ENDPTCTRL_RXS / ENDPTCTRL_TXS
of each endpoint number, ENDPTPIPEID and the port test control field, which
keep what is written to them under their masks. -/
structure ci_hdrc where
  hw_ep_max : Nat
  ci_hw_ep : Nat → ci_hw_ep
  reqs : Nat → ci_hw_req
  status : Nat
  status_buf : Nat
  status_data : Nat
  ep0_dir : Nat
  address : Nat
  setaddr : Bool
  test_mode : Nat
  suspended : Bool
  remote_wakeup : Bool
  configured : Bool
  vbus_active : Bool
  skip_flush : Bool
  host_request : Nat
  b_hnp_enable : Bool
  a_hnp_support : Bool
  otg_srp_reqd : Bool
  dTD_update_fail_count : Nat
  usbadr : Nat
  rxs : Nat → Bool
  txs : Nat → Bool
  pipeid : Nat → Nat
  ptc : Nat
  trace : List Event
  /-- The field `gadget.speed`. -/
  speed : Nat

def ep0out (_ci : ci_hdrc) : Nat := 0

def ep0in (ci : ci_hdrc) : Nat := ci.hw_ep_max / 2

/-! ## State access helpers -/

def setEp (ci : ci_hdrc) (i : Nat) (e : ci_hw_ep) : ci_hdrc :=
  { ci with ci_hw_ep := Function.update ci.ci_hw_ep i e }

def setReq (ci : ci_hdrc) (h : Nat) (r : ci_hw_req) : ci_hdrc :=
  { ci with reqs := Function.update ci.reqs h r }

def emit (ci : ci_hdrc) (e : Event) : ci_hdrc :=
  { ci with trace := ci.trace ++ [e] }

/-- The test `!list_empty(&hwreq->queue)`: the request is linked on the queue
of one of the endpoints of the array. -/
def onQueue (ci : ci_hdrc) (h : Nat) : Bool :=
  (List.range ci.hw_ep_max).any (fun i => (ci.ci_hw_ep i).queue.contains h)

/-- The call `list_del_init(&hwreq->queue)`: unlink the request from the queue
it is on. -/
def list_del_init (ci : ci_hdrc) (h : Nat) : ci_hdrc :=
  { ci with ci_hw_ep := fun i =>
      { ci.ci_hw_ep i with queue := (ci.ci_hw_ep i).queue.filter (fun x => x != h) } }

/-- The call `list_add_tail(&hwreq->queue, &hwep->qh.queue)`. -/
def list_add_tail (ci : ci_hdrc) (i : Nat) (h : Nat) : ci_hdrc :=
  setEp ci i { ci.ci_hw_ep i with queue := (ci.ci_hw_ep i).queue ++ [h] }

/-! ## Hardware primitives -/

/-- The function `hw_ep_bit`: bit number of an endpoint in the per-endpoint
registers. -/
def hw_ep_bit (num dir : Nat) : Nat := num + (if dir != 0 then 16 else 0)

/-- What the hardware and the clock do during one call of hw_ep_flush that gets
past its entry test: `retries` rounds end with ENDPTFLUSH clear but ENDPTSTAT
still set, and the last round ends either with ENDPTSTAT clear or, when
`timedOut`, with the poll of ENDPTFLUSH running past USB_MAX_TIMEOUT. -/
structure FlushEnv where
  retries : Nat
  timedOut : Bool
  deriving DecidableEq, Repr

def flush_writes (ci : ci_hdrc) (n : Nat) : Nat → ci_hdrc
  | 0 => ci
  | k + 1 => flush_writes (emit ci (Event.hw_write (HwField.ENDPTFLUSH n) 1)) n k

/-- The function `hw_ep_flush`.  The endpoint whose queue is tested is the
array entry at the bit number, as in the source.  Each round of the do-while
loop writes the flush bit once. -/
def hw_ep_flush (ci : ci_hdrc) (num dir : Nat) (e : FlushEnv) : ci_hdrc :=
  let n := hw_ep_bit num dir
  let mEp := ci.ci_hw_ep n
  if ci.skip_flush || (num != 0 && mEp.queue.isEmpty) then ci
  else
    let ci1 := flush_writes ci n (e.retries + 1)
    if e.timedOut then { ci1 with skip_flush := true } else ci1

/-- The function `hw_ep_get_halt`: 1 if the stall bit of the endpoint is set. -/
def hw_ep_get_halt (ci : ci_hdrc) (num dir : Nat) : Nat :=
  if (if dir != 0 then ci.txs num else ci.rxs num) then 1 else 0

/-- The function `hw_usb_set_address`; `value` is a `u8`.  The write
`hw_write(ci, OP_DEVICEADDR, DEVICEADDR_USBADR, value << __ffs(DEVICEADDR_USBADR))`
leaves in the field the bits of the value that the mask has; the event records
what the field holds after the write. -/
def hw_usb_set_address (k : Hdr) (ci : ci_hdrc) (value : Nat) : ci_hdrc :=
  let v := (value % 256) &&& k.DEVICEADDR_USBADR
  emit { ci with usbadr := v } (Event.hw_write HwField.DEVICEADDR_USBADR v)

/-- Modelled from the spec: hw_port_test_set is defined outside udc.c; it
applies the latched test mode to the port, here the port test control field. -/
def hw_port_test_set (ci : ci_hdrc) (mode : Nat) : ci_hdrc :=
  emit { ci with ptc := mode } (Event.hw_write HwField.PORTSC_PTC mode)

/-- Answer of the mapping call for one request. -/
structure MapEnv where
  ret : Int
  dma : Nat
  deriving DecidableEq, Repr

/-- Modelled from the spec: usb_gadget_map_request is defined outside udc.c; it
marks the request's buffer for device-visible addressing, storing the bus
address in `req.dma`, and returns 0 or an error code. -/
def usb_gadget_map_request (e : MapEnv) (r : usb_request) : Int × usb_request :=
  (e.ret, { r with dma := e.dma })

/-! ## Completion callbacks -/

/-- The function `isr_setup_status_complete`. -/
def isr_setup_status_complete (k : Hdr) (ci : ci_hdrc) : ci_hdrc :=
  let ci1 := if ci.setaddr then
      { hw_usb_set_address k ci ci.address with setaddr := false }
    else ci
  if ci1.test_mode != 0 then hw_port_test_set ci1 ci1.test_mode else ci1

/-- The call `hwreq->req.complete(&ep, &hwreq->req)` guarded by
`complete != NULL`: the call is recorded with the request as it is at that
moment; a callback of udc.c is then run (isr_get_status_complete only logs).
A callback of the function driver is taken not to call back into the driver
before it returns. -/
def call_complete (k : Hdr) (ci : ci_hdrc) (ep h : Nat) : ci_hdrc :=
  match (ci.reqs h).req.complete with
  | none => ci
  | some cb =>
    let ci1 := emit ci (Event.complete cb ep h (ci.reqs h).req)
    match cb with
    | Complete.isr_setup_status_complete => isr_setup_status_complete k ci1
    | _ => ci1

/-! ## Request retirement helpers -/

/-- The function `restore_original_req`. -/
def restore_original_req (r : ci_hw_req) : ci_hw_req :=
  { r with
    req := { r.req with
      buf := r.multi.buf
      length := r.multi.len
      actual := if r.req.status = 0 then r.multi.actual else r.req.actual }
    multi := { len := 0, actual := 0, buf := 0 } }

/-- The function `free_pending_td`, called only with a pending descriptor. -/
def free_pending_td (ci : ci_hdrc) (i : Nat) : ci_hdrc :=
  match (ci.ci_hw_ep i).pending_td with
  | none => ci
  | some p =>
    setEp (emit ci (Event.td_free p.dma)) i { ci.ci_hw_ep i with pending_td := none }

def free_tds (ci : ci_hdrc) : List td_node → ci_hdrc
  | [] => ci
  | node :: rest => free_tds (emit ci (Event.td_free node.dma)) rest

/-! ## _ep_nuke -/

/-- Environment of one call of _ep_nuke: the flush and the answer of the
mapping call for each request handle. -/
structure NukeEnv where
  flush : FlushEnv
  map : Nat → MapEnv

/-- One round of the while loop of `_ep_nuke` for the oldest request `h`. -/
def nuke_one (k : Hdr) (e : NukeEnv) (i h : Nat) (ci : ci_hdrc) : ci_hdrc :=
  -- free every TD of the request
  let ci1 := setReq (free_tds ci (ci.reqs h).tds) h { ci.reqs h with tds := [] }
  let ci2 := list_del_init ci1 h
  let hwep := ci2.ci_hw_ep i
  let hwreq := ci2.reqs h
  -- MSM specific: clear the endpoint's pipe id register
  let ci3 :=
    if hwreq.req.udc_priv.msm_vendor && hwreq.req.udc_priv.sps_mode
        && ci2.pipeid hwep.num != k.MSM_EP_PIPE_ID_RESET_VAL then
      emit { ci2 with pipeid := Function.update ci2.pipeid hwep.num k.MSM_EP_PIPE_ID_RESET_VAL }
        (Event.hw_write (HwField.ENDPTPIPEID hwep.num) k.MSM_EP_PIPE_ID_RESET_VAL)
    else ci2
  let r1 : ci_hw_req := { hwreq with req := { hwreq.req with status := -ESHUTDOWN } }
  let r2 : ci_hw_req := { r1 with req := (usb_gadget_map_request (e.map h) r1.req).2 }
  let ci4 :=
    if hwep.multi_req then
      setEp (setReq ci3 h (restore_original_req r2)) i { ci3.ci_hw_ep i with multi_req := false }
    else setReq ci3 h r2
  call_complete k ci4 i h

/-- The while loop of `_ep_nuke`; every round unlinks the oldest request, so
as many rounds as the queue is long empty it. -/
def nuke_loop (k : Hdr) (e : NukeEnv) (i : Nat) : Nat → ci_hdrc → ci_hdrc
  | 0, ci => ci
  | fuel + 1, ci =>
    match (ci.ci_hw_ep i).queue with
    | [] => ci
    | h :: _ => nuke_loop k e i fuel (nuke_one k e i h ci)

/-- The statements `del_timer(&hwep->prime_timer); hwep->prime_timer_count = 0;`
that open _ep_nuke and isr_tr_complete_low. -/
def del_prime_timer (ci : ci_hdrc) (i : Nat) : ci_hdrc :=
  setEp ci i { ci.ci_hw_ep i with prime_timer := false, prime_timer_count := 0 }

/-- The function `_ep_nuke` for the endpoint at index `i`; it returns 0.  In
the source the brace closing `if (hwreq->req.complete != NULL)` is missing; the
brace at the indentation of the `while` is taken to close the loop, so that
the pending descriptor is freed and 0 returned after the loop. -/
def _ep_nuke (k : Hdr) (e : NukeEnv) (i : Nat) (ci : ci_hdrc) : Int × ci_hdrc :=
  let hwep := ci.ci_hw_ep i
  let ci1 := del_prime_timer ci i
  let ci2 := hw_ep_flush ci1 hwep.num hwep.dir e.flush
  let ci3 := nuke_loop k e i (ci2.ci_hw_ep i).queue.length ci2
  let ci4 := if (ci3.ci_hw_ep i).pending_td.isSome then free_pending_td ci3 i else ci3
  (0, ci4)

/-! ## Building and priming a descriptor chain -/

/-- A zeroed descriptor (`memset(node->ptr, 0, ...)`). -/
def td_zero : ci_hw_td :=
  { next := Link.addr 0, total_bytes := 0, active := false, halted := false, dt_err := false,
    tr_err := false, status_rest := 0, ioc := false, etd_ioc := false, page := [] }

/-- Page pointers 1 .. TD_PAGE_COUNT - 1 written by add_td_to_list. -/
def td_pages (k : Hdr) (temp : Nat) : List Nat :=
  (List.range (k.TD_PAGE_COUNT - 1)).map (fun j =>
    let page := (temp + (j + 1) * k.CI_HDRC_PAGE_SIZE) % U32
    page - (page &&& k.TD_RESERVED_MASK))

/-- Replace the last element of a list, if there is one. -/
def modifyLast {α : Type} (f : α → α) : List α → List α
  | [] => []
  | [a] => [f a]
  | a :: b :: t => a :: modifyLast f (b :: t)

/-- Replace the first element of a list, if there is one. -/
def modifyHead {α : Type} (f : α → α) : List α → List α
  | [] => []
  | a :: t => f a :: t

/-- The function `add_td_to_list`.  `a` is what the two allocations give: the
bus address of the new descriptor, or nothing when either fails. -/
def add_td_to_list (k : Hdr) (a : Option Nat) (hwreq : ci_hw_req) (length : Nat) :
    Int × ci_hw_req :=
  match a with
  | none => (-ENOMEM, hwreq)
  | some dma =>
    let temp := (hwreq.req.dma + hwreq.req.actual) % U32
    let node : td_node :=
      { dma := dma,
        ptr := { td_zero with
          total_bytes := length &&& k.TD_TOTAL_BYTES,
          active := true,
          page := if length != 0 then temp :: td_pages k temp else [] } }
    let link : td_node → td_node := fun ln =>
      { ln with ptr := { ln.ptr with next := Link.addr node.dma } }
    (0, { req := { hwreq.req with actual := (hwreq.req.actual + length) % U32 },
          tds := modifyLast link hwreq.tds ++ [node],
          multi := hwreq.multi })

/-- The loop `while (rest > 0)` of _hardware_enqueue; `n` counts the calls of
add_td_to_list.  The C loop need not end (when an allocation fails the byte
counter can wrap, and a zero `count` leaves it unchanged); a run that has not
ended after `fuel` rounds gives `none`. -/
def td_loop (k : Hdr) (cap : Nat) (alloc : Nat → Option Nat) :
    Nat → Nat → Nat → ci_hw_req → Option (Nat × ci_hw_req)
  | fuel, n, rest, r =>
    if rest = 0 then some (n, r)
    else match fuel with
      | 0 => none
      | fuel + 1 =>
        let count := min ((r.req.length + U32 - r.req.actual % U32) % U32) cap
        td_loop k cap alloc fuel (n + 1) ((rest + U32 - count) % U32)
          (add_td_to_list k (alloc n) r count).2

/-- How the wait on the USBCMD_ATDTW tripwire ends: with the timeout and the
tripwire clear, or with the ENDPTSTAT bit last read. -/
inductive Atdtw where
  | timeout
  | stat (tmp_stat : Bool)
  deriving DecidableEq, Repr

/-- Environment of one call of _hardware_enqueue: the mapping call, the
descriptor allocations in call order, the ENDPTPRIME bit of the endpoint, the
tripwire wait, and the ENDPTSETUPSTAT bit before and after the prime write. -/
structure EnqEnv where
  map : MapEnv
  alloc : Nat → Option Nat
  prime_busy : Bool
  atdtw : Atdtw
  setup_before : Bool
  setup_after : Bool

/-- The function `hw_ep_prime`. -/
def hw_ep_prime (ci : ci_hdrc) (num dir : Nat) (is_ctrl : Bool) (e : EnqEnv) :
    Int × ci_hdrc :=
  let n := hw_ep_bit num dir
  if is_ctrl && dir == RX && e.setup_before then (-EAGAIN, ci)
  else
    let ci1 := emit ci (Event.hw_write (HwField.ENDPTPRIME n) 1)
    if is_ctrl && dir == RX && e.setup_after then (-EAGAIN, ci1)
    else (0, ci1)

/-- Modelled from the spec: hw_write is defined outside udc.c; `write(reg,
mask, value)` replaces the bits of the register under the mask. -/
def hw_write_val (old mask data : Nat) : Nat :=
  (old - (old &&& mask)) ||| (data &&& mask)

/-- The pipe id the ENDPTPIPEID register of the endpoint holds for its
direction. -/
def pipe_id_cur (k : Hdr) (ci : ci_hdrc) (mEp : ci_hw_ep) : Nat :=
  if mEp.dir == TX then (ci.pipeid mEp.num >>> k.MSM_TX_PIPE_ID_OFS) &&& k.MSM_PIPE_ID_MASK
  else ci.pipeid mEp.num &&& k.MSM_PIPE_ID_MASK

/-- The ENDPTPIPEID register of the endpoint with the pipe id of its direction
replaced. -/
def pipe_id_new (k : Hdr) (ci : ci_hdrc) (mEp : ci_hw_ep) (id : Nat) : Nat :=
  if mEp.dir == TX then
    hw_write_val (ci.pipeid mEp.num) (k.MSM_PIPE_ID_MASK <<< k.MSM_TX_PIPE_ID_OFS)
      (id <<< k.MSM_TX_PIPE_ID_OFS)
  else hw_write_val (ci.pipeid mEp.num) k.MSM_PIPE_ID_MASK id

/-- The MSM pipe id update in the queue head configuration of
_hardware_enqueue: if the requested pipe id is different from the current one,
write it. -/
def enqueue_pipe_id (k : Hdr) (ci : ci_hdrc) (mEp : ci_hw_ep) (hwreq : ci_hw_req) : ci_hdrc :=
  if hwreq.req.udc_priv.msm_vendor && hwreq.req.udc_priv.sps_mode &&
      pipe_id_cur k ci mEp != hwreq.req.udc_priv.pipe_id then
    let v := pipe_id_new k ci mEp hwreq.req.udc_priv.pipe_id
    emit { ci with pipeid := Function.update ci.pipeid mEp.num v }
      (Event.hw_write (HwField.ENDPTPIPEID mEp.num) v)
  else ci

/-- The oldest queued request of the endpoint, if its first descriptor is
still active (`TD_STATUS_ACTIVE & hwreq->ptr->token`). -/
def head_active (ci : ci_hdrc) (i : Nat) : Option ci_hw_req :=
  match (ci.ci_hw_ep i).queue with
  | [] => none
  | h0 :: _ =>
    match (ci.reqs h0).tds with
    | [] => none
    | nd :: _ => if nd.ptr.active then some (ci.reqs h0) else none

/-- The queue head configuration of _hardware_enqueue. -/
def qh_config (k : Hdr) (i h : Nat) (ci : ci_hdrc) : ci_hdrc :=
  match head_active ci i with
  | some hd =>
    let q : qh_td := { next := hd.req.dma, active := false, halted := false, dt_err := false,
                       tr_err := false, status_rest := 0 }
    setEp ci i { ci.ci_hw_ep i with qh := q }
  | none =>
    let ci0 := enqueue_pipe_id k ci (ci.ci_hw_ep i) (ci.reqs h)
    let q : qh_td := { (ci0.ci_hw_ep i).qh with
      next := (ci.reqs h).req.dma, halted := false, active := false }
    setEp ci0 i { ci0.ci_hw_ep i with qh := q }

/-- The end of _hardware_enqueue after the prime: on success the prime timer
is armed. -/
def arm_timer (i : Nat) (r : Int × ci_hdrc) : Int × ci_hdrc :=
  if r.1 = 0 then
    (0, emit (setEp r.2 i { r.2.ci_hw_ep i with prime_timer := true }) (Event.mod_timer i))
  else r

/-- The queue head configuration and the prime at the end of
_hardware_enqueue (from "QH configuration" to `done`). -/
def enqueue_prime (k : Hdr) (e : EnqEnv) (i h : Nat) (ci : ci_hdrc) : Int × ci_hdrc :=
  let mEp := ci.ci_hw_ep i
  arm_timer i
    (hw_ep_prime (qh_config k i h ci) mEp.num mEp.dir (mEp.type == USB_ENDPOINT_XFER_CONTROL) e)

/-- The MSM specific update of the request for SPS mode in
`_hardware_enqueue`.  `hwreq->ptr` (the descriptor of a request in the MSM
code the merge comes from) is the first descriptor of the chain. -/
def chain_sps (r2 : ci_hw_req) : ci_hw_req :=
  if r2.req.udc_priv.msm_vendor then
    let sps : td_node → td_node := fun nd => { nd with ptr :=
      { next := if r2.req.udc_priv.finite_transfer then Link.terminate
                else Link.etd r2.req.dma,
        total_bytes := 0, active := true, halted := false, dt_err := false,
        tr_err := false, status_rest := 0, ioc := false,
        etd_ioc := !r2.req.no_interrupt, page := nd.ptr.page } }
    { req := { r2.req with dma := 0 },
      tds := if r2.req.udc_priv.sps_mode then modifyHead sps r2.tds else r2.tds,
      multi := r2.multi }
  else r2

/-- The zero-length terminating descriptor of `_hardware_enqueue`; `n` is the
number of allocations made before. -/
def chain_zero (k : Hdr) (e : EnqEnv) (maxpacket n : Nat) (r3 : ci_hw_req) : ci_hw_req :=
  if r3.req.zero && r3.req.length != 0 && r3.req.length % maxpacket == 0
  then (add_td_to_list k (e.alloc n) r3 0).2 else r3

/-- The stores of `_hardware_enqueue` into the last descriptor: the terminate
link and the interrupt-on-complete bit. -/
def chain_terminate (r4 : ci_hw_req) : ci_hw_req :=
  let last : td_node → td_node := fun ln => { ln with ptr :=
    { ln.ptr with next := Link.terminate, ioc := ln.ptr.ioc || !r4.req.no_interrupt } }
  { r4 with tds := modifyLast last r4.tds }

/-- The bytes one descriptor can take for a request whose buffer is at bus
address `dma`: `pages * CI_HDRC_PAGE_SIZE` as an unsigned 32-bit value, one
page less when the buffer is not page aligned. -/
def td_capacity (k : Hdr) (dma : Nat) : Nat :=
  ((((k.TD_PAGE_COUNT : Int) - (if dma % k.PAGE_SIZE != 0 then 1 else 0))
    * (k.CI_HDRC_PAGE_SIZE : Int)) % (U32 : Int)).toNat

/-- The chain building of `_hardware_enqueue`, from the page count to the
terminating link of the last descriptor, for the mapped request `r0` on an
endpoint with the given maximum packet size.  With an empty chain the C code
would treat the list head as a descriptor; those stores are left out. -/
def enqueue_chain (k : Hdr) (e : EnqEnv) (maxpacket : Nat) (r0 : ci_hw_req) : Option ci_hw_req :=
  let rest := r0.req.length % U32
  let r1 := if rest = 0 then (add_td_to_list k (e.alloc 0) r0 0).2 else r0
  match td_loop k (td_capacity k r0.req.dma) e.alloc rest (if rest = 0 then 1 else 0) rest r1 with
  | none => none
  | some (n, r2) => some (chain_terminate (chain_zero k e maxpacket n (chain_sps r2)))

/-- The end of `_hardware_enqueue`, after `hwreq->req.actual = 0`: the link to
the chain of the last queued request and the prime. -/
def enqueue_link (k : Hdr) (e : EnqEnv) (i h : Nat) (ci2 : ci_hdrc) : Int × ci_hdrc :=
  match (ci2.ci_hw_ep i).queue.getLast? with
  | none => enqueue_prime k e i h ci2
  | some hprev =>
    let next := (match (ci2.reqs h).tds with | [] => 0 | nd :: _ => nd.dma) &&& k.TD_ADDR_MASK
    let link : td_node → td_node := fun ln =>
      { ln with ptr := { ln.ptr with next := Link.addr next } }
    let ci3 := setReq ci2 hprev
      { ci2.reqs hprev with tds := modifyLast link (ci2.reqs hprev).tds }
    if e.prime_busy then (0, ci3)
    else
      match e.atdtw with
      | Atdtw.timeout => (-EAGAIN, emit ci3 (Event.hw_write HwField.USBCMD_ATDTW 1))
      | Atdtw.stat tmp_stat =>
        let ci4 := emit (emit ci3 (Event.hw_write HwField.USBCMD_ATDTW 1))
          (Event.hw_write HwField.USBCMD_ATDTW 0)
        if tmp_stat then (0, ci4) else enqueue_prime k e i h ci4

/-- The function `_hardware_enqueue` for the request `h` on the endpoint at
index `i`. -/
def _hardware_enqueue (k : Hdr) (e : EnqEnv) (i h : Nat) (ci : ci_hdrc) :
    Option (Int × ci_hdrc) :=
  let hwep := ci.ci_hw_ep i
  let hwreq := ci.reqs h
  -- don't queue twice
  if hwreq.req.status = -EALREADY then some (-EALREADY, ci)
  else
    let m := usb_gadget_map_request e.map { hwreq.req with status := -EALREADY }
    let r0 : ci_hw_req := { hwreq with req := m.2 }
    if m.1 ≠ 0 then some (m.1, setReq ci h r0)
    else
      match enqueue_chain k e hwep.maxpacket r0 with
      | none => none
      | some r5 =>
        -- Remote Wakeup
        if ci.suspended && !ci.remote_wakeup then
          some (-EAGAIN, setReq ci h { r5 with req := { r5.req with status := -EAGAIN } })
        else
          let ci1 := if ci.suspended then emit ci Event.remote_wakeup else ci
          some (enqueue_link k e i h (setReq ci1 h { r5 with req := { r5.req with actual := 0 } }))

/-! ## Queueing and dequeueing requests -/

/-- Environment of one call of _ep_queue. -/
structure QueueEnv where
  nuke : NukeEnv
  enq : EnqEnv

/-- The ch9.h test `usb_endpoint_xfer_isoc`. -/
def usb_endpoint_xfer_isoc (d : usb_endpoint_descriptor) : Bool :=
  d.bmAttributes % 4 == USB_ENDPOINT_XFER_ISOC

/-- The endpoint `_ep_queue` works on: for a control endpoint and a request
with data, the half of endpoint 0 that matches `ep0_dir`. -/
def ep_queue_target (i h : Nat) (ci : ci_hdrc) : Nat :=
  if (ci.ci_hw_ep i).type == USB_ENDPOINT_XFER_CONTROL && (ci.reqs h).req.length != 0 then
    (if ci.ep0_dir == RX then ep0out ci else ep0in ci)
  else i

/-- The state after the control-endpoint prologue of `_ep_queue`: a control
endpoint with something queued is flushed first. -/
def ep_queue_flushed (k : Hdr) (e : QueueEnv) (i h : Nat) (ci : ci_hdrc) : ci_hdrc :=
  if (ci.ci_hw_ep i).type == USB_ENDPOINT_XFER_CONTROL &&
      !(ci.ci_hw_ep (ep_queue_target i h ci)).queue.isEmpty then
    (_ep_nuke k e.nuke (ep_queue_target i h ci) ci).2
  else ci

/-- The test of `_ep_queue` for an isochronous request that is too long for
the endpoint `j`. -/
def isoc_too_long (ci : ci_hdrc) (j h : Nat) : Bool :=
  (match (ci.ci_hw_ep j).desc with
    | some d => usb_endpoint_xfer_isoc d
    | none => false) &&
  decide ((ci.reqs h).req.length > (1 + (ci.ci_hw_ep j).mult) * (ci.ci_hw_ep j).maxpacket)

/-- The statement `if (retval == -EALREADY) retval = 0;` of `_ep_queue`. -/
def clear_ealready (ret : Int) : Int := if ret = -EALREADY then 0 else ret

/-- The function `_ep_queue` for the request `h` on the endpoint at index `i`. -/
def _ep_queue (k : Hdr) (e : QueueEnv) (i h : Nat) (ci : ci_hdrc) : Option (Int × ci_hdrc) :=
  if (ci.ci_hw_ep i).desc.isNone then some (-EINVAL, ci)
  else
    let j := ep_queue_target i h ci
    let ci1 := ep_queue_flushed k e i h ci
    let hwep := ci1.ci_hw_ep j
    let hwreq := ci1.reqs h
    if isoc_too_long ci1 j h then some (-EMSGSIZE, ci1)
    else if hwep.multi_req then some (-EAGAIN, ci1)
    -- first nuke then test link, e.g. previous status has not sent
    else if onQueue ci1 h then some (-EBUSY, ci1)
    else
      let ci2 := setEp ci1 j { hwep with multi_req := true }
      -- push request
      let ci3 := setReq ci2 h
        { req := { hwreq.req with status := -EINPROGRESS, actual := 0 },
          tds := hwreq.tds,
          multi := { hwreq.multi with len := hwreq.req.length, buf := hwreq.req.buf } }
      match _hardware_enqueue k e.enq j h ci3 with
      | none => none
      | some (ret, ci4) =>
        let retval := clear_ealready ret
        if retval = 0 then some (0, list_add_tail ci4 j h)
        else if (ci4.ci_hw_ep j).multi_req then
          some (retval, setEp ci4 j { ci4.ci_hw_ep j with multi_req := false })
        else some (retval, ci4)

/-- All the tests `_ep_queue` makes before it pushes the request pass: the
endpoint is enabled and, once a control endpoint has been flushed, the request
is not too long for an isochronous endpoint, no large request is in progress
and the request is on no queue. -/
def ep_queue_admits (k : Hdr) (e : QueueEnv) (i h : Nat) (ci : ci_hdrc) : Bool :=
  (ci.ci_hw_ep i).desc.isSome &&
  !isoc_too_long (ep_queue_flushed k e i h ci) (ep_queue_target i h ci) h &&
  !((ep_queue_flushed k e i h ci).ci_hw_ep (ep_queue_target i h ci)).multi_req &&
  !onQueue (ep_queue_flushed k e i h ci) h

/-- The function `ep_queue`.  The label `done` of its `goto` is missing in the
source; the jump is taken to unlock and return `retval`. -/
def ep_queue (k : Hdr) (e : QueueEnv) (i h : Nat) (ci : ci_hdrc) : Option (Int × ci_hdrc) :=
  if (ci.ci_hw_ep i).desc.isNone then some (-EINVAL, ci)
  else if !ci.configured && (ci.ci_hw_ep i).type != USB_ENDPOINT_XFER_CONTROL then
    some (-ESHUTDOWN, ci)
  else _ep_queue k e i h ci

/-- Environment of one call of ep_dequeue: its flushes, in call order. -/
structure DequeueEnv where
  flush1 : FlushEnv
  flush2 : FlushEnv

/-- The function `ep_dequeue` for the request `h` through the endpoint at
index `i`. -/
def ep_dequeue (k : Hdr) (e : DequeueEnv) (i h : Nat) (ci : ci_hdrc) : Int × ci_hdrc :=
  let hwep := ci.ci_hw_ep i
  let hwreq := ci.reqs h
  if hwreq.req.status ≠ -EALREADY || hwep.desc.isNone || !onQueue ci h || hwep.queue.isEmpty then
    (-EINVAL, ci)
  else if hwreq.req.status ≠ -EALREADY || hwep.desc.isNone || !onQueue ci h ||
      (hwep.queue.isEmpty && (hwep.type != USB_ENDPOINT_XFER_CONTROL ||
        (ci.ci_hw_ep (ep0out ci)).queue.isEmpty)) then
    (-EINVAL, ci)
  else
    let ci1 := if hwep.type == USB_ENDPOINT_XFER_CONTROL then
        hw_ep_flush (hw_ep_flush ci hwep.num RX e.flush1) hwep.num TX e.flush2
      else hw_ep_flush ci hwep.num hwep.dir e.flush1
    -- pop request
    let ci2 := list_del_init ci1 h
    let r1 : ci_hw_req := { hwreq with req := { hwreq.req with status := -ECONNRESET } }
    let ci3 :=
      if hwep.multi_req then
        setEp (setReq ci2 h (restore_original_req r1)) i { ci2.ci_hw_ep i with multi_req := false }
      else setReq ci2 h r1
    (0, call_complete k ci3 i h)

/-! ## Retiring completed requests -/

/-- Conversion of an unsigned 32-bit value to `int`. -/
def toInt32 (x : Nat) : Int :=
  if x % U32 < 2 ^ 31 then ((x % U32 : Nat) : Int) else ((x % U32 : Nat) : Int) - (U32 : Int)

/-- Result of the descriptor walk of _hardware_dequeue: it met an active
descriptor, or it ended (by `break` or at the end of the chain) with the byte
count and the status reached. -/
inductive Walk where
  | busy (ci : ci_hdrc)
  | done (ci : ci_hdrc) (actual : Nat) (status : Int)

/-- The loop `list_for_each_entry_safe(node, tmpnode, &hwreq->tds, td)` of
_hardware_dequeue over the descriptors still to visit. -/
def dequeue_walk (i h : Nat) : List td_node → Nat → Int → ci_hdrc → Walk
  | [], actual, status, ci => Walk.done ci actual status
  | node :: rest, actual, _, ci =>
    if node.ptr.active then
      Walk.busy (setReq ci h { ci.reqs h with req := { (ci.reqs h).req with status := -EALREADY } })
    else
      let remaining_length := node.ptr.total_bytes
      let actual1 := (actual + U32 - remaining_length % U32) % U32
      if node.ptr.halted then Walk.done ci actual1 (-EPIPE)
      else if node.ptr.dt_err then Walk.done ci actual1 (-EPROTO)
      else if node.ptr.tr_err then Walk.done ci actual1 (-EILSEQ)
      else if remaining_length != 0 && (ci.ci_hw_ep i).dir != 0 then Walk.done ci actual1 (-EPROTO)
      else
        -- the cleanup of the td has to be delayed by one
        let ci1 := if (ci.ci_hw_ep i).pending_td.isSome then free_pending_td ci i else ci
        let ci2 := setEp ci1 i { ci1.ci_hw_ep i with pending_td := some node }
        let ci3 := setReq ci2 h { ci2.reqs h with tds := rest }
        dequeue_walk i h rest actual1 (node.ptr.status_rest : Int) ci3

/-- The function `_hardware_dequeue`. -/
def _hardware_dequeue (i h : Nat) (ci : ci_hdrc) : Int × ci_hdrc :=
  let hwreq := ci.reqs h
  if hwreq.req.status ≠ -EALREADY then (-EINVAL, ci)
  else
    let ci0 := setReq ci h { hwreq with req := { hwreq.req with status := 0 } }
    if hwreq.req.udc_priv.msm_vendor && hwreq.req.udc_priv.sps_mode
        && hwreq.req.udc_priv.finite_transfer then (-EBUSY, ci0)
    else
      match dequeue_walk i h hwreq.tds (hwreq.req.length % U32) 0 ci0 with
      | Walk.busy ci1 => (-EBUSY, ci1)
      | Walk.done ci1 actual status =>
        let r := ci1.reqs h
        let total := (r.req.actual + actual) % U32
        let ci2 := setReq ci1 h { r with req := { r.req with status := status, actual := total } }
        if status ≠ 0 then (status, ci2) else (toInt32 total, ci2)

/-- Environment of one call of isr_tr_complete_low, per request handle: what
the hardware has written into a descriptor by the time of the second look
after `udelay(10)`, and the environment of the re-queueing of a slice. -/
structure LowEnv where
  retry_hw : Nat → td_node → td_node
  enq : Nat → EnqEnv

/-- The call of _hardware_dequeue at the label `dequeue` with its one retry;
the flag returned is `req_dequeue` after it. -/
def dequeue_retry (e : LowEnv) (i h : Nat) (req_dequeue : Bool) (ci : ci_hdrc) :
    Int × Bool × ci_hdrc :=
  let r := _hardware_dequeue i h ci
  if r.1 < 0 then
    if r.1 = -EBUSY && req_dequeue && ((r.2.ci_hw_ep i).dir == 0 || (r.2.ci_hw_ep i).num == 0) then
      let ci1 := { r.2 with dTD_update_fail_count := r.2.dTD_update_fail_count + 1 }
      let ci2 := setEp ci1 i { ci1.ci_hw_ep i with
        dTD_update_fail_count := (ci1.ci_hw_ep i).dTD_update_fail_count + 1 }
      let ci3 := setReq ci2 h { ci2.reqs h with tds := (ci2.reqs h).tds.map (e.retry_hw h) }
      let r2 := _hardware_dequeue i h ci3
      (r2.1, false, r2.2)
    else (r.1, req_dequeue, r.2)
  else (r.1, false, r.2)

/-- The completion call at the label `done` of isr_tr_complete_low; the
endpoint returned is `hweptemp` after it. -/
def low_complete (k : Hdr) (i h hweptemp : Nat) (ci : ci_hdrc) : Nat × ci_hdrc :=
  if (ci.reqs h).req.complete.isSome then
    let t := if (ci.ci_hw_ep i).type == USB_ENDPOINT_XFER_CONTROL && (ci.reqs h).req.length != 0
      then ep0in ci else hweptemp
    (t, call_complete k ci t h)
  else (hweptemp, ci)

/-- How one round of the loop of `isr_tr_complete_low` ends: the function
returns `retval` (by `break` or by `return 0`), or the loop goes on to the next
request with `retval` and `hweptemp`. -/
inductive LowStep where
  | stop (retval : Int) (ci : ci_hdrc)
  | next (retval : Int) (hweptemp : Nat) (ci : ci_hdrc)

/-- The statements `restore_original_req(hwreq); hwep->multi_req = false;`
with the request record `r`. -/
def low_restore (i h : Nat) (r : ci_hw_req) (ci : ci_hdrc) : ci_hdrc :=
  setEp (setReq ci h (restore_original_req r)) i { ci.ci_hw_ep i with multi_req := false }

/-- The next slice of a large request: the buffer advanced by the bytes done,
at most 4 * CI13XXX_PAGE_SIZE bytes long. -/
def low_slice (k : Hdr) (r1 : ci_hw_req) (remain_len : Nat) : ci_hw_req :=
  let len := min (remain_len % U32) ((4 * k.CI13XXX_PAGE_SIZE) % U32)
  { r1 with req := { r1.req with
    buf := r1.multi.buf + r1.multi.actual, length := len, status := -EINPROGRESS, actual := 0 } }

/-- The else branch of the large-request block of `isr_tr_complete_low`: the
next slice of the request `h` is queued; when that fails the request is
completed with the error. -/
def low_reslice (k : Hdr) (e : LowEnv) (i h hweptemp : Nat) (r1 : ci_hw_req) (remain_len : Nat)
    (ci1 : ci_hdrc) : Option LowStep :=
  let ci2 := list_del_init (setReq ci1 h (low_slice k r1 remain_len)) h
  match _hardware_enqueue k (e.enq h) i h ci2 with
  | none => none
  | some (ret, ci3) =>
    if ret ≠ 0 then
      -- Large req failed in middle
      let r3 : ci_hw_req := { ci3.reqs h with req := { (ci3.reqs h).req with status := ret } }
      let c := low_complete k i h hweptemp (low_restore i h r3 ci3)
      some (LowStep.next ret c.1 c.2)
    else some (LowStep.stop 0 (list_add_tail ci3 i h))

/-- The block `if (hwep->multi_req)` of `isr_tr_complete_low` with what
follows it in the round. -/
def low_multi (k : Hdr) (e : LowEnv) (i h hweptemp : Nat) (retval : Int) (ci1 : ci_hdrc) :
    Option LowStep :=
  -- Large request in progress
  let r := ci1.reqs h
  let mactual := (r.multi.actual + r.req.actual) % U32
  let r1 : ci_hw_req := { r with multi := { r.multi with actual := mactual } }
  let remain_len := (r1.multi.len + U32 - mactual) % U32
  if r1.req.status ≠ 0 || remain_len = 0 || r1.req.actual ≠ r1.req.length then
    let c := low_complete k i h hweptemp (list_del_init (low_restore i h r1 ci1) h)
    some (LowStep.next retval c.1 c.2)
  else low_reslice k e i h hweptemp r1 remain_len ci1

/-- One round of the loop of `isr_tr_complete_low`, for the request `h`. -/
def low_body (k : Hdr) (e : LowEnv) (i h : Nat) (req_dequeue : Bool) (hweptemp : Nat)
    (ci : ci_hdrc) : Option LowStep :=
  let d := dequeue_retry e i h req_dequeue ci
  if d.1 < 0 then some (LowStep.stop (if d.1 = -EBUSY then 0 else d.1) d.2.2)
  else if (d.2.2.ci_hw_ep i).multi_req then low_multi k e i h hweptemp d.1 d.2.2
  else
    let c := low_complete k i h hweptemp (list_del_init d.2.2 h)
    some (LowStep.next d.1 c.1 c.2)

/-- The loop of `isr_tr_complete_low` over the requests that were queued at
entry, carrying `retval`, `req_dequeue` and `hweptemp`; the result is the
value the function returns. -/
def low_loop (k : Hdr) (e : LowEnv) (i : Nat) :
    List Nat → Int → Bool → Nat → ci_hdrc → Option (Int × ci_hdrc)
  | [], retval, _, _, ci => some (if retval = -EBUSY then 0 else retval, ci)
  | h :: rest, _, req_dequeue, hweptemp, ci =>
    match low_body k e i h req_dequeue hweptemp ci with
    | none => none
    | some (LowStep.stop retval ci1) => some (retval, ci1)
    | some (LowStep.next retval t ci1) => low_loop k e i rest retval false t ci1

/-- The function `isr_tr_complete_low` for the endpoint at index `i`. -/
def isr_tr_complete_low (k : Hdr) (e : LowEnv) (i : Nat) (ci : ci_hdrc) :
    Option (Int × ci_hdrc) :=
  let ci1 := del_prime_timer ci i
  low_loop k e i (ci1.ci_hw_ep i).queue 0 true i ci1

/-! ## Halting an endpoint -/

/-- The function `hw_ep_set_halt`; `setup_pending` is the ENDPTSETUPSTAT bit
of the endpoint number as the loop reads it.  The stall bit keeps what is
written, so the loop ends after its first round. -/
def hw_ep_set_halt (ci : ci_hdrc) (num dir value : Nat) (setup_pending : Bool) : Int × ci_hdrc :=
  if value != 0 && value != 1 then (-EINVAL, ci)
  else if setup_pending then (0, ci)
  else
    let ci1 : ci_hdrc :=
      if dir != 0 then { ci with txs := Function.update ci.txs num (value != 0) }
      else { ci with rxs := Function.update ci.rxs num (value != 0) }
    (0, emit ci1 (Event.hw_write (HwField.ENDPTCTRL_XS num dir) value))

/-- The ENDPTSETUPSTAT reads of the (at most two) hw_ep_set_halt calls of one
ep_set_halt. -/
structure HaltEnv where
  setup1 : Bool
  setup2 : Bool
  deriving DecidableEq, Repr

/-- The function `is_sps_req`. -/
def is_sps_req (r : ci_hw_req) : Bool :=
  r.req.udc_priv.msm_vendor && r.req.udc_priv.sps_mode

/-- One round of the do-while loop of `ep_set_halt` for the direction `dir`:
the stall bit is written and, when the halt is cleared, so is the wedge. -/
def halt_round (ci : ci_hdrc) (i dir value : Nat) (setup_pending : Bool) : Int × ci_hdrc :=
  let r := hw_ep_set_halt ci (ci.ci_hw_ep i).num dir value setup_pending
  (r.1, if value = 0 then setEp r.2 i { r.2.ci_hw_ep i with wedge := false } else r.2)

/-- The function `ep_set_halt` for the endpoint at index `i`; STALL_IN is not
defined, so the test under `#ifndef STALL_IN` is compiled in.  The direction
of an endpoint is RX or TX, so the do-while loop makes one round, or two for
a control endpoint (the second for the other direction), and leaves `dir` as
it was.  `retval |= ...` over results that are 0 or -EINVAL keeps the first
that is not 0. -/
def ep_set_halt (e : HaltEnv) (i value : Nat) (ci : ci_hdrc) : Int × ci_hdrc :=
  let mEp := ci.ci_hw_ep i
  if mEp.desc.isNone then (-EINVAL, ci)
  else if value != 0 && mEp.type == USB_ENDPOINT_XFER_BULK && mEp.dir == TX &&
      (match mEp.queue with
       | [] => false
       | h :: _ => !is_sps_req (ci.reqs h)) then (-EAGAIN, ci)
  else
    let r1 := halt_round ci i mEp.dir value e.setup1
    if mEp.type == USB_ENDPOINT_XFER_CONTROL then
      let r2 := halt_round r1.2 i (if mEp.dir == TX then RX else TX) value e.setup2
      (if r1.1 = 0 then r2.1 else r1.1, r2.2)
    else r1

/-! ## Control transfers -/

/-- A SETUP packet `struct usb_ctrlrequest`. -/
structure usb_ctrlrequest where
  bRequestType : Nat
  bRequest : Nat
  wValue : Nat
  wIndex : Nat
  wLength : Nat
  deriving DecidableEq, Repr

/-- The function `isr_setup_status_phase`. -/
def isr_setup_status_phase (k : Hdr) (e : QueueEnv) (ci : ci_hdrc) : Option (Int × ci_hdrc) :=
  let hwep := if ci.ep0_dir == TX then ep0out ci else ep0in ci
  let st := ci.reqs ci.status
  let ci1 := setReq ci ci.status { st with req := { st.req with
    complete := some Complete.isr_setup_status_complete, length := 0 } }
  _ep_queue k e hwep ci.status ci1

/-- The function `isr_get_status_response`. -/
def isr_get_status_response (k : Hdr) (e : QueueEnv) (setup : usb_ctrlrequest) (ci : ci_hdrc) :
    Option (Int × ci_hdrc) :=
  let hwep := ep0in ci
  let st := ci.reqs ci.status
  let req0 : usb_request := { st.req with
    complete := some Complete.isr_get_status_complete, length := 2, buf := ci.status_buf }
  let out : usb_request × Nat :=
    if setup.bRequestType &&& USB_RECIP_MASK = USB_RECIP_DEVICE then
      if setup.wIndex = k.OTG_STATUS_SELECTOR then
        ({ req0 with length := 1 },
          ci.status_data / 256 * 256 + (ci.host_request <<< k.HOST_REQUEST_FLAG) % 256)
      else
        -- Assume that device is bus powered for now.
        (req0, if ci.remote_wakeup then 2 else 0)
    else if setup.bRequestType &&& USB_RECIP_MASK = USB_RECIP_ENDPOINT then
      let dir := if setup.wIndex &&& USB_ENDPOINT_DIR_MASK != 0 then TX else RX
      let num := setup.wIndex &&& USB_ENDPOINT_NUMBER_MASK
      (req0, hw_ep_get_halt ci num dir)
    else (req0, ci.status_data)
  let ci1 := setReq { ci with status_data := out.2 } ci.status { st with req := out.1 }
  ep_queue k e hwep ci.status ci1

/-- Environment of the handling of one SETUP packet: the two flushes of
endpoint 0, the packet read from the queue head, the stall-bit update of the
addressed endpoint, the queueing of the status or data phase, what the
function driver's `setup` returns, and the stall of endpoint 0 on error. -/
structure SetupEnv where
  nuke_out : NukeEnv
  nuke_in : NukeEnv
  pkt : usb_ctrlrequest
  halt : HaltEnv
  queue : QueueEnv
  setup_ret : Int
  stall : HaltEnv

/-- The `delegate` label of isr_tr_complete_handler. -/
def setup_delegate (e : SetupEnv) (req : usb_ctrlrequest) (ci : ci_hdrc) : Int × ci_hdrc :=
  let ci1 : ci_hdrc := if req.wLength = 0 then { ci with ep0_dir := TX } else ci
  (e.setup_ret,
    emit ci1 (Event.setup req.bRequestType req.bRequest req.wValue req.wIndex req.wLength))

/-- Index in the endpoint array of the endpoint a SETUP packet addresses in
wIndex. -/
def setup_ep_index (ci : ci_hdrc) (wIndex : Nat) : Nat :=
  (wIndex &&& USB_ENDPOINT_NUMBER_MASK)
    + (if wIndex &&& USB_ENDPOINT_DIR_MASK != 0 then ci.hw_ep_max / 2 else 0)

/-- The `switch (req.bRequest)` of isr_tr_complete_handler: the value of `err`
after it and the state.  `err` is the value the variable has when the switch
is entered; an arm that ends in `break` without an assignment keeps it. -/
def setup_switch (k : Hdr) (e : SetupEnv) (req : usb_ctrlrequest) (err : Int) (ci : ci_hdrc) :
    Option (Int × ci_hdrc) :=
  let type := req.bRequestType
  if req.bRequest = USB_REQ_CLEAR_FEATURE then
    if type = (USB_DIR_OUT ||| USB_RECIP_ENDPOINT) && req.wValue = USB_ENDPOINT_HALT then
      if req.wLength != 0 then some (err, ci)
      else
        let num := setup_ep_index ci req.wIndex
        if !(ci.ci_hw_ep num).wedge then
          let r := ep_set_halt e.halt num 0 ci
          if r.1 ≠ 0 then some r else isr_setup_status_phase k e.queue r.2
        else isr_setup_status_phase k e.queue ci
    else if type = (USB_DIR_OUT ||| USB_RECIP_DEVICE) && req.wValue = USB_DEVICE_REMOTE_WAKEUP then
      if req.wLength != 0 then some (err, ci)
      else isr_setup_status_phase k e.queue { ci with remote_wakeup := false }
    else some (setup_delegate e req ci)
  else if req.bRequest = USB_REQ_GET_STATUS then
    if type ≠ (USB_DIR_IN ||| USB_RECIP_DEVICE) && type ≠ (USB_DIR_IN ||| USB_RECIP_ENDPOINT) &&
        type ≠ (USB_DIR_IN ||| USB_RECIP_INTERFACE) then some (setup_delegate e req ci)
    else if req.wValue != 0 then some (err, ci)
    else isr_get_status_response k e.queue req ci
  else if req.bRequest = USB_REQ_SET_ADDRESS then
    if type ≠ (USB_DIR_OUT ||| USB_RECIP_DEVICE) then some (setup_delegate e req ci)
    else if req.wLength != 0 || req.wIndex != 0 then some (err, ci)
    else isr_setup_status_phase k e.queue { ci with address := req.wValue % 256, setaddr := true }
  else if req.bRequest = USB_REQ_SET_CONFIGURATION then
    let ci1 : ci_hdrc := if type = (USB_DIR_OUT ||| USB_TYPE_STANDARD) then
        { ci with configured := req.wValue != 0 }
      else ci
    some (setup_delegate e req ci1)
  else if req.bRequest = USB_REQ_SET_FEATURE then
    if type = (USB_DIR_OUT ||| USB_RECIP_ENDPOINT) && req.wValue = USB_ENDPOINT_HALT then
      if req.wLength != 0 then some (err, ci)
      else
        let num := setup_ep_index ci req.wIndex
        let r := ep_set_halt e.halt num 1 ci
        if r.1 = 0 then
          -- the result of the status phase is not kept
          match isr_setup_status_phase k e.queue r.2 with
          | none => none
          | some q => some (0, q.2)
        else some r
    else if type = (USB_DIR_OUT ||| USB_RECIP_DEVICE) then
      if req.wLength != 0 then some (err, ci)
      else if req.wValue = USB_DEVICE_REMOTE_WAKEUP then
        isr_setup_status_phase k e.queue { ci with remote_wakeup := true }
      else if req.wValue = USB_DEVICE_B_HNP_ENABLE then
        isr_setup_status_phase k e.queue { ci with b_hnp_enable := true }
      else if req.wValue = USB_DEVICE_A_HNP_SUPPORT then
        isr_setup_status_phase k e.queue { ci with a_hnp_support := true }
      else if req.wValue = USB_DEVICE_A_ALT_HNP_SUPPORT then some (err, ci)
      else if req.wValue = USB_DEVICE_TEST_MODE then
        let tmode := (req.wIndex >>> 8) % 256
        if tmode = TEST_J || tmode = TEST_K || tmode = TEST_SE0_NAK || tmode = TEST_PACKET ||
            tmode = TEST_FORCE_EN then
          isr_setup_status_phase k e.queue { ci with test_mode := tmode }
        else if tmode = TEST_OTG_SRP_REQD then
          isr_setup_status_phase k e.queue { ci with otg_srp_reqd := true }
        else if tmode = TEST_OTG_HNP_REQD then
          isr_setup_status_phase k e.queue { ci with host_request := 1 }
        else some (err, ci)
      else some (err, ci)
    else some (setup_delegate e req ci)
  else some (setup_delegate e req ci)

/-- The handling of a SETUP packet on endpoint 0 in isr_tr_complete_handler,
from the flush of the previous transaction to the stall on error; the result
is the value of `err` after the switch and the state at the end.  `err` is the
value of the variable before: -EINVAL, or what the transfer-complete block of
the same round has left in it. -/
def isr_setup_packet (k : Hdr) (e : SetupEnv) (err : Int) (ci : ci_hdrc) :
    Option (Int × ci_hdrc) :=
  -- Flush data and handshake transactions of previous setup packet.
  let ci1 := (_ep_nuke k e.nuke_out (ep0out ci) ci).2
  let ci2 := (_ep_nuke k e.nuke_in (ep0in ci1) ci1).2
  -- read_setup_packet
  let req := e.pkt
  let ci3 : ci_hdrc :=
    { ci2 with ep0_dir := if req.bRequestType &&& USB_DIR_IN != 0 then TX else RX }
  match setup_switch k e req err ci3 with
  | none => none
  | some (err2, ci4) =>
    if err2 < 0 then some (err2, (ep_set_halt e.stall 0 1 ci4).2) else some (err2, ci4)

/-- The SET_ADDRESS packet for the address `v`: device recipient, wIndex and
wLength zero. -/
def set_address_pkt (v : Nat) : usb_ctrlrequest :=
  { bRequestType := USB_DIR_OUT ||| USB_RECIP_DEVICE, bRequest := USB_REQ_SET_ADDRESS,
    wValue := v, wIndex := 0, wLength := 0 }

/-- The SET_FEATURE(ENDPOINT_HALT) packet for the endpoint address `w`. -/
def set_halt_pkt (w : Nat) : usb_ctrlrequest :=
  { bRequestType := USB_DIR_OUT ||| USB_RECIP_ENDPOINT, bRequest := USB_REQ_SET_FEATURE,
    wValue := USB_ENDPOINT_HALT, wIndex := w, wLength := 0 }

/-- The GET_STATUS packet with endpoint recipient for the endpoint address `w`. -/
def get_status_pkt (w : Nat) : usb_ctrlrequest :=
  { bRequestType := USB_DIR_IN ||| USB_RECIP_ENDPOINT, bRequest := USB_REQ_GET_STATUS,
    wValue := 0, wIndex := w, wLength := 2 }

/-- The direction bit of an endpoint address as the SETUP handler reads it. -/
def addr_dir (w : Nat) : Nat := if w &&& USB_ENDPOINT_DIR_MASK != 0 then TX else RX

/-! ## Passes over a request in flight -/

/-- One hardware pass over a request in flight: what the controller has
written into the descriptors of the request when the transfer-complete
interrupt is handled, and the environment of that call of
isr_tr_complete_low. -/
structure Pass where
  hw : List td_node → List td_node
  env : LowEnv

/-- The state isr_tr_complete_low finds at a pass. -/
def pass_state (p : Pass) (h : Nat) (ci : ci_hdrc) : ci_hdrc :=
  setReq ci h { ci.reqs h with tds := p.hw (ci.reqs h).tds }

/-- The byte count `req.actual` that _hardware_dequeue leaves for the request
in the call of isr_tr_complete_low at a pass, when it retires the chain; none
when it returns an error and the loop is left. -/
def pass_actual (p : Pass) (i h : Nat) (ci : ci_hdrc) : Option Nat :=
  let d := dequeue_retry p.env i h true (del_prime_timer (pass_state p h ci) i)
  if d.1 < 0 then none else some (d.2.2.reqs h).req.actual

/-- Calls of isr_tr_complete_low for the endpoint at index `i`, one per pass,
for as long as the request `h` is on its queue; the result is the byte counts
of the passes and the final state. -/
def run_passes (k : Hdr) (i h : Nat) : List Pass → ci_hdrc → Option (List Nat × ci_hdrc)
  | [], ci => some ([], ci)
  | p :: ps, ci =>
    if (ci.ci_hw_ep i).queue.contains h then
      match isr_tr_complete_low k p.env i (pass_state p h ci) with
      | none => none
      | some r =>
        match run_passes k i h ps r.2 with
        | none => none
        | some q => some ((pass_actual p i h ci).toList ++ q.1, q.2)
    else some ([], ci)

/-- The function `ep_set_wedge` for the endpoint at index `i`; `usb_ep_set_halt`
is ep_set_halt with the value 1. -/
def ep_set_wedge (e : HaltEnv) (i : Nat) (ci : ci_hdrc) : Int × ci_hdrc :=
  if (ci.ci_hw_ep i).desc.isNone then (-EINVAL, ci)
  else ep_set_halt e i 1 (setEp ci i { ci.ci_hw_ep i with wedge := true })

/-- The CLEAR_FEATURE(ENDPOINT_HALT) packet for the endpoint address `w`. -/
def clear_halt_pkt (w : Nat) : usb_ctrlrequest :=
  { bRequestType := USB_DIR_OUT ||| USB_RECIP_ENDPOINT, bRequest := USB_REQ_CLEAR_FEATURE,
    wValue := USB_ENDPOINT_HALT, wIndex := w, wLength := 0 }

/-- The SET_CONFIGURATION packet for the configuration value `v`. -/
def set_config_pkt (v : Nat) : usb_ctrlrequest :=
  { bRequestType := USB_DIR_OUT ||| USB_TYPE_STANDARD, bRequest := USB_REQ_SET_CONFIGURATION,
    wValue := v, wIndex := 0, wLength := 0 }

/-! ## Interrupt handling -/

/-- Interrupt bits of the registers USBSTS and USBINTR and the device-mode
value of the field USBMODE_CM (bits.h), which are not among the sources; they
are parameters of the functions that use them. -/
structure IrqHdr where
  USBi_URI : Nat
  USBi_PCI : Nat
  USBi_UI : Nat
  USBi_SLI : Nat
  USBMODE_CM_DC : Nat

/-- The bit layout of the chipidea controller: UI is bit 0, PCI bit 2, URI
bit 6, SLI bit 8, and device mode is 2. -/
def irq_hdr0 : IrqHdr :=
  { USBi_URI := 64, USBi_PCI := 4, USBi_UI := 1, USBi_SLI := 256, USBMODE_CM_DC := 2 }

/-- Return values of an interrupt handler. -/
inductive irqreturn_t where
  | IRQ_NONE
  | IRQ_HANDLED
  deriving DecidableEq, Repr

/-- What the controller record points to and no handler changes: whether a
function driver is bound (`ci->driver`), whether it has the callbacks `resume`
and `suspend`, whether the platform has `notify_event`, and whether there is a
transceiver. -/
structure GadgetEnv where
  driver : Bool
  resume : Bool
  suspend : Bool
  notify_event : Bool
  transceiver : Bool
  deriving DecidableEq, Repr

/-- The function `hw_test_and_clear_intr_active`; `status` and `enable` are
what hw_read_intr_status and hw_read_intr_enable read. -/
def hw_test_and_clear_intr_active (ci : ci_hdrc) (status enable : Nat) : Nat × ci_hdrc :=
  let reg := status &&& enable
  (reg, emit ci (Event.hw_write HwField.USBSTS reg))

/-- The function `hw_usb_reset`; its wait for ENDPTPRIME is bounded and only
logs, and it returns 0. -/
def hw_usb_reset (k : Hdr) (ci : ci_hdrc) : Int × ci_hdrc :=
  let ci1 := hw_usb_set_address k ci 0
  -- ESS flushes only at end?!?
  let ci2 := emit ci1 (Event.hw_write HwField.ENDPTFLUSH_ALL (U32 - 1))
  -- clear setup token semaphores
  let ci3 := emit ci2 (Event.hw_write HwField.ENDPTSETUPSTAT 0)
  -- clear complete status
  let ci4 := emit ci3 (Event.hw_write HwField.ENDPTCOMPLETE 0)
  (0, ci4)

/-- Environment of one call of _gadget_stop_activity: the two flushes of
endpoint 0 and the bus address in `last_zdma` of endpoint 0 IN when its
`last_zptr` is set (udc.c never sets it). -/
structure StopEnv where
  nuke_out : NukeEnv
  nuke_in : NukeEnv
  last_zptr : Option Nat

/-- The function `_gadget_stop_activity`; it returns 0.  The source writes
`_ep_nuke(&ci->ep0out)`, `_ep_nuke(&ci->ep0in)` and `ci->ep0in.last_zptr`; they
are taken to mean the two records of endpoint 0, as everywhere else in the
file. -/
def _gadget_stop_activity (k : Hdr) (g : GadgetEnv) (e : StopEnv) (ci : ci_hdrc) :
    Int × ci_hdrc :=
  let ci1 : ci_hdrc := { ci with speed := USB_SPEED_UNKNOWN, remote_wakeup := false,
                                 suspended := false, configured := false }
  let ci2 : ci_hdrc := { ci1 with b_hnp_enable := false, a_hnp_support := false,
                                  host_request := 0, otg_srp_reqd := false }
  let ci3 := if g.driver then emit ci2 Event.driver_disconnect else ci2
  let ci4 := (_ep_nuke k e.nuke_out (ep0out ci3) ci3).2
  let ci5 := (_ep_nuke k e.nuke_in (ep0in ci4) ci4).2
  let ci6 := match e.last_zptr with
    | some dma => emit ci5 (Event.td_free dma)
    | none => ci5
  (0, ci6)

/-- The statements that tell the platform, the transceiver and the function
driver of a resume and clear `suspended`, as isr_reset_handler and udc_irq
have them. -/
def resume_calls (g : GadgetEnv) (ci : ci_hdrc) : ci_hdrc :=
  let ci1 := if g.notify_event then emit ci (Event.notify_event CiEvent.RESUME) else ci
  let ci2 := if g.transceiver then emit ci1 (Event.phy_set_suspend 0) else ci1
  { emit ci2 Event.driver_resume with suspended := false }

/-- The function `isr_reset_handler`. -/
def isr_reset_handler (k : Hdr) (g : GadgetEnv) (e : StopEnv) (ci : ci_hdrc) : ci_hdrc :=
  let ci1 := if ci.suspended then resume_calls g ci else ci
  -- stop charging upon reset
  let ci2 := if g.transceiver then emit ci1 (Event.phy_set_power 100) else ci1
  let r := _gadget_stop_activity k g e ci2
  if r.1 ≠ 0 then r.2
  else
    let ci3 : ci_hdrc := { r.2 with skip_flush := false }
    (hw_usb_reset k ci3).2

/-- The block under `if (USBi_PCI & intr)` of udc_irq; `high_speed` is what
hw_port_is_high_speed reads. -/
def irq_port_change (g : GadgetEnv) (high_speed : Bool) (ci : ci_hdrc) : ci_hdrc :=
  let ci1 : ci_hdrc :=
    { ci with speed := if high_speed then USB_SPEED_HIGH else USB_SPEED_FULL }
  if ci1.suspended && g.resume then resume_calls g ci1 else ci1

/-- The block under `if (USBi_SLI & intr)` of udc_irq. -/
def irq_suspend (g : GadgetEnv) (ci : ci_hdrc) : ci_hdrc :=
  if ci.speed != USB_SPEED_UNKNOWN && g.suspend then
    let ci1 := emit { ci with suspended := true } Event.driver_suspend
    let ci2 := if g.notify_event then emit ci1 (Event.notify_event CiEvent.SUSPEND) else ci1
    if g.transceiver then emit ci2 (Event.phy_set_suspend 1) else ci2
  else ci

/-- Environment of one round of the loop of isr_tr_complete_handler: the
ENDPTCOMPLETE and ENDPTSETUPSTAT bits of the endpoint as the test-and-clear
calls read them, and the environments of the calls made. -/
structure TrEnv where
  complete : Bool
  low : LowEnv
  status : QueueEnv
  halt : HaltEnv
  setup_status : Bool
  setup : SetupEnv

/-- The block under `if (hw_test_and_clear_complete(ci, i))` of
isr_tr_complete_handler, with the value of `err` after it; `err` is -EINVAL
when the block is not entered. -/
def tr_complete (k : Hdr) (e : TrEnv) (i : Nat) (ci : ci_hdrc) : Option (Int × ci_hdrc) :=
  if !e.complete then some (-EINVAL, ci)
  else
    match isr_tr_complete_low k e.low i ci with
    | none => none
    | some (err, ci1) =>
      if (ci1.ci_hw_ep i).type == USB_ENDPOINT_XFER_CONTROL then
        -- needs status phase
        match (if err > 0 then isr_setup_status_phase k e.status ci1 else some (err, ci1)) with
        | none => none
        | some (err2, ci2) =>
          if err2 < 0 then some (err2, (ep_set_halt e.halt i 1 ci2).2) else some (err2, ci2)
      else some (err, ci1)

/-- One round of the loop of isr_tr_complete_handler, for the endpoint at
index `i`. -/
def tr_round (k : Hdr) (e : TrEnv) (i : Nat) (ci : ci_hdrc) : Option ci_hdrc :=
  -- not configured
  if (ci.ci_hw_ep i).desc.isNone then some ci
  else
    match tr_complete k e i ci with
    | none => none
    | some (err, ci1) =>
      if (ci1.ci_hw_ep i).type != USB_ENDPOINT_XFER_CONTROL || !e.setup_status then some ci1
      else if i ≠ 0 then some ci1
      else (isr_setup_packet k e.setup err ci1).map Prod.snd

/-- The loop of isr_tr_complete_handler over the endpoint indices left. -/
def tr_loop (k : Hdr) (e : Nat → TrEnv) : List Nat → ci_hdrc → Option ci_hdrc
  | [], ci => some ci
  | i :: rest, ci =>
    match tr_round k (e i) i ci with
    | none => none
    | some ci1 => tr_loop k e rest ci1

/-- The function `isr_tr_complete_handler`; no round changes `hw_ep_max`, so
the loop runs over the indices below its value at entry. -/
def isr_tr_complete_handler (k : Hdr) (e : Nat → TrEnv) (ci : ci_hdrc) : Option ci_hdrc :=
  tr_loop k e (List.range ci.hw_ep_max) ci

/-- Environment of one call of udc_irq: whether the platform flags have
CI_HDRC_REGS_SHARED, the USBMODE_CM field, the interrupt status and enable
registers, the port speed, and the environments of the handlers. -/
structure IrqEnv where
  regs_shared : Bool
  usbmode_cm : Nat
  status : Nat
  enable : Nat
  high_speed : Bool
  gadget : GadgetEnv
  reset : StopEnv
  tr : Nat → TrEnv

/-- The function `udc_irq`; the argument is `none` for a NULL controller. -/
def udc_irq (k : Hdr) (q : IrqHdr) (e : IrqEnv) :
    Option ci_hdrc → Option (irqreturn_t × Option ci_hdrc)
  | none => some (irqreturn_t.IRQ_HANDLED, none)
  | some ci =>
    if e.regs_shared && e.usbmode_cm != q.USBMODE_CM_DC then some (irqreturn_t.IRQ_NONE, some ci)
    else
      let r := hw_test_and_clear_intr_active ci e.status e.enable
      let intr := r.1
      if intr != 0 then
        -- order defines priority - do NOT change it
        let ci1 := if q.USBi_URI &&& intr != 0 then isr_reset_handler k e.gadget e.reset r.2
          else r.2
        let ci2 := if q.USBi_PCI &&& intr != 0 then irq_port_change e.gadget e.high_speed ci1
          else ci1
        match (if q.USBi_UI &&& intr != 0 then isr_tr_complete_handler k e.tr ci2
               else some ci2) with
        | none => none
        | some ci3 =>
          let ci4 := if q.USBi_SLI &&& intr != 0 then irq_suspend e.gadget ci3 else ci3
          some (irqreturn_t.IRQ_HANDLED, some ci4)
      else some (irqreturn_t.IRQ_NONE, some r.2)

/-! ## The prime timer -/

/-- The number of firings of the prime timer after which the driver gives up
(`MAX_PRIME_CHECK_RETRY`). -/
def MAX_PRIME_CHECK_RETRY : Nat := 3

/-- Environment of one firing of the prime timer: whether the global `_udc`
of the MSM code is set (it is taken to be this controller), and whether the
ENDPTPRIME bit of the endpoint reads set. -/
structure PrimeEnv where
  udc : Bool
  prime : Bool
  deriving DecidableEq, Repr

/-- The function `ep_prime_timer_func` for the endpoint at index `i`.  The
timer has expired when the function runs, so it is pending afterwards only if
the function arms it again with mod_timer.  The log lines of the last retry
are left out. -/
def ep_prime_timer_func (e : PrimeEnv) (i : Nat) (ci : ci_hdrc) : ci_hdrc :=
  let mEp := { ci.ci_hw_ep i with prime_timer := false }
  let out := setEp ci i { mEp with prime_timer_count := 0 }
  if e.udc && (!ci.vbus_active || ci.suspended) then out
  else if !e.prime then out
  else if (ci.ci_hw_ep i).queue.isEmpty then out
  else if (head_active ci i).isNone then out
  else
    let count := mEp.prime_timer_count + 1
    if count = MAX_PRIME_CHECK_RETRY then
      setEp ci i { mEp with prime_timer_count := 0, prime_fail_count := mEp.prime_fail_count + 1 }
    else
      emit (setEp ci i { mEp with prime_timer_count := count, prime_timer := true })
        (Event.mod_timer i)

/-- The function `ep_to_bit`: the bit an endpoint has in the 32-bit endpoint
registers, from its index in the endpoint array. -/
def ep_to_bit (ci : ci_hdrc) (n : Int) : Int :=
  let fill : Int := 16 - (ci.hw_ep_max / 2 : Nat)
  if n ≥ (ci.hw_ep_max / 2 : Nat) then n + fill else n

/-- The value `hw_ep_flush` returns: every `return` of the function gives 0. -/
def hw_ep_flush_ret (ci : ci_hdrc) (num dir : Nat) (e : FlushEnv) : Int :=
  let n := hw_ep_bit num dir
  let mEp := ci.ci_hw_ep n
  if ci.skip_flush || (num != 0 && mEp.queue.isEmpty) then 0
  else if e.timedOut then 0 else 0

/-! ## Sample states -/

/-- An endpoint as init_eps leaves it: not enabled, nothing queued. -/
def ep_blank : ci_hw_ep :=
  { desc := none, maxpacket := 65535, mult := 0, dir := RX, num := 0,
    type := USB_ENDPOINT_XFER_CONTROL, queue := [],
    qh := { next := 0, active := false, halted := false, dt_err := false, tr_err := false,
            status_rest := 0 },
    wedge := false, multi_req := false, pending_td := none, prime_timer := false,
    prime_timer_count := 0, prime_fail_count := 0, dTD_update_fail_count := 0 }

/-- A request as ep_alloc_request returns it (zeroed), with a buffer, a length
and a callback filled in by the function driver. -/
def req_blank (buf length : Nat) (cb : Option Complete) : ci_hw_req :=
  { req := { buf := buf, length := length, dma := 0, zero := false, no_interrupt := false,
             udc_priv := { msm_vendor := false, sps_mode := false, finite_transfer := false,
                           pipe_id := 0 },
             complete := cb, status := 0, actual := 0 },
    tds := [], multi := { len := 0, actual := 0, buf := 0 } }

/-- Descriptor of a bulk endpoint with 512-byte packets. -/
def bulk_desc (addr : Nat) : usb_endpoint_descriptor :=
  { bEndpointAddress := addr, bmAttributes := USB_ENDPOINT_XFER_BULK, wMaxPacketSize := 512 }

/-- Descriptor of a control endpoint (ctrl_endpt_out_desc, ctrl_endpt_in_desc). -/
def ctrl_desc (addr : Nat) : usb_endpoint_descriptor :=
  { bEndpointAddress := addr, bmAttributes := USB_ENDPOINT_XFER_CONTROL, wMaxPacketSize := 64 }

/-- A controller with four endpoint slots, ep0 OUT at index 0, ep1 OUT (bulk)
at index 1, ep0 IN at index 2 and ep1 IN (bulk) at index 3, all enabled and
idle, configured, with the gadget callback 7 on every request. -/
def ci_sample : ci_hdrc :=
  { hw_ep_max := 4,
    ci_hw_ep := fun i =>
      if i = 0 then { ep_blank with desc := some (ctrl_desc 0), maxpacket := 64 }
      else if i = 1 then
        { ep_blank with desc := some (bulk_desc 1), maxpacket := 512, num := 1,
                        type := USB_ENDPOINT_XFER_BULK }
      else if i = 2 then
        { ep_blank with desc := some (ctrl_desc 128), maxpacket := 64, dir := TX }
      else if i = 3 then
        { ep_blank with desc := some (bulk_desc 129), maxpacket := 512, num := 1, dir := TX,
                        type := USB_ENDPOINT_XFER_BULK }
      else ep_blank,
    reqs := fun h => req_blank (4096 * h) 512 (some (Complete.gadget 7)),
    status := 0, status_buf := 64, status_data := 0, ep0_dir := RX, address := 0, setaddr := false,
    test_mode := 0, suspended := false, remote_wakeup := false, configured := true,
    vbus_active := true, skip_flush := false, host_request := 0, b_hnp_enable := false,
    a_hnp_support := false, otg_srp_reqd := false, dTD_update_fail_count := 0,
    usbadr := 0, rxs := fun _ => false, txs := fun _ => false, pipeid := fun _ => 0,
    ptc := 0, trace := [], speed := USB_SPEED_HIGH }

/-- A flush that completes in its first round. -/
def flush_ok : FlushEnv := { retries := 0, timedOut := false }

/-- A mapping call that succeeds. -/
def map_ok (dma : Nat) : MapEnv := { ret := 0, dma := dma }

def nuke_env_ok : NukeEnv := { flush := flush_ok, map := fun h => map_ok (4096 * h) }

/-- An environment in which every allocation succeeds, the endpoint is not
being primed and no SETUP is pending. -/
def enq_env_ok : EnqEnv :=
  { map := map_ok 8192, alloc := fun n => some (1024 + 64 * n), prime_busy := false,
    atdtw := Atdtw.stat false, setup_before := false, setup_after := false }

def queue_env_ok : QueueEnv := { nuke := nuke_env_ok, enq := enq_env_ok }

/-- The sample controller after request 10 has been queued on the bulk OUT
endpoint at index 1. -/
def ci_queued : ci_hdrc :=
  match _ep_queue hdr0 queue_env_ok 1 10 ci_sample with
  | some r => r.2
  | none => ci_sample

/-- The sample controller after request 20 (512 bytes) has been queued through
ep0 IN; with `ep0_dir = RX` it is linked on ep0 OUT. -/
def ci_ctrl_queued : ci_hdrc :=
  match _ep_queue hdr0 queue_env_ok 2 20 ci_sample with
  | some r => r.2
  | none => ci_sample

/-- The sample controller with request 10 asking for a zero-length
terminating packet (`req.zero`); its 512 bytes are one full packet. -/
def ci_zero : ci_hdrc :=
  setReq ci_sample 10
    { req := { (req_blank 40960 512 (some (Complete.gadget 7))).req with zero := true },
      tds := [], multi := { len := 0, actual := 0, buf := 0 } }

/-- An environment in which the first descriptor allocation succeeds and every
later one fails. -/
def enq_env_second_fails : EnqEnv :=
  { enq_env_ok with alloc := fun n => if n = 0 then some 1024 else none }

/-- The sample controller with request 10 asking for 20480 bytes, five pages. -/
def ci_big : ci_hdrc := setReq ci_sample 10 (req_blank 40960 20480 (some (Complete.gadget 7)))

/-- The sample controller suspended, with remote wakeup disabled. -/
def ci_suspended : ci_hdrc := { ci_sample with suspended := true, remote_wakeup := false }

/-- The hardware as hw_ep_set_halt and ep_set_halt usually find it: no SETUP
packet pending in ENDPTSETUPSTAT. -/
def halt_env_ok : HaltEnv := { setup1 := false, setup2 := false }

/-- A SETUP packet for the endpoint is pending in ENDPTSETUPSTAT during
ep_set_halt. -/
def halt_env_setup_pending : HaltEnv := { setup1 := true, setup2 := true }

/-- The environment for handling the SETUP packet `pkt` when nothing fails;
the gadget driver answers a delegated request with 0. -/
def setup_env_ok (pkt : usb_ctrlrequest) : SetupEnv :=
  { nuke_out := nuke_env_ok, nuke_in := nuke_env_ok, pkt := pkt, halt := halt_env_ok,
    queue := queue_env_ok, setup_ret := 0, stall := halt_env_ok }

/-- The environment for handling the SETUP packet `pkt` while the next SETUP
packet for the endpoint is already pending. -/
def setup_env_setup_pending (pkt : usb_ctrlrequest) : SetupEnv :=
  { nuke_out := nuke_env_ok, nuke_in := nuke_env_ok, pkt := pkt, halt := halt_env_setup_pending,
    queue := queue_env_ok, setup_ret := 0, stall := halt_env_ok }

/-- The environment of a call of isr_tr_complete_low in which the second look
at a busy descriptor finds it unchanged and re-queueing a slice meets no
failure of its own. -/
def low_env_ok : LowEnv := { retry_hw := fun _ n => n, enq := fun _ => enq_env_ok }

/-- The controller has executed a chain in full: no descriptor is active and
no byte remains. -/
def hw_done (tds : List td_node) : List td_node :=
  tds.map (fun n => { n with ptr := { n.ptr with active := false, total_bytes := 0 } })

/-- A pass in which the controller has executed the whole chain. -/
def pass_done : Pass := { hw := hw_done, env := low_env_ok }

/-- The controller has retired every descriptor of a chain, leaving `rem`
bytes untransferred in each. -/
def hw_left (rem : Nat) (tds : List td_node) : List td_node :=
  tds.map (fun n => { n with ptr := { n.ptr with active := false, total_bytes := rem } })

/-- The state `ci_queued` after the controller has retired the descriptor of
request 10 with 100 of the 512 bytes not transferred: a short packet on the
bulk OUT endpoint. -/
def ci_short_out : ci_hdrc :=
  setReq ci_queued 10 { ci_queued.reqs 10 with tds := hw_left 100 (ci_queued.reqs 10).tds }

/-- The sample controller after request 11 (512 bytes) has been queued on the
bulk IN endpoint. -/
def ci_queued_in : ci_hdrc :=
  match _ep_queue hdr0 queue_env_ok 3 11 ci_sample with
  | some r => r.2
  | none => ci_sample

/-- The state `ci_queued_in` after the controller has retired the descriptor
of request 11 with 100 of the 512 bytes not transferred. -/
def ci_short_in : ci_hdrc :=
  setReq ci_queued_in 11
    { ci_queued_in.reqs 11 with tds := hw_left 100 (ci_queued_in.reqs 11).tds }

/-- The `udc_priv` word of an MSM request in SPS mode with the
finite-transfer bit. -/
def sps_finite : UdcPriv :=
  { msm_vendor := true, sps_mode := true, finite_transfer := true, pipe_id := 0 }

/-- The sample controller after the MSM SPS finite-transfer request 10 (512
bytes) has been queued on the bulk OUT endpoint and the controller has
executed its chain in full. -/
def ci_sps_done : ci_hdrc :=
  let r := req_blank 40960 512 (some (Complete.gadget 7))
  let c0 := setReq ci_sample 10 { r with req := { r.req with udc_priv := sps_finite } }
  match _ep_queue hdr0 queue_env_ok 1 10 c0 with
  | some q => setReq q.2 10 { q.2.reqs 10 with tds := hw_left 0 (q.2.reqs 10).tds }
  | none => c0

/-- The sample controller after request 10, of 40960 bytes, has been queued on
the bulk OUT endpoint and the controller has executed its chain of two
descriptors in full, while the descriptor at 4096 retired earlier is still
pending on the endpoint. -/
def ci_two_done : ci_hdrc :=
  let c0 := setReq ci_sample 10 (req_blank 40960 40960 (some (Complete.gadget 7)))
  let c1 := setEp c0 1 { c0.ci_hw_ep 1 with pending_td := some { dma := 4096, ptr := td_zero } }
  match _ep_queue hdr0 queue_env_ok 1 10 c1 with
  | some q => setReq q.2 10 { q.2.reqs 10 with tds := hw_left 0 (q.2.reqs 10).tds }
  | none => c1

/-- The state `ci_queued` after the controller has stopped at the descriptor
of request 10 with the halted bit set and 512 bytes not transferred. -/
def ci_halted : ci_hdrc :=
  setReq ci_queued 10 { ci_queued.reqs 10 with
    tds := (ci_queued.reqs 10).tds.map (fun n =>
      { n with ptr := { n.ptr with active := false, halted := true, total_bytes := 512 } }) }

/-- The sample controller after the function driver has wedged the bulk OUT
endpoint at index 1. -/
def ci_wedged : ci_hdrc := (ep_set_wedge halt_env_ok 1 ci_sample).2

/-- The sample controller after the bulk OUT endpoint at index 1 has been
halted without a wedge. -/
def ci_stalled : ci_hdrc := (ep_set_halt halt_env_ok 1 1 ci_sample).2

/-- The sample controller after endpoint 0 has been halted. -/
def ci_stalled0 : ci_hdrc := (ep_set_halt halt_env_ok 0 1 ci_sample).2

/-- The sample controller with the bulk IN endpoint at index 3 disabled: it has
no descriptor. -/
def ci_disabled : ci_hdrc :=
  setEp ci_sample 3 { ci_sample.ci_hw_ep 3 with desc := none }

/-- A bound function driver with every callback, a platform with
`notify_event`, and a transceiver. -/
def gadget_env_ok : GadgetEnv :=
  { driver := true, resume := true, suspend := true, notify_event := true, transceiver := true }

def stop_env_ok : StopEnv :=
  { nuke_out := nuke_env_ok, nuke_in := nuke_env_ok, last_zptr := none }

/-- An endpoint with nothing completed and no SETUP packet received. -/
def tr_env_idle : TrEnv :=
  { complete := false, low := low_env_ok, status := queue_env_ok, halt := halt_env_ok,
    setup_status := false, setup := setup_env_ok (set_address_pkt 0) }

/-- The environment of an interrupt on a controller whose registers are not
shared, with the given interrupt status and enable registers and idle
endpoints. -/
def irq_env (status enable : Nat) : IrqEnv :=
  { regs_shared := false, usbmode_cm := 2, status := status, enable := enable,
    high_speed := true, gadget := gadget_env_ok, reset := stop_env_ok,
    tr := fun _ => tr_env_idle }

/-- The environment of an interrupt on a controller whose registers are shared
and which is in host mode (USBMODE_CM reads 3). -/
def irq_env_host (status enable : Nat) : IrqEnv :=
  { irq_env status enable with regs_shared := true, usbmode_cm := 3 }

/-- The state `ci_queued` after the controller has retired the descriptor of
request 10 in full, with the reserved bit 0 of the status field of the token
set. -/
def ci_reserved_bit : ci_hdrc :=
  setReq ci_queued 10 { ci_queued.reqs 10 with
    tds := (ci_queued.reqs 10).tds.map (fun n =>
      { n with ptr := { n.ptr with active := false, total_bytes := 0, status_rest := 1 } }) }

/-- The sample controller with request 10 replaced by one of 41472 bytes
(two full descriptors and 512 bytes) that asks for a zero-length packet, its
buffer already mapped at a page boundary. -/
def ci_long : ci_hdrc :=
  setReq ci_sample 10
    { req := { buf := 40960, length := 41472, dma := 8192, zero := true, no_interrupt := false,
               udc_priv := { msm_vendor := false, sps_mode := false, finite_transfer := false,
                             pipe_id := 0 },
               complete := some (Complete.gadget 7), status := 0, actual := 0 },
      tds := [], multi := { len := 0, actual := 0, buf := 0 } }

/-- A firing of the prime timer with `_udc` set that reads the ENDPTPRIME bit
of the endpoint as set. -/
def prime_env_set : PrimeEnv := { udc := true, prime := true }

/-- The state `ci_queued` after the prime timer of the bulk OUT endpoint has
fired twice with the prime still pending. -/
def ci_primed_twice : ci_hdrc :=
  ep_prime_timer_func prime_env_set 1 (ep_prime_timer_func prime_env_set 1 ci_queued)

/-- A flush whose poll of the flush register runs past USB_MAX_TIMEOUT in the
first round. -/
def flush_late : FlushEnv := { retries := 0, timedOut := true }

/-- The state `ci_queued` after a flush of the bulk OUT endpoint has timed
out: `skip_flush` is set. -/
def ci_skipping : ci_hdrc := hw_ep_flush ci_queued 1 RX flush_late

/-- The state `ci_ctrl_queued` (request 20, of 512 bytes, queued through
ep0 IN and linked on ep0 OUT) after the function driver has also queued the
zero-length request 21 through ep0 IN: it is linked on ep0 IN. -/
def ci_ctrl_both : ci_hdrc :=
  match _ep_queue hdr0 queue_env_ok 2 21
      (setReq ci_ctrl_queued 21 (req_blank 86016 0 (some (Complete.gadget 7)))) with
  | some r => r.2
  | none => ci_ctrl_queued

/-- The state `ci_ctrl_both` after the function driver has taken request 20
back with ep_dequeue through ep0 IN. -/
def ci_ctrl_dequeued : ci_hdrc :=
  (ep_dequeue hdr0 { flush1 := flush_ok, flush2 := flush_ok } 2 20 ci_ctrl_both).2

/-- The state `ci_two_done` after _hardware_dequeue has retired the chain of
request 10, the request has been taken off the queue, and its status and
`req.actual` have been set as _ep_queue sets them before the push. -/
def ci_two_again : ci_hdrc :=
  let c := (_hardware_dequeue 1 10 ci_two_done).2
  setReq (list_del_init c 10) 10
    { (c.reqs 10) with req := { (c.reqs 10).req with status := -EINPROGRESS, actual := 0 } }

/-- The sample controller after request 10, of 40960 bytes, has been queued on
the bulk OUT endpoint: its chain has two descriptors of 20480 bytes. -/
def ci_two_queued : ci_hdrc :=
  match _ep_queue hdr0 queue_env_ok 1 10
      (setReq ci_sample 10 (req_blank 40960 40960 (some (Complete.gadget 7)))) with
  | some q => q.2
  | none => ci_sample

/-- The state `ci_two_queued` after the controller has retired the first
descriptor of request 10 on a short packet, 100 bytes not transferred, and
gone on to the second, which is still active. -/
def ci_two_part : ci_hdrc :=
  setReq ci_two_queued 10 { ci_two_queued.reqs 10 with
    tds := modifyHead (fun n => { n with ptr := { n.ptr with active := false, total_bytes := 100 } })
      (ci_two_queued.reqs 10).tds }

/-- The controller retires the last descriptor request 10 still has, with no
byte left in it. -/
def hw_finish (ci : ci_hdrc) : ci_hdrc :=
  setReq ci 10 { ci.reqs 10 with
    tds := modifyLast (fun n => { n with ptr := { n.ptr with active := false, total_bytes := 0 } })
      (ci.reqs 10).tds }

/-- The environment of a call of isr_tr_complete_low in which the second look
at a busy descriptor, after `udelay(10)`, finds it retired with no byte left. -/
def low_env_late : LowEnv :=
  { retry_hw := fun _ n => { n with ptr := { n.ptr with active := false, total_bytes := 0 } },
    enq := fun _ => enq_env_ok }

/-- A controller with 12 endpoint numbers (`hw_ep_max` 24), the records laid
out as init_eps has them (index `num + dir * 12`), all enabled as bulk
endpoints; request 10 is queued on endpoint 1 IN, at index 13, and the queue
of endpoint 5 IN, at index 17, is empty. -/
def ci_wide : ci_hdrc :=
  { ci_sample with
    hw_ep_max := 24,
    ci_hw_ep := fun i =>
      { ep_blank with desc := some (bulk_desc (if i < 12 then i else 128 + (i - 12))),
                      maxpacket := 512, num := i % 12, dir := if i < 12 then RX else TX,
                      type := USB_ENDPOINT_XFER_BULK,
                      queue := if i = 13 then [10] else [] },
    reqs := fun h => if h = 10 then (ci_queued.reqs 10) else ci_sample.reqs h }

/-- The sample controller after a SET_ADDRESS(5) packet has been handled:
address 5 is latched and the status request is on the queue of ep0 IN. -/
def ci_latched : ci_hdrc :=
  match isr_setup_packet hdr0 (setup_env_ok (set_address_pkt 5)) (-EINVAL) ci_sample with
  | some r => r.2
  | none => ci_sample

/-- A pass in which the controller has not touched the chain: every descriptor
is still active. -/
def pass_busy : Pass := { hw := fun tds => tds, env := low_env_ok }

/-- The controller has retired every descriptor of a chain and written the
given tokens, one per descriptor in chain order: the halted bit, the status
bits other than active and the three error bits, and the bytes left. -/
def hw_tokens (toks : List (Bool × Nat × Nat)) (tds : List td_node) : List td_node :=
  List.zipWith (fun n t => { n with ptr := { n.ptr with
    active := false, halted := t.1, status_rest := t.2.1, total_bytes := t.2.2 } }) tds toks

/-- The state `ci_two_queued` after the controller has retired the first
descriptor in full with the reserved bit 0 of the status field set, and has
stopped at the second with the halted bit set and 512 bytes left. -/
def ci_reserved_then_halted : ci_hdrc :=
  setReq ci_two_queued 10 { ci_two_queued.reqs 10 with
    tds := hw_tokens [(false, 1, 0), (true, 0, 512)] (ci_two_queued.reqs 10).tds }

/-- The state `ci_two_queued` after the controller has retired both
descriptors in full, the first with the reserved bit 0 of the status field
set. -/
def ci_reserved_then_clean : ci_hdrc :=
  setReq ci_two_queued 10 { ci_two_queued.reqs 10 with
    tds := hw_tokens [(false, 1, 0), (false, 0, 0)] (ci_two_queued.reqs 10).tds }

/-- The sample controller after request 11, of 40960 bytes, has been queued on
the bulk IN endpoint, the controller has retired the first descriptor with no
status bit set and 100 bytes left, and has stopped at the second with the
halted bit set. -/
def ci_short_in_then_halted : ci_hdrc :=
  match _ep_queue hdr0 queue_env_ok 3 11
      (setReq ci_sample 11 (req_blank 45056 40960 (some (Complete.gadget 7)))) with
  | some q => setReq q.2 11 { q.2.reqs 11 with
      tds := hw_tokens [(false, 0, 100), (true, 0, 20480)] (q.2.reqs 11).tds }
  | none => ci_sample

/-- The state `ci_sps_done` with the descriptor of the MSM SPS finite-transfer
request 10 not executed in full but stopped with the halted bit set and 512
bytes left. -/
def ci_sps_halted : ci_hdrc :=
  setReq ci_sps_done 10 { ci_sps_done.reqs 10 with
    tds := hw_tokens [(true, 0, 512)] (ci_sps_done.reqs 10).tds }

/-! ## Observations on the trace -/

/-- The completion callbacks recorded in a trace, in order: request handle and
the status the callback saw. -/
def completions (t : List Event) : List (Nat × Int) :=
  t.filterMap (fun ev => match ev with
    | Event.complete _ _ h r => some (h, r.status)
    | _ => none)

/-- The completion callbacks recorded in a trace, in call order: the handle of
the request and the request as the callback sees it. -/
def callbacks (t : List Event) : List (Nat × usb_request) :=
  t.filterMap (fun ev => match ev with
    | Event.complete _ _ h r => some (h, r)
    | _ => none)

/-- The values written to the prime register ENDPTPRIME recorded in a trace:
the bit numbers, in order. -/
def prime_writes (t : List Event) : List Nat :=
  t.filterMap (fun ev => match ev with
    | Event.hw_write (HwField.ENDPTPRIME n) _ => some n
    | _ => none)

/-- The controller fields that flushing, completing, queueing and retiring
requests never write. -/
structure SameCtl (a b : ci_hdrc) : Prop where
  hw_ep_max : a.hw_ep_max = b.hw_ep_max
  status : a.status = b.status
  status_buf : a.status_buf = b.status_buf
  status_data : a.status_data = b.status_data
  ep0_dir : a.ep0_dir = b.ep0_dir
  address : a.address = b.address
  test_mode : a.test_mode = b.test_mode
  suspended : a.suspended = b.suspended
  remote_wakeup : a.remote_wakeup = b.remote_wakeup
  configured : a.configured = b.configured
  rxs : a.rxs = b.rxs
  txs : a.txs = b.txs

/-- The values written to the device-address register field recorded in a
trace, in order. -/
def addr_writes (t : List Event) : List Nat :=
  t.filterMap (fun ev => match ev with
    | Event.hw_write HwField.DEVICEADDR_USBADR v => some v
    | _ => none)

/-- The address latch and the device-address register are as before and the
register has not been written. -/
structure SameAddr (a b : ci_hdrc) : Prop where
  setaddr : a.setaddr = b.setaddr
  usbadr : a.usbadr = b.usbadr
  addr_writes : addr_writes a.trace = addr_writes b.trace

/-- Two endpoint records differ at most in the queue head overlay, the timer
and the counters. -/
structure epSame (a b : ci_hw_ep) : Prop where
  queue : a.queue = b.queue
  multi_req : a.multi_req = b.multi_req
  desc : a.desc = b.desc
  type : a.type = b.type
  num : a.num = b.num
  dir : a.dir = b.dir
  maxpacket : a.maxpacket = b.maxpacket
  mult : a.mult = b.mult
  wedge : a.wedge = b.wedge
  pending_td : a.pending_td = b.pending_td

/-- Two request records agree on what the function driver put in and on the
saved attributes of a large request. -/
structure reqSame (a b : ci_hw_req) : Prop where
  length : a.req.length = b.req.length
  buf : a.req.buf = b.req.buf
  complete : a.req.complete = b.req.complete
  zero : a.req.zero = b.req.zero
  no_interrupt : a.req.no_interrupt = b.req.no_interrupt
  udc_priv : a.req.udc_priv = b.req.udc_priv
  multi : a.multi = b.multi

/-- What building, linking and priming a descriptor chain leaves alone. -/
structure EnqFrame (a b : ci_hdrc) : Prop where
  ctl : SameCtl a b
  addr : SameAddr a b
  completions : completions a.trace = completions b.trace
  ep : ∀ x, epSame (a.ci_hw_ep x) (b.ci_hw_ep x)
  req : ∀ x, reqSame (a.reqs x) (b.reqs x)
  calls : callbacks a.trace = callbacks b.trace

/-- What queueing a request on an endpoint that needs no flush leaves alone. -/
structure QueueFrame (a b : ci_hdrc) : Prop where
  ctl : SameCtl a b
  addr : SameAddr a b
  completions : completions a.trace = completions b.trace
  length : ∀ x, (a.reqs x).req.length = (b.reqs x).req.length
  buf : ∀ x, (a.reqs x).req.buf = (b.reqs x).req.buf
  complete : ∀ x, (a.reqs x).req.complete = (b.reqs x).req.complete

/-- What retiring the descriptors of a request leaves alone: the queues, the
large-request flags, the request fields the descriptor walk does not write,
and the callbacks made. -/
structure DeqFrame (a b : ci_hdrc) : Prop where
  queue : ∀ x, (a.ci_hw_ep x).queue = (b.ci_hw_ep x).queue
  multi_req : ∀ x, (a.ci_hw_ep x).multi_req = (b.ci_hw_ep x).multi_req
  req : ∀ x, reqSame (a.reqs x) (b.reqs x)
  calls : callbacks a.trace = callbacks b.trace

/-- The state a descriptor walk ends in. -/
def Walk.state : Walk → ci_hdrc
  | Walk.busy ci => ci
  | Walk.done ci _ _ => ci

/-- The request `h` is in flight on the endpoint at index `i`: it is the one
request on the queue, the large-request flag of the endpoint is set, and its
bookkeeping holds the length `L` and the buffer `B` it was queued with and the
byte count `S` of the passes so far. -/
structure InFlight (i h L B S : Nat) (ci : ci_hdrc) : Prop where
  queue : (ci.ci_hw_ep i).queue = [h]
  multi_req : (ci.ci_hw_ep i).multi_req = true
  len : (ci.reqs h).multi.len = L
  buf : (ci.reqs h).multi.buf = B
  actual : (ci.reqs h).multi.actual = S

/-- The bus addresses of the descriptors freed with dma_pool_free recorded in
a trace, in order. -/
def td_frees (t : List Event) : List Nat :=
  t.filterMap (fun ev => match ev with
    | Event.td_free d => some d
    | _ => none)

/-- The walk of _hardware_dequeue on an endpoint of direction `dir` retires
the descriptor and goes on to the next one: it is not active, carries no error
bit, and has no byte remaining unless `dir` is 0. -/
def td_retires (dir : Nat) (n : td_node) : Bool :=
  !n.ptr.active && !n.ptr.halted && !n.ptr.dt_err && !n.ptr.tr_err &&
    !(n.ptr.total_bytes != 0 && dir != 0)

/-- The local `actual` of _hardware_dequeue after `actual -= remaining_length`
for each descriptor of a list, in 32-bit arithmetic. -/
def walk_actual (actual : Nat) : List td_node → Nat
  | [] => actual
  | n :: rest => walk_actual ((actual + U32 - n.ptr.total_bytes % U32) % U32) rest

/-- The value of `hwreq->req.status` after the walk has passed the descriptors
of a list: the status bits of the last one. -/
def walk_status (status : Int) : List td_node → Int
  | [] => status
  | n :: rest => walk_status (n.ptr.status_rest : Int) rest

/-- The state after the walk of _hardware_dequeue has retired the descriptor
`node`, `rest` being the descriptors behind it: the pending descriptor, if
any, is freed, `node` becomes the pending one and leaves the chain. -/
def walk_retired (i h : Nat) (node : td_node) (rest : List td_node) (ci : ci_hdrc) : ci_hdrc :=
  let ci1 := if (ci.ci_hw_ep i).pending_td.isSome then free_pending_td ci i else ci
  let ci2 := setEp ci1 i { ci1.ci_hw_ep i with pending_td := some node }
  setReq ci2 h { ci2.reqs h with tds := rest }

/-- The status _hardware_dequeue gives a request at a descriptor that ends
the walk without being active: -EPIPE for the halted bit, else -EPROTO for a
data-toggle error, else -EILSEQ for a transaction error, else -EPROTO (bytes
remain on an endpoint whose direction is not 0). -/
def td_end_status (n : td_node) : Int :=
  if n.ptr.halted then -EPIPE
  else if n.ptr.dt_err then -EPROTO
  else if n.ptr.tr_err then -EILSEQ
  else -EPROTO

/-- The end of _hardware_dequeue after the walk: `req.actual += actual`, the
status reached, and the value returned. -/
def dequeue_finish (h : Nat) (ci1 : ci_hdrc) (actual : Nat) (status : Int) : Int × ci_hdrc :=
  let r := ci1.reqs h
  let total := (r.req.actual + actual) % U32
  let ci2 := setReq ci1 h { r with req := { r.req with status := status, actual := total } }
  if status ≠ 0 then (status, ci2) else (toInt32 total, ci2)

/-- The request is one the walk of _hardware_dequeue is made for: it is not
an MSM request in SPS mode with the finite-transfer bit. -/
def walk_entered (r : ci_hw_req) : Bool :=
  !(r.req.udc_priv.msm_vendor && r.req.udc_priv.sps_mode && r.req.udc_priv.finite_transfer)

/-- What _hardware_dequeue does with the result of its walk. -/
def walk_result (h : Nat) : Walk → Int × ci_hdrc
  | Walk.busy ci1 => (-EBUSY, ci1)
  | Walk.done ci1 actual status => dequeue_finish h ci1 actual status

/-- The result of _hardware_dequeue once its walk has retired the
descriptors `pre` and reached the state `c1`, by what is left of the chain:
nothing, an active descriptor, or a descriptor that ends the walk. -/
def walk_outcome (h : Nat) (c1 : ci_hdrc) (len : Nat) (pre : List td_node) :
    List td_node → Int × ci_hdrc
  | [] => dequeue_finish h c1 (walk_actual len pre) (walk_status 0 pre)
  | t :: _ =>
    if t.ptr.active then
      (-EBUSY, setReq c1 h { c1.reqs h with req := { (c1.reqs h).req with status := -EALREADY } })
    else dequeue_finish h c1 (walk_actual len (pre ++ [t])) (td_end_status t)

/-- Every endpoint record has the wedge flag it has in `b`. -/
def SameWedge (a b : ci_hdrc) : Prop :=
  ∀ j, (a.ci_hw_ep j).wedge = (b.ci_hw_ep j).wedge

/-- What a stall-bit update of an endpoint leaves alone. -/
structure HaltFrame (a b : ci_hdrc) : Prop where
  hw_ep_max : a.hw_ep_max = b.hw_ep_max
  status : a.status = b.status
  ep0_dir : a.ep0_dir = b.ep0_dir
  reqs : a.reqs = b.reqs
  queue : ∀ j, (a.ci_hw_ep j).queue = (b.ci_hw_ep j).queue
  desc : ∀ j, (a.ci_hw_ep j).desc = (b.ci_hw_ep j).desc
  type : ∀ j, (a.ci_hw_ep j).type = (b.ci_hw_ep j).type
  num : ∀ j, (a.ci_hw_ep j).num = (b.ci_hw_ep j).num
  dir : ∀ j, (a.ci_hw_ep j).dir = (b.ci_hw_ep j).dir

/-- What the handling of a SETUP packet by the switch keeps: a wedged endpoint
stays wedged, and the control direction is as latched unless the packet went
to the function driver. -/
def SwitchFrame (e : SetupEnv) (req : usb_ctrlrequest) (c : ci_hdrc) (r : Int × ci_hdrc) : Prop :=
  (∀ j, (c.ci_hw_ep j).wedge = true → (r.2.ci_hw_ep j).wedge = true) ∧
  (r.2.ep0_dir = c.ep0_dir ∨ ∃ c1, c1.ep0_dir = c.ep0_dir ∧ r = setup_delegate e req c1)

/-- Every endpoint record has the descriptor it has in `b`. -/
def SameDesc (a b : ci_hdrc) : Prop :=
  ∀ j, (a.ci_hw_ep j).desc = (b.ci_hw_ep j).desc

/-- The status request of the controller `c` is on the queue of endpoint 0 IN
in the state `r`, with the length 0 and isr_setup_status_complete as its
completion callback. -/
def status_phase_queued (r c : ci_hdrc) : Prop :=
  c.status ∈ (r.ci_hw_ep (ep0in c)).queue ∧ (r.reqs c.status).req.length = 0 ∧
  (r.reqs c.status).req.complete = some Complete.isr_setup_status_complete

/-- The calls of the function driver's `setup` recorded in a trace, in order:
the packet passed. -/
def setup_calls (t : List Event) : List usb_ctrlrequest :=
  t.filterMap (fun ev => match ev with
    | Event.setup a b c d l =>
      some { bRequestType := a, bRequest := b, wValue := c, wIndex := d, wLength := l }
    | _ => none)

/-- Every descriptor allocation of the calls a round of isr_tr_complete_handler
makes succeeds. -/
def TrEnv.allocs (e : TrEnv) : Prop :=
  (∀ x m, ((e.low.enq x).alloc m).isSome = true) ∧
  (∀ m, (e.status.enq.alloc m).isSome = true) ∧
  (∀ m, (e.setup.queue.enq.alloc m).isSome = true)

/-- The four interrupt sources udc_irq has a handler for. -/
inductive IrqSource where
  | URI
  | PCI
  | UI
  | SLI
  deriving DecidableEq, Repr

/-- The interrupt bit of a source. -/
def IrqSource.bit (q : IrqHdr) : IrqSource → Nat
  | IrqSource.URI => q.USBi_URI
  | IrqSource.PCI => q.USBi_PCI
  | IrqSource.UI => q.USBi_UI
  | IrqSource.SLI => q.USBi_SLI

/-- The handler of a source: isr_reset_handler for bus reset, the port-change
block, isr_tr_complete_handler for transfer complete, the suspend block. -/
def irq_handler (k : Hdr) (e : IrqEnv) : IrqSource → ci_hdrc → Option ci_hdrc
  | IrqSource.URI, ci => some (isr_reset_handler k e.gadget e.reset ci)
  | IrqSource.PCI, ci => some (irq_port_change e.gadget e.high_speed ci)
  | IrqSource.UI, ci => isr_tr_complete_handler k e.tr ci
  | IrqSource.SLI, ci => some (irq_suspend e.gadget ci)

/-- The handlers of a list of sources, run one after the other. -/
def run_handlers (k : Hdr) (e : IrqEnv) : List IrqSource → ci_hdrc → Option ci_hdrc
  | [], ci => some ci
  | s :: rest, ci => (irq_handler k e s ci).bind (run_handlers k e rest)

/-- The fixed priority order: bus reset, port change, transfer complete,
suspend. -/
def irq_priority : List IrqSource :=
  [IrqSource.URI, IrqSource.PCI, IrqSource.UI, IrqSource.SLI]

/-- The subsequence of the priority order selected by the bits set in `intr`. -/
def irq_selected (q : IrqHdr) (intr : Nat) : List IrqSource :=
  irq_priority.filter (fun s => s.bit q &&& intr != 0)

/-- The byte counts of the descriptors that the loop of _hardware_enqueue builds
for `rest` bytes with at most `cap` bytes in a descriptor, in arithmetic
without wrap; `fuel` bounds the number of rounds. -/
def chain_counts (cap : Nat) : Nat → Nat → List Nat
  | 0, _ => []
  | fuel + 1, rest =>
    if rest = 0 then [] else min rest cap :: chain_counts cap fuel (rest - min rest cap)

/-- Every descriptor of the chain but the last has the address of its
successor as its link word. -/
def Linked (l : List td_node) : Prop :=
  List.Chain' (fun a b => a.ptr.next = Link.addr b.dma) l

/-- The byte count field of a descriptor can hold every count up to `cap`. -/
def Hdr.holds (k : Hdr) (cap : Nat) : Prop :=
  ∀ c, c ≤ cap → c &&& k.TD_TOTAL_BYTES = c

/-- A firing of the prime timer of the endpoint at index `i` finds the prime
still pending: the bus session is active, the device is not suspended, the
ENDPTPRIME bit is set and the first descriptor of the oldest queued request is
still active. -/
def PrimePending (e : PrimeEnv) (i : Nat) (ci : ci_hdrc) : Prop :=
  ci.vbus_active = true ∧ ci.suspended = false ∧ e.prime = true ∧
  (head_active ci i).isSome = true

/-- The flush-skip flag that is set in `b` is set in `a`. -/
def KeepsSkip (a b : ci_hdrc) : Prop := b.skip_flush = true → a.skip_flush = true

/-- The state a round of the loop of isr_tr_complete_low ends in. -/
def LowStep.state : LowStep → ci_hdrc
  | LowStep.stop _ ci => ci
  | LowStep.next _ _ ci => ci

/-- Every endpoint record has the number and the direction it has in `b`. -/
def SameIds (a b : ci_hdrc) : Prop :=
  ∀ j, (a.ci_hw_ep j).num = (b.ci_hw_ep j).num ∧ (a.ci_hw_ep j).dir = (b.ci_hw_ep j).dir

/-- Header values under which a descriptor can address at least one page and
the capacity of a descriptor fits 32 bits. -/
def Hdr.sane (k : Hdr) : Prop :=
  2 ≤ k.TD_PAGE_COUNT ∧ 0 < k.CI_HDRC_PAGE_SIZE ∧ k.TD_PAGE_COUNT * k.CI_HDRC_PAGE_SIZE < U32

/-! ## Basic facts -/

@[simp] theorem completions_nil : completions [] = [] := rfl

@[simp] theorem completions_append (a b : List Event) :
    completions (a ++ b) = completions a ++ completions b := by
  simp [completions, List.filterMap_append]

@[simp] theorem completions_cons_cons (a b : Event) (t : List Event) :
    completions (a :: b :: t) = completions [a] ++ completions (b :: t) := by
  simp only [completions, List.filterMap_cons]
  cases a <;> simp

@[simp] theorem completions_complete (cb : Complete) (ep h : Nat) (r : usb_request) :
    completions [Event.complete cb ep h r] = [(h, r.status)] := rfl
@[simp] theorem completions_hw_write (f : HwField) (v : Nat) :
    completions [Event.hw_write f v] = [] := rfl
@[simp] theorem completions_td_free (d : Nat) : completions [Event.td_free d] = [] := rfl
@[simp] theorem completions_setup (a b c d e : Nat) :
    completions [Event.setup a b c d e] = [] := rfl
@[simp] theorem completions_remote_wakeup : completions [Event.remote_wakeup] = [] := rfl
@[simp] theorem completions_mod_timer (i : Nat) : completions [Event.mod_timer i] = [] := rfl

@[simp] theorem callbacks_nil : callbacks [] = [] := rfl

@[simp] theorem callbacks_append (a b : List Event) :
    callbacks (a ++ b) = callbacks a ++ callbacks b := by
  simp [callbacks, List.filterMap_append]

@[simp] theorem emit_trace (ci : ci_hdrc) (ev : Event) :
    (emit ci ev).trace = ci.trace ++ [ev] := rfl
@[simp] theorem emit_ci_hw_ep (ci : ci_hdrc) (ev : Event) :
    (emit ci ev).ci_hw_ep = ci.ci_hw_ep := rfl
@[simp] theorem emit_reqs (ci : ci_hdrc) (ev : Event) : (emit ci ev).reqs = ci.reqs := rfl

@[simp] theorem setEp_trace (ci : ci_hdrc) (i : Nat) (e : ci_hw_ep) :
    (setEp ci i e).trace = ci.trace := rfl
@[simp] theorem setEp_reqs (ci : ci_hdrc) (i : Nat) (e : ci_hw_ep) :
    (setEp ci i e).reqs = ci.reqs := rfl
@[simp] theorem setEp_same (ci : ci_hdrc) (i : Nat) (e : ci_hw_ep) :
    (setEp ci i e).ci_hw_ep i = e := by simp [setEp]
theorem setEp_other (ci : ci_hdrc) (i j : Nat) (e : ci_hw_ep) (hne : j ≠ i) :
    (setEp ci i e).ci_hw_ep j = ci.ci_hw_ep j := by simp [setEp, hne]

@[simp] theorem setReq_trace (ci : ci_hdrc) (h : Nat) (r : ci_hw_req) :
    (setReq ci h r).trace = ci.trace := rfl
@[simp] theorem setReq_ci_hw_ep (ci : ci_hdrc) (h : Nat) (r : ci_hw_req) :
    (setReq ci h r).ci_hw_ep = ci.ci_hw_ep := rfl
@[simp] theorem setReq_same (ci : ci_hdrc) (h : Nat) (r : ci_hw_req) :
    (setReq ci h r).reqs h = r := by simp [setReq]
theorem setReq_other (ci : ci_hdrc) (h j : Nat) (r : ci_hw_req) (hne : j ≠ h) :
    (setReq ci h r).reqs j = ci.reqs j := by simp [setReq, hne]

@[simp] theorem list_del_init_trace (ci : ci_hdrc) (h : Nat) :
    (list_del_init ci h).trace = ci.trace := rfl
@[simp] theorem list_del_init_reqs (ci : ci_hdrc) (h : Nat) :
    (list_del_init ci h).reqs = ci.reqs := rfl
@[simp] theorem list_del_init_queue (ci : ci_hdrc) (h i : Nat) :
    ((list_del_init ci h).ci_hw_ep i).queue
      = (ci.ci_hw_ep i).queue.filter (fun x => x != h) := rfl

@[simp] theorem free_tds_ci_hw_ep (ci : ci_hdrc) (l : List td_node) :
    (free_tds ci l).ci_hw_ep = ci.ci_hw_ep := by
  induction l generalizing ci with
  | nil => rfl
  | cons a t ih => simp [free_tds, ih]

@[simp] theorem free_tds_reqs (ci : ci_hdrc) (l : List td_node) :
    (free_tds ci l).reqs = ci.reqs := by
  induction l generalizing ci with
  | nil => rfl
  | cons a t ih => simp [free_tds, ih]

@[simp] theorem free_tds_completions (ci : ci_hdrc) (l : List td_node) :
    completions (free_tds ci l).trace = completions ci.trace := by
  induction l generalizing ci with
  | nil => rfl
  | cons a t ih => simp [free_tds, ih]

@[simp] theorem flush_writes_ci_hw_ep (ci : ci_hdrc) (n m : Nat) :
    (flush_writes ci n m).ci_hw_ep = ci.ci_hw_ep := by
  induction m generalizing ci with
  | zero => rfl
  | succ m ih => simp [flush_writes, ih]

@[simp] theorem flush_writes_reqs (ci : ci_hdrc) (n m : Nat) :
    (flush_writes ci n m).reqs = ci.reqs := by
  induction m generalizing ci with
  | zero => rfl
  | succ m ih => simp [flush_writes, ih]

@[simp] theorem flush_writes_completions (ci : ci_hdrc) (n m : Nat) :
    completions (flush_writes ci n m).trace = completions ci.trace := by
  induction m generalizing ci with
  | zero => rfl
  | succ m ih => simp [flush_writes, ih]

@[simp] theorem hw_ep_flush_ci_hw_ep (ci : ci_hdrc) (num dir : Nat) (e : FlushEnv) :
    (hw_ep_flush ci num dir e).ci_hw_ep = ci.ci_hw_ep := by
  unfold hw_ep_flush
  simp only []
  split
  · rfl
  · split <;> simp

@[simp] theorem hw_ep_flush_reqs (ci : ci_hdrc) (num dir : Nat) (e : FlushEnv) :
    (hw_ep_flush ci num dir e).reqs = ci.reqs := by
  unfold hw_ep_flush
  simp only []
  split
  · rfl
  · split <;> simp

@[simp] theorem hw_ep_flush_completions (ci : ci_hdrc) (num dir : Nat) (e : FlushEnv) :
    completions (hw_ep_flush ci num dir e).trace = completions ci.trace := by
  unfold hw_ep_flush
  simp only []
  split
  · rfl
  · split <;> simp

@[simp] theorem hw_usb_set_address_ci_hw_ep {k : Hdr} (ci : ci_hdrc) (v : Nat) :
    (hw_usb_set_address k ci v).ci_hw_ep = ci.ci_hw_ep := rfl
@[simp] theorem hw_usb_set_address_reqs {k : Hdr} (ci : ci_hdrc) (v : Nat) :
    (hw_usb_set_address k ci v).reqs = ci.reqs := rfl
@[simp] theorem hw_usb_set_address_trace {k : Hdr} (ci : ci_hdrc) (v : Nat) :
    (hw_usb_set_address k ci v).trace
      = ci.trace ++ [Event.hw_write HwField.DEVICEADDR_USBADR
          ((v % 256) &&& k.DEVICEADDR_USBADR)] := rfl
@[simp] theorem hw_port_test_set_ci_hw_ep (ci : ci_hdrc) (v : Nat) :
    (hw_port_test_set ci v).ci_hw_ep = ci.ci_hw_ep := rfl
@[simp] theorem hw_port_test_set_reqs (ci : ci_hdrc) (v : Nat) :
    (hw_port_test_set ci v).reqs = ci.reqs := rfl
@[simp] theorem hw_port_test_set_trace (ci : ci_hdrc) (v : Nat) :
    (hw_port_test_set ci v).trace = ci.trace ++ [Event.hw_write HwField.PORTSC_PTC v] := rfl

@[simp] theorem isr_setup_status_complete_ci_hw_ep {k : Hdr} (ci : ci_hdrc) :
    (isr_setup_status_complete k ci).ci_hw_ep = ci.ci_hw_ep := by
  unfold isr_setup_status_complete
  simp only []
  split <;> split <;> simp

@[simp] theorem isr_setup_status_complete_reqs {k : Hdr} (ci : ci_hdrc) :
    (isr_setup_status_complete k ci).reqs = ci.reqs := by
  unfold isr_setup_status_complete
  simp only []
  split <;> split <;> simp

@[simp] theorem isr_setup_status_complete_completions {k : Hdr} (ci : ci_hdrc) :
    completions (isr_setup_status_complete k ci).trace = completions ci.trace := by
  unfold isr_setup_status_complete
  simp only []
  split <;> split <;> simp

@[simp] theorem call_complete_ci_hw_ep {k : Hdr} (ci : ci_hdrc) (ep h : Nat) :
    (call_complete k ci ep h).ci_hw_ep = ci.ci_hw_ep := by
  unfold call_complete
  split
  · rfl
  · split <;> simp

@[simp] theorem call_complete_reqs {k : Hdr} (ci : ci_hdrc) (ep h : Nat) :
    (call_complete k ci ep h).reqs = ci.reqs := by
  unfold call_complete
  split
  · rfl
  · split <;> simp

theorem call_complete_completions {k : Hdr} (ci : ci_hdrc) (ep h : Nat) :
    completions (call_complete k ci ep h).trace
      = completions ci.trace
        ++ (if (ci.reqs h).req.complete.isSome then [(h, (ci.reqs h).req.status)] else []) := by
  unfold call_complete
  split
  · next hc => simp [hc]
  · next cb hc => split <;> simp [hc]

/-! ## Facts about _ep_nuke -/

theorem setEp_queue (ci : ci_hdrc) (i j : Nat) (e : ci_hw_ep)
    (hq : e.queue = (ci.ci_hw_ep i).queue) :
    ((setEp ci i e).ci_hw_ep j).queue = (ci.ci_hw_ep j).queue := by
  by_cases hji : j = i
  · subst hji; simp [hq]
  · rw [setEp_other _ _ _ _ hji]

@[simp] theorem del_prime_timer_queue (ci : ci_hdrc) (i j : Nat) :
    ((del_prime_timer ci i).ci_hw_ep j).queue = (ci.ci_hw_ep j).queue :=
  setEp_queue _ _ _ _ rfl

@[simp] theorem del_prime_timer_reqs (ci : ci_hdrc) (i : Nat) :
    (del_prime_timer ci i).reqs = ci.reqs := rfl

@[simp] theorem del_prime_timer_trace (ci : ci_hdrc) (i : Nat) :
    (del_prime_timer ci i).trace = ci.trace := rfl

theorem nuke_one_queue (k : Hdr) (e : NukeEnv) (i h j : Nat) (ci : ci_hdrc) :
    ((nuke_one k e i h ci).ci_hw_ep j).queue
      = (ci.ci_hw_ep j).queue.filter (fun x => x != h) := by
  unfold nuke_one
  simp only [call_complete_ci_hw_ep]
  split
  · rw [setEp_queue _ _ _ _ (by simp)]
    split <;> simp
  · split <;> simp

theorem nuke_one_reqs_other (k : Hdr) (e : NukeEnv) (i h j : Nat) (ci : ci_hdrc)
    (hne : j ≠ h) : (nuke_one k e i h ci).reqs j = ci.reqs j := by
  unfold nuke_one
  simp only [call_complete_reqs]
  split <;> split <;> simp [setReq_other _ _ _ _ hne]

theorem nuke_one_completions (k : Hdr) (e : NukeEnv) (i h : Nat) (ci : ci_hdrc)
    (hc : (ci.reqs h).req.complete.isSome) :
    completions (nuke_one k e i h ci).trace = completions ci.trace ++ [(h, -ESHUTDOWN)] := by
  unfold nuke_one
  simp only [call_complete_completions]
  split <;> split <;>
    simp [restore_original_req, usb_gadget_map_request, hc]

theorem filter_ne_of_not_mem (h : Nat) (t : List Nat) (hn : h ∉ t) :
    t.filter (fun x => x != h) = t := by
  induction t with
  | nil => rfl
  | cons a t ih =>
    have ha : a ≠ h := fun hah => hn (by simp [hah])
    have ht : h ∉ t := fun hm => hn (by simp [hm])
    simp [List.filter_cons, ha, ih ht]

theorem nuke_loop_spec (k : Hdr) (e : NukeEnv) (i : Nat) (q : List Nat) :
    ∀ (fuel : Nat) (ci : ci_hdrc), (ci.ci_hw_ep i).queue = q → q.Nodup → q.length ≤ fuel →
      (∀ h ∈ q, (ci.reqs h).req.complete.isSome) →
      ((nuke_loop k e i fuel ci).ci_hw_ep i).queue = [] ∧
      completions (nuke_loop k e i fuel ci).trace
        = completions ci.trace ++ q.map (fun h => (h, -ESHUTDOWN)) := by
  induction q with
  | nil =>
    intro fuel ci hq _ _ _
    cases fuel with
    | zero => simp [nuke_loop, hq]
    | succ f => simp [nuke_loop, hq]
  | cons h t ih =>
    intro fuel ci hq hnd hlen hcb
    cases fuel with
    | zero => simp at hlen
    | succ f =>
      have hht : h ∉ t := (List.nodup_cons.mp hnd).1
      have hq1 : ((nuke_one k e i h ci).ci_hw_ep i).queue = t := by
        rw [nuke_one_queue, hq]
        simp [List.filter_cons, filter_ne_of_not_mem h t hht]
      have hcb1 : ∀ x ∈ t, ((nuke_one k e i h ci).reqs x).req.complete.isSome := by
        intro x hx
        have hxh : x ≠ h := fun hxh => hht (hxh ▸ hx)
        rw [nuke_one_reqs_other _ _ _ _ _ _ hxh]
        exact hcb x (by simp [hx])
      have hrec := ih f (nuke_one k e i h ci) hq1 (List.nodup_cons.mp hnd).2
        (by simpa using hlen) hcb1
      simp only [nuke_loop, hq]
      refine ⟨hrec.1, ?_⟩
      rw [hrec.2, nuke_one_completions _ _ _ _ _ (hcb h (by simp))]
      simp

/-! ## Fields left alone -/

theorem SameCtl.ctl_refl (a : ci_hdrc) : SameCtl a a :=
  ⟨rfl, rfl, rfl, rfl, rfl, rfl, rfl, rfl, rfl, rfl, rfl, rfl⟩

theorem SameCtl.ctl_trans {a b c : ci_hdrc} (h1 : SameCtl a b) (h2 : SameCtl b c) : SameCtl a c :=
  ⟨h1.hw_ep_max.trans h2.hw_ep_max, h1.status.trans h2.status,
   h1.status_buf.trans h2.status_buf, h1.status_data.trans h2.status_data,
   h1.ep0_dir.trans h2.ep0_dir,
   h1.address.trans h2.address, h1.test_mode.trans h2.test_mode,
   h1.suspended.trans h2.suspended, h1.remote_wakeup.trans h2.remote_wakeup,
   h1.configured.trans h2.configured, h1.rxs.trans h2.rxs, h1.txs.trans h2.txs⟩

theorem sameCtl_emit (ci : ci_hdrc) (ev : Event) : SameCtl (emit ci ev) ci :=
  ⟨rfl, rfl, rfl, rfl, rfl, rfl, rfl, rfl, rfl, rfl, rfl, rfl⟩

theorem sameCtl_setEp (ci : ci_hdrc) (i : Nat) (e : ci_hw_ep) : SameCtl (setEp ci i e) ci :=
  ⟨rfl, rfl, rfl, rfl, rfl, rfl, rfl, rfl, rfl, rfl, rfl, rfl⟩

theorem sameCtl_setReq (ci : ci_hdrc) (h : Nat) (r : ci_hw_req) : SameCtl (setReq ci h r) ci :=
  ⟨rfl, rfl, rfl, rfl, rfl, rfl, rfl, rfl, rfl, rfl, rfl, rfl⟩

theorem sameCtl_list_del_init (ci : ci_hdrc) (h : Nat) : SameCtl (list_del_init ci h) ci :=
  ⟨rfl, rfl, rfl, rfl, rfl, rfl, rfl, rfl, rfl, rfl, rfl, rfl⟩

theorem sameCtl_list_add_tail (ci : ci_hdrc) (i h : Nat) : SameCtl (list_add_tail ci i h) ci :=
  ⟨rfl, rfl, rfl, rfl, rfl, rfl, rfl, rfl, rfl, rfl, rfl, rfl⟩

theorem sameCtl_skip_flush (ci : ci_hdrc) (b : Bool) :
    SameCtl { ci with skip_flush := b } ci :=
  ⟨rfl, rfl, rfl, rfl, rfl, rfl, rfl, rfl, rfl, rfl, rfl, rfl⟩

theorem sameCtl_pipeid (ci : ci_hdrc) (f : Nat → Nat) : SameCtl { ci with pipeid := f } ci :=
  ⟨rfl, rfl, rfl, rfl, rfl, rfl, rfl, rfl, rfl, rfl, rfl, rfl⟩

theorem sameCtl_free_tds (ci : ci_hdrc) (l : List td_node) : SameCtl (free_tds ci l) ci := by
  induction l generalizing ci with
  | nil => exact SameCtl.ctl_refl _
  | cons a t ih => exact (ih _).ctl_trans (sameCtl_emit _ _)

theorem sameCtl_flush_writes (ci : ci_hdrc) (n m : Nat) : SameCtl (flush_writes ci n m) ci := by
  induction m generalizing ci with
  | zero => exact SameCtl.ctl_refl _
  | succ m ih => exact (ih _).ctl_trans (sameCtl_emit _ _)

theorem sameCtl_hw_ep_flush (ci : ci_hdrc) (num dir : Nat) (e : FlushEnv) :
    SameCtl (hw_ep_flush ci num dir e) ci := by
  unfold hw_ep_flush
  simp only []
  split
  · exact SameCtl.ctl_refl _
  · split
    · exact (sameCtl_skip_flush _ _).ctl_trans (sameCtl_flush_writes _ _ _)
    · exact sameCtl_flush_writes _ _ _

theorem sameCtl_isr_setup_status_complete {k : Hdr} (ci : ci_hdrc) :
    SameCtl (isr_setup_status_complete k ci) ci := by
  unfold isr_setup_status_complete
  simp only []
  split <;> split <;> exact ⟨rfl, rfl, rfl, rfl, rfl, rfl, rfl, rfl, rfl, rfl, rfl, rfl⟩

theorem sameCtl_call_complete {k : Hdr} (ci : ci_hdrc) (ep h : Nat) : SameCtl (call_complete k ci ep h) ci := by
  unfold call_complete
  split
  · exact SameCtl.ctl_refl _
  · split
    · exact (sameCtl_isr_setup_status_complete _).ctl_trans (sameCtl_emit _ _)
    · exact sameCtl_emit _ _

theorem sameCtl_free_pending_td (ci : ci_hdrc) (i : Nat) : SameCtl (free_pending_td ci i) ci := by
  unfold free_pending_td
  split
  · exact SameCtl.ctl_refl _
  · exact (sameCtl_setEp _ _ _).ctl_trans (sameCtl_emit _ _)

theorem sameCtl_nuke_one (k : Hdr) (e : NukeEnv) (i h : Nat) (ci : ci_hdrc) :
    SameCtl (nuke_one k e i h ci) ci := by
  unfold nuke_one
  simp only []
  refine (sameCtl_call_complete _ _ _).ctl_trans ?_
  have h2 : SameCtl (list_del_init (setReq (free_tds ci (ci.reqs h).tds) h
      { ci.reqs h with tds := [] }) h) ci :=
    (sameCtl_list_del_init _ _).ctl_trans ((sameCtl_setReq _ _ _).ctl_trans (sameCtl_free_tds _ _))
  split <;> split
  · exact (sameCtl_setEp _ _ _).ctl_trans ((sameCtl_setReq _ _ _).ctl_trans
      ((sameCtl_emit _ _).ctl_trans ((sameCtl_pipeid _ _).ctl_trans h2)))
  · exact (sameCtl_setEp _ _ _).ctl_trans ((sameCtl_setReq _ _ _).ctl_trans h2)
  · exact (sameCtl_setReq _ _ _).ctl_trans
      ((sameCtl_emit _ _).ctl_trans ((sameCtl_pipeid _ _).ctl_trans h2))
  · exact (sameCtl_setReq _ _ _).ctl_trans h2

theorem sameCtl_nuke_loop (k : Hdr) (e : NukeEnv) (i : Nat) (fuel : Nat) (ci : ci_hdrc) :
    SameCtl (nuke_loop k e i fuel ci) ci := by
  induction fuel generalizing ci with
  | zero => exact SameCtl.ctl_refl _
  | succ f ih =>
    unfold nuke_loop
    split
    · exact SameCtl.ctl_refl _
    · exact (ih _).ctl_trans (sameCtl_nuke_one _ _ _ _ _)

theorem sameCtl_ep_nuke (k : Hdr) (e : NukeEnv) (i : Nat) (ci : ci_hdrc) :
    SameCtl (_ep_nuke k e i ci).2 ci := by
  unfold _ep_nuke
  simp only []
  split
  · exact (sameCtl_free_pending_td _ _).ctl_trans ((sameCtl_nuke_loop _ _ _ _ _).ctl_trans
      ((sameCtl_hw_ep_flush _ _ _ _).ctl_trans (sameCtl_setEp _ _ _)))
  · exact (sameCtl_nuke_loop _ _ _ _ _).ctl_trans
      ((sameCtl_hw_ep_flush _ _ _ _).ctl_trans (sameCtl_setEp _ _ _))

theorem sameCtl_ep_queue_flushed (k : Hdr) (e : QueueEnv) (i h : Nat) (ci : ci_hdrc) :
    SameCtl (ep_queue_flushed k e i h ci) ci := by
  unfold ep_queue_flushed
  split
  · exact sameCtl_ep_nuke _ _ _ _
  · exact SameCtl.ctl_refl _

/-! ## Building a chain ends -/

theorem add_td_to_list_some (k : Hdr) (dma : Nat) (r : ci_hw_req) (len : Nat) :
    (add_td_to_list k (some dma) r len).2.req.length = r.req.length ∧
    (add_td_to_list k (some dma) r len).2.req.actual = (r.req.actual + len) % U32 :=
  ⟨rfl, rfl⟩

theorem td_loop_isSome (k : Hdr) (cap : Nat) (alloc : Nat → Option Nat)
    (halloc : ∀ m, (alloc m).isSome = true) (hcap : 0 < cap) :
    ∀ (fuel n rest : Nat) (r : ci_hw_req), r.req.length < U32 →
      r.req.actual + rest = r.req.length → rest ≤ fuel →
      (td_loop k cap alloc fuel n rest r).isSome = true := by
  intro fuel
  induction fuel with
  | zero =>
    intro n rest r _ _ hle
    have h0 : rest = 0 := Nat.le_zero.mp hle
    subst h0
    simp [td_loop]
  | succ f ih =>
    intro n rest r hL hinv hle
    unfold td_loop
    by_cases h0 : rest = 0
    · simp [h0]
    · simp only [h0, if_false]
      obtain ⟨dma, hdma⟩ := Option.isSome_iff_exists.mp (halloc n)
      rw [hdma]
      have hact : r.req.actual % U32 = r.req.actual := Nat.mod_eq_of_lt (by omega)
      have hsub : (r.req.length + U32 - r.req.actual % U32) % U32 = rest := by
        rw [hact]
        have : r.req.length + U32 - r.req.actual = rest + U32 := by omega
        rw [this, Nat.add_mod_right]
        exact Nat.mod_eq_of_lt (by omega)
      rw [hsub]
      have hc1 : 1 ≤ min rest cap := by
        have : 1 ≤ rest := Nat.one_le_iff_ne_zero.mpr h0
        exact le_min this hcap
      have hc2 : min rest cap ≤ rest := min_le_left _ _
      have hrest : (rest + U32 - min rest cap) % U32 = rest - min rest cap := by
        have : rest + U32 - min rest cap = (rest - min rest cap) + U32 := by omega
        rw [this, Nat.add_mod_right]
        exact Nat.mod_eq_of_lt (by omega)
      rw [hrest]
      apply ih
      · exact hL
      · rw [(add_td_to_list_some k dma r _).2, (add_td_to_list_some k dma r _).1]
        rw [Nat.mod_eq_of_lt (by omega)]
        omega
      · omega

theorem cap_pos (k : Hdr) (hk : k.sane) (dec : Int) (hdec : dec = 0 ∨ dec = 1) :
    0 < ((((k.TD_PAGE_COUNT : Int) - dec) * (k.CI_HDRC_PAGE_SIZE : Int)) % (U32 : Int)).toNat := by
  obtain ⟨h2, hps, hlt⟩ := hk
  have hpos : (0 : Int) < ((k.TD_PAGE_COUNT : Int) - dec) * (k.CI_HDRC_PAGE_SIZE : Int) := by
    apply mul_pos
    · rcases hdec with h | h <;> omega
    · exact_mod_cast hps
  have hub : ((k.TD_PAGE_COUNT : Int) - dec) * (k.CI_HDRC_PAGE_SIZE : Int) < (U32 : Int) := by
    have h1 : ((k.TD_PAGE_COUNT : Int) - dec) * (k.CI_HDRC_PAGE_SIZE : Int)
        ≤ (k.TD_PAGE_COUNT : Int) * (k.CI_HDRC_PAGE_SIZE : Int) := by
      apply mul_le_mul_of_nonneg_right
      · rcases hdec with h | h <;> omega
      · exact_mod_cast Nat.zero_le _
    have h3 : (k.TD_PAGE_COUNT : Int) * (k.CI_HDRC_PAGE_SIZE : Int) < (U32 : Int) := by
      exact_mod_cast hlt
    omega
  rw [Int.emod_eq_of_lt (le_of_lt hpos) hub]
  omega

/-! ## What queueing leaves alone -/

@[simp] theorem addr_writes_nil : addr_writes [] = [] := rfl

@[simp] theorem addr_writes_append (a b : List Event) :
    addr_writes (a ++ b) = addr_writes a ++ addr_writes b := by
  simp [addr_writes, List.filterMap_append]

theorem SameAddr.addr_refl (a : ci_hdrc) : SameAddr a a := ⟨rfl, rfl, rfl⟩

theorem SameAddr.addr_trans {a b c : ci_hdrc} (h1 : SameAddr a b) (h2 : SameAddr b c) :
    SameAddr a c :=
  ⟨h1.setaddr.trans h2.setaddr, h1.usbadr.trans h2.usbadr, h1.addr_writes.trans h2.addr_writes⟩

theorem epSame.ep_refl (a : ci_hw_ep) : epSame a a := by constructor <;> rfl

theorem epSame.ep_trans {a b c : ci_hw_ep} (h1 : epSame a b) (h2 : epSame b c) : epSame a c :=
  ⟨h1.queue.trans h2.queue, h1.multi_req.trans h2.multi_req, h1.desc.trans h2.desc,
   h1.type.trans h2.type, h1.num.trans h2.num, h1.dir.trans h2.dir,
   h1.maxpacket.trans h2.maxpacket, h1.mult.trans h2.mult, h1.wedge.trans h2.wedge,
   h1.pending_td.trans h2.pending_td⟩

theorem reqSame.req_refl (a : ci_hw_req) : reqSame a a := ⟨rfl, rfl, rfl, rfl, rfl, rfl, rfl⟩

theorem reqSame.req_trans {a b c : ci_hw_req} (h1 : reqSame a b) (h2 : reqSame b c) : reqSame a c :=
  ⟨h1.length.trans h2.length, h1.buf.trans h2.buf, h1.complete.trans h2.complete,
   h1.zero.trans h2.zero, h1.no_interrupt.trans h2.no_interrupt, h1.udc_priv.trans h2.udc_priv,
   h1.multi.trans h2.multi⟩

theorem EnqFrame.enq_refl (a : ci_hdrc) : EnqFrame a a :=
  ⟨SameCtl.ctl_refl a, SameAddr.addr_refl a, rfl, fun _ => epSame.ep_refl _,
   fun _ => reqSame.req_refl _, rfl⟩

theorem EnqFrame.enq_trans {a b c : ci_hdrc} (h1 : EnqFrame a b) (h2 : EnqFrame b c) :
    EnqFrame a c :=
  ⟨h1.ctl.ctl_trans h2.ctl, h1.addr.addr_trans h2.addr, h1.completions.trans h2.completions,
   fun x => (h1.ep x).ep_trans (h2.ep x), fun x => (h1.req x).req_trans (h2.req x),
   h1.calls.trans h2.calls⟩

theorem enqFrame_emit (ci : ci_hdrc) (ev : Event) (h1 : completions [ev] = [])
    (h2 : addr_writes [ev] = []) (h3 : callbacks [ev] = []) : EnqFrame (emit ci ev) ci :=
  ⟨sameCtl_emit ci ev, ⟨rfl, rfl, by simp [h2]⟩, by simp [h1],
   fun _ => epSame.ep_refl _, fun _ => reqSame.req_refl _, by simp [h3]⟩

theorem enqFrame_setEp (ci : ci_hdrc) (i : Nat) (e : ci_hw_ep) (he : epSame e (ci.ci_hw_ep i)) :
    EnqFrame (setEp ci i e) ci := by
  refine ⟨sameCtl_setEp ci i e, ⟨rfl, rfl, rfl⟩, rfl, ?_, fun _ => reqSame.req_refl _, rfl⟩
  intro x
  by_cases hx : x = i
  · subst hx; rw [setEp_same]; exact he
  · rw [setEp_other _ _ _ _ hx]; exact epSame.ep_refl _

theorem enqFrame_setReq (ci : ci_hdrc) (h : Nat) (r : ci_hw_req) (hr : reqSame r (ci.reqs h)) :
    EnqFrame (setReq ci h r) ci := by
  refine ⟨sameCtl_setReq ci h r, ⟨rfl, rfl, rfl⟩, rfl, fun _ => epSame.ep_refl _, ?_, rfl⟩
  intro x
  by_cases hx : x = h
  · subst hx; rw [setReq_same]; exact hr
  · rw [setReq_other _ _ _ _ hx]; exact reqSame.req_refl _

theorem enqFrame_pipeid (ci : ci_hdrc) (f : Nat → Nat) : EnqFrame { ci with pipeid := f } ci :=
  ⟨sameCtl_pipeid ci f, ⟨rfl, rfl, rfl⟩, rfl, fun _ => epSame.ep_refl _,
   fun _ => reqSame.req_refl _, rfl⟩

theorem enqFrame_hw_ep_prime (ci : ci_hdrc) (num dir : Nat) (c : Bool) (e : EnqEnv) :
    EnqFrame (hw_ep_prime ci num dir c e).2 ci := by
  unfold hw_ep_prime
  simp only []
  split
  · exact EnqFrame.enq_refl _
  · split <;> exact enqFrame_emit _ _ (by rfl) (by rfl) (by rfl)

theorem enqFrame_enqueue_pipe_id (k : Hdr) (ci : ci_hdrc) (mEp : ci_hw_ep) (r : ci_hw_req) :
    EnqFrame (enqueue_pipe_id k ci mEp r) ci := by
  unfold enqueue_pipe_id
  simp only []
  split
  · exact (enqFrame_emit _ _ (by rfl) (by rfl) (by rfl)).enq_trans (enqFrame_pipeid _ _)
  · exact EnqFrame.enq_refl _

theorem enqFrame_qh_config (k : Hdr) (i h : Nat) (ci : ci_hdrc) :
    EnqFrame (qh_config k i h ci) ci := by
  unfold qh_config
  simp only []
  split
  · exact enqFrame_setEp _ _ _ (by constructor <;> rfl)
  · exact (enqFrame_setEp _ _ _ (by constructor <;> rfl)).enq_trans
      (enqFrame_enqueue_pipe_id _ _ _ _)

theorem enqFrame_arm_timer (i : Nat) (r : Int × ci_hdrc) : EnqFrame (arm_timer i r).2 r.2 := by
  unfold arm_timer
  split
  · exact (enqFrame_emit _ _ (by rfl) (by rfl) (by rfl)).enq_trans
      (enqFrame_setEp _ _ _ (by constructor <;> rfl))
  · exact EnqFrame.enq_refl _

theorem enqFrame_enqueue_prime (k : Hdr) (e : EnqEnv) (i h : Nat) (ci : ci_hdrc) :
    EnqFrame (enqueue_prime k e i h ci).2 ci := by
  unfold enqueue_prime
  exact (enqFrame_arm_timer _ _).enq_trans
    ((enqFrame_hw_ep_prime _ _ _ _ _).enq_trans (enqFrame_qh_config _ _ _ _))

theorem enqFrame_enqueue_link (k : Hdr) (e : EnqEnv) (i h : Nat) (ci : ci_hdrc) :
    EnqFrame (enqueue_link k e i h ci).2 ci := by
  unfold enqueue_link
  split
  · exact enqFrame_enqueue_prime _ _ _ _ _
  · simp only []
    split
    · exact enqFrame_setReq _ _ _ ⟨rfl, rfl, rfl, rfl, rfl, rfl, rfl⟩
    · split
      · exact (enqFrame_emit _ _ (by rfl) (by rfl) (by rfl)).enq_trans
          (enqFrame_setReq _ _ _ ⟨rfl, rfl, rfl, rfl, rfl, rfl, rfl⟩)
      · split
        · exact (enqFrame_emit _ _ (by rfl) (by rfl) (by rfl)).enq_trans
            ((enqFrame_emit _ _ (by rfl) (by rfl) (by rfl)).enq_trans
              (enqFrame_setReq _ _ _ ⟨rfl, rfl, rfl, rfl, rfl, rfl, rfl⟩))
        · exact (enqFrame_enqueue_prime _ _ _ _ _).enq_trans
            ((enqFrame_emit _ _ (by rfl) (by rfl) (by rfl)).enq_trans
              ((enqFrame_emit _ _ (by rfl) (by rfl) (by rfl)).enq_trans
                (enqFrame_setReq _ _ _ ⟨rfl, rfl, rfl, rfl, rfl, rfl, rfl⟩)))

theorem reqSame_add_td_to_list (k : Hdr) (a : Option Nat) (r : ci_hw_req) (len : Nat) :
    reqSame (add_td_to_list k a r len).2 r := by
  unfold add_td_to_list
  split
  · exact reqSame.req_refl _
  · exact ⟨rfl, rfl, rfl, rfl, rfl, rfl, rfl⟩

theorem reqSame_td_loop (k : Hdr) (cap : Nat) (alloc : Nat → Option Nat) :
    ∀ (fuel n rest : Nat) (r : ci_hw_req) (v : Nat × ci_hw_req),
      td_loop k cap alloc fuel n rest r = some v → reqSame v.2 r := by
  intro fuel
  induction fuel with
  | zero =>
    intro n rest r v hv
    unfold td_loop at hv
    split at hv
    · simp only [Option.some.injEq] at hv
      subst hv
      exact reqSame.req_refl _
    · exact absurd hv (by simp)
  | succ f ih =>
    intro n rest r v hv
    unfold td_loop at hv
    split at hv
    · simp only [Option.some.injEq] at hv
      subst hv
      exact reqSame.req_refl _
    · exact (ih _ _ _ _ hv).req_trans (reqSame_add_td_to_list _ _ _ _)

theorem reqSame_chain_sps (r : ci_hw_req) : reqSame (chain_sps r) r := by
  unfold chain_sps
  split
  · constructor <;> rfl
  · exact reqSame.req_refl _

theorem reqSame_chain_zero (k : Hdr) (e : EnqEnv) (mp n : Nat) (r : ci_hw_req) :
    reqSame (chain_zero k e mp n r) r := by
  unfold chain_zero
  split
  · exact reqSame_add_td_to_list _ _ _ _
  · exact reqSame.req_refl _

theorem reqSame_chain_terminate (r : ci_hw_req) : reqSame (chain_terminate r) r := by
  unfold chain_terminate
  constructor <;> rfl

theorem reqSame_enqueue_chain (k : Hdr) (e : EnqEnv) (mp : Nat) (r0 r5 : ci_hw_req)
    (h5 : enqueue_chain k e mp r0 = some r5) : reqSame r5 r0 := by
  unfold enqueue_chain at h5
  simp only [] at h5
  split at h5
  · exact absurd h5 (by simp)
  · next n r2 hloop =>
    simp only [Option.some.injEq] at h5
    subst h5
    refine (reqSame_chain_terminate _).req_trans ((reqSame_chain_zero _ _ _ _ _).req_trans
      ((reqSame_chain_sps _).req_trans ((reqSame_td_loop _ _ _ _ _ _ _ _ hloop).req_trans ?_)))
    split
    · exact reqSame_add_td_to_list _ _ _ _
    · exact reqSame.req_refl _

theorem enqFrame_hardware_enqueue (k : Hdr) (e : EnqEnv) (i h : Nat) (ci : ci_hdrc)
    (r : Int × ci_hdrc) (hr : _hardware_enqueue k e i h ci = some r) : EnqFrame r.2 ci := by
  unfold _hardware_enqueue at hr
  simp only [] at hr
  split at hr
  · simp only [Option.some.injEq] at hr
    subst hr
    exact EnqFrame.enq_refl _
  · split at hr
    · simp only [Option.some.injEq] at hr
      subst hr
      exact enqFrame_setReq _ _ _ (by constructor <;> rfl)
    · split at hr
      · exact absurd hr (by simp)
      · next r5 hchain =>
        have h5 := reqSame_enqueue_chain _ _ _ _ _ hchain
        have h5' : reqSame r5 (ci.reqs h) := h5.req_trans (by constructor <;> rfl)
        split at hr
        · simp only [Option.some.injEq] at hr
          subst hr
          exact enqFrame_setReq _ _ _ (reqSame.req_trans (by constructor <;> rfl) h5')
        · simp only [Option.some.injEq] at hr
          subst hr
          refine (enqFrame_enqueue_link _ _ _ _ _).enq_trans ?_
          split
          · exact (enqFrame_setReq (emit ci Event.remote_wakeup) h _
              (reqSame.req_trans (by constructor <;> rfl) h5')).enq_trans
              (enqFrame_emit ci Event.remote_wakeup (by rfl) (by rfl) (by rfl))
          · exact enqFrame_setReq _ _ _ (reqSame.req_trans (by constructor <;> rfl) h5')

/-! ## The address latch -/

theorem sameAddr_emit (ci : ci_hdrc) (ev : Event) (h2 : addr_writes [ev] = []) :
    SameAddr (emit ci ev) ci := ⟨rfl, rfl, by simp [h2]⟩

theorem sameAddr_setEp (ci : ci_hdrc) (i : Nat) (e : ci_hw_ep) : SameAddr (setEp ci i e) ci :=
  ⟨rfl, rfl, rfl⟩

theorem sameAddr_setReq (ci : ci_hdrc) (h : Nat) (r : ci_hw_req) : SameAddr (setReq ci h r) ci :=
  ⟨rfl, rfl, rfl⟩

theorem sameAddr_list_del_init (ci : ci_hdrc) (h : Nat) : SameAddr (list_del_init ci h) ci :=
  ⟨rfl, rfl, rfl⟩

theorem sameAddr_list_add_tail (ci : ci_hdrc) (i h : Nat) : SameAddr (list_add_tail ci i h) ci :=
  ⟨rfl, rfl, rfl⟩

theorem sameAddr_skip_flush (ci : ci_hdrc) (b : Bool) : SameAddr { ci with skip_flush := b } ci :=
  ⟨rfl, rfl, rfl⟩

theorem sameAddr_pipeid (ci : ci_hdrc) (f : Nat → Nat) : SameAddr { ci with pipeid := f } ci :=
  ⟨rfl, rfl, rfl⟩

theorem sameAddr_free_tds (ci : ci_hdrc) (l : List td_node) : SameAddr (free_tds ci l) ci := by
  induction l generalizing ci with
  | nil => exact SameAddr.addr_refl _
  | cons a t ih => exact (ih _).addr_trans (sameAddr_emit _ _ (by rfl))

theorem sameAddr_flush_writes (ci : ci_hdrc) (n m : Nat) : SameAddr (flush_writes ci n m) ci := by
  induction m generalizing ci with
  | zero => exact SameAddr.addr_refl _
  | succ m ih => exact (ih _).addr_trans (sameAddr_emit _ _ (by rfl))

theorem sameAddr_hw_ep_flush (ci : ci_hdrc) (num dir : Nat) (e : FlushEnv) :
    SameAddr (hw_ep_flush ci num dir e) ci := by
  unfold hw_ep_flush
  simp only []
  split
  · exact SameAddr.addr_refl _
  · split
    · exact (sameAddr_skip_flush _ _).addr_trans (sameAddr_flush_writes _ _ _)
    · exact sameAddr_flush_writes _ _ _

theorem sameAddr_hw_port_test_set (ci : ci_hdrc) (m : Nat) : SameAddr (hw_port_test_set ci m) ci :=
  ⟨rfl, rfl, by simp [hw_port_test_set]; rfl⟩

theorem sameAddr_isr_setup_status_complete {k : Hdr} (ci : ci_hdrc) (hs : ci.setaddr = false) :
    SameAddr (isr_setup_status_complete k ci) ci := by
  unfold isr_setup_status_complete
  simp only [hs, Bool.false_eq_true, if_false]
  split
  · exact sameAddr_hw_port_test_set _ _
  · exact SameAddr.addr_refl _

theorem sameAddr_call_complete {k : Hdr} (ci : ci_hdrc) (ep h : Nat) (hs : ci.setaddr = false) :
    SameAddr (call_complete k ci ep h) ci := by
  unfold call_complete
  split
  · exact SameAddr.addr_refl _
  · split
    · exact (sameAddr_isr_setup_status_complete (emit ci _) hs).addr_trans
        (sameAddr_emit _ _ (by rfl))
    · exact sameAddr_emit _ _ (by rfl)

theorem sameAddr_free_pending_td (ci : ci_hdrc) (i : Nat) :
    SameAddr (free_pending_td ci i) ci := by
  unfold free_pending_td
  split
  · exact SameAddr.addr_refl _
  · exact (sameAddr_setEp _ _ _).addr_trans (sameAddr_emit _ _ (by rfl))

theorem sameAddr_nuke_one (k : Hdr) (e : NukeEnv) (i h : Nat) (ci : ci_hdrc)
    (hs : ci.setaddr = false) : SameAddr (nuke_one k e i h ci) ci := by
  unfold nuke_one
  simp only []
  have h2 : SameAddr (list_del_init (setReq (free_tds ci (ci.reqs h).tds) h
      { ci.reqs h with tds := [] }) h) ci :=
    (sameAddr_list_del_init _ _).addr_trans ((sameAddr_setReq _ _ _).addr_trans (sameAddr_free_tds _ _))
  have key : ∀ c4 : ci_hdrc, SameAddr c4 ci → SameAddr (call_complete k c4 i h) ci := by
    intro c4 h4
    exact (sameAddr_call_complete _ _ _ (h4.setaddr.trans hs)).addr_trans h4
  apply key
  split <;> split
  · exact (sameAddr_setEp _ _ _).addr_trans ((sameAddr_setReq _ _ _).addr_trans
      ((sameAddr_emit _ _ (by rfl)).addr_trans ((sameAddr_pipeid _ _).addr_trans h2)))
  · exact (sameAddr_setEp _ _ _).addr_trans ((sameAddr_setReq _ _ _).addr_trans h2)
  · exact (sameAddr_setReq _ _ _).addr_trans
      ((sameAddr_emit _ _ (by rfl)).addr_trans ((sameAddr_pipeid _ _).addr_trans h2))
  · exact (sameAddr_setReq _ _ _).addr_trans h2

theorem sameAddr_nuke_loop (k : Hdr) (e : NukeEnv) (i : Nat) (fuel : Nat) (ci : ci_hdrc)
    (hs : ci.setaddr = false) : SameAddr (nuke_loop k e i fuel ci) ci := by
  induction fuel generalizing ci with
  | zero => exact SameAddr.addr_refl _
  | succ f ih =>
    unfold nuke_loop
    split
    · exact SameAddr.addr_refl _
    · next h t hq =>
      have h1 := sameAddr_nuke_one k e i h ci hs
      exact (ih _ (h1.setaddr.trans hs)).addr_trans h1

theorem sameAddr_ep_nuke (k : Hdr) (e : NukeEnv) (i : Nat) (ci : ci_hdrc)
    (hs : ci.setaddr = false) : SameAddr (_ep_nuke k e i ci).2 ci := by
  unfold _ep_nuke
  simp only []
  have h2 : SameAddr (hw_ep_flush (del_prime_timer ci i)
      (ci.ci_hw_ep i).num (ci.ci_hw_ep i).dir e.flush) ci :=
    (sameAddr_hw_ep_flush _ _ _ _).addr_trans (sameAddr_setEp _ _ _)
  have h3 : ∀ fuel, SameAddr (nuke_loop k e i fuel (hw_ep_flush (del_prime_timer ci i)
      (ci.ci_hw_ep i).num (ci.ci_hw_ep i).dir e.flush)) ci :=
    fun fuel => (sameAddr_nuke_loop k e i fuel _ (h2.setaddr.trans hs)).addr_trans h2
  split
  · exact (sameAddr_free_pending_td _ _).addr_trans (h3 _)
  · exact h3 _

/-! ## A flushed queue is empty -/

theorem filter_ne_length_le (h : Nat) (t : List Nat) :
    (t.filter (fun x => x != h)).length ≤ t.length := List.length_filter_le _ _

theorem nuke_loop_queue_nil (k : Hdr) (e : NukeEnv) (i : Nat) :
    ∀ (fuel : Nat) (ci : ci_hdrc), (ci.ci_hw_ep i).queue.length ≤ fuel →
      ((nuke_loop k e i fuel ci).ci_hw_ep i).queue = [] := by
  intro fuel
  induction fuel with
  | zero =>
    intro ci hle
    have : (ci.ci_hw_ep i).queue = [] := List.length_eq_zero.mp (Nat.le_zero.mp hle)
    simpa [nuke_loop] using this
  | succ f ih =>
    intro ci hle
    unfold nuke_loop
    split
    · next hq => exact hq
    · next h t hq =>
      apply ih
      rw [nuke_one_queue, hq]
      have h1 : (List.filter (fun x => x != h) (h :: t)) = List.filter (fun x => x != h) t := by
        simp [List.filter_cons]
      rw [h1]
      have h2 := filter_ne_length_le h t
      rw [hq] at hle
      simp only [List.length_cons] at hle
      omega

theorem ep_nuke_queue_nil (k : Hdr) (e : NukeEnv) (i : Nat) (ci : ci_hdrc) :
    ((_ep_nuke k e i ci).2.ci_hw_ep i).queue = [] := by
  unfold _ep_nuke
  simp only []
  have h3 := nuke_loop_queue_nil k e i _ (hw_ep_flush (del_prime_timer ci i)
      (ci.ci_hw_ep i).num (ci.ci_hw_ep i).dir e.flush) (le_refl _)
  split
  · unfold free_pending_td
    split
    · exact h3
    · rw [setEp_queue _ _ _ _ (by simp)]
      simpa using h3
  · exact h3

/-! ## Queueing without a flush -/

theorem QueueFrame.queue_refl (a : ci_hdrc) : QueueFrame a a :=
  ⟨SameCtl.ctl_refl a, SameAddr.addr_refl a, rfl, fun _ => rfl, fun _ => rfl, fun _ => rfl⟩

theorem QueueFrame.queue_trans {a b c : ci_hdrc} (h1 : QueueFrame a b) (h2 : QueueFrame b c) :
    QueueFrame a c :=
  ⟨h1.ctl.ctl_trans h2.ctl, h1.addr.addr_trans h2.addr, h1.completions.trans h2.completions,
   fun x => (h1.length x).trans (h2.length x), fun x => (h1.buf x).trans (h2.buf x),
   fun x => (h1.complete x).trans (h2.complete x)⟩

theorem queueFrame_of_enqFrame {a b : ci_hdrc} (h : EnqFrame a b) : QueueFrame a b :=
  ⟨h.ctl, h.addr, h.completions, fun x => (h.req x).length, fun x => (h.req x).buf,
   fun x => (h.req x).complete⟩

theorem queueFrame_setEp (ci : ci_hdrc) (i : Nat) (e : ci_hw_ep) : QueueFrame (setEp ci i e) ci :=
  ⟨sameCtl_setEp _ _ _, sameAddr_setEp _ _ _, rfl, fun _ => rfl, fun _ => rfl, fun _ => rfl⟩

theorem queueFrame_list_add_tail (ci : ci_hdrc) (i h : Nat) :
    QueueFrame (list_add_tail ci i h) ci :=
  ⟨sameCtl_list_add_tail _ _ _, sameAddr_list_add_tail _ _ _, rfl, fun _ => rfl, fun _ => rfl,
   fun _ => rfl⟩

theorem queueFrame_setReq (ci : ci_hdrc) (h : Nat) (r : ci_hw_req)
    (hl : r.req.length = (ci.reqs h).req.length) (hb : r.req.buf = (ci.reqs h).req.buf)
    (hc : r.req.complete = (ci.reqs h).req.complete) : QueueFrame (setReq ci h r) ci := by
  refine ⟨sameCtl_setReq _ _ _, sameAddr_setReq _ _ _, rfl, ?_, ?_, ?_⟩ <;>
  · intro x
    by_cases hx : x = h
    · subst hx; rw [setReq_same]; assumption
    · rw [setReq_other _ _ _ _ hx]

theorem neg_EINVAL_ne_zero : (-EINVAL : Int) ≠ 0 := by decide
theorem neg_EMSGSIZE_ne_zero : (-EMSGSIZE : Int) ≠ 0 := by decide
theorem neg_EAGAIN_ne_zero : (-EAGAIN : Int) ≠ 0 := by decide
theorem neg_EBUSY_ne_zero : (-EBUSY : Int) ≠ 0 := by decide
theorem neg_ESHUTDOWN_ne_zero : (-ESHUTDOWN : Int) ≠ 0 := by decide

theorem ep_queue_flushed_of_nil (k : Hdr) (e : QueueEnv) (i h : Nat) (ci : ci_hdrc)
    (hq : (ci.ci_hw_ep (ep_queue_target i h ci)).queue = []) :
    ep_queue_flushed k e i h ci = ci := by
  unfold ep_queue_flushed
  simp [hq]

theorem list_add_tail_mem (ci : ci_hdrc) (i h : Nat) :
    h ∈ ((list_add_tail ci i h).ci_hw_ep i).queue := by
  unfold list_add_tail
  simp

theorem queueFrame_ep_queue (k : Hdr) (e : QueueEnv) (i h : Nat) (ci : ci_hdrc)
    (hnf : ep_queue_flushed k e i h ci = ci) (r : Int × ci_hdrc)
    (hr : _ep_queue k e i h ci = some r) :
    QueueFrame r.2 ci ∧ (r.1 = 0 → h ∈ (r.2.ci_hw_ep (ep_queue_target i h ci)).queue) := by
  unfold _ep_queue at hr
  simp only [hnf] at hr
  split at hr
  · simp only [Option.some.injEq] at hr
    subst hr
    exact ⟨QueueFrame.queue_refl _, fun h0 => absurd h0 neg_EINVAL_ne_zero⟩
  · split at hr
    · simp only [Option.some.injEq] at hr
      subst hr
      exact ⟨QueueFrame.queue_refl _, fun h0 => absurd h0 neg_EMSGSIZE_ne_zero⟩
    · split at hr
      · simp only [Option.some.injEq] at hr
        subst hr
        exact ⟨QueueFrame.queue_refl _, fun h0 => absurd h0 neg_EAGAIN_ne_zero⟩
      · split at hr
        · simp only [Option.some.injEq] at hr
          subst hr
          exact ⟨QueueFrame.queue_refl _, fun h0 => absurd h0 neg_EBUSY_ne_zero⟩
        · split at hr
          · exact absurd hr (by simp)
          · next ret ci4 henq =>
            have hf := queueFrame_of_enqFrame (enqFrame_hardware_enqueue _ _ _ _ _ _ henq)
            have h3 : QueueFrame ci4 ci :=
              hf.queue_trans ((queueFrame_setReq _ _ _ (by rfl) (by rfl) (by rfl)).queue_trans
                (queueFrame_setEp _ _ _))
            split at hr
            · simp only [Option.some.injEq] at hr
              subst hr
              exact ⟨(queueFrame_list_add_tail _ _ _).queue_trans h3, fun _ => list_add_tail_mem _ _ _⟩
            · next hne =>
              split at hr
              · simp only [Option.some.injEq] at hr
                subst hr
                exact ⟨(queueFrame_setEp _ _ _).queue_trans h3, fun h0 => absurd h0 hne⟩
              · simp only [Option.some.injEq] at hr
                subst hr
                exact ⟨h3, fun h0 => absurd h0 hne⟩

theorem enqueue_chain_isSome_zero (k : Hdr) (e : EnqEnv) (mp : Nat) (r0 : ci_hw_req)
    (hlen : r0.req.length % U32 = 0) : (enqueue_chain k e mp r0).isSome = true := by
  unfold enqueue_chain
  simp only [hlen, if_true]
  unfold td_loop
  simp

theorem hardware_enqueue_isSome_zero (k : Hdr) (e : EnqEnv) (i h : Nat) (ci : ci_hdrc)
    (hlen : (ci.reqs h).req.length % U32 = 0) : (_hardware_enqueue k e i h ci).isSome = true := by
  unfold _hardware_enqueue
  simp only []
  split
  · rfl
  · split
    · rfl
    · have hc := enqueue_chain_isSome_zero k e (ci.ci_hw_ep i).maxpacket
        { ci.reqs h with req := (usb_gadget_map_request e.map
            { (ci.reqs h).req with status := -EALREADY }).2 } hlen
      obtain ⟨v, hv⟩ := Option.isSome_iff_exists.mp hc
      simp only [hv]
      split <;> rfl

theorem ep_queue_isSome_of (k : Hdr) (e : QueueEnv) (i h : Nat) (ci : ci_hdrc)
    (henq : ∀ j c, (c.reqs h).req.length = ((ep_queue_flushed k e i h ci).reqs h).req.length →
      (c.reqs h).req.actual = 0 → (_hardware_enqueue k e.enq j h c).isSome = true) :
    (_ep_queue k e i h ci).isSome = true := by
  unfold _ep_queue
  simp only []
  split
  · rfl
  · split
    · rfl
    · split
      · rfl
      · split
        · rfl
        · have hs := henq (ep_queue_target i h ci)
            (setReq (setEp (ep_queue_flushed k e i h ci) (ep_queue_target i h ci)
                { (ep_queue_flushed k e i h ci).ci_hw_ep (ep_queue_target i h ci) with
                  multi_req := true }) h
              { req := { ((ep_queue_flushed k e i h ci).reqs h).req with
                  status := -EINPROGRESS, actual := 0 },
                tds := ((ep_queue_flushed k e i h ci).reqs h).tds,
                multi := { ((ep_queue_flushed k e i h ci).reqs h).multi with
                  len := ((ep_queue_flushed k e i h ci).reqs h).req.length,
                  buf := ((ep_queue_flushed k e i h ci).reqs h).req.buf } })
            (by simp) (by simp)
          obtain ⟨v, hv⟩ := Option.isSome_iff_exists.mp hs
          simp only [hv]
          repeat' split
          all_goals rfl

/-! ## Halting leaves the address alone -/

theorem sameAddr_hw_ep_set_halt (ci : ci_hdrc) (num dir value : Nat) (sp : Bool) :
    SameAddr (hw_ep_set_halt ci num dir value sp).2 ci ∧
    (hw_ep_set_halt ci num dir value sp).2.address = ci.address ∧
    (hw_ep_set_halt ci num dir value sp).2.ci_hw_ep = ci.ci_hw_ep ∧
    (hw_ep_set_halt ci num dir value sp).2.reqs = ci.reqs := by
  unfold hw_ep_set_halt
  split
  · exact ⟨SameAddr.addr_refl _, rfl, rfl, rfl⟩
  · split
    · exact ⟨SameAddr.addr_refl _, rfl, rfl, rfl⟩
    · simp only []
      split
      · exact ⟨⟨rfl, rfl, by simp; rfl⟩, rfl, rfl, rfl⟩
      · exact ⟨⟨rfl, rfl, by simp; rfl⟩, rfl, rfl, rfl⟩

theorem sameAddr_halt_round (ci : ci_hdrc) (i dir value : Nat) (sp : Bool) :
    SameAddr (halt_round ci i dir value sp).2 ci ∧
    (halt_round ci i dir value sp).2.address = ci.address := by
  unfold halt_round
  simp only []
  have h1 := sameAddr_hw_ep_set_halt ci (ci.ci_hw_ep i).num dir value sp
  split
  · exact ⟨(sameAddr_setEp _ _ _).addr_trans h1.1, h1.2.1⟩
  · exact ⟨h1.1, h1.2.1⟩

theorem sameAddr_ep_set_halt (e : HaltEnv) (i value : Nat) (ci : ci_hdrc) :
    SameAddr (ep_set_halt e i value ci).2 ci ∧ (ep_set_halt e i value ci).2.address = ci.address := by
  unfold ep_set_halt
  simp only []
  split
  · exact ⟨SameAddr.addr_refl _, rfl⟩
  · split
    · exact ⟨SameAddr.addr_refl _, rfl⟩
    · have h1 := sameAddr_halt_round ci i (ci.ci_hw_ep i).dir value e.setup1
      split
      · have h2 := sameAddr_halt_round (halt_round ci i (ci.ci_hw_ep i).dir value e.setup1).2 i
          (if ((ci.ci_hw_ep i).dir == TX) = true then RX else TX) value e.setup2
        exact ⟨h2.1.addr_trans h1.1, h2.2.trans h1.2⟩
      · exact h1

/-! ## Endpoint halt -/

theorem SameIds.ids_refl (a : ci_hdrc) : SameIds a a := fun _ => ⟨rfl, rfl⟩

theorem SameIds.ids_trans {a b c : ci_hdrc} (h1 : SameIds a b) (h2 : SameIds b c) : SameIds a c :=
  fun j => ⟨(h1 j).1.trans (h2 j).1, (h1 j).2.trans (h2 j).2⟩

theorem sameIds_of_eq {a b : ci_hdrc} (h : a.ci_hw_ep = b.ci_hw_ep) : SameIds a b := by
  intro j
  rw [h]
  exact ⟨rfl, rfl⟩

theorem sameIds_setEp (ci : ci_hdrc) (i : Nat) (e : ci_hw_ep)
    (hn : e.num = (ci.ci_hw_ep i).num) (hd : e.dir = (ci.ci_hw_ep i).dir) :
    SameIds (setEp ci i e) ci := by
  intro j
  unfold setEp
  by_cases hj : j = i
  · subst hj
    simp [hn, hd]
  · simp [Function.update_noteq hj]

theorem sameIds_list_del_init (ci : ci_hdrc) (h : Nat) : SameIds (list_del_init ci h) ci :=
  fun _ => ⟨rfl, rfl⟩

theorem sameIds_free_pending_td (ci : ci_hdrc) (i : Nat) : SameIds (free_pending_td ci i) ci := by
  unfold free_pending_td
  split
  · exact SameIds.ids_refl _
  · exact (sameIds_setEp _ _ _ (by rfl) (by rfl)).ids_trans (fun _ => ⟨rfl, rfl⟩)

theorem sameIds_emit (ci : ci_hdrc) (ev : Event) : SameIds (emit ci ev) ci :=
  fun _ => ⟨rfl, rfl⟩

theorem sameIds_setReq (ci : ci_hdrc) (h : Nat) (r : ci_hw_req) : SameIds (setReq ci h r) ci :=
  fun _ => ⟨rfl, rfl⟩

theorem sameIds_pipeid (ci : ci_hdrc) (f : Nat → Nat) : SameIds { ci with pipeid := f } ci :=
  fun _ => ⟨rfl, rfl⟩

theorem sameIds_nuke_one (k : Hdr) (e : NukeEnv) (i h : Nat) (ci : ci_hdrc) :
    SameIds (nuke_one k e i h ci) ci := by
  unfold nuke_one
  simp only []
  refine (sameIds_of_eq (call_complete_ci_hw_ep _ _ _)).ids_trans ?_
  have h2 : SameIds (list_del_init (setReq (free_tds ci (ci.reqs h).tds) h
      { ci.reqs h with tds := [] }) h) ci :=
    (sameIds_list_del_init _ _).ids_trans ((sameIds_setReq _ _ _).ids_trans
      (sameIds_of_eq (free_tds_ci_hw_ep _ _)))
  split <;> split
  · exact (sameIds_setEp _ _ _ (by rfl) (by rfl)).ids_trans ((sameIds_setReq _ _ _).ids_trans
      ((sameIds_emit _ _).ids_trans ((sameIds_pipeid _ _).ids_trans h2)))
  · exact (sameIds_setEp _ _ _ (by rfl) (by rfl)).ids_trans ((sameIds_setReq _ _ _).ids_trans h2)
  · exact (sameIds_setReq _ _ _).ids_trans
      ((sameIds_emit _ _).ids_trans ((sameIds_pipeid _ _).ids_trans h2))
  · exact (sameIds_setReq _ _ _).ids_trans h2

theorem sameIds_nuke_loop (k : Hdr) (e : NukeEnv) (i : Nat) (fuel : Nat) (ci : ci_hdrc) :
    SameIds (nuke_loop k e i fuel ci) ci := by
  induction fuel generalizing ci with
  | zero => exact SameIds.ids_refl _
  | succ f ih =>
    unfold nuke_loop
    split
    · exact SameIds.ids_refl _
    · exact (ih _).ids_trans (sameIds_nuke_one _ _ _ _ _)

theorem sameIds_ep_nuke (k : Hdr) (e : NukeEnv) (i : Nat) (ci : ci_hdrc) :
    SameIds (_ep_nuke k e i ci).2 ci := by
  unfold _ep_nuke
  simp only []
  have h2 : SameIds (hw_ep_flush (del_prime_timer ci i)
      (ci.ci_hw_ep i).num (ci.ci_hw_ep i).dir e.flush) ci :=
    (sameIds_of_eq (hw_ep_flush_ci_hw_ep _ _ _ _)).ids_trans (sameIds_setEp _ _ _ (by rfl) (by rfl))
  split
  · exact (sameIds_free_pending_td _ _).ids_trans ((sameIds_nuke_loop _ _ _ _ _).ids_trans h2)
  · exact (sameIds_nuke_loop _ _ _ _ _).ids_trans h2

theorem hw_ep_set_halt_keeps (ci : ci_hdrc) (num dir : Nat) (sp : Bool) (n d : Nat)
    (h : hw_ep_get_halt ci n d = 1) :
    hw_ep_get_halt (hw_ep_set_halt ci num dir 1 sp).2 n d = 1 := by
  unfold hw_ep_set_halt
  have h1 : ((1 : Nat) != 0 && (1 : Nat) != 1) = false := by decide
  simp only [h1]
  cases sp
  · unfold hw_ep_get_halt at h ⊢
    by_cases hd : (dir != 0) = true <;> by_cases hd2 : (d != 0) = true <;>
      by_cases hn : n = num <;>
      simp_all [emit, Function.update]
  · simpa using h

theorem hw_ep_set_halt_sets (ci : ci_hdrc) (num dir : Nat) :
    hw_ep_get_halt (hw_ep_set_halt ci num dir 1 false).2 num dir = 1 := by
  unfold hw_ep_set_halt hw_ep_get_halt
  have h1 : ((1 : Nat) != 0 && (1 : Nat) != 1) = false := by decide
  simp only [h1]
  by_cases hd : (dir != 0) = true <;> simp_all [emit, Function.update]

/-! ## Flushing an endpoint -/

/-- C1: for an endpoint whose queue holds the (distinct) requests r1..rn, each
with a non-null completion callback, `_ep_nuke` returns 0, invokes exactly the
n completion callbacks of r1..rn, in that order, each seeing the status
-ESHUTDOWN, and leaves the endpoint's queue empty. -/
theorem ep_nuke_completes_queue_in_order (k : Hdr) (e : NukeEnv) (i : Nat) (ci : ci_hdrc)
    (hnd : (ci.ci_hw_ep i).queue.Nodup)
    (hcb : ∀ h ∈ (ci.ci_hw_ep i).queue, (ci.reqs h).req.complete ≠ none) :
    (_ep_nuke k e i ci).1 = 0 ∧
    ((_ep_nuke k e i ci).2.ci_hw_ep i).queue = [] ∧
    completions (_ep_nuke k e i ci).2.trace
      = completions ci.trace ++ (ci.ci_hw_ep i).queue.map (fun h => (h, -ESHUTDOWN)) := by
  have hq2 : ((hw_ep_flush (del_prime_timer ci i)
        (ci.ci_hw_ep i).num (ci.ci_hw_ep i).dir e.flush).ci_hw_ep i).queue
      = (ci.ci_hw_ep i).queue := by simp
  have hspec := nuke_loop_spec k e i (ci.ci_hw_ep i).queue
    (ci.ci_hw_ep i).queue.length
    (hw_ep_flush (del_prime_timer ci i) (ci.ci_hw_ep i).num (ci.ci_hw_ep i).dir e.flush)
    hq2 hnd (le_refl _)
    (by
      intro h hh
      have := hcb h hh
      simpa [Option.isSome_iff_ne_none] using this)
  refine ⟨rfl, ?_, ?_⟩
  · unfold _ep_nuke
    simp only [hq2]
    split
    · unfold free_pending_td
      split
      · exact hspec.1
      · rw [setEp_queue _ _ _ _ (by simp)]
        simpa using hspec.1
    · exact hspec.1
  · unfold _ep_nuke
    simp only [hq2]
    split
    · unfold free_pending_td
      split
      · simpa using hspec.2
      · simpa using hspec.2
    · simpa using hspec.2

/-- Sample state for C1: the bulk OUT endpoint at index 1 holds the requests
10, 11 and 12. -/
theorem ep_nuke_completes_queue_in_order_witness :
    completions (_ep_nuke hdr0 nuke_env_ok 1
        (setEp ci_sample 1 { ci_sample.ci_hw_ep 1 with queue := [10, 11, 12] })).2.trace
      = [(10, -ESHUTDOWN), (11, -ESHUTDOWN), (12, -ESHUTDOWN)] ∧
    ((_ep_nuke hdr0 nuke_env_ok 1
        (setEp ci_sample 1 { ci_sample.ci_hw_ep 1 with queue := [10, 11, 12] })).2.ci_hw_ep 1).queue
      = [] :=
  have h := ep_nuke_completes_queue_in_order hdr0 nuke_env_ok 1
    (setEp ci_sample 1 { ci_sample.ci_hw_ep 1 with queue := [10, 11, 12] })
    (by decide) (by decide)
  ⟨h.2.2, h.2.1⟩

/-! ## Dequeueing and queueing -/

/-- C2: for every endpoint, enabled or not, and every request that is on no
queue, `ep_dequeue` returns -EINVAL and leaves the whole driver state as it
was: no completion callback is invoked and every queue keeps its members,
their order and their statuses. -/
theorem ep_dequeue_unqueued_einval {k : Hdr} (e : DequeueEnv) (i h : Nat) (ci : ci_hdrc)
    (hq : onQueue ci h = false) :
    (ep_dequeue k e i h ci).1 = -EINVAL ∧ (ep_dequeue k e i h ci).2 = ci ∧
    completions (ep_dequeue k e i h ci).2.trace = completions ci.trace ∧
    ∀ j, ((ep_dequeue k e i h ci).2.ci_hw_ep j).queue = (ci.ci_hw_ep j).queue := by
  have hres : ep_dequeue k e i h ci = (-EINVAL, ci) := by
    unfold ep_dequeue
    simp [hq]
  rw [hres]
  exact ⟨rfl, rfl, rfl, fun _ => rfl⟩

/-- Sample for C2: request 11 is not queued on the controller that holds
request 10 on its bulk OUT endpoint. -/
theorem ep_dequeue_unqueued_einval_witness :
    (ep_dequeue hdr0 { flush1 := flush_ok, flush2 := flush_ok } 1 11 ci_queued).1 = -EINVAL ∧
    ((ep_dequeue hdr0 { flush1 := flush_ok, flush2 := flush_ok } 1 11 ci_queued).2.ci_hw_ep 1).queue
      = [10] :=
  have h := ep_dequeue_unqueued_einval { flush1 := flush_ok, flush2 := flush_ok } 1 11 ci_queued
    (by decide)
  ⟨h.1, (h.2.2.2 1).trans (by decide)⟩

theorem onQueue_of_mem (ci : ci_hdrc) (i h : Nat) (hi : i < ci.hw_ep_max)
    (hq : h ∈ (ci.ci_hw_ep i).queue) : onQueue ci h = true := by
  unfold onQueue
  rw [List.any_eq_true]
  exact ⟨i, List.mem_range.mpr hi, by simpa using hq⟩

/-- C3 as stated fails: on the sample controller, where request 10 is queued
on the bulk OUT endpoint, queueing request 10 again is rejected with -EAGAIN,
not -EINVAL, by `_ep_queue` and by `ep_queue`; and on endpoint 0 queueing the
queued request 20 again is not rejected at all: the queue is flushed (request
20 completes with -ESHUTDOWN) and the request is queued afresh with result 0. -/
theorem ep_queue_requeue_counterexample :
    (ci_queued.ci_hw_ep 1).queue = [10] ∧
    (_ep_queue hdr0 queue_env_ok 1 10 ci_queued).map Prod.fst = some (-EAGAIN) ∧
    (ep_queue hdr0 queue_env_ok 1 10 ci_queued).map Prod.fst = some (-EAGAIN) ∧
    (-EAGAIN : Int) ≠ -EINVAL ∧
    (ci_ctrl_queued.ci_hw_ep 0).queue = [20] ∧
    (_ep_queue hdr0 queue_env_ok 2 20 ci_ctrl_queued).map
        (fun r => (r.1, completions r.2.trace)) = some (0, [(20, -ESHUTDOWN)]) := by
  decide

/-- C3 amended: on an enabled endpoint that is not a control endpoint,
queueing a request that is already on that endpoint's queue is rejected and
nothing changes (the state returned is the state given).  The error is
-EMSGSIZE for an over-long isochronous request, else -EAGAIN while the
endpoint's multi_req flag is set, else -EBUSY; `ep_queue` returns -ESHUTDOWN
before that when the device is not configured.  It is never -EINVAL. -/
theorem ep_queue_requeue_rejected (k : Hdr) (e : QueueEnv) (i h : Nat) (ci : ci_hdrc)
    (d : usb_endpoint_descriptor) (hdesc : (ci.ci_hw_ep i).desc = some d)
    (hty : (ci.ci_hw_ep i).type ≠ USB_ENDPOINT_XFER_CONTROL)
    (hi : i < ci.hw_ep_max) (hq : h ∈ (ci.ci_hw_ep i).queue) :
    ∃ err : Int,
      err = (if usb_endpoint_xfer_isoc d = true ∧
                (ci.reqs h).req.length > (1 + (ci.ci_hw_ep i).mult) * (ci.ci_hw_ep i).maxpacket
             then -EMSGSIZE
             else if (ci.ci_hw_ep i).multi_req = true then -EAGAIN else -EBUSY) ∧
      err ≠ -EINVAL ∧
      _ep_queue k e i h ci = some (err, ci) ∧
      ep_queue k e i h ci = some (if ci.configured = true then err else -ESHUTDOWN, ci) := by
  have hon := onQueue_of_mem ci i h hi hq
  have hty2 : ((ci.ci_hw_ep i).type == USB_ENDPOINT_XFER_CONTROL) = false := by
    simpa using hty
  have hcore : _ep_queue k e i h ci = some
      ((if usb_endpoint_xfer_isoc d = true ∧
            (ci.reqs h).req.length > (1 + (ci.ci_hw_ep i).mult) * (ci.ci_hw_ep i).maxpacket
        then -EMSGSIZE
        else if (ci.ci_hw_ep i).multi_req = true then -EAGAIN else -EBUSY), ci) := by
    unfold _ep_queue ep_queue_flushed ep_queue_target isoc_too_long
    simp only [hdesc, hty2, Option.isNone_some, Bool.false_and, Bool.false_eq_true, if_false]
    by_cases hiso : usb_endpoint_xfer_isoc d = true ∧
        (ci.reqs h).req.length > (1 + (ci.ci_hw_ep i).mult) * (ci.ci_hw_ep i).maxpacket
    · simp [hiso]
    · have hiso2 : ¬ (usb_endpoint_xfer_isoc d = true ∧
          (1 + (ci.ci_hw_ep i).mult) * (ci.ci_hw_ep i).maxpacket < (ci.reqs h).req.length) := hiso
      by_cases hm : (ci.ci_hw_ep i).multi_req = true
      · simp [hiso, hiso2, hm]
      · simp [hiso, hiso2, hm, hon]
  refine ⟨_, rfl, ?_, ?_, ?_⟩
  · split
    · decide
    · split <;> decide
  · exact hcore
  · unfold ep_queue
    by_cases hc : ci.configured = true
    · simp only [hdesc, hc, Option.isNone_some, Bool.false_eq_true, if_false, Bool.not_true,
        Bool.false_and, if_true]
      exact hcore
    · have hty3 : ((ci.ci_hw_ep i).type != USB_ENDPOINT_XFER_CONTROL) = true := by
        simpa using hty
      simp [hdesc, hc, hty3]

/-- Sample for C3 amended: request 10 queued twice on the bulk OUT endpoint. -/
theorem ep_queue_requeue_rejected_witness :
    _ep_queue hdr0 queue_env_ok 1 10 ci_queued = some (-EAGAIN, ci_queued) ∧
    ep_queue hdr0 queue_env_ok 1 10 ci_queued = some (-EAGAIN, ci_queued) := by
  obtain ⟨err, herr, _, h1, h2⟩ := ep_queue_requeue_rejected hdr0 queue_env_ok 1 10 ci_queued
    (bulk_desc 1) (by decide) (by decide) (by decide) (by decide)
  have hv : err = -EAGAIN := by rw [herr]; decide
  subst hv
  exact ⟨h1, by simpa using h2⟩

/-- C4, evaluated: on the sample controller request 10 is in flight on the
bulk OUT endpoint (queued by `_ep_queue`, its descriptor still active).
`_ep_queue` of the fresh request 11 returns -EAGAIN, the queue still holds
request 10 alone, and the link word of request 10's last descriptor is still
the terminate sentinel: `_ep_queue` has set multi_req for request 10 and turns
the next request away before `_hardware_enqueue` is reached. -/
theorem ep_queue_second_request_eagain :
    (ci_queued.ci_hw_ep 1).queue = [10] ∧
    (ci_queued.ci_hw_ep 1).multi_req = true ∧
    ((ci_queued.reqs 10).tds.map (fun nd => (nd.ptr.active, nd.ptr.next)))
      = [(true, Link.terminate)] ∧
    onQueue ci_queued 11 = false ∧
    (_ep_queue hdr0 queue_env_ok 1 11 ci_queued).map
        (fun r => (r.1, (r.2.ci_hw_ep 1).queue, (r.2.reqs 10).tds.map (fun nd => nd.ptr.next)))
      = some (-EAGAIN, [10], [Link.terminate]) := by
  decide

/-- C5, evaluated: request 10 (512 bytes, one full packet, `zero` set) needs a
data descriptor and a zero-length descriptor.  When the second allocation
fails, add_td_to_list returns -ENOMEM, yet `_ep_queue` returns 0 and the
request is on the queue, with a chain of one descriptor instead of two. -/
theorem ep_queue_alloc_failure_not_reported :
    (add_td_to_list hdr0 (enq_env_second_fails.alloc 1) (ci_zero.reqs 10) 0).1 = -ENOMEM ∧
    (_ep_queue hdr0 { nuke := nuke_env_ok, enq := enq_env_second_fails } 1 10 ci_zero).map
        (fun r => (r.1, (r.2.ci_hw_ep 1).queue, (r.2.reqs 10).tds.length))
      = some (0, [10], 1) ∧
    (_ep_queue hdr0 queue_env_ok 1 10 ci_zero).map
        (fun r => (r.1, (r.2.ci_hw_ep 1).queue, (r.2.reqs 10).tds.length))
      = some (0, [10], 2) := by
  decide

/-- C8, evaluated: a request of 20480 bytes, more than 4 * CI13XXX_PAGE_SIZE =
16384, queued through `_ep_queue` is handed to `_hardware_enqueue` in full: it
is queued with `req.length` 20480 and a chain that covers all 20480 bytes. -/
theorem ep_queue_primes_full_length :
    4 * hdr0.CI13XXX_PAGE_SIZE = 16384 ∧
    (ci_big.reqs 10).req.length = 20480 ∧
    (_ep_queue hdr0 queue_env_ok 1 10 ci_big).map
        (fun r => (r.1, (r.2.ci_hw_ep 1).queue, (r.2.reqs 10).req.length,
                   (r.2.reqs 10).multi.len,
                   (r.2.reqs 10).tds.map (fun nd => nd.ptr.total_bytes)))
      = some (0, [10], 20480, 20480, [20480]) := by
  decide

/-! ## Queueing while suspended -/

theorem onQueue_congr (a b : ci_hdrc) (h : Nat) (hmax : a.hw_ep_max = b.hw_ep_max)
    (hq : ∀ x, (a.ci_hw_ep x).queue = (b.ci_hw_ep x).queue) : onQueue a h = onQueue b h := by
  unfold onQueue
  rw [hmax]
  congr 1
  funext x
  rw [hq x]

theorem prime_writes_append (a b : List Event) :
    prime_writes (a ++ b) = prime_writes a ++ prime_writes b := by
  simp [prime_writes, List.filterMap_append]

theorem hardware_enqueue_suspended (k : Hdr) (e : EnqEnv) (i h : Nat) (ci : ci_hdrc)
    (hs : ci.suspended = true) (hrw : ci.remote_wakeup = false)
    (hst : (ci.reqs h).req.status ≠ -EALREADY) (hmap : e.map.ret = 0)
    (r : Int × ci_hdrc) (hr : _hardware_enqueue k e i h ci = some r) :
    r.1 = -EAGAIN ∧ (r.2.reqs h).req.status = -EAGAIN ∧ r.2.trace = ci.trace ∧
    r.2.ci_hw_ep = ci.ci_hw_ep ∧ SameCtl r.2 ci := by
  unfold _hardware_enqueue at hr
  simp only [hst, if_false, usb_gadget_map_request, hmap, ne_eq, not_true_eq_false, hs, hrw,
    Bool.not_false, Bool.and_self, if_true] at hr
  split at hr
  · exact absurd hr (by simp)
  · simp only [Option.some.injEq] at hr
    subst hr
    exact ⟨rfl, by simp, rfl, rfl, sameCtl_setReq _ _ _⟩

theorem enqueue_chain_isSome (k : Hdr) (e : EnqEnv) (mp : Nat) (r0 : ci_hw_req)
    (hk : k.sane) (halloc : ∀ m, (e.alloc m).isSome = true)
    (hact : r0.req.actual = 0) (hlen : r0.req.length < U32) :
    (enqueue_chain k e mp r0).isSome = true := by
  unfold enqueue_chain
  simp only []
  have hl : (td_loop k (td_capacity k r0.req.dma) e.alloc
        (r0.req.length % U32) (if r0.req.length % U32 = 0 then 1 else 0) (r0.req.length % U32)
        (if r0.req.length % U32 = 0 then (add_td_to_list k (e.alloc 0) r0 0).2 else r0)).isSome
      = true := by
    by_cases h0 : r0.req.length % U32 = 0
    · simp only [h0, if_true]
      unfold td_loop
      simp
    · simp only [h0, if_false]
      apply td_loop_isSome k _ e.alloc halloc (cap_pos k hk _ (by split <;> simp))
      · exact hlen
      · rw [hact, Nat.mod_eq_of_lt hlen]; simp
      · exact le_refl _
  obtain ⟨⟨n, r2⟩, hv⟩ := Option.isSome_iff_exists.mp hl
  rw [hv]
  rfl

theorem hardware_enqueue_isSome (k : Hdr) (e : EnqEnv) (i h : Nat) (ci : ci_hdrc)
    (hk : k.sane) (halloc : ∀ m, (e.alloc m).isSome = true)
    (hact : (ci.reqs h).req.actual = 0) (hlen : (ci.reqs h).req.length < U32) :
    (_hardware_enqueue k e i h ci).isSome = true := by
  unfold _hardware_enqueue
  simp only []
  split
  · rfl
  · split
    · rfl
    · have hc := enqueue_chain_isSome k e (ci.ci_hw_ep i).maxpacket
        { ci.reqs h with req := (usb_gadget_map_request e.map
            { (ci.reqs h).req with status := -EALREADY }).2 } hk halloc hact hlen
      obtain ⟨v, hv⟩ := Option.isSome_iff_exists.mp hc
      simp only [hv]
      split <;> rfl

/-- C6: when the controller is suspended and remote wakeup is disabled (and
the mapping call succeeds): `_hardware_enqueue` of a request that is not
already in the -EALREADY state returns only -EAGAIN, with the request's status
set to -EAGAIN and no write to the prime register, and it does return when the
descriptor allocations succeed; `_ep_queue` of a request it admits then returns
only -EAGAIN, leaves every queue as it was after the control-endpoint
prologue, so the request is on no queue, and leaves the multi_req flag of the
endpoint false, and it returns as well. -/
theorem suspended_enqueue_eagain (k : Hdr) (e : QueueEnv) (i h : Nat) (ci : ci_hdrc)
    (hs : ci.suspended = true) (hrw : ci.remote_wakeup = false) (hmap : e.enq.map.ret = 0) :
    ((ci.reqs h).req.status ≠ -EALREADY →
      (∀ r, _hardware_enqueue k e.enq i h ci = some r →
        r.1 = -EAGAIN ∧ (r.2.reqs h).req.status = -EAGAIN ∧
        prime_writes r.2.trace = prime_writes ci.trace) ∧
      (k.sane → (∀ m, (e.enq.alloc m).isSome = true) → (ci.reqs h).req.actual = 0 →
        (ci.reqs h).req.length < U32 → (_hardware_enqueue k e.enq i h ci).isSome = true)) ∧
    (ep_queue_admits k e i h ci = true →
      (∀ r, _ep_queue k e i h ci = some r →
        r.1 = -EAGAIN ∧ onQueue r.2 h = false ∧
        (∀ x, (r.2.ci_hw_ep x).queue = ((ep_queue_flushed k e i h ci).ci_hw_ep x).queue) ∧
        (r.2.ci_hw_ep (ep_queue_target i h ci)).multi_req = false) ∧
      (k.sane → (∀ m, (e.enq.alloc m).isSome = true) →
        ((ep_queue_flushed k e i h ci).reqs h).req.length < U32 →
        (_ep_queue k e i h ci).isSome = true)) := by
  constructor
  · intro hst
    refine ⟨?_, ?_⟩
    · intro r hr
      have hh := hardware_enqueue_suspended k e.enq i h ci hs hrw hst hmap r hr
      exact ⟨hh.1, hh.2.1, by rw [hh.2.2.1]⟩
    · intro hk halloc hact hlen
      exact hardware_enqueue_isSome k e.enq i h ci hk halloc hact hlen
  · intro hadm
    unfold ep_queue_admits at hadm
    simp only [Bool.and_eq_true, Bool.not_eq_true', Option.isSome_iff_ne_none] at hadm
    obtain ⟨⟨⟨hdesc, hiso⟩, hmr⟩, honq⟩ := hadm
    have hdesc2 : (ci.ci_hw_ep i).desc.isNone = false := by
      cases hd : (ci.ci_hw_ep i).desc with
      | none => exact absurd hd hdesc
      | some d => rfl
    have hctl := sameCtl_ep_queue_flushed k e i h ci
    refine ⟨?_, ?_⟩
    · intro r hr
      unfold _ep_queue at hr
      simp only [hdesc2, Bool.false_eq_true, if_false, hiso, hmr, honq] at hr
      split at hr
      · exact absurd hr (by simp)
      · next ret ci4 henq =>
        have hh := hardware_enqueue_suspended k e.enq _ h _
          (by simp only [setReq, setEp]; rw [hctl.suspended]; exact hs)
          (by simp only [setReq, setEp]; rw [hctl.remote_wakeup]; exact hrw)
          (by simp; decide) hmap _ henq
        obtain ⟨hret, _, _, hep, hsame⟩ := hh
        simp only at hret hep hsame
        subst hret
        have hne1 : ¬ ((-EAGAIN : Int) = -EALREADY) := by decide
        have hne2 : ¬ ((-EAGAIN : Int) = 0) := by decide
        have hmr4 : (ci4.ci_hw_ep (ep_queue_target i h ci)).multi_req = true := by
          rw [hep]; simp
        simp only [clear_ealready, hne1, if_false, hne2, hmr4, if_true, Option.some.injEq] at hr
        subst hr
        have hq : ∀ x, ((setEp ci4 (ep_queue_target i h ci)
              { ci4.ci_hw_ep (ep_queue_target i h ci) with multi_req := false }).ci_hw_ep x).queue
            = ((ep_queue_flushed k e i h ci).ci_hw_ep x).queue := by
          intro x
          rw [setEp_queue _ _ _ _ (by simp), hep]
          simp only [setReq_ci_hw_ep]
          rw [setEp_queue _ _ _ _ (by simp)]
        refine ⟨rfl, ?_, hq, by simp⟩
        rw [onQueue_congr _ (ep_queue_flushed k e i h ci) h ?_ hq]
        · exact honq
        · exact ((sameCtl_setEp _ _ _).ctl_trans hsame).hw_ep_max.trans
            ((sameCtl_setReq _ _ _).ctl_trans (sameCtl_setEp _ _ _)).hw_ep_max
    · intro hk halloc hlen
      unfold _ep_queue
      simp only [hdesc2, Bool.false_eq_true, if_false, hiso, hmr, honq]
      have hsome := hardware_enqueue_isSome k e.enq (ep_queue_target i h ci) h
        (setReq (setEp (ep_queue_flushed k e i h ci) (ep_queue_target i h ci)
            { (ep_queue_flushed k e i h ci).ci_hw_ep (ep_queue_target i h ci) with
              multi_req := true }) h
          { req := { ((ep_queue_flushed k e i h ci).reqs h).req with
              status := -EINPROGRESS, actual := 0 },
            tds := ((ep_queue_flushed k e i h ci).reqs h).tds,
            multi := { ((ep_queue_flushed k e i h ci).reqs h).multi with
              len := ((ep_queue_flushed k e i h ci).reqs h).req.length,
              buf := ((ep_queue_flushed k e i h ci).reqs h).req.buf } })
        hk halloc (by simp) (by simpa using hlen)
      obtain ⟨v, hv⟩ := Option.isSome_iff_exists.mp hsome
      simp only [hv]
      repeat' split
      all_goals simp

/-- Sample for C6: request 10 on the bulk OUT endpoint of the suspended sample
controller. -/
theorem suspended_enqueue_eagain_witness :
    (_hardware_enqueue hdr0 queue_env_ok.enq 1 10 ci_suspended).map
        (fun r => (r.1, (r.2.reqs 10).req.status, prime_writes r.2.trace))
      = some (-EAGAIN, -EAGAIN, []) ∧
    (_ep_queue hdr0 queue_env_ok 1 10 ci_suspended).map
        (fun r => (r.1, onQueue r.2 10, (r.2.ci_hw_ep 1).queue, (r.2.ci_hw_ep 1).multi_req))
      = some (-EAGAIN, false, [], false) := by
  have h := suspended_enqueue_eagain hdr0 queue_env_ok 1 10 ci_suspended
    (by decide) (by decide) (by decide)
  have hk : hdr0.sane := by unfold Hdr.sane; decide
  have h1 := h.1 (by decide)
  have h2 := h.2 (by decide)
  obtain ⟨r, hr⟩ := Option.isSome_iff_exists.mp
    (h1.2 hk (fun _ => rfl) (by decide) (by decide))
  obtain ⟨q, hq⟩ := Option.isSome_iff_exists.mp (h2.2 hk (fun _ => rfl) (by decide))
  have hr1 := h1.1 r hr
  have hq1 := h2.1 q hq
  have ht : ep_queue_target 1 10 ci_suspended = 1 := by decide
  have hf : ((ep_queue_flushed hdr0 queue_env_ok 1 10 ci_suspended).ci_hw_ep 1).queue = [] := by
    decide
  have hp : prime_writes ci_suspended.trace = [] := by decide
  rw [hr, hq]
  simp only [Option.map_some']
  rw [hr1.1, hr1.2.1, hr1.2.2, hp, hq1.1, hq1.2.1, hq1.2.2.1 1, hf]
  rw [ht] at hq1
  rw [hq1.2.2.2]
  exact ⟨rfl, rfl⟩

theorem hw_ep_get_halt_congr {a b : ci_hdrc} (h : SameCtl a b) (n d : Nat) :
    hw_ep_get_halt a n d = hw_ep_get_halt b n d := by
  unfold hw_ep_get_halt
  rw [h.rxs, h.txs]

theorem halt_round_one (ci : ci_hdrc) (i dir : Nat) (sp : Bool) :
    halt_round ci i dir 1 sp = hw_ep_set_halt ci (ci.ci_hw_ep i).num dir 1 sp := by
  unfold halt_round
  simp

theorem ep_set_halt_sets_bit (e : HaltEnv) (i : Nat) (ci : ci_hdrc) (hs : e.setup1 = false)
    (h0 : (ep_set_halt e i 1 ci).1 = 0) :
    hw_ep_get_halt (ep_set_halt e i 1 ci).2 (ci.ci_hw_ep i).num (ci.ci_hw_ep i).dir = 1 := by
  unfold ep_set_halt at h0 ⊢
  simp only [halt_round_one, hs] at h0 ⊢
  split
  · next hd =>
    simp only [hd, if_true] at h0
    exact absurd h0 neg_EINVAL_ne_zero
  · next hd =>
    simp only [hd] at h0
    split
    · next hb =>
      simp only [hb, if_true] at h0
      exact absurd h0 neg_EAGAIN_ne_zero
    · split
      · exact hw_ep_set_halt_keeps _ _ _ _ _ _ (hw_ep_set_halt_sets _ _ _)
      · exact hw_ep_set_halt_sets _ _ _

theorem sameCtl_ep_queue (k : Hdr) (e : QueueEnv) (i h : Nat) (ci : ci_hdrc)
    (r : Int × ci_hdrc) (hr : _ep_queue k e i h ci = some r) : SameCtl r.2 ci := by
  have hfl := sameCtl_ep_queue_flushed k e i h ci
  unfold _ep_queue at hr
  simp only [] at hr
  generalize ep_queue_flushed k e i h ci = c1 at hfl hr
  split at hr
  · simp only [Option.some.injEq] at hr
    subst hr
    exact SameCtl.ctl_refl _
  · split at hr
    · simp only [Option.some.injEq] at hr
      subst hr
      exact hfl
    · split at hr
      · simp only [Option.some.injEq] at hr
        subst hr
        exact hfl
      · split at hr
        · simp only [Option.some.injEq] at hr
          subst hr
          exact hfl
        · split at hr
          · exact absurd hr (by simp)
          · next ret ci4 henq =>
            have hf := (enqFrame_hardware_enqueue _ _ _ _ _ _ henq).ctl
            have h3 : SameCtl ci4 ci :=
              hf.ctl_trans ((sameCtl_setReq _ _ _).ctl_trans ((sameCtl_setEp _ _ _).ctl_trans hfl))
            split at hr
            · simp only [Option.some.injEq] at hr
              subst hr
              exact (sameCtl_list_add_tail _ _ _).ctl_trans h3
            · split at hr
              · simp only [Option.some.injEq] at hr
                subst hr
                exact (sameCtl_setEp _ _ _).ctl_trans h3
              · simp only [Option.some.injEq] at hr
                subst hr
                exact h3

theorem sameCtl_isr_setup_status_phase (k : Hdr) (e : QueueEnv) (ci : ci_hdrc)
    (r : Int × ci_hdrc) (hr : isr_setup_status_phase k e ci = some r) : SameCtl r.2 ci := by
  unfold isr_setup_status_phase at hr
  simp only [] at hr
  exact (sameCtl_ep_queue _ _ _ _ _ _ hr).ctl_trans (sameCtl_setReq _ _ _)

theorem setup_switch_set_halt {err0 : Int} (k : Hdr) (e : SetupEnv) (w : Nat) (c : ci_hdrc) :
    setup_switch k e (set_halt_pkt w) err0 c
      = if (ep_set_halt e.halt (setup_ep_index c w) 1 c).1 = 0 then
          match isr_setup_status_phase k e.queue (ep_set_halt e.halt (setup_ep_index c w) 1 c).2 with
          | none => none
          | some q => some (0, q.2)
        else some (ep_set_halt e.halt (setup_ep_index c w) 1 c) := rfl

theorem setup_switch_get_status {err0 : Int} (k : Hdr) (e : SetupEnv) (w : Nat) (c : ci_hdrc) :
    setup_switch k e (get_status_pkt w) err0 c
      = ep_queue k e.queue (ep0in c) c.status
          (setReq { c with status_data := hw_ep_get_halt c (w &&& USB_ENDPOINT_NUMBER_MASK) (addr_dir w) }
            c.status { c.reqs c.status with req := { (c.reqs c.status).req with
              complete := some Complete.isr_get_status_complete, length := 2,
              buf := c.status_buf } }) := by
  have t1 : (USB_REQ_GET_STATUS = USB_REQ_CLEAR_FEATURE) = False := by decide
  have t2 : (decide (USB_DIR_IN ||| USB_RECIP_ENDPOINT ≠ USB_DIR_IN ||| USB_RECIP_DEVICE) &&
      decide (USB_DIR_IN ||| USB_RECIP_ENDPOINT ≠ USB_DIR_IN ||| USB_RECIP_ENDPOINT) &&
      decide (USB_DIR_IN ||| USB_RECIP_ENDPOINT ≠ USB_DIR_IN ||| USB_RECIP_INTERFACE)) = false := by
    decide
  have t3 : ((USB_DIR_IN ||| USB_RECIP_ENDPOINT) &&& USB_RECIP_MASK = USB_RECIP_DEVICE) = False := by
    decide
  have t4 : ((USB_DIR_IN ||| USB_RECIP_ENDPOINT) &&& USB_RECIP_MASK = USB_RECIP_ENDPOINT) = True := by
    decide
  have t5 : ((0 : Nat) != 0) = false := by decide
  unfold setup_switch isr_get_status_response
  simp only [get_status_pkt, t1, t2, t3, t4, t5, if_true, if_false, addr_dir]
  rfl

theorem setup_ep_index_congr {a b : ci_hdrc} (h : a.hw_ep_max = b.hw_ep_max) (w : Nat) :
    setup_ep_index a w = setup_ep_index b w := by
  unfold setup_ep_index
  rw [h]

theorem set_halt_handled {err0 : Int} (k : Hdr) (e : SetupEnv) (w : Nat) (ci c1 : ci_hdrc)
    (hpkt : e.pkt = set_halt_pkt w) (hs : e.halt.setup1 = false)
    (hr : isr_setup_packet k e err0 ci = some (0, c1)) :
    hw_ep_get_halt c1 (ci.ci_hw_ep (setup_ep_index ci w)).num
      (ci.ci_hw_ep (setup_ep_index ci w)).dir = 1 := by
  have hC1 := sameCtl_ep_nuke k e.nuke_out (ep0out ci) ci
  have hI1 := sameIds_ep_nuke k e.nuke_out (ep0out ci) ci
  have hC2 := sameCtl_ep_nuke k e.nuke_in (ep0in (_ep_nuke k e.nuke_out (ep0out ci) ci).2)
    (_ep_nuke k e.nuke_out (ep0out ci) ci).2
  have hI2 := sameIds_ep_nuke k e.nuke_in (ep0in (_ep_nuke k e.nuke_out (ep0out ci) ci).2)
    (_ep_nuke k e.nuke_out (ep0out ci) ci).2
  unfold isr_setup_packet at hr
  simp only [hpkt, setup_switch_set_halt] at hr
  generalize (_ep_nuke k e.nuke_out (ep0out ci) ci).2 = ci1 at hC1 hI1 hC2 hI2 hr
  generalize (_ep_nuke k e.nuke_in (ep0in ci1) ci1).2 = ci2 at hC2 hI2 hr
  have hC : SameCtl ci2 ci := hC2.ctl_trans hC1
  have hI : SameIds ci2 ci := hI2.ids_trans hI1
  generalize hc3 : ({ ci2 with ep0_dir :=
    if (set_halt_pkt w).bRequestType &&& USB_DIR_IN != 0 then TX else RX } : ci_hdrc) = ci3 at hr
  have hm3 : ci3.hw_ep_max = ci.hw_ep_max := by
    rw [← hc3]
    exact hC.hw_ep_max
  have hI3 : ∀ j, (ci3.ci_hw_ep j).num = (ci.ci_hw_ep j).num ∧
      (ci3.ci_hw_ep j).dir = (ci.ci_hw_ep j).dir := by
    rw [← hc3]
    exact hI
  have hidx := setup_ep_index_congr hm3 w
  rw [hidx] at hr
  by_cases h0 : (ep_set_halt e.halt (setup_ep_index ci w) 1 ci3).1 = 0
  · have hbit := ep_set_halt_sets_bit e.halt (setup_ep_index ci w) ci3 hs h0
    rw [(hI3 _).1, (hI3 _).2] at hbit
    simp only [h0, if_true] at hr
    cases hq : isr_setup_status_phase k e.queue (ep_set_halt e.halt (setup_ep_index ci w) 1 ci3).2 with
    | none =>
      rw [hq] at hr
      exact absurd hr (by simp)
    | some q =>
      rw [hq] at hr
      have hC4 := sameCtl_isr_setup_status_phase _ _ _ _ hq
      simp only [lt_self_iff_false, if_false, Option.some.injEq, Prod.mk.injEq, true_and] at hr
      rw [← hr, hw_ep_get_halt_congr hC4]
      exact hbit
  · simp only [h0, if_false] at hr
    split at hr
    · simp only [Option.some.injEq, Prod.mk.injEq] at hr
      exact absurd hr.1 h0
    · simp only [Option.some.injEq, Prod.mk.injEq] at hr
      exact absurd hr.1 h0

theorem get_status_response_spec {err0 : Int} (k : Hdr) (e : SetupEnv) (w : Nat) (ci3 : ci_hdrc)
    (hd3 : ci3.ep0_dir = TX) (hq3 : (ci3.ci_hw_ep (ep0in ci3)).queue = []) (hk : k.sane)
    (halloc : ∀ m, (e.queue.enq.alloc m).isSome = true) :
    ∃ q, setup_switch k e (get_status_pkt w) err0 ci3 = some q ∧
      (q.1 = 0 →
        q.2.status_data = hw_ep_get_halt ci3 (w &&& USB_ENDPOINT_NUMBER_MASK) (addr_dir w) ∧
        ci3.status ∈ (q.2.ci_hw_ep (ep0in ci3)).queue ∧
        (q.2.reqs ci3.status).req.length = 2 ∧
        (q.2.reqs ci3.status).req.buf = ci3.status_buf ∧
        (q.2.reqs ci3.status).req.complete = some Complete.isr_get_status_complete) := by
  rw [setup_switch_get_status]
  generalize hw_ep_get_halt ci3 (w &&& USB_ENDPOINT_NUMBER_MASK) (addr_dir w) = v
  generalize hc4 : setReq { ci3 with status_data := v } ci3.status
    { ci3.reqs ci3.status with req := { (ci3.reqs ci3.status).req with
        complete := some Complete.isr_get_status_complete, length := 2,
        buf := ci3.status_buf } } = ci4
  have h4len : (ci4.reqs ci3.status).req.length = 2 := by
    rw [← hc4]
    simp
  have h4buf : (ci4.reqs ci3.status).req.buf = ci3.status_buf := by
    rw [← hc4]
    simp
  have h4cb : (ci4.reqs ci3.status).req.complete = some Complete.isr_get_status_complete := by
    rw [← hc4]
    simp
  have h4sd : ci4.status_data = v := by
    rw [← hc4]
    rfl
  have h4d : ci4.ep0_dir = TX := by
    rw [← hc4]
    exact hd3
  have h4in : ep0in ci4 = ep0in ci3 := by
    rw [← hc4]
    rfl
  have h4q : (ci4.ci_hw_ep (ep0in ci3)).queue = [] := by
    rw [← hc4]
    exact hq3
  have htgt : ep_queue_target (ep0in ci3) ci3.status ci4 = ep0in ci3 := by
    unfold ep_queue_target
    have hx : (ci4.ep0_dir == RX) = false := by
      rw [h4d]
      decide
    simp only [hx, h4in]
    split <;> rfl
  have hnf : ep_queue_flushed k e.queue (ep0in ci3) ci3.status ci4 = ci4 := by
    apply ep_queue_flushed_of_nil
    rw [htgt]
    exact h4q
  have hsome : (_ep_queue k e.queue (ep0in ci3) ci3.status ci4).isSome = true := by
    apply ep_queue_isSome_of
    intro j c hl ha
    apply hardware_enqueue_isSome k e.queue.enq j ci3.status c hk halloc ha
    rw [hl, hnf, h4len]
    decide
  obtain ⟨q, hq4⟩ := Option.isSome_iff_exists.mp hsome
  have hfr := queueFrame_ep_queue k e.queue _ _ _ hnf q hq4
  rw [htgt] at hfr
  unfold ep_queue
  by_cases hdn : (ci4.ci_hw_ep (ep0in ci3)).desc.isNone = true
  · simp only [hdn, if_true]
    exact ⟨_, rfl, fun h0 => absurd h0 neg_EINVAL_ne_zero⟩
  · by_cases hcf : (!ci4.configured &&
        (ci4.ci_hw_ep (ep0in ci3)).type != USB_ENDPOINT_XFER_CONTROL) = true
    · simp only [hdn, hcf, if_true, if_false]
      exact ⟨_, rfl, fun h0 => absurd h0 neg_ESHUTDOWN_ne_zero⟩
    · simp only [hdn, hcf, if_false, hq4]
      refine ⟨_, rfl, ?_⟩
      intro h0
      refine ⟨hfr.1.ctl.status_data.trans h4sd, hfr.2 h0, ?_, ?_, ?_⟩
      · rw [hfr.1.length, h4len]
      · rw [hfr.1.buf, h4buf]
      · rw [hfr.1.complete, h4cb]

theorem get_status_handled {err0 : Int} (k : Hdr) (e : SetupEnv) (w : Nat) (ci : ci_hdrc)
    (hpkt : e.pkt = get_status_pkt w) (hk : k.sane)
    (halloc : ∀ m, (e.queue.enq.alloc m).isSome = true) :
    ∃ r, isr_setup_packet k e err0 ci = some r ∧
      (r.1 = 0 →
        r.2.status_data = hw_ep_get_halt ci (w &&& USB_ENDPOINT_NUMBER_MASK) (addr_dir w) ∧
        ci.status ∈ (r.2.ci_hw_ep (ep0in ci)).queue ∧
        (r.2.reqs ci.status).req.length = 2 ∧
        (r.2.reqs ci.status).req.buf = ci.status_buf ∧
        (r.2.reqs ci.status).req.complete = some Complete.isr_get_status_complete) := by
  have hC1 := sameCtl_ep_nuke k e.nuke_out (ep0out ci) ci
  have hC2 := sameCtl_ep_nuke k e.nuke_in (ep0in (_ep_nuke k e.nuke_out (ep0out ci) ci).2)
    (_ep_nuke k e.nuke_out (ep0out ci) ci).2
  have hq := ep_nuke_queue_nil k e.nuke_in (ep0in (_ep_nuke k e.nuke_out (ep0out ci) ci).2)
    (_ep_nuke k e.nuke_out (ep0out ci) ci).2
  unfold isr_setup_packet
  simp only [hpkt]
  generalize (_ep_nuke k e.nuke_out (ep0out ci) ci).2 = ci1 at hC1 hC2 hq ⊢
  generalize (_ep_nuke k e.nuke_in (ep0in ci1) ci1).2 = ci2 at hC2 hq ⊢
  have hC : SameCtl ci2 ci := hC2.ctl_trans hC1
  have hdir : (if (get_status_pkt w).bRequestType &&& USB_DIR_IN != 0 then TX else RX) = TX := by
    have h0 : ((USB_DIR_IN ||| USB_RECIP_ENDPOINT) &&& USB_DIR_IN != 0) = true := by decide
    simp only [get_status_pkt, h0]
    rfl
  rw [hdir]
  have hq2 : (ci2.ci_hw_ep (ci2.hw_ep_max / 2)).queue = [] := by
    have hm : ci2.hw_ep_max = ci1.hw_ep_max := hC2.hw_ep_max
    rw [hm]
    exact hq
  obtain ⟨q, hq4, hspec⟩ := get_status_response_spec k e w { ci2 with ep0_dir := TX } rfl hq2
    hk halloc
  rw [hq4]
  have hhalt : hw_ep_get_halt { ci2 with ep0_dir := TX } (w &&& USB_ENDPOINT_NUMBER_MASK)
      (addr_dir w) = hw_ep_get_halt ci (w &&& USB_ENDPOINT_NUMBER_MASK) (addr_dir w) := by
    unfold hw_ep_get_halt
    simp only [hC.rxs, hC.txs]
  have hst : ci2.status = ci.status := hC.status
  have hsb : ci2.status_buf = ci.status_buf := hC.status_buf
  have hin : ep0in { ci2 with ep0_dir := TX } = ep0in ci := by
    unfold ep0in
    exact congrArg (fun n => n / 2) hC.hw_ep_max
  rw [hhalt, hin] at hspec
  simp only [hst, hsb] at hspec
  obtain ⟨err, c5⟩ := q
  simp only at hspec ⊢
  by_cases hneg : err < 0
  · simp only [hneg, if_true]
    refine ⟨_, rfl, ?_⟩
    intro h0
    simp only at h0
    rw [h0] at hneg
    exact absurd hneg (by decide)
  · simp only [hneg, if_false]
    exact ⟨_, rfl, hspec⟩

/-! ## SET_ADDRESS -/

theorem isr_setup_status_complete_latched {k : Hdr} (c : ci_hdrc) (hs : c.setaddr = true) :
    (isr_setup_status_complete k c).usbadr = (c.address % 256) &&& k.DEVICEADDR_USBADR ∧
    (isr_setup_status_complete k c).setaddr = false ∧
    addr_writes (isr_setup_status_complete k c).trace
      = addr_writes c.trace ++ [(c.address % 256) &&& k.DEVICEADDR_USBADR] := by
  unfold isr_setup_status_complete
  simp only [hs, if_true]
  split
  · refine ⟨rfl, rfl, ?_⟩
    simp [hw_port_test_set, hw_usb_set_address]
    rfl
  · refine ⟨rfl, rfl, ?_⟩
    simp [hw_usb_set_address]
    rfl

theorem setup_switch_set_address {err : Int} (k : Hdr) (e : SetupEnv) (v : Nat) (c : ci_hdrc) :
    setup_switch k e (set_address_pkt v) err c
      = isr_setup_status_phase k e.queue { c with address := v % 256, setaddr := true } := rfl

theorem isr_setup_status_phase_spec (k : Hdr) (e : QueueEnv) (c : ci_hdrc)
    (hq : (c.ci_hw_ep (if c.ep0_dir == TX then ep0out c else ep0in c)).queue = []) :
    ∃ r, isr_setup_status_phase k e c = some r ∧ SameCtl r.2 c ∧ SameAddr r.2 c := by
  unfold isr_setup_status_phase
  simp only []
  have htgt : ∀ j, ep_queue_target j c.status (setReq c c.status { c.reqs c.status with
      req := { (c.reqs c.status).req with
        complete := some Complete.isr_setup_status_complete, length := 0 } }) = j := by
    intro j
    unfold ep_queue_target
    simp
  have hnf : ∀ j, (c.ci_hw_ep j).queue = [] →
      ep_queue_flushed k e j c.status (setReq c c.status { c.reqs c.status with
        req := { (c.reqs c.status).req with
          complete := some Complete.isr_setup_status_complete, length := 0 } })
      = setReq c c.status { c.reqs c.status with
        req := { (c.reqs c.status).req with
          complete := some Complete.isr_setup_status_complete, length := 0 } } := by
    intro j hj
    apply ep_queue_flushed_of_nil
    rw [htgt j]
    exact hj
  have hsome := ep_queue_isSome_of k e (if c.ep0_dir == TX then ep0out c else ep0in c) c.status
    (setReq c c.status { c.reqs c.status with
      req := { (c.reqs c.status).req with
        complete := some Complete.isr_setup_status_complete, length := 0 } })
    (by
      intro j c' hl _
      apply hardware_enqueue_isSome_zero
      rw [hl, hnf _ hq]
      simp)
  obtain ⟨r, hr⟩ := Option.isSome_iff_exists.mp hsome
  have hf := (queueFrame_ep_queue k e _ _ _ (hnf _ hq) r hr).1
  exact ⟨r, hr, hf.ctl.ctl_trans (sameCtl_setReq _ _ _), hf.addr.addr_trans (sameAddr_setReq _ _ _)⟩


/-- C9 (amended): when no earlier SET_ADDRESS is still latched, handling a
SET_ADDRESS packet (whatever `err` holds before the switch) returns, leaves
the device-address register and every write to it as they were, and only
latches the address, the low 8 bits of wValue, with the setaddr flag; the
completion callback of the status request then writes the latched address to
the register under the mask DEVICEADDR_USBADR, once, and clears the flag: the
field holds the bits of the latched address that the mask has, which is the
latched address itself when it fits the field. -/
theorem set_address_deferred {err0 : Int} (k : Hdr) (e : SetupEnv) (v : Nat) (ci : ci_hdrc)
    (hpkt : e.pkt = set_address_pkt v) (hs : ci.setaddr = false) :
    ∃ err ci', isr_setup_packet k e err0 ci = some (err, ci') ∧
      ci'.usbadr = ci.usbadr ∧ addr_writes ci'.trace = addr_writes ci.trace ∧
      ci'.address = v % 256 ∧ ci'.setaddr = true ∧
      (isr_setup_status_complete k ci').usbadr = (v % 256) &&& k.DEVICEADDR_USBADR ∧
      (isr_setup_status_complete k ci').setaddr = false ∧
      addr_writes (isr_setup_status_complete k ci').trace
        = addr_writes ci.trace ++ [(v % 256) &&& k.DEVICEADDR_USBADR] ∧
      ((v % 256) &&& k.DEVICEADDR_USBADR = v % 256 →
        (isr_setup_status_complete k ci').usbadr = ci'.address) := by
  have hC1 := sameCtl_ep_nuke k e.nuke_out (ep0out ci) ci
  have hA1 := sameAddr_ep_nuke k e.nuke_out (ep0out ci) ci hs
  have hC2 := sameCtl_ep_nuke k e.nuke_in (ep0in (_ep_nuke k e.nuke_out (ep0out ci) ci).2)
    (_ep_nuke k e.nuke_out (ep0out ci) ci).2
  have hA2 := sameAddr_ep_nuke k e.nuke_in (ep0in (_ep_nuke k e.nuke_out (ep0out ci) ci).2)
    (_ep_nuke k e.nuke_out (ep0out ci) ci).2 (hA1.setaddr.trans hs)
  have hq := ep_nuke_queue_nil k e.nuke_in (ep0in (_ep_nuke k e.nuke_out (ep0out ci) ci).2)
    (_ep_nuke k e.nuke_out (ep0out ci) ci).2
  unfold isr_setup_packet
  simp only [hpkt, setup_switch_set_address]
  generalize (_ep_nuke k e.nuke_out (ep0out ci) ci).2 = ci1 at hC1 hA1 hC2 hA2 hq ⊢
  generalize (_ep_nuke k e.nuke_in (ep0in ci1) ci1).2 = ci2 at hC2 hA2 hq ⊢
  have hdir : (if (set_address_pkt v).bRequestType &&& USB_DIR_IN != 0 then TX else RX) = RX := by
    have h0 : ((USB_DIR_OUT ||| USB_RECIP_DEVICE) &&& USB_DIR_IN != 0) = false := by decide
    simp only [set_address_pkt, h0]
    rfl
  rw [hdir]
  obtain ⟨r, hr, hrC, hrA⟩ := isr_setup_status_phase_spec k e.queue
    { ci2 with ep0_dir := RX, address := v % 256, setaddr := true }
    (by
      have h0 : ((RX : Nat) == TX) = false := by decide
      simp only [h0]
      simp only [ep0in] at hq ⊢
      have hm : ci2.hw_ep_max = ci1.hw_ep_max := hC2.hw_ep_max
      rw [hm]
      exact hq)
  rw [hr]
  obtain ⟨err, ci4⟩ := r
  simp only at hrC hrA ⊢
  have key : ∀ c : ci_hdrc, SameAddr c ci4 → c.address = ci4.address →
      c.usbadr = ci.usbadr ∧ addr_writes c.trace = addr_writes ci.trace ∧
      c.address = v % 256 ∧ c.setaddr = true ∧
      (isr_setup_status_complete k c).usbadr = (v % 256) &&& k.DEVICEADDR_USBADR ∧
      (isr_setup_status_complete k c).setaddr = false ∧
      addr_writes (isr_setup_status_complete k c).trace
        = addr_writes ci.trace ++ [(v % 256) &&& k.DEVICEADDR_USBADR] ∧
      ((v % 256) &&& k.DEVICEADDR_USBADR = v % 256 →
        (isr_setup_status_complete k c).usbadr = c.address) := by
    intro c hc hca
    have hadr : c.address = v % 256 := hca.trans hrC.address
    have hset : c.setaddr = true := hc.setaddr.trans hrA.setaddr
    have hu : c.usbadr = ci.usbadr :=
      hc.usbadr.trans (hrA.usbadr.trans (hA2.usbadr.trans hA1.usbadr))
    have hw : addr_writes c.trace = addr_writes ci.trace :=
      hc.addr_writes.trans (hrA.addr_writes.trans (hA2.addr_writes.trans hA1.addr_writes))
    obtain ⟨l1, l2, l3⟩ := @isr_setup_status_complete_latched k c hset
    have hmm : c.address % 256 = v % 256 := by rw [hadr, Nat.mod_mod]
    rw [hmm] at l1 l3
    exact ⟨hu, hw, hadr, hset, l1, l2, by rw [l3, hw], fun hfit => by rw [l1, hfit, hadr]⟩
  split
  · exact ⟨_, _, rfl, key _ (sameAddr_ep_set_halt e.stall 0 1 ci4).1
      (sameAddr_ep_set_halt e.stall 0 1 ci4).2⟩
  · exact ⟨_, _, rfl, key _ (SameAddr.addr_refl _) rfl⟩


theorem set_address_deferred_witness :
    (setup_env_ok (set_address_pkt 5)).pkt = set_address_pkt 5 ∧ ci_sample.setaddr = false ∧
    ∃ err ci', isr_setup_packet hdr0 (setup_env_ok (set_address_pkt 5)) (-EINVAL) ci_sample
        = some (err, ci') ∧
      ci'.usbadr = ci_sample.usbadr ∧ addr_writes ci'.trace = addr_writes ci_sample.trace ∧
      ci'.address = 5 ∧ ci'.setaddr = true ∧
      (isr_setup_status_complete hdr0 ci').usbadr = 5 ∧
      (isr_setup_status_complete hdr0 ci').setaddr = false ∧
      addr_writes (isr_setup_status_complete hdr0 ci').trace
        = addr_writes ci_sample.trace ++ [5] := by
  obtain ⟨err, ci', h1, h2, h3, h4, h5, h6, h7, h8, _⟩ :=
    @set_address_deferred (-EINVAL) hdr0 (setup_env_ok (set_address_pkt 5)) 5 ci_sample rfl rfl
  exact ⟨rfl, rfl, err, ci', h1, h2, h3, h4, h5, h6, h7, h8⟩

/-- C9 as stated fails: on the sample controller (device address 0) a
SET_ADDRESS(5) packet is handled, which latches address 5 and queues the
status request on ep0 IN.  When a SET_ADDRESS(7) packet arrives before that
status request has completed, its handling flushes ep0 IN, the status request
completes with -ESHUTDOWN, and its callback writes 5 to the device-address
register: the handling of the packet has written the register, and the
register no longer reads the prior address although the status phase of this
packet has not completed.  And after a SET_ADDRESS(200) packet, which latches
200, the completion of the status request leaves 72 in the 7-bit address
field, not the latched value. -/
theorem set_address_written_by_next_setup :
    (isr_setup_packet hdr0 (setup_env_ok (set_address_pkt 5)) (-EINVAL) ci_sample).map
        (fun r => (r.1, r.2.usbadr, addr_writes r.2.trace)) = some (0, 0, []) ∧
    (isr_setup_packet hdr0 (setup_env_ok (set_address_pkt 5)) (-EINVAL) ci_sample).map
        (fun r => (r.2.address, r.2.setaddr, (r.2.ci_hw_ep (ep0in r.2)).queue))
      = some (5, true, [ci_sample.status]) ∧
    ((isr_setup_packet hdr0 (setup_env_ok (set_address_pkt 5)) (-EINVAL) ci_sample).bind
        (fun r => isr_setup_packet hdr0 (setup_env_ok (set_address_pkt 7)) (-EINVAL) r.2)).map
        (fun r => (r.1, r.2.usbadr, addr_writes r.2.trace)) = some (0, 5, [5]) ∧
    ((isr_setup_packet hdr0 (setup_env_ok (set_address_pkt 5)) (-EINVAL) ci_sample).bind
        (fun r => isr_setup_packet hdr0 (setup_env_ok (set_address_pkt 7)) (-EINVAL) r.2)).map
        (fun r => (r.2.address, r.2.setaddr, completions r.2.trace))
      = some (7, true, [(ci_sample.status, -ESHUTDOWN)]) ∧
    (isr_setup_packet hdr0 (setup_env_ok (set_address_pkt 200)) (-EINVAL) ci_sample).map
        (fun r => (r.2.address, (isr_setup_status_complete hdr0 r.2).usbadr))
      = some (200, 72) := by
  refine ⟨?_, ?_, ?_, ?_, ?_⟩ <;> decide!


theorem DeqFrame.deq_refl (a : ci_hdrc) : DeqFrame a a :=
  ⟨fun _ => rfl, fun _ => rfl, fun _ => reqSame.req_refl _, rfl⟩

theorem DeqFrame.deq_trans {a b c : ci_hdrc} (h1 : DeqFrame a b) (h2 : DeqFrame b c) :
    DeqFrame a c :=
  ⟨fun x => (h1.queue x).trans (h2.queue x), fun x => (h1.multi_req x).trans (h2.multi_req x),
   fun x => (h1.req x).req_trans (h2.req x), h1.calls.trans h2.calls⟩

theorem deqFrame_of_enqFrame {a b : ci_hdrc} (h : EnqFrame a b) : DeqFrame a b :=
  ⟨fun x => (h.ep x).queue, fun x => (h.ep x).multi_req, h.req, h.calls⟩

theorem deqFrame_emit (ci : ci_hdrc) (ev : Event) (h : callbacks [ev] = []) :
    DeqFrame (emit ci ev) ci :=
  ⟨fun _ => rfl, fun _ => rfl, fun _ => reqSame.req_refl _, by simp [h]⟩

theorem deqFrame_setEp (ci : ci_hdrc) (i : Nat) (e : ci_hw_ep)
    (hq : e.queue = (ci.ci_hw_ep i).queue) (hm : e.multi_req = (ci.ci_hw_ep i).multi_req) :
    DeqFrame (setEp ci i e) ci := by
  refine ⟨?_, ?_, fun _ => reqSame.req_refl _, rfl⟩
  · intro x
    by_cases hx : x = i
    · subst hx; rw [setEp_same]; exact hq
    · rw [setEp_other _ _ _ _ hx]
  · intro x
    by_cases hx : x = i
    · subst hx; rw [setEp_same]; exact hm
    · rw [setEp_other _ _ _ _ hx]

theorem deqFrame_setReq (ci : ci_hdrc) (h : Nat) (r : ci_hw_req) (hr : reqSame r (ci.reqs h)) :
    DeqFrame (setReq ci h r) ci := by
  refine ⟨fun _ => rfl, fun _ => rfl, ?_, rfl⟩
  intro x
  by_cases hx : x = h
  · subst hx; rw [setReq_same]; exact hr
  · rw [setReq_other _ _ _ _ hx]; exact reqSame.req_refl _

theorem deqFrame_fail_count (ci : ci_hdrc) (n : Nat) :
    DeqFrame { ci with dTD_update_fail_count := n } ci :=
  ⟨fun _ => rfl, fun _ => rfl, fun _ => reqSame.req_refl _, rfl⟩

theorem deqFrame_free_pending_td (ci : ci_hdrc) (i : Nat) :
    DeqFrame (free_pending_td ci i) ci := by
  unfold free_pending_td
  split
  · exact DeqFrame.deq_refl _
  · exact (deqFrame_setEp _ _ _ (by rfl) (by rfl)).deq_trans (deqFrame_emit _ _ (by rfl))

theorem deqFrame_del_prime_timer (ci : ci_hdrc) (i : Nat) :
    DeqFrame (del_prime_timer ci i) ci :=
  deqFrame_setEp _ _ _ (by rfl) (by rfl)

theorem deqFrame_dequeue_walk (i h : Nat) (tds : List td_node) :
    ∀ (actual : Nat) (status : Int) (ci : ci_hdrc),
      DeqFrame (dequeue_walk i h tds actual status ci).state ci := by
  induction tds with
  | nil =>
    intro actual status ci
    exact DeqFrame.deq_refl _
  | cons node rest ih =>
    intro actual status ci
    unfold dequeue_walk
    simp only []
    split
    · exact deqFrame_setReq _ _ _ (by constructor <;> rfl)
    · split
      · exact DeqFrame.deq_refl _
      · split
        · exact DeqFrame.deq_refl _
        · split
          · exact DeqFrame.deq_refl _
          · split
            · exact DeqFrame.deq_refl _
            · refine (ih _ _ _).deq_trans ?_
              refine (deqFrame_setReq _ _ _ (by constructor <;> rfl)).deq_trans ?_
              refine (deqFrame_setEp _ _ _ (by rfl) (by rfl)).deq_trans ?_
              split
              · exact deqFrame_free_pending_td _ _
              · exact DeqFrame.deq_refl _

theorem deqFrame_hardware_dequeue (i h : Nat) (ci : ci_hdrc) :
    DeqFrame (_hardware_dequeue i h ci).2 ci := by
  unfold _hardware_dequeue
  simp only []
  have h0 : DeqFrame (setReq ci h { ci.reqs h with req := { (ci.reqs h).req with status := 0 } })
      ci := deqFrame_setReq _ _ _ (by constructor <;> rfl)
  split
  · exact DeqFrame.deq_refl _
  · split
    · exact h0
    · have hw := deqFrame_dequeue_walk i h (ci.reqs h).tds ((ci.reqs h).req.length % U32) 0
        (setReq ci h { ci.reqs h with req := { (ci.reqs h).req with status := 0 } })
      split
      · next ci1 heq =>
        rw [heq] at hw
        exact hw.deq_trans h0
      · next ci1 actual status heq =>
        rw [heq] at hw
        have h2 : DeqFrame ci1 ci := hw.deq_trans h0
        split
        · exact (deqFrame_setReq _ _ _ (by constructor <;> rfl)).deq_trans h2
        · exact (deqFrame_setReq _ _ _ (by constructor <;> rfl)).deq_trans h2

theorem deqFrame_dequeue_retry (e : LowEnv) (i h : Nat) (rd : Bool) (ci : ci_hdrc) :
    DeqFrame (dequeue_retry e i h rd ci).2.2 ci := by
  unfold dequeue_retry
  simp only []
  have h1 := deqFrame_hardware_dequeue i h ci
  split
  · split
    · refine (deqFrame_hardware_dequeue _ _ _).deq_trans ?_
      refine (deqFrame_setReq _ _ _ (by constructor <;> rfl)).deq_trans ?_
      refine (deqFrame_setEp _ _ _ (by rfl) (by rfl)).deq_trans ?_
      exact (deqFrame_fail_count _ _).deq_trans h1
    · exact h1
  · exact h1


theorem callbacks_isr_setup_status_complete {k : Hdr} (ci : ci_hdrc) :
    callbacks (isr_setup_status_complete k ci).trace = callbacks ci.trace := by
  unfold isr_setup_status_complete
  simp only []
  split <;> split <;> simp <;> rfl

theorem call_complete_callbacks {k : Hdr} (ci : ci_hdrc) (ep h : Nat) :
    callbacks (call_complete k ci ep h).trace
      = callbacks ci.trace
        ++ (if (ci.reqs h).req.complete.isSome then [(h, (ci.reqs h).req)] else []) := by
  unfold call_complete
  split
  · next hc => simp [hc]
  · next cb hc =>
    split
    · rw [callbacks_isr_setup_status_complete]
      simp [hc]
      rfl
    · simp [hc]
      rfl

theorem inFlight_of_deqFrame {i h L B S : Nat} {a b : ci_hdrc} (hF : DeqFrame a b)
    (hin : InFlight i h L B S b) : InFlight i h L B S a :=
  ⟨(hF.queue i).trans hin.queue, (hF.multi_req i).trans hin.multi_req,
   (congrArg Multi.len (hF.req h).multi).trans hin.len,
   (congrArg Multi.buf (hF.req h).multi).trans hin.buf,
   (congrArg Multi.actual (hF.req h).multi).trans hin.actual⟩

theorem low_reslice_isSome (k : Hdr) (e : LowEnv) (i h t : Nat) (r1 : ci_hw_req) (rem : Nat)
    (c1 : ci_hdrc) (hk : k.sane) (halloc : ∀ m, ((e.enq h).alloc m).isSome = true) :
    (low_reslice k e i h t r1 rem c1).isSome = true := by
  unfold low_reslice
  simp only []
  have hs := hardware_enqueue_isSome k (e.enq h) i h
    (list_del_init (setReq c1 h (low_slice k r1 rem)) h) hk halloc
    (by simp [low_slice])
    (by
      simp only [list_del_init_reqs, setReq_same, low_slice]
      exact lt_of_le_of_lt (Nat.min_le_left _ _) (Nat.mod_lt _ (by decide)))
  obtain ⟨q, hq⟩ := Option.isSome_iff_exists.mp hs
  rw [hq]
  obtain ⟨ret, ci3⟩ := q
  simp only []
  split <;> rfl

theorem low_body_isSome (k : Hdr) (e : LowEnv) (i h : Nat) (rd : Bool) (t : Nat) (ci : ci_hdrc)
    (hk : k.sane) (halloc : ∀ m, ((e.enq h).alloc m).isSome = true) :
    (low_body k e i h rd t ci).isSome = true := by
  unfold low_body
  simp only []
  split
  · rfl
  · split
    · unfold low_multi
      simp only []
      split
      · rfl
      · exact low_reslice_isSome k e i h t _ _ _ hk halloc
    · rfl

theorem low_loop_isSome (k : Hdr) (e : LowEnv) (i : Nat) (hk : k.sane)
    (halloc : ∀ x m, ((e.enq x).alloc m).isSome = true) :
    ∀ (q : List Nat) (rv : Int) (rd : Bool) (t : Nat) (ci : ci_hdrc),
      (low_loop k e i q rv rd t ci).isSome = true := by
  intro q
  induction q with
  | nil =>
    intro rv rd t ci
    rfl
  | cons h rest ih =>
    intro rv rd t ci
    unfold low_loop
    obtain ⟨st, hst⟩ := Option.isSome_iff_exists.mp (low_body_isSome k e i h rd t ci hk (halloc h))
    rw [hst]
    cases st with
    | stop v c => rfl
    | next v t2 c => exact ih _ _ _ _

theorem isr_tr_complete_low_isSome (k : Hdr) (e : LowEnv) (i : Nat) (ci : ci_hdrc) (hk : k.sane)
    (halloc : ∀ x m, ((e.enq x).alloc m).isSome = true) :
    (isr_tr_complete_low k e i ci).isSome = true :=
  low_loop_isSome k e i hk halloc _ _ _ _ _

theorem run_passes_done (k : Hdr) (i h : Nat) (ps : List Pass) (ci : ci_hdrc)
    (hq : (ci.ci_hw_ep i).queue = []) : run_passes k i h ps ci = some ([], ci) := by
  cases ps with
  | nil => rfl
  | cons p ps =>
    unfold run_passes
    simp [hq]

theorem inFlight_pass_state (p : Pass) (i h L B S : Nat) (ci : ci_hdrc)
    (hin : InFlight i h L B S ci) : InFlight i h L B S (pass_state p h ci) := by
  unfold pass_state
  refine ⟨hin.queue, hin.multi_req, ?_, ?_, ?_⟩
  · simp [hin.len]
  · simp [hin.buf]
  · simp [hin.actual]


theorem ep_queue_in_flight (k : Hdr) (e : QueueEnv) (i h : Nat) (c0 ci : ci_hdrc)
    (hq : ((ep_queue_flushed k e i h c0).ci_hw_ep (ep_queue_target i h c0)).queue = [])
    (hr : _ep_queue k e i h c0 = some (0, ci)) :
    InFlight (ep_queue_target i h c0) h ((ep_queue_flushed k e i h c0).reqs h).req.length
      ((ep_queue_flushed k e i h c0).reqs h).req.buf
      ((ep_queue_flushed k e i h c0).reqs h).multi.actual ci ∧
    (ci.reqs h).req.length = ((ep_queue_flushed k e i h c0).reqs h).req.length ∧
    (ci.reqs h).req.buf = ((ep_queue_flushed k e i h c0).reqs h).req.buf ∧
    (ci.reqs h).req.complete = ((ep_queue_flushed k e i h c0).reqs h).req.complete := by
  unfold _ep_queue at hr
  simp only [] at hr
  generalize ep_queue_flushed k e i h c0 = c1 at hq hr ⊢
  generalize ep_queue_target i h c0 = j at hq hr ⊢
  split at hr
  · simp only [Option.some.injEq, Prod.mk.injEq] at hr
    exact absurd hr.1 neg_EINVAL_ne_zero
  · split at hr
    · simp only [Option.some.injEq, Prod.mk.injEq] at hr
      exact absurd hr.1 neg_EMSGSIZE_ne_zero
    · split at hr
      · simp only [Option.some.injEq, Prod.mk.injEq] at hr
        exact absurd hr.1 neg_EAGAIN_ne_zero
      · split at hr
        · simp only [Option.some.injEq, Prod.mk.injEq] at hr
          exact absurd hr.1 neg_EBUSY_ne_zero
        · split at hr
          · exact absurd hr (by simp)
          · next ret ci4 henq =>
            have hf := enqFrame_hardware_enqueue _ _ _ _ _ _ henq
            simp only at hf
            have hreq := hf.req h
            have hep := hf.ep j
            simp only [setReq_same] at hreq
            have hepq : (ci4.ci_hw_ep j).queue = [] := by
              rw [hep.queue]
              simp [setReq, hq]
            have hepm : (ci4.ci_hw_ep j).multi_req = true := by
              rw [hep.multi_req]
              simp [setReq]
            split at hr
            · simp only [Option.some.injEq, Prod.mk.injEq, true_and] at hr
              subst hr
              refine ⟨⟨?_, ?_, ?_, ?_, ?_⟩, ?_, ?_, ?_⟩
              · simp [list_add_tail, hepq]
              · simp [list_add_tail, hepm]
              · show (ci4.reqs h).multi.len = _
                rw [hreq.multi]
              · show (ci4.reqs h).multi.buf = _
                rw [hreq.multi]
              · show (ci4.reqs h).multi.actual = _
                rw [hreq.multi]
              · exact hreq.length
              · exact hreq.buf
              · exact hreq.complete
            · next hne =>
              have h1 : clear_ealready ret = 0 := by
                simp only [Option.some.injEq, Prod.mk.injEq] at hr
                exact hr.1
              exact absurd h1 hne

theorem hardware_dequeue_neg_or_lt (i h : Nat) (ci : ci_hdrc) :
    (_hardware_dequeue i h ci).1 < 0 ∨
      ((_hardware_dequeue i h ci).2.reqs h).req.actual < U32 := by
  unfold _hardware_dequeue
  simp only []
  split
  · exact Or.inl (by simp only []; decide)
  · split
    · exact Or.inl (by simp only []; decide)
    · split
      · exact Or.inl (by simp only []; decide)
      · right
        split <;> simp only [setReq_same] <;> exact Nat.mod_lt _ (by decide)

theorem dequeue_retry_neg_or_lt (e : LowEnv) (i h : Nat) (rd : Bool) (ci : ci_hdrc) :
    (dequeue_retry e i h rd ci).1 < 0 ∨
      ((dequeue_retry e i h rd ci).2.2.reqs h).req.actual < U32 := by
  unfold dequeue_retry
  simp only []
  split
  · next h1 =>
    split
    · exact hardware_dequeue_neg_or_lt _ _ _
    · exact Or.inl h1
  · exact hardware_dequeue_neg_or_lt _ _ _

theorem low_multi_queued (k : Hdr) (e : LowEnv) (i h t L B : Nat) (rv : Int) (c1 : ci_hdrc)
    (hin : InFlight i h L B 0 c1) (hl : (c1.reqs h).req.length = L)
    (ha : (c1.reqs h).req.actual < U32) :
    ∃ v t2 c, low_multi k e i h t rv c1 = some (LowStep.next v t2 c) ∧
      (c.ci_hw_ep i).queue = [] ∧ (c.reqs h).multi.actual = 0 ∧
      callbacks c.trace = callbacks c1.trace
        ++ (if (c1.reqs h).req.complete.isSome then
              [(h, { (c1.reqs h).req with buf := B, length := L })]
            else []) := by
  have hcond : ((c1.reqs h).req.status ≠ 0 ∨
      (L + U32 - (c1.reqs h).req.actual % U32) % U32 = 0 ∨
      (c1.reqs h).req.actual ≠ (c1.reqs h).req.length) := by
    by_cases hal : (c1.reqs h).req.actual = (c1.reqs h).req.length
    · right
      left
      rw [Nat.mod_eq_of_lt ha, hal, hl]
      have : L + U32 - L = U32 := by omega
      rw [this]
      rfl
    · exact Or.inr (Or.inr hal)
  unfold low_multi
  simp only [hin.actual, hin.len, Nat.zero_add]
  rw [if_pos (by simpa [or_assoc] using hcond)]
  refine ⟨_, _, _, rfl, ?_, ?_, ?_⟩
  · unfold low_complete
    split
    · rw [call_complete_ci_hw_ep]
      simp [low_restore, hin.queue]
    · simp [low_restore, hin.queue]
  · unfold low_complete
    split
    · rw [call_complete_reqs]
      simp [low_restore, restore_original_req]
    · simp [low_restore, restore_original_req]
  · unfold low_complete
    split
    · next hc =>
      simp only [call_complete_callbacks]
      have hc1 : (c1.reqs h).req.complete.isSome = true := by
        simpa [low_restore, restore_original_req] using hc
      simp only [hc, hc1, if_true]
      simp only [low_restore, restore_original_req, list_del_init_trace, list_del_init_reqs,
        setReq_same, hin.buf, hin.len]
      congr 2
      have hst : (if (c1.reqs h).req.status = 0 then (c1.reqs h).req.actual % U32
          else (c1.reqs h).req.actual) = (c1.reqs h).req.actual := by
        split
        · exact Nat.mod_eq_of_lt ha
        · rfl
      simp [hst]
    · next hc =>
      have hc1 : (c1.reqs h).req.complete.isSome = false := by
        simpa [low_restore, restore_original_req] using hc
      simp [hc1, low_restore]

theorem low_step_queued (k : Hdr) (e : LowEnv) (i h L B : Nat) (ci : ci_hdrc)
    (hin : InFlight i h L B 0 ci) (hl : (ci.reqs h).req.length = L)
    (hb : (ci.reqs h).req.buf = B) :
    ∃ r, isr_tr_complete_low k e i ci = some r ∧
      ((dequeue_retry e i h true (del_prime_timer ci i)).1 < 0 →
        InFlight i h L B 0 r.2 ∧ (r.2.reqs h).req.length = L ∧ (r.2.reqs h).req.buf = B ∧
        (r.2.reqs h).req.complete = (ci.reqs h).req.complete ∧
        callbacks r.2.trace = callbacks ci.trace) ∧
      (¬ (dequeue_retry e i h true (del_prime_timer ci i)).1 < 0 →
        (r.2.ci_hw_ep i).queue = [] ∧ (r.2.reqs h).multi.actual = 0 ∧
        ∃ x : usb_request, x.buf = B ∧ x.length = L ∧
          x.actual = ((dequeue_retry e i h true (del_prime_timer ci i)).2.2.reqs h).req.actual ∧
          callbacks r.2.trace = callbacks ci.trace
            ++ (if (ci.reqs h).req.complete.isSome then [(h, x)] else [])) := by
  have hF := (deqFrame_dequeue_retry e i h true (del_prime_timer ci i)).deq_trans
    (deqFrame_del_prime_timer ci i)
  have hlt := dequeue_retry_neg_or_lt e i h true (del_prime_timer ci i)
  unfold isr_tr_complete_low
  simp only [del_prime_timer_queue, hin.queue, low_loop, low_body]
  generalize dequeue_retry e i h true (del_prime_timer ci i) = d at hF hlt ⊢
  obtain ⟨ret, rd, c1⟩ := d
  simp only at hF hlt ⊢
  have hin1 : InFlight i h L B 0 c1 := inFlight_of_deqFrame hF hin
  have hl1 : (c1.reqs h).req.length = L := (hF.req h).length.trans hl
  have hb1 : (c1.reqs h).req.buf = B := (hF.req h).buf.trans hb
  have hc1 : (c1.reqs h).req.complete = (ci.reqs h).req.complete := (hF.req h).complete
  by_cases hneg : ret < 0
  · simp only [hneg, if_true]
    exact ⟨_, rfl, fun _ => ⟨hin1, hl1, hb1, hc1, hF.calls⟩, fun hn => absurd trivial hn⟩
  · simp only [hneg, if_false, hin1.multi_req, if_true]
    have ha : (c1.reqs h).req.actual < U32 := hlt.resolve_left hneg
    obtain ⟨v, t2, c, hm, hq, hma, hcb⟩ := low_multi_queued k e i h i L B ret c1 hin1 hl1 ha
    rw [hm]
    simp only [low_loop]
    refine ⟨_, rfl, fun hn => absurd hn (by simp), fun _ => ⟨hq, hma, ?_⟩⟩
    refine ⟨{ (c1.reqs h).req with buf := B, length := L }, rfl, rfl, rfl, ?_⟩
    rw [hcb, hF.calls, ← hc1]

theorem run_passes_queued (k : Hdr) (i h L B : Nat) :
    ∀ (ps : List Pass) (ci : ci_hdrc), InFlight i h L B 0 ci →
      (ci.reqs h).req.length = L → (ci.reqs h).req.buf = B →
      ∃ res, run_passes k i h ps ci = some res ∧ res.1.length ≤ 1 ∧
        (res.2.reqs h).multi.actual = 0 ∧
        (res.1 = [] → callbacks res.2.trace = callbacks ci.trace) ∧
        (res.1 ≠ [] → (res.2.ci_hw_ep i).queue = [] ∧
          ∃ x : usb_request, x.buf = B ∧ x.length = L ∧ x.actual = res.1.sum ∧
            callbacks res.2.trace = callbacks ci.trace
              ++ (if (ci.reqs h).req.complete.isSome then [(h, x)] else [])) := by
  intro ps
  induction ps with
  | nil =>
    intro ci hin _ _
    exact ⟨([], ci), rfl, by simp, hin.actual, fun _ => rfl, fun hne => absurd rfl hne⟩
  | cons p ps ih =>
    intro ci hin hl hb
    unfold run_passes
    have hc : (ci.ci_hw_ep i).queue.contains h = true := by simp [hin.queue]
    simp only [hc, if_true]
    have hin0 := inFlight_pass_state p i h L B 0 ci hin
    have hl0 : ((pass_state p h ci).reqs h).req.length = L := by simp [pass_state, hl]
    have hb0 : ((pass_state p h ci).reqs h).req.buf = B := by simp [pass_state, hb]
    have hc0 : ((pass_state p h ci).reqs h).req.complete = (ci.reqs h).req.complete := by
      simp [pass_state]
    have hcb0 : callbacks (pass_state p h ci).trace = callbacks ci.trace := rfl
    obtain ⟨r, hr, hs1, hs2⟩ := low_step_queued k p.env i h L B (pass_state p h ci) hin0 hl0 hb0
    rw [hr]
    simp only
    by_cases hneg : (dequeue_retry p.env i h true (del_prime_timer (pass_state p h ci) i)).1 < 0
    · have hpa : pass_actual p i h ci = none := by
        unfold pass_actual
        simp only [hneg, if_true]
      obtain ⟨hin1, hl1, hb1, hc1, hcb1⟩ := hs1 hneg
      obtain ⟨q, hq, hlen, hma, hnil, hcons⟩ := ih r.2 hin1 hl1 hb1
      rw [hq, hpa]
      simp only [Option.toList_none, List.nil_append]
      refine ⟨_, rfl, hlen, hma, ?_, ?_⟩
      · intro hn
        rw [hnil hn, hcb1, hcb0]
      · intro hn
        obtain ⟨hq1, x, hx1, hx2, hx3, hx4⟩ := hcons hn
        refine ⟨hq1, x, hx1, hx2, hx3, ?_⟩
        rw [hx4, hcb1, hcb0, hc1, hc0]
    · have hpa : pass_actual p i h ci = some ((dequeue_retry p.env i h true
          (del_prime_timer (pass_state p h ci) i)).2.2.reqs h).req.actual := by
        unfold pass_actual
        simp only [hneg, if_false]
      obtain ⟨hq1, hma, x, hx1, hx2, hx3, hx4⟩ := hs2 hneg
      rw [run_passes_done k i h ps r.2 hq1, hpa]
      simp only [Option.toList_some, List.singleton_append]
      refine ⟨_, rfl, by simp, hma, fun hn => absurd hn (by simp),
        fun _ => ⟨hq1, x, hx1, hx2, ?_, ?_⟩⟩
      · simp [hx3]
      · rw [hx4, hcb0, hc0]

@[simp] theorem td_frees_nil : td_frees [] = [] := rfl

@[simp] theorem td_frees_append (a b : List Event) :
    td_frees (a ++ b) = td_frees a ++ td_frees b := by
  simp [td_frees, List.filterMap_append]

theorem toList_getLast? {α : Type} (p : Option α) : p.toList.getLast? = p := by
  cases p <;> rfl

theorem toList_dropLast {α : Type} (p : Option α) : p.toList.dropLast = [] := by
  cases p <;> rfl

theorem td_retires_iff (dir : Nat) (n : td_node) :
    td_retires dir n = true ↔
      n.ptr.active = false ∧ n.ptr.halted = false ∧ n.ptr.dt_err = false ∧
      n.ptr.tr_err = false ∧ (n.ptr.total_bytes != 0 && dir != 0) = false := by
  unfold td_retires
  simp only [Bool.and_eq_true, Bool.not_eq_true']
  tauto

theorem walk_retire (i h : Nat) :
    ∀ (pre rest : List td_node) (actual : Nat) (status : Int) (ci : ci_hdrc),
      (∀ n ∈ pre, td_retires (ci.ci_hw_ep i).dir n = true) →
      ∃ ci', dequeue_walk i h (pre ++ rest) actual status ci
          = dequeue_walk i h rest (walk_actual actual pre) (walk_status status pre) ci' ∧
        (ci'.ci_hw_ep i).dir = (ci.ci_hw_ep i).dir ∧
        (ci'.ci_hw_ep i).pending_td = ((ci.ci_hw_ep i).pending_td.toList ++ pre).getLast? ∧
        td_frees ci'.trace = td_frees ci.trace
          ++ (((ci.ci_hw_ep i).pending_td.toList ++ pre).dropLast).map td_node.dma ∧
        (ci'.reqs h).req = (ci.reqs h).req ∧
        (ci'.reqs h).tds = (if pre = [] then (ci.reqs h).tds else rest) := by
  intro pre
  induction pre with
  | nil =>
    intro rest actual status ci _
    refine ⟨ci, rfl, rfl, ?_, ?_, rfl, rfl⟩
    · simp [toList_getLast?]
    · simp [toList_dropLast]
  | cons n pre ih =>
    intro rest actual status ci hall
    have hn := (td_retires_iff _ _).mp (hall n (List.mem_cons_self _ _))
    obtain ⟨ha, hh, hd, ht, hs⟩ := hn
    have hw3 : dequeue_walk i h (n :: pre ++ rest) actual status ci
        = dequeue_walk i h (pre ++ rest)
            ((actual + U32 - n.ptr.total_bytes % U32) % U32) (n.ptr.status_rest : Int)
            (walk_retired i h n (pre ++ rest) ci) := by
      rw [List.cons_append, dequeue_walk]
      simp only [ha, hh, hd, ht, hs, Bool.false_eq_true, if_false]
      rfl
    have hd3 : ((walk_retired i h n (pre ++ rest) ci).ci_hw_ep i).dir = (ci.ci_hw_ep i).dir := by
      unfold walk_retired
      cases hp : (ci.ci_hw_ep i).pending_td <;> simp [hp, free_pending_td]
    have hp3 : ((walk_retired i h n (pre ++ rest) ci).ci_hw_ep i).pending_td = some n := by
      unfold walk_retired
      simp
    have hf3 : td_frees (walk_retired i h n (pre ++ rest) ci).trace = td_frees ci.trace
        ++ (ci.ci_hw_ep i).pending_td.toList.map td_node.dma := by
      unfold walk_retired
      cases hp : (ci.ci_hw_ep i).pending_td with
      | none => simp [hp]
      | some p =>
        simp [hp, free_pending_td]
        rfl
    have hr3 : ((walk_retired i h n (pre ++ rest) ci).reqs h).req = (ci.reqs h).req := by
      unfold walk_retired
      cases hp : (ci.ci_hw_ep i).pending_td <;> simp [hp, free_pending_td]
    have ht3 : ((walk_retired i h n (pre ++ rest) ci).reqs h).tds = pre ++ rest := by
      unfold walk_retired
      simp
    generalize walk_retired i h n (pre ++ rest) ci = c3 at hw3 hd3 hp3 hf3 hr3 ht3
    obtain ⟨ci', hw, hd', hp', hf', hr', ht'⟩ := ih rest
      ((actual + U32 - n.ptr.total_bytes % U32) % U32) (n.ptr.status_rest : Int) c3
      (fun m hm => by rw [hd3]; exact hall m (List.mem_cons_of_mem _ hm))
    refine ⟨ci', ?_, hd'.trans hd3, ?_, ?_, hr'.trans hr3, ?_⟩
    · rw [hw3, hw]
      rfl
    · rw [hp', hp3]
      simp only [Option.toList_some, List.singleton_append]
      rw [List.getLast?_append_of_ne_nil _ (List.cons_ne_nil n pre)]
    · rw [hf', hf3, hp3]
      simp only [Option.toList_some, List.singleton_append]
      rw [List.dropLast_append_of_ne_nil _ (List.cons_ne_nil n pre)]
      simp
    · simp only [List.cons_ne_nil, if_false]
      rw [ht']
      split
      · next he =>
        subst he
        simpa using ht3
      · rfl


theorem walk_stop (i h : Nat) (t : td_node) (post : List td_node) (a : Nat) (s : Int)
    (c : ci_hdrc) (hno : td_retires (c.ci_hw_ep i).dir t = false) :
    dequeue_walk i h (t :: post) a s c
      = if t.ptr.active then
          Walk.busy (setReq c h { c.reqs h with req := { (c.reqs h).req with status := -EALREADY } })
        else Walk.done c ((a + U32 - t.ptr.total_bytes % U32) % U32) (td_end_status t) := by
  unfold td_retires at hno
  unfold dequeue_walk td_end_status
  cases h1 : t.ptr.active <;> cases h2 : t.ptr.halted <;> cases h3 : t.ptr.dt_err <;>
    cases h4 : t.ptr.tr_err <;> simp_all

theorem walk_entered_iff (r : ci_hw_req) :
    walk_entered r = true ↔
      (r.req.udc_priv.msm_vendor && r.req.udc_priv.sps_mode && r.req.udc_priv.finite_transfer)
        = false := by
  unfold walk_entered
  cases r.req.udc_priv.msm_vendor <;> cases r.req.udc_priv.sps_mode <;>
    cases r.req.udc_priv.finite_transfer <;> simp

theorem hardware_dequeue_entry (i h : Nat) (ci : ci_hdrc)
    (hst : (ci.reqs h).req.status = -EALREADY) (hen : walk_entered (ci.reqs h) = true) :
    _hardware_dequeue i h ci
      = walk_result h (dequeue_walk i h (ci.reqs h).tds ((ci.reqs h).req.length % U32) 0
          (setReq ci h { ci.reqs h with req := { (ci.reqs h).req with status := 0 } })) := by
  have hsps := (walk_entered_iff _).mp hen
  unfold _hardware_dequeue
  simp only [hst, not_true_eq_false, ne_eq, if_false, hsps, Bool.false_eq_true]
  rfl

theorem walk_actual_snoc (t : td_node) :
    ∀ (l : List td_node) (a : Nat),
      walk_actual a (l ++ [t]) = (walk_actual a l + U32 - t.ptr.total_bytes % U32) % U32 := by
  intro l
  induction l with
  | nil => intro a; rfl
  | cons x l ihl => intro a; exact ihl _

theorem hardware_dequeue_spec (i h : Nat) (ci : ci_hdrc) (pre rest : List td_node)
    (hst : (ci.reqs h).req.status = -EALREADY) (hen : walk_entered (ci.reqs h) = true)
    (htds : (ci.reqs h).tds = pre ++ rest)
    (hpre : ∀ n ∈ pre, td_retires (ci.ci_hw_ep i).dir n = true)
    (hrest : ∀ t ∈ rest.head?, td_retires (ci.ci_hw_ep i).dir t = false) :
    ∃ c1 : ci_hdrc,
      (c1.ci_hw_ep i).dir = (ci.ci_hw_ep i).dir ∧
      (c1.ci_hw_ep i).pending_td = ((ci.ci_hw_ep i).pending_td.toList ++ pre).getLast? ∧
      td_frees c1.trace = td_frees ci.trace
        ++ (((ci.ci_hw_ep i).pending_td.toList ++ pre).dropLast).map td_node.dma ∧
      (c1.reqs h).req = { (ci.reqs h).req with status := 0 } ∧
      (c1.reqs h).tds = rest ∧
      _hardware_dequeue i h ci
        = walk_outcome h c1 ((ci.reqs h).req.length % U32) pre rest := by
  obtain ⟨c1, hw, hd, hp, hf, hr, ht⟩ := walk_retire i h pre rest ((ci.reqs h).req.length % U32) 0
    (setReq ci h { ci.reqs h with req := { (ci.reqs h).req with status := 0 } }) hpre
  have ht1 : (c1.reqs h).tds = rest := by
    rw [ht]
    split
    · next he =>
      subst he
      simpa using htds
    · rfl
  have hr1 : (c1.reqs h).req = { (ci.reqs h).req with status := 0 } := by
    rw [hr]
    simp
  refine ⟨c1, hd, hp, hf, hr1, ht1, ?_⟩
  rw [← htds] at hw
  rw [hardware_dequeue_entry i h ci hst hen, hw]
  cases rest with
  | nil => rfl
  | cons t post =>
    have hno : td_retires (c1.ci_hw_ep i).dir t = false := by
      rw [hd]
      exact hrest t (by simp)
    rw [walk_stop i h t post _ _ c1 hno]
    cases hact : t.ptr.active with
    | true => simp only [walk_outcome, walk_result, hact, if_true]
    | false =>
      simp only [walk_outcome, walk_result, hact, Bool.false_eq_true, if_false]
      rw [walk_actual_snoc]


theorem hardware_dequeue_busy_core (i h : Nat) (ci : ci_hdrc) (pre : List td_node) (t : td_node)
    (post : List td_node)
    (hst : (ci.reqs h).req.status = -EALREADY) (hen : walk_entered (ci.reqs h) = true)
    (htds : (ci.reqs h).tds = pre ++ t :: post)
    (hpre : ∀ n ∈ pre, td_retires (ci.ci_hw_ep i).dir n = true)
    (hact : t.ptr.active = true) :
    (_hardware_dequeue i h ci).1 = -EBUSY ∧
    ((_hardware_dequeue i h ci).2.reqs h).req
      = { (ci.reqs h).req with status := -EALREADY } ∧
    ((_hardware_dequeue i h ci).2.reqs h).tds = t :: post ∧
    ((_hardware_dequeue i h ci).2.ci_hw_ep i).dir = (ci.ci_hw_ep i).dir := by
  have hno : ∀ x ∈ (t :: post).head?, td_retires (ci.ci_hw_ep i).dir x = false := by
    intro x hx
    simp only [List.head?_cons, Option.mem_def, Option.some.injEq] at hx
    subst hx
    unfold td_retires
    simp [hact]
  obtain ⟨c1, hd, _, _, hr, ht, heq⟩ := hardware_dequeue_spec i h ci pre (t :: post) hst hen htds
    hpre hno
  simp only [walk_outcome, hact, if_true] at heq
  rw [heq]
  refine ⟨rfl, ?_, ?_, ?_⟩
  · simp [hr]
  · simp [ht]
  · simpa using hd

/-- C19: when the walk of _hardware_dequeue, having retired the descriptors
before it, meets a descriptor whose active bit is set, the call returns -EBUSY
and leaves the request with status -EALREADY and `req.actual` as it was, the
active descriptor at the head of the chain; a later call on that state passes
the status test and inspects the descriptor again: while it is still active
the result is -EBUSY again.  A request whose status is not -EALREADY on entry
yields -EINVAL and the state is returned as it was given. -/
theorem hardware_dequeue_busy_retry (i h : Nat) (ci : ci_hdrc) (pre : List td_node)
    (t : td_node) (post : List td_node)
    (hst : (ci.reqs h).req.status = -EALREADY) (hen : walk_entered (ci.reqs h) = true)
    (htds : (ci.reqs h).tds = pre ++ t :: post)
    (hpre : ∀ n ∈ pre, td_retires (ci.ci_hw_ep i).dir n = true)
    (hact : t.ptr.active = true) :
    (_hardware_dequeue i h ci).1 = -EBUSY ∧
    ((_hardware_dequeue i h ci).2.reqs h).req.status = -EALREADY ∧
    ((_hardware_dequeue i h ci).2.reqs h).req.actual = (ci.reqs h).req.actual ∧
    ((_hardware_dequeue i h ci).2.reqs h).tds = t :: post ∧
    (_hardware_dequeue i h (_hardware_dequeue i h ci).2).1 = -EBUSY ∧
    (∀ c : ci_hdrc, (c.reqs h).req.status ≠ -EALREADY → _hardware_dequeue i h c = (-EINVAL, c)) := by
  obtain ⟨h1, h2, h3, _⟩ := hardware_dequeue_busy_core i h ci pre t post hst hen htds hpre hact
  have hen2 : walk_entered ((_hardware_dequeue i h ci).2.reqs h) = true := by
    unfold walk_entered at hen ⊢
    rw [h2]
    exact hen
  have h5 := (hardware_dequeue_busy_core i h (_hardware_dequeue i h ci).2 [] t post
    (by rw [h2]) hen2 (by rw [h3]; rfl) (by simp) hact).1
  refine ⟨h1, by rw [h2], by rw [h2], h3, h5, ?_⟩
  intro c hc
  unfold _hardware_dequeue
  simp only [hc, ne_eq, not_false_eq_true, if_true]

theorem hardware_dequeue_busy_retry_witness :
    (ci_queued.reqs 10).req.status = -EALREADY ∧
    (_hardware_dequeue 1 10 ci_queued).1 = -EBUSY ∧
    ((_hardware_dequeue 1 10 ci_queued).2.reqs 10).req.status = -EALREADY ∧
    ((_hardware_dequeue 1 10 ci_queued).2.reqs 10).req.actual = (ci_queued.reqs 10).req.actual ∧
    (_hardware_dequeue 1 10 (_hardware_dequeue 1 10 ci_queued).2).1 = -EBUSY := by
  have hl : (ci_queued.reqs 10).tds
      = [] ++ ((ci_queued.reqs 10).tds.getD 0 { dma := 0, ptr := td_zero }) :: (ci_queued.reqs 10).tds.tail := by decide!
  have h := hardware_dequeue_busy_retry 1 10 ci_queued [] ((ci_queued.reqs 10).tds.getD 0 { dma := 0, ptr := td_zero })
    (ci_queued.reqs 10).tds.tail (by decide!) (by decide!) hl (by simp) (by decide!)
  exact ⟨by decide!, h.1, h.2.1, h.2.2.1, h.2.2.2.2.1⟩


theorem head?_dropWhile_not {α : Type} (p : α → Bool) :
    ∀ (l : List α), ∀ t ∈ (l.dropWhile p).head?, p t = false := by
  intro l
  induction l with
  | nil => intro t ht; simp at ht
  | cons x l ih =>
    intro t ht
    by_cases hx : p x = true
    · rw [List.dropWhile_cons_of_pos hx] at ht
      exact ih t ht
    · rw [List.dropWhile_cons_of_neg hx] at ht
      simp only [List.head?_cons, Option.mem_def, Option.some.injEq] at ht
      subst ht
      simpa using hx

theorem dequeue_finish_obs (h : Nat) (c : ci_hdrc) (a : Nat) (s : Int) :
    (dequeue_finish h c a s).2.ci_hw_ep = c.ci_hw_ep ∧
    (dequeue_finish h c a s).2.trace = c.trace ∧
    ((dequeue_finish h c a s).2.reqs h).tds = (c.reqs h).tds ∧
    ((dequeue_finish h c a s).2.reqs h).req.status = s ∧
    ((dequeue_finish h c a s).2.reqs h).req.actual = ((c.reqs h).req.actual + a) % U32 ∧
    (dequeue_finish h c a s).1 = (if s ≠ 0 then s else toInt32 (((c.reqs h).req.actual + a) % U32)) := by
  unfold dequeue_finish
  simp only []
  split <;> simp

theorem ep_nuke_no_pending (k : Hdr) (e : NukeEnv) (i : Nat) (ci : ci_hdrc) :
    ((_ep_nuke k e i ci).2.ci_hw_ep i).pending_td = none := by
  unfold _ep_nuke
  simp only []
  split
  · unfold free_pending_td
    split
    · simp_all
    · simp
  · next hn => simpa using hn

theorem hardware_dequeue_held (i h : Nat) (ci : ci_hdrc)
    (hst : (ci.reqs h).req.status = -EALREADY) (hen : walk_entered (ci.reqs h) = true) :
    ((_hardware_dequeue i h ci).2.ci_hw_ep i).pending_td
      = ((ci.ci_hw_ep i).pending_td.toList
          ++ (ci.reqs h).tds.takeWhile (td_retires (ci.ci_hw_ep i).dir)).getLast? ∧
    td_frees (_hardware_dequeue i h ci).2.trace
      = td_frees ci.trace ++ (((ci.ci_hw_ep i).pending_td.toList
          ++ (ci.reqs h).tds.takeWhile (td_retires (ci.ci_hw_ep i).dir)).dropLast).map td_node.dma ∧
    ((_hardware_dequeue i h ci).2.reqs h).tds
      = (ci.reqs h).tds.dropWhile (td_retires (ci.ci_hw_ep i).dir) := by
  obtain ⟨c1, _, hp, hf, _, ht, heq⟩ := hardware_dequeue_spec i h ci
    ((ci.reqs h).tds.takeWhile (td_retires (ci.ci_hw_ep i).dir))
    ((ci.reqs h).tds.dropWhile (td_retires (ci.ci_hw_ep i).dir)) hst hen
    (List.takeWhile_append_dropWhile _ _).symm
    (fun n hn => List.mem_takeWhile_imp hn)
    (head?_dropWhile_not _ _)
  rw [heq]
  generalize (ci.reqs h).tds.dropWhile (td_retires (ci.ci_hw_ep i).dir) = rest at ht ⊢
  cases rest with
  | nil =>
    simp only [walk_outcome]
    obtain ⟨o1, o2, o3, _⟩ := dequeue_finish_obs h c1
      (walk_actual ((ci.reqs h).req.length % U32)
        ((ci.reqs h).tds.takeWhile (td_retires (ci.ci_hw_ep i).dir)))
      (walk_status 0 ((ci.reqs h).tds.takeWhile (td_retires (ci.ci_hw_ep i).dir)))
    rw [o1, o2, o3]
    exact ⟨hp, hf, ht⟩
  | cons t post =>
    simp only [walk_outcome]
    split
    · exact ⟨hp, hf, by simpa using ht⟩
    · obtain ⟨o1, o2, o3, _⟩ := dequeue_finish_obs h c1
        (walk_actual ((ci.reqs h).req.length % U32)
          ((ci.reqs h).tds.takeWhile (td_retires (ci.ci_hw_ep i).dir) ++ [t]))
        (td_end_status t)
      rw [o1, o2, o3]
      exact ⟨hp, hf, ht⟩


theorem dropLast_append_getLast?_toList {α : Type} (l : List α) :
    l.dropLast ++ l.getLast?.toList = l := by
  cases hl : l.getLast? with
  | none =>
    rw [List.getLast?_eq_none_iff] at hl
    subst hl
    rfl
  | some a => exact List.dropLast_append_getLast? a hl

/-- C20: an endpoint holds at most one pending descriptor (`pending_td` is
one optional node).  When _hardware_dequeue walks a chain and retires the
descriptors `pre` (the longest prefix that is not active, carries no error and
is not short on an IN endpoint), with `k >= 1` of them the descriptor pending
before and the first `k - 1` of `pre` are freed, once each and in that order,
and the last of `pre` becomes the pending one; with none retired nothing is
freed and the pending descriptor stays.  The descriptors behind `pre` stay on
the chain and none of them is freed: the descriptors freed in the call, the
pending one and the chain left are, in this order, exactly the descriptor
pending before followed by the chain.  _ep_nuke leaves no pending
descriptor. -/
theorem deferred_free_invariant (k : Hdr) (e : NukeEnv) (i h : Nat) (ci : ci_hdrc)
    (pre : List td_node)
    (hst : (ci.reqs h).req.status = -EALREADY) (hen : walk_entered (ci.reqs h) = true)
    (hpre : pre = (ci.reqs h).tds.takeWhile (td_retires (ci.ci_hw_ep i).dir)) :
    (pre ≠ [] →
      ((_hardware_dequeue i h ci).2.ci_hw_ep i).pending_td = pre.getLast? ∧
      td_frees (_hardware_dequeue i h ci).2.trace = td_frees ci.trace
        ++ ((ci.ci_hw_ep i).pending_td.toList ++ pre.dropLast).map td_node.dma) ∧
    (pre = [] →
      ((_hardware_dequeue i h ci).2.ci_hw_ep i).pending_td = (ci.ci_hw_ep i).pending_td ∧
      td_frees (_hardware_dequeue i h ci).2.trace = td_frees ci.trace) ∧
    ((_hardware_dequeue i h ci).2.reqs h).tds
      = (ci.reqs h).tds.dropWhile (td_retires (ci.ci_hw_ep i).dir) ∧
    (∃ freed : List td_node,
      td_frees (_hardware_dequeue i h ci).2.trace = td_frees ci.trace ++ freed.map td_node.dma ∧
      freed ++ ((_hardware_dequeue i h ci).2.ci_hw_ep i).pending_td.toList
          ++ ((_hardware_dequeue i h ci).2.reqs h).tds
        = (ci.ci_hw_ep i).pending_td.toList ++ (ci.reqs h).tds) ∧
    (∀ (j : Nat) (c : ci_hdrc), ((_ep_nuke k e j c).2.ci_hw_ep j).pending_td = none) := by
  obtain ⟨hp, hf, ht⟩ := hardware_dequeue_held i h ci hst hen
  rw [← hpre] at hp hf
  refine ⟨?_, ?_, ht, ?_, fun j c => ep_nuke_no_pending k e j c⟩
  · intro hne
    rw [hp, hf, List.getLast?_append_of_ne_nil _ hne, List.dropLast_append_of_ne_nil _ hne]
    exact ⟨rfl, rfl⟩
  · intro he
    subst he
    rw [hp, hf]
    simp [toList_getLast?, toList_dropLast]
  · refine ⟨((ci.ci_hw_ep i).pending_td.toList ++ pre).dropLast, hf, ?_⟩
    rw [hp, ht, dropLast_append_getLast?_toList, hpre, List.append_assoc,
      List.takeWhile_append_dropWhile]

theorem deferred_free_invariant_witness :
    (ci_two_done.reqs 10).tds.takeWhile (td_retires (ci_two_done.ci_hw_ep 1).dir)
      = (ci_two_done.reqs 10).tds ∧
    (ci_two_done.reqs 10).tds.map td_node.dma = [1024, 1088] ∧
    (ci_two_done.ci_hw_ep 1).pending_td.map td_node.dma = some 4096 ∧
    ((_hardware_dequeue 1 10 ci_two_done).2.ci_hw_ep 1).pending_td.map td_node.dma = some 1088 ∧
    td_frees (_hardware_dequeue 1 10 ci_two_done).2.trace
      = td_frees ci_two_done.trace ++ [4096, 1024] ∧
    ((_hardware_dequeue 1 10 ci_two_done).2.reqs 10).tds = [] := by
  have hp : (ci_two_done.reqs 10).tds.takeWhile (td_retires (ci_two_done.ci_hw_ep 1).dir)
      = (ci_two_done.reqs 10).tds := by decide!
  have hne : (ci_two_done.reqs 10).tds ≠ [] := by decide!
  have h := deferred_free_invariant hdr0 nuke_env_ok 1 10 ci_two_done (ci_two_done.reqs 10).tds
    (by decide!) (by decide!) hp.symm
  have h1 := h.1 hne
  refine ⟨hp, by decide!, by decide!, ?_, ?_, ?_⟩
  · rw [h1.1]
    decide!
  · rw [h1.2]
    decide!
  · rw [h.2.2.1]
    decide!


theorem walk_actual_lt : ∀ (l : List td_node) (a : Nat), a < U32 → walk_actual a l < U32 := by
  intro l
  induction l with
  | nil => intro a ha; exact ha
  | cons x l ih => intro a _; exact ih _ (Nat.mod_lt _ (by decide))

theorem walk_actual_sub : ∀ (l : List td_node) (a : Nat), a < U32 →
    (l.map (fun n => n.ptr.total_bytes)).sum ≤ a →
    walk_actual a l = a - (l.map (fun n => n.ptr.total_bytes)).sum := by
  intro l
  induction l with
  | nil => intro a _ _; simp [walk_actual]
  | cons x l ih =>
    intro a ha hs
    simp only [List.map_cons, List.sum_cons] at hs ⊢
    have hx : x.ptr.total_bytes < U32 := by omega
    have h1 : (a + U32 - x.ptr.total_bytes % U32) % U32 = a - x.ptr.total_bytes := by
      rw [Nat.mod_eq_of_lt hx]
      have : a + U32 - x.ptr.total_bytes = (a - x.ptr.total_bytes) + U32 := by omega
      rw [this, Nat.add_mod_right]
      exact Nat.mod_eq_of_lt (by omega)
    unfold walk_actual
    rw [h1, ih _ (by omega) (by omega)]
    omega

theorem walk_status_zero : ∀ (l : List td_node) (s : Int), s = 0 →
    (∀ n ∈ l, n.ptr.status_rest = 0) → walk_status s l = 0 := by
  intro l
  induction l with
  | nil => intro s hs _; exact hs
  | cons x l ih =>
    intro s _ hall
    unfold walk_status
    exact ih _ (by simp [hall x (List.mem_cons_self _ _)])
      (fun n hn => hall n (List.mem_cons_of_mem _ hn))

theorem remaining_le_programmed :
    ∀ (l : List td_node) (prog : List Nat),
      List.Forall₂ (fun n p => n.ptr.total_bytes ≤ p) l prog →
      (l.map (fun n => n.ptr.total_bytes)).sum ≤ prog.sum := by
  intro l prog hf
  induction hf with
  | nil => simp
  | cons hab _ ih =>
    simp only [List.map_cons, List.sum_cons]
    omega

/-- C18 (amended): for a request in the queued state (-EALREADY) with
`req.actual` 0 that is not an MSM SPS finite-transfer request, whose
descriptors are all inactive with no status bit set, on an endpoint of
direction 0 (where bytes left over are not an error), _hardware_dequeue retires
the whole chain, sets the status to 0, and sets `req.actual` to and returns
the length minus the remaining byte counts of the descriptors, computed in
32-bit arithmetic.  When the remaining counts sum to at most the length this
is the plain difference, at most the length; that is so when every remaining
count is at most the count its descriptor was programmed with and the
programmed counts add up to the length. -/
theorem hardware_dequeue_actual (i h : Nat) (ci : ci_hdrc)
    (hst : (ci.reqs h).req.status = -EALREADY) (hen : walk_entered (ci.reqs h) = true)
    (ha0 : (ci.reqs h).req.actual = 0) (hdir : (ci.ci_hw_ep i).dir = 0)
    (hall : ∀ n ∈ (ci.reqs h).tds, n.ptr.active = false ∧ n.ptr.halted = false ∧
      n.ptr.dt_err = false ∧ n.ptr.tr_err = false ∧ n.ptr.status_rest = 0) :
    ((_hardware_dequeue i h ci).2.reqs h).req.status = 0 ∧
    ((_hardware_dequeue i h ci).2.reqs h).req.actual
      = walk_actual ((ci.reqs h).req.length % U32) (ci.reqs h).tds ∧
    (_hardware_dequeue i h ci).1
      = toInt32 (walk_actual ((ci.reqs h).req.length % U32) (ci.reqs h).tds) ∧
    ((_hardware_dequeue i h ci).2.reqs h).tds = [] ∧
    ((ci.reqs h).req.length < U32 →
      ((ci.reqs h).tds.map (fun n => n.ptr.total_bytes)).sum ≤ (ci.reqs h).req.length →
      ((_hardware_dequeue i h ci).2.reqs h).req.actual
        = (ci.reqs h).req.length - ((ci.reqs h).tds.map (fun n => n.ptr.total_bytes)).sum ∧
      ((_hardware_dequeue i h ci).2.reqs h).req.actual ≤ (ci.reqs h).req.length ∧
      ((ci.reqs h).req.length < 2 ^ 31 →
        (_hardware_dequeue i h ci).1
          = (((ci.reqs h).req.length
              - ((ci.reqs h).tds.map (fun n => n.ptr.total_bytes)).sum : Nat) : Int))) ∧
    (∀ prog : List Nat, List.Forall₂ (fun n p => n.ptr.total_bytes ≤ p) (ci.reqs h).tds prog →
      prog.sum = (ci.reqs h).req.length → (ci.reqs h).req.length < U32 →
      ((_hardware_dequeue i h ci).2.reqs h).req.actual ≤ (ci.reqs h).req.length) := by
  have hret : ∀ n ∈ (ci.reqs h).tds, td_retires (ci.ci_hw_ep i).dir n = true := by
    intro n hn
    obtain ⟨h1, h2, h3, h4, _⟩ := hall n hn
    unfold td_retires
    simp [h1, h2, h3, h4, hdir]
  obtain ⟨c1, _, _, _, hr, ht, heq⟩ := hardware_dequeue_spec i h ci (ci.reqs h).tds [] hst hen
    (by simp) hret (by simp)
  have hs0 := walk_status_zero (ci.reqs h).tds 0 rfl (fun n hn => (hall n hn).2.2.2.2)
  have hlt := walk_actual_lt (ci.reqs h).tds ((ci.reqs h).req.length % U32)
    (Nat.mod_lt _ (by decide))
  simp only [walk_outcome, hs0] at heq
  obtain ⟨_, _, o3, o4, o5, o6⟩ := dequeue_finish_obs h c1
    (walk_actual ((ci.reqs h).req.length % U32) (ci.reqs h).tds) 0
  have hc1a : (c1.reqs h).req.actual = 0 := by rw [hr]; exact ha0
  rw [hc1a, Nat.zero_add, Nat.mod_eq_of_lt hlt] at o5 o6
  simp only [ne_eq, not_true_eq_false, if_false] at o6
  rw [heq]
  have hsub : (ci.reqs h).req.length < U32 →
      ((ci.reqs h).tds.map (fun n => n.ptr.total_bytes)).sum ≤ (ci.reqs h).req.length →
      walk_actual ((ci.reqs h).req.length % U32) (ci.reqs h).tds
        = (ci.reqs h).req.length - ((ci.reqs h).tds.map (fun n => n.ptr.total_bytes)).sum := by
    intro hl hs
    rw [Nat.mod_eq_of_lt hl]
    exact walk_actual_sub _ _ hl hs
  refine ⟨o4, o5, o6, by rw [o3, ht], ?_, ?_⟩
  · intro hl hs
    rw [o5, o6, hsub hl hs]
    refine ⟨rfl, Nat.sub_le _ _, ?_⟩
    intro h31
    unfold toInt32
    have hle : (ci.reqs h).req.length
        - ((ci.reqs h).tds.map (fun n => n.ptr.total_bytes)).sum < 2 ^ 31 :=
      lt_of_le_of_lt (Nat.sub_le _ _) h31
    have hu : (ci.reqs h).req.length
        - ((ci.reqs h).tds.map (fun n => n.ptr.total_bytes)).sum < U32 :=
      lt_of_le_of_lt (Nat.sub_le _ _) hl
    rw [Nat.mod_eq_of_lt hu, if_pos hle]
  · intro prog hf hsum hl
    have hs := remaining_le_programmed _ _ hf
    rw [hsum] at hs
    rw [o5, hsub hl hs]
    exact Nat.sub_le _ _


theorem hardware_dequeue_actual_witness :
    (ci_short_out.reqs 10).req.length = 512 ∧
    (ci_short_out.reqs 10).tds.map (fun n => n.ptr.total_bytes) = [100] ∧
    ((_hardware_dequeue 1 10 ci_short_out).2.reqs 10).req.status = 0 ∧
    ((_hardware_dequeue 1 10 ci_short_out).2.reqs 10).req.actual = 412 ∧
    (_hardware_dequeue 1 10 ci_short_out).1 = 412 := by
  have h := hardware_dequeue_actual 1 10 ci_short_out (by decide!) (by decide!) (by decide!)
    (by decide!) (by decide!)
  have hl : (ci_short_out.reqs 10).req.length = 512 := by decide!
  have hs : (ci_short_out.reqs 10).tds.map (fun n => n.ptr.total_bytes) = [100] := by decide!
  have h5 := h.2.2.2.2.1 (by rw [hl]; decide) (by rw [hs, hl]; decide)
  refine ⟨hl, hs, h.1, ?_, ?_⟩
  · rw [h5.1, hs, hl]
    rfl
  · rw [h5.2.2 (by rw [hl]; decide), hs, hl]
    rfl

/-- C18 as stated fails: request 10 is an MSM request in SPS mode with the
finite-transfer bit, queued (-EALREADY) on the bulk OUT endpoint with
`req.actual` 0, and its one descriptor is inactive with no error bit and no
byte remaining.  _hardware_dequeue sets the status to 0 but returns -EBUSY
before it looks at the chain: `req.actual` stays 0, not the 512 bytes
transferred, and the descriptor stays on the chain.  And for a plain request
whose descriptor is inactive with none of the three error bits but with the
reserved bit 0 of the status field set, the status is set to that field, 1,
and 1 is returned, not the 512 bytes. -/
theorem hardware_dequeue_actual_counterexample :
    (ci_reserved_bit.reqs 10).req.status = -EALREADY ∧
    (ci_reserved_bit.ci_hw_ep 1).dir = 0 ∧
    (ci_reserved_bit.reqs 10).tds.map
        (fun n => (n.ptr.active, n.ptr.halted || n.ptr.dt_err || n.ptr.tr_err, n.ptr.total_bytes))
      = [(false, false, 0)] ∧
    (_hardware_dequeue 1 10 ci_reserved_bit).1 = 1 ∧
    ((_hardware_dequeue 1 10 ci_reserved_bit).2.reqs 10).req.status = 1 ∧
    ((_hardware_dequeue 1 10 ci_reserved_bit).2.reqs 10).req.actual = 512 ∧
    (ci_sps_done.reqs 10).req.status = -EALREADY ∧
    ((ci_sps_done.reqs 10).req.length, (ci_sps_done.reqs 10).req.actual) = (512, 0) ∧
    (ci_sps_done.ci_hw_ep 1).dir = 0 ∧
    (ci_sps_done.reqs 10).tds.map
        (fun n => (n.ptr.active, n.ptr.halted || n.ptr.dt_err || n.ptr.tr_err, n.ptr.total_bytes))
      = [(false, false, 0)] ∧
    (_hardware_dequeue 1 10 ci_sps_done).1 = -EBUSY ∧
    ((_hardware_dequeue 1 10 ci_sps_done).2.reqs 10).req.status = 0 ∧
    ((_hardware_dequeue 1 10 ci_sps_done).2.reqs 10).req.actual = 0 ∧
    ((_hardware_dequeue 1 10 ci_sps_done).2.reqs 10).tds.length = 1 := by
  refine ⟨?_, ?_, ?_, ?_, ?_, ?_, ?_, ?_, ?_, ?_, ?_, ?_, ?_, ?_⟩ <;> decide!

/-- C17 as stated fails.  Request 10 has a chain of two descriptors on the bulk
OUT endpoint.  The first is not active and its status is 1, the reserved bit 0,
none of the three error bits: `_hardware_dequeue` does not end the walk there
but retires the descriptor and goes on, and the second descriptor decides the
result: -EPIPE when its halted bit is set, and the byte count 40960 with
status 0 when it is clean.  And on the bulk IN endpoint the first descriptor of
request 11 is not active with status 0 and 100 bytes left, the second is the
first with a status that is not zero, its halted bit: the walk ends at the
first descriptor with -EPROTO, not at the second with -EPIPE, and no
descriptor is retired.  The descriptors are walked only for a request in the
queued state that is not an MSM request in SPS mode with the finite-transfer
bit: once `_hardware_dequeue` has returned -EPIPE for request 10 of
`ci_halted`, whose one descriptor is not active with the halted bit set, a
second call returns -EINVAL, and for such an MSM request with a halted
descriptor it returns -EBUSY and leaves the status 0. -/
theorem hardware_dequeue_first_error_counterexample :
    ((ci_reserved_then_halted.reqs 10).req.status = -EALREADY ∧
     (ci_reserved_then_halted.reqs 10).tds.map
        (fun n => (n.ptr.active, n.ptr.halted, n.ptr.dt_err || n.ptr.tr_err, n.ptr.status_rest))
       = [(false, false, false, 1), (false, true, false, 0)] ∧
     (_hardware_dequeue 1 10 ci_reserved_then_halted).1 = -EPIPE ∧
     ((_hardware_dequeue 1 10 ci_reserved_then_halted).2.reqs 10).req.status = -EPIPE ∧
     ((_hardware_dequeue 1 10 ci_reserved_then_halted).2.reqs 10).tds.length = 1) ∧
    ((ci_reserved_then_clean.reqs 10).req.status = -EALREADY ∧
     (ci_reserved_then_clean.reqs 10).tds.map
        (fun n => (n.ptr.active, n.ptr.halted, n.ptr.dt_err || n.ptr.tr_err, n.ptr.status_rest))
       = [(false, false, false, 1), (false, false, false, 0)] ∧
     (_hardware_dequeue 1 10 ci_reserved_then_clean).1 = 40960 ∧
     ((_hardware_dequeue 1 10 ci_reserved_then_clean).2.reqs 10).req.status = 0 ∧
     ((_hardware_dequeue 1 10 ci_reserved_then_clean).2.reqs 10).tds.length = 0) ∧
    ((ci_short_in_then_halted.reqs 11).req.status = -EALREADY ∧
     (ci_short_in_then_halted.ci_hw_ep 3).dir = TX ∧
     (ci_short_in_then_halted.reqs 11).tds.map
        (fun n => (n.ptr.active, n.ptr.halted, n.ptr.dt_err || n.ptr.tr_err, n.ptr.status_rest))
       = [(false, false, false, 0), (false, true, false, 0)] ∧
     (ci_short_in_then_halted.reqs 11).tds.map (fun n => n.ptr.total_bytes) = [100, 20480] ∧
     (_hardware_dequeue 3 11 ci_short_in_then_halted).1 = -EPROTO ∧
     ((_hardware_dequeue 3 11 ci_short_in_then_halted).2.reqs 11).req.status = -EPROTO ∧
     ((_hardware_dequeue 3 11 ci_short_in_then_halted).2.reqs 11).tds.length = 2) ∧
    ((ci_halted.reqs 10).req.status = -EALREADY ∧
     (_hardware_dequeue 1 10 ci_halted).1 = -EPIPE ∧
     ((_hardware_dequeue 1 10 ci_halted).2.reqs 10).tds.map
        (fun n => (n.ptr.active, n.ptr.halted)) = [(false, true)] ∧
     (_hardware_dequeue 1 10 (_hardware_dequeue 1 10 ci_halted).2).1 = -EINVAL ∧
     ((_hardware_dequeue 1 10 (_hardware_dequeue 1 10 ci_halted).2).2.reqs 10).req.status
       = -EPIPE) ∧
    ((ci_sps_halted.reqs 10).req.status = -EALREADY ∧
     (ci_sps_halted.reqs 10).tds.map (fun n => (n.ptr.active, n.ptr.halted)) = [(false, true)] ∧
     (_hardware_dequeue 1 10 ci_sps_halted).1 = -EBUSY ∧
     ((_hardware_dequeue 1 10 ci_sps_halted).2.reqs 10).req.status = 0) := by
  refine ⟨⟨?_, ?_, ?_, ?_, ?_⟩, ⟨?_, ?_, ?_, ?_, ?_⟩, ⟨?_, ?_, ?_, ?_, ?_, ?_, ?_⟩,
    ⟨?_, ?_, ?_, ?_, ?_⟩, ⟨?_, ?_, ?_, ?_⟩⟩ <;> decide!

/-- C17 (amended): for a request in the queued state that is not an MSM
request in SPS mode with the finite-transfer bit, _hardware_dequeue walks the
chain in order; when it has retired the descriptors before `t` (each not
active, with none of the three error bits whatever its other status bits, and
with no byte left unless the direction is RX) and `t` is not active and has an
error bit set, the request status becomes -EPIPE if the halted bit is set,
else -EPROTO if the data-toggle-error bit is set, else -EILSEQ (transaction
error), that status is returned, and the walk ends: `t` and the descriptors
behind it stay on the chain, and neither the value returned nor the byte count
`req.actual` depends on the descriptors behind `t`. -/
theorem hardware_dequeue_first_error (i h : Nat) (ci : ci_hdrc) (pre : List td_node)
    (t : td_node) (post : List td_node)
    (hst : (ci.reqs h).req.status = -EALREADY) (hen : walk_entered (ci.reqs h) = true)
    (htds : (ci.reqs h).tds = pre ++ t :: post)
    (hpre : ∀ n ∈ pre, td_retires (ci.ci_hw_ep i).dir n = true)
    (hact : t.ptr.active = false)
    (herr : (t.ptr.halted || t.ptr.dt_err || t.ptr.tr_err) = true) :
    (_hardware_dequeue i h ci).1
      = (if t.ptr.halted then -EPIPE else if t.ptr.dt_err then -EPROTO else -EILSEQ) ∧
    ((_hardware_dequeue i h ci).2.reqs h).req.status = (_hardware_dequeue i h ci).1 ∧
    ((_hardware_dequeue i h ci).2.reqs h).req.actual
      = ((ci.reqs h).req.actual + walk_actual ((ci.reqs h).req.length % U32) (pre ++ [t])) % U32 ∧
    ((_hardware_dequeue i h ci).2.reqs h).tds = t :: post ∧
    (∀ post2 : List td_node,
      (_hardware_dequeue i h (setReq ci h { ci.reqs h with tds := pre ++ t :: post2 })).1
        = (_hardware_dequeue i h ci).1 ∧
      ((_hardware_dequeue i h (setReq ci h { ci.reqs h with tds := pre ++ t :: post2 })).2.reqs
          h).req
        = ((_hardware_dequeue i h ci).2.reqs h).req) := by
  have hcode : td_end_status t
      = (if t.ptr.halted then -EPIPE else if t.ptr.dt_err then -EPROTO else -EILSEQ) := by
    unfold td_end_status
    cases h1 : t.ptr.halted <;> cases h2 : t.ptr.dt_err <;> cases h3 : t.ptr.tr_err <;>
      simp_all
  have hne : td_end_status t ≠ 0 := by
    unfold td_end_status
    split
    · decide
    · split
      · decide
      · split <;> decide
  have key : ∀ (c : ci_hdrc) (q : List td_node),
      (c.reqs h).req = (ci.reqs h).req → (c.ci_hw_ep i).dir = (ci.ci_hw_ep i).dir →
      (c.reqs h).tds = pre ++ t :: q →
      (_hardware_dequeue i h c).1 = td_end_status t ∧
      ((_hardware_dequeue i h c).2.reqs h).req
        = { (ci.reqs h).req with
            status := td_end_status t,
            actual := ((ci.reqs h).req.actual
              + walk_actual ((ci.reqs h).req.length % U32) (pre ++ [t])) % U32 } ∧
      ((_hardware_dequeue i h c).2.reqs h).tds = t :: q := by
    intro c q hreq hdir hq
    have hno : ∀ x ∈ (t :: q).head?, td_retires (c.ci_hw_ep i).dir x = false := by
      intro x hx
      simp only [List.head?_cons, Option.mem_def, Option.some.injEq] at hx
      subst hx
      unfold td_retires
      cases h1 : t.ptr.halted <;> cases h2 : t.ptr.dt_err <;> cases h3 : t.ptr.tr_err <;>
        simp_all
    obtain ⟨c1, _, _, _, hr, ht, heq⟩ := hardware_dequeue_spec i h c pre (t :: q)
      (by rw [hreq]; exact hst) (by unfold walk_entered at hen ⊢; rw [hreq]; exact hen) hq
      (by rw [hdir]; exact hpre) hno
    simp only [walk_outcome, hact, Bool.false_eq_true, if_false] at heq
    rw [heq]
    unfold dequeue_finish
    simp only [hne, ne_eq, not_false_eq_true, if_true, setReq_same, hr, hreq, ht]
    exact ⟨trivial, trivial, trivial⟩
  obtain ⟨k1, k2, k3⟩ := key ci post rfl rfl htds
  refine ⟨by rw [k1, hcode], by rw [k2, k1], by rw [k2], k3, ?_⟩
  intro post2
  obtain ⟨m1, m2, _⟩ := key (setReq ci h { ci.reqs h with tds := pre ++ t :: post2 }) post2
    (by simp) rfl (by simp)
  exact ⟨by rw [m1, k1], by rw [m2, k2]⟩


theorem hardware_dequeue_first_error_witness :
    (ci_halted.reqs 10).tds.map (fun n => (n.ptr.active, n.ptr.halted)) = [(false, true)] ∧
    (_hardware_dequeue 1 10 ci_halted).1 = -EPIPE ∧
    ((_hardware_dequeue 1 10 ci_halted).2.reqs 10).req.status = -EPIPE ∧
    ((_hardware_dequeue 1 10 ci_halted).2.reqs 10).tds.length = 1 := by
  have hl : (ci_halted.reqs 10).tds
      = [] ++ ((ci_halted.reqs 10).tds.getD 0 { dma := 0, ptr := td_zero }) :: [] := by decide!
  have h := hardware_dequeue_first_error 1 10 ci_halted []
    ((ci_halted.reqs 10).tds.getD 0 { dma := 0, ptr := td_zero }) []
    (by decide!) (by decide!) hl (by simp) (by decide!) (by decide!)
  have hc : (if ((ci_halted.reqs 10).tds.getD 0 { dma := 0, ptr := td_zero }).ptr.halted
      then (-EPIPE : Int)
      else if ((ci_halted.reqs 10).tds.getD 0 { dma := 0, ptr := td_zero }).ptr.dt_err
        then -EPROTO else -EILSEQ) = -EPIPE := by decide!
  refine ⟨by decide!, h.1.trans hc, h.2.1.trans (h.1.trans hc), ?_⟩
  rw [h.2.2.2.1]
  rfl

/-- C16 as stated fails: on the bulk OUT endpoint (direction RX) of the sample
controller the one descriptor of request 10 is retired inactive, without an
error bit, with 100 of 512 bytes remaining.  _hardware_dequeue completes the
request with status 0 and 412 bytes, not with -EPROTO; the same short
descriptor on the bulk IN endpoint (direction TX) gives -EPROTO. -/
theorem short_transfer_counterexample :
    (ci_short_out.ci_hw_ep 1).dir = RX ∧
    (ci_short_out.reqs 10).tds.map
        (fun n => (n.ptr.active, n.ptr.halted || n.ptr.dt_err || n.ptr.tr_err, n.ptr.total_bytes))
      = [(false, false, 100)] ∧
    (_hardware_dequeue 1 10 ci_short_out).1 = 412 ∧
    ((_hardware_dequeue 1 10 ci_short_out).2.reqs 10).req.status = 0 ∧
    (ci_short_in.ci_hw_ep 3).dir = TX ∧
    (_hardware_dequeue 3 11 ci_short_in).1 = -EPROTO := by
  refine ⟨?_, ?_, ?_, ?_, ?_, ?_⟩ <;> decide!

/-- C16 (amended): in _hardware_dequeue a descriptor reached by the walk that
is not active, carries no error bit and has a non-zero remaining byte count
ends the request with -EPROTO on an endpoint whose direction is not 0 (an IN
endpoint, TX): the status is set to -EPROTO and -EPROTO is returned.  On an
endpoint of direction 0 (OUT, RX) the descriptor is retired like any other;
when it is the last of the chain and has no status bit set the request
completes with status 0 and the byte count. -/
theorem short_transfer_eproto (i h : Nat) (ci : ci_hdrc) (pre : List td_node)
    (t : td_node) (post : List td_node)
    (hst : (ci.reqs h).req.status = -EALREADY) (hen : walk_entered (ci.reqs h) = true)
    (htds : (ci.reqs h).tds = pre ++ t :: post)
    (hpre : ∀ n ∈ pre, td_retires (ci.ci_hw_ep i).dir n = true)
    (hact : t.ptr.active = false)
    (herr : (t.ptr.halted || t.ptr.dt_err || t.ptr.tr_err) = false)
    (hrem : t.ptr.total_bytes ≠ 0) :
    ((ci.ci_hw_ep i).dir ≠ 0 →
      (_hardware_dequeue i h ci).1 = -EPROTO ∧
      ((_hardware_dequeue i h ci).2.reqs h).req.status = -EPROTO ∧
      ((_hardware_dequeue i h ci).2.reqs h).tds = t :: post) ∧
    ((ci.ci_hw_ep i).dir = 0 → post = [] → t.ptr.status_rest = 0 →
      ((_hardware_dequeue i h ci).2.reqs h).req.status = 0 ∧
      ((_hardware_dequeue i h ci).2.reqs h).tds = [] ∧
      (_hardware_dequeue i h ci).1
        = toInt32 (((ci.reqs h).req.actual
            + walk_actual ((ci.reqs h).req.length % U32) (pre ++ [t])) % U32)) := by
  simp only [Bool.or_eq_false_iff] at herr
  obtain ⟨⟨hh, hd⟩, hte⟩ := herr
  constructor
  · intro hdir
    have hno : ∀ x ∈ (t :: post).head?, td_retires (ci.ci_hw_ep i).dir x = false := by
      intro x hx
      simp only [List.head?_cons, Option.mem_def, Option.some.injEq] at hx
      subst hx
      unfold td_retires
      simp [hact, hh, hd, hte, hrem, hdir]
    obtain ⟨c1, _, _, _, hr, ht, heq⟩ := hardware_dequeue_spec i h ci pre (t :: post) hst hen
      htds hpre hno
    have hcode : td_end_status t = -EPROTO := by
      unfold td_end_status
      simp [hh, hd, hte]
    simp only [walk_outcome, hact, Bool.false_eq_true, if_false, hcode] at heq
    obtain ⟨_, _, o3, o4, _, o6⟩ := dequeue_finish_obs h c1
      (walk_actual ((ci.reqs h).req.length % U32) (pre ++ [t])) (-EPROTO)
    rw [heq]
    refine ⟨?_, o4, by rw [o3, ht]⟩
    rw [o6]
    have hz : (-EPROTO : Int) ≠ 0 := by decide
    rw [if_pos hz]
  · intro hdir hpost hsr
    subst hpost
    have hret : ∀ n ∈ pre ++ [t], td_retires (ci.ci_hw_ep i).dir n = true := by
      intro n hn
      rcases List.mem_append.mp hn with hn | hn
      · exact hpre n hn
      · rw [List.mem_singleton] at hn
        subst hn
        unfold td_retires
        simp [hact, hh, hd, hte, hdir]
    obtain ⟨c1, _, _, _, hr, ht, heq⟩ := hardware_dequeue_spec i h ci (pre ++ [t]) [] hst hen
      (by simpa using htds) hret (by simp)
    have hws : walk_status 0 (pre ++ [t]) = 0 := by
      have : ∀ (l : List td_node) (s : Int), walk_status s (l ++ [t]) = (t.ptr.status_rest : Int) := by
        intro l
        induction l with
        | nil => intro s; rfl
        | cons x l ih => intro s; exact ih _
      rw [this, hsr]
      rfl
    simp only [walk_outcome, hws] at heq
    obtain ⟨_, _, o3, o4, _, o6⟩ := dequeue_finish_obs h c1
      (walk_actual ((ci.reqs h).req.length % U32) (pre ++ [t])) 0
    rw [heq]
    refine ⟨o4, by rw [o3, ht], ?_⟩
    rw [o6]
    have hca : (c1.reqs h).req.actual = (ci.reqs h).req.actual := by rw [hr]
    simp [hca]

theorem short_transfer_eproto_witness :
    (ci_short_in.ci_hw_ep 3).dir ≠ 0 ∧
    (_hardware_dequeue 3 11 ci_short_in).1 = -EPROTO ∧
    ((_hardware_dequeue 3 11 ci_short_in).2.reqs 11).req.status = -EPROTO := by
  have hl : (ci_short_in.reqs 11).tds
      = [] ++ ((ci_short_in.reqs 11).tds.getD 0 { dma := 0, ptr := td_zero }) :: [] := by decide!
  have hd : (ci_short_in.ci_hw_ep 3).dir ≠ 0 := by decide!
  have h := (short_transfer_eproto 3 11 ci_short_in []
    ((ci_short_in.reqs 11).tds.getD 0 { dma := 0, ptr := td_zero }) []
    (by decide!) (by decide!) hl (by simp) (by decide!) (by decide!) (by decide!)).1 hd
  exact ⟨hd, h.1, h.2.1⟩

theorem SameWedge.wedge_refl (a : ci_hdrc) : SameWedge a a := fun _ => rfl

theorem SameWedge.wedge_trans {a b c : ci_hdrc} (h1 : SameWedge a b) (h2 : SameWedge b c) :
    SameWedge a c := fun j => (h1 j).trans (h2 j)

theorem sameWedge_of_eq {a b : ci_hdrc} (h : a.ci_hw_ep = b.ci_hw_ep) : SameWedge a b := by
  intro j
  rw [h]

theorem sameWedge_setEp (ci : ci_hdrc) (i : Nat) (e : ci_hw_ep)
    (hw : e.wedge = (ci.ci_hw_ep i).wedge) : SameWedge (setEp ci i e) ci := by
  intro j
  unfold setEp
  by_cases hj : j = i
  · subst hj
    simp [hw]
  · simp [Function.update_noteq hj]

theorem sameWedge_list_del_init (ci : ci_hdrc) (h : Nat) : SameWedge (list_del_init ci h) ci :=
  fun _ => rfl

theorem sameWedge_list_add_tail (ci : ci_hdrc) (i h : Nat) :
    SameWedge (list_add_tail ci i h) ci :=
  sameWedge_setEp _ _ _ (by rfl)

theorem sameWedge_emit (ci : ci_hdrc) (ev : Event) : SameWedge (emit ci ev) ci :=
  fun _ => rfl

theorem sameWedge_setReq (ci : ci_hdrc) (h : Nat) (r : ci_hw_req) :
    SameWedge (setReq ci h r) ci :=
  fun _ => rfl

theorem sameWedge_pipeid (ci : ci_hdrc) (f : Nat → Nat) : SameWedge { ci with pipeid := f } ci :=
  fun _ => rfl

theorem sameWedge_free_pending_td (ci : ci_hdrc) (i : Nat) :
    SameWedge (free_pending_td ci i) ci := by
  unfold free_pending_td
  split
  · exact SameWedge.wedge_refl _
  · exact (sameWedge_setEp _ _ _ (by rfl)).wedge_trans (fun _ => rfl)

theorem sameWedge_nuke_one (k : Hdr) (e : NukeEnv) (i h : Nat) (ci : ci_hdrc) :
    SameWedge (nuke_one k e i h ci) ci := by
  unfold nuke_one
  simp only []
  refine (sameWedge_of_eq (call_complete_ci_hw_ep _ _ _)).wedge_trans ?_
  have h2 : SameWedge (list_del_init (setReq (free_tds ci (ci.reqs h).tds) h
      { ci.reqs h with tds := [] }) h) ci :=
    (sameWedge_list_del_init _ _).wedge_trans ((sameWedge_setReq _ _ _).wedge_trans
      (sameWedge_of_eq (free_tds_ci_hw_ep _ _)))
  split <;> split
  · exact (sameWedge_setEp _ _ _ (by rfl)).wedge_trans ((sameWedge_setReq _ _ _).wedge_trans
      ((sameWedge_emit _ _).wedge_trans ((sameWedge_pipeid _ _).wedge_trans h2)))
  · exact (sameWedge_setEp _ _ _ (by rfl)).wedge_trans ((sameWedge_setReq _ _ _).wedge_trans h2)
  · exact (sameWedge_setReq _ _ _).wedge_trans
      ((sameWedge_emit _ _).wedge_trans ((sameWedge_pipeid _ _).wedge_trans h2))
  · exact (sameWedge_setReq _ _ _).wedge_trans h2

theorem sameWedge_nuke_loop (k : Hdr) (e : NukeEnv) (i : Nat) (fuel : Nat) (ci : ci_hdrc) :
    SameWedge (nuke_loop k e i fuel ci) ci := by
  induction fuel generalizing ci with
  | zero => exact SameWedge.wedge_refl _
  | succ f ih =>
    unfold nuke_loop
    split
    · exact SameWedge.wedge_refl _
    · exact (ih _).wedge_trans (sameWedge_nuke_one _ _ _ _ _)

theorem sameWedge_ep_nuke (k : Hdr) (e : NukeEnv) (i : Nat) (ci : ci_hdrc) :
    SameWedge (_ep_nuke k e i ci).2 ci := by
  unfold _ep_nuke
  simp only []
  have h2 : SameWedge (hw_ep_flush (del_prime_timer ci i)
      (ci.ci_hw_ep i).num (ci.ci_hw_ep i).dir e.flush) ci :=
    (sameWedge_of_eq (hw_ep_flush_ci_hw_ep _ _ _ _)).wedge_trans (sameWedge_setEp _ _ _ (by rfl))
  split
  · exact (sameWedge_free_pending_td _ _).wedge_trans
      ((sameWedge_nuke_loop _ _ _ _ _).wedge_trans h2)
  · exact (sameWedge_nuke_loop _ _ _ _ _).wedge_trans h2

theorem sameWedge_ep_queue_flushed (k : Hdr) (e : QueueEnv) (i h : Nat) (ci : ci_hdrc) :
    SameWedge (ep_queue_flushed k e i h ci) ci := by
  unfold ep_queue_flushed
  split
  · exact sameWedge_ep_nuke _ _ _ _
  · exact SameWedge.wedge_refl _

theorem sameWedge_ep_queue (k : Hdr) (e : QueueEnv) (i h : Nat) (ci : ci_hdrc)
    (r : Int × ci_hdrc) (hr : _ep_queue k e i h ci = some r) : SameWedge r.2 ci := by
  have hfl := sameWedge_ep_queue_flushed k e i h ci
  unfold _ep_queue at hr
  simp only [] at hr
  generalize ep_queue_flushed k e i h ci = c1 at hfl hr
  split at hr
  · simp only [Option.some.injEq] at hr
    subst hr
    exact SameWedge.wedge_refl _
  · split at hr
    · simp only [Option.some.injEq] at hr
      subst hr
      exact hfl
    · split at hr
      · simp only [Option.some.injEq] at hr
        subst hr
        exact hfl
      · split at hr
        · simp only [Option.some.injEq] at hr
          subst hr
          exact hfl
        · split at hr
          · exact absurd hr (by simp)
          · next ret ci4 henq =>
            have hf : SameWedge ci4 _ :=
              fun j => ((enqFrame_hardware_enqueue _ _ _ _ _ _ henq).ep j).wedge
            have h3 : SameWedge ci4 ci :=
              hf.wedge_trans ((sameWedge_setReq _ _ _).wedge_trans
                ((sameWedge_setEp _ _ _ (by rfl)).wedge_trans hfl))
            split at hr
            · simp only [Option.some.injEq] at hr
              subst hr
              exact (sameWedge_list_add_tail _ _ _).wedge_trans h3
            · split at hr
              · simp only [Option.some.injEq] at hr
                subst hr
                exact (sameWedge_setEp _ _ _ (by rfl)).wedge_trans h3
              · simp only [Option.some.injEq] at hr
                subst hr
                exact h3

theorem sameWedge_isr_setup_status_phase (k : Hdr) (e : QueueEnv) (ci : ci_hdrc)
    (r : Int × ci_hdrc) (hr : isr_setup_status_phase k e ci = some r) : SameWedge r.2 ci := by
  unfold isr_setup_status_phase at hr
  simp only [] at hr
  exact (sameWedge_ep_queue _ _ _ _ _ _ hr).wedge_trans (sameWedge_setReq _ _ _)

theorem HaltFrame.halt_refl (a : ci_hdrc) : HaltFrame a a :=
  ⟨rfl, rfl, rfl, rfl, fun _ => rfl, fun _ => rfl, fun _ => rfl, fun _ => rfl, fun _ => rfl⟩

theorem HaltFrame.halt_trans {a b c : ci_hdrc} (h1 : HaltFrame a b) (h2 : HaltFrame b c) :
    HaltFrame a c :=
  ⟨h1.hw_ep_max.trans h2.hw_ep_max, h1.status.trans h2.status, h1.ep0_dir.trans h2.ep0_dir,
   h1.reqs.trans h2.reqs, fun j => (h1.queue j).trans (h2.queue j),
   fun j => (h1.desc j).trans (h2.desc j), fun j => (h1.type j).trans (h2.type j),
   fun j => (h1.num j).trans (h2.num j), fun j => (h1.dir j).trans (h2.dir j)⟩

theorem haltFrame_hw_ep_set_halt (ci : ci_hdrc) (num dir value : Nat) (sp : Bool) :
    HaltFrame (hw_ep_set_halt ci num dir value sp).2 ci ∧
    SameWedge (hw_ep_set_halt ci num dir value sp).2 ci := by
  unfold hw_ep_set_halt
  split
  · exact ⟨HaltFrame.halt_refl _, SameWedge.wedge_refl _⟩
  · split
    · exact ⟨HaltFrame.halt_refl _, SameWedge.wedge_refl _⟩
    · simp only []
      split
      · exact ⟨⟨rfl, rfl, rfl, rfl, fun _ => rfl, fun _ => rfl, fun _ => rfl, fun _ => rfl,
          fun _ => rfl⟩, fun _ => rfl⟩
      · exact ⟨⟨rfl, rfl, rfl, rfl, fun _ => rfl, fun _ => rfl, fun _ => rfl, fun _ => rfl,
          fun _ => rfl⟩, fun _ => rfl⟩

theorem haltFrame_clear_wedge (ci : ci_hdrc) (i : Nat) :
    HaltFrame (setEp ci i { ci.ci_hw_ep i with wedge := false }) ci := by
  refine ⟨rfl, rfl, rfl, rfl, ?_, ?_, ?_, ?_, ?_⟩ <;>
  · intro j
    unfold setEp
    by_cases hj : j = i
    · subst hj
      simp
    · simp [Function.update_noteq hj]

theorem haltFrame_halt_round (ci : ci_hdrc) (i dir value : Nat) (sp : Bool) :
    HaltFrame (halt_round ci i dir value sp).2 ci := by
  unfold halt_round
  simp only []
  have h1 := (haltFrame_hw_ep_set_halt ci (ci.ci_hw_ep i).num dir value sp).1
  split
  · exact (haltFrame_clear_wedge _ _).halt_trans h1
  · exact h1

theorem haltFrame_ep_set_halt (e : HaltEnv) (i value : Nat) (ci : ci_hdrc) :
    HaltFrame (ep_set_halt e i value ci).2 ci := by
  unfold ep_set_halt
  simp only []
  split
  · exact HaltFrame.halt_refl _
  · split
    · exact HaltFrame.halt_refl _
    · split
      · exact (haltFrame_halt_round _ _ _ _ _).halt_trans (haltFrame_halt_round _ _ _ _ _)
      · exact haltFrame_halt_round _ _ _ _ _

theorem sameWedge_halt_round (ci : ci_hdrc) (i dir value : Nat) (sp : Bool) (hv : value ≠ 0) :
    SameWedge (halt_round ci i dir value sp).2 ci := by
  unfold halt_round
  simp only [hv, if_false]
  exact (haltFrame_hw_ep_set_halt ci (ci.ci_hw_ep i).num dir value sp).2

theorem sameWedge_ep_set_halt (e : HaltEnv) (i value : Nat) (ci : ci_hdrc) (hv : value ≠ 0) :
    SameWedge (ep_set_halt e i value ci).2 ci := by
  unfold ep_set_halt
  simp only []
  split
  · exact SameWedge.wedge_refl _
  · split
    · exact SameWedge.wedge_refl _
    · split
      · exact (sameWedge_halt_round _ _ _ _ _ hv).wedge_trans (sameWedge_halt_round _ _ _ _ _ hv)
      · exact sameWedge_halt_round _ _ _ _ _ hv

/-- A round that clears the halt: the wedge of the endpoint is cleared, the
wedge of every other endpoint stays, no stall bit is set. -/
theorem halt_round_clear (ci : ci_hdrc) (i dir : Nat) (sp : Bool) :
    (halt_round ci i dir 0 sp).1 = 0 ∧
    ((halt_round ci i dir 0 sp).2.ci_hw_ep i).wedge = false ∧
    (∀ j, j ≠ i → ((halt_round ci i dir 0 sp).2.ci_hw_ep j).wedge = (ci.ci_hw_ep j).wedge) ∧
    (∀ n d, hw_ep_get_halt ci n d = 0 → hw_ep_get_halt (halt_round ci i dir 0 sp).2 n d = 0) ∧
    (sp = false → hw_ep_get_halt (halt_round ci i dir 0 sp).2 (ci.ci_hw_ep i).num dir = 0) := by
  have hfw := (haltFrame_hw_ep_set_halt ci (ci.ci_hw_ep i).num dir 0 sp).2
  have hbits : (∀ n d, hw_ep_get_halt ci n d = 0 →
        hw_ep_get_halt (hw_ep_set_halt ci (ci.ci_hw_ep i).num dir 0 sp).2 n d = 0) ∧
      (sp = false →
        hw_ep_get_halt (hw_ep_set_halt ci (ci.ci_hw_ep i).num dir 0 sp).2 (ci.ci_hw_ep i).num dir
          = 0) ∧
      (hw_ep_set_halt ci (ci.ci_hw_ep i).num dir 0 sp).1 = 0 := by
    unfold hw_ep_set_halt
    have h1 : ((0 : Nat) != 0 && (0 : Nat) != 1) = false := by decide
    simp only [h1]
    cases sp
    · refine ⟨?_, ?_, rfl⟩
      · intro n d h
        unfold hw_ep_get_halt at h ⊢
        by_cases hd : (dir != 0) = true <;> by_cases hd2 : (d != 0) = true <;>
          by_cases hn : n = (ci.ci_hw_ep i).num <;>
          simp_all [emit, Function.update]
      · intro _
        unfold hw_ep_get_halt
        by_cases hd : (dir != 0) = true <;> simp_all [emit, Function.update]
    · exact ⟨fun n d h => by simpa using h, fun h => absurd h (by simp), rfl⟩
  unfold halt_round
  simp only [if_true]
  generalize hw_ep_set_halt ci (ci.ci_hw_ep i).num dir 0 sp = r at hfw hbits
  refine ⟨hbits.2.2, ?_, ?_, ?_, ?_⟩
  · simp [setEp]
  · intro j hj
    simp only [setEp, Function.update_noteq hj]
    exact hfw j
  · intro n d h
    exact hbits.1 n d h
  · intro h
    exact hbits.2.1 h

theorem halt_round_wedge_other (ci : ci_hdrc) (i dir value : Nat) (sp : Bool) (j : Nat)
    (hj : j ≠ i) :
    ((halt_round ci i dir value sp).2.ci_hw_ep j).wedge = (ci.ci_hw_ep j).wedge := by
  have hfw := (haltFrame_hw_ep_set_halt ci (ci.ci_hw_ep i).num dir value sp).2
  unfold halt_round
  simp only []
  split
  · simp only [setEp, Function.update_noteq hj]
    exact hfw j
  · exact hfw j

theorem ep_set_halt_wedge_other (e : HaltEnv) (i value : Nat) (ci : ci_hdrc) (j : Nat)
    (hj : j ≠ i) :
    ((ep_set_halt e i value ci).2.ci_hw_ep j).wedge = (ci.ci_hw_ep j).wedge := by
  unfold ep_set_halt
  simp only []
  split
  · rfl
  · split
    · rfl
    · split
      · rw [halt_round_wedge_other _ _ _ _ _ _ hj, halt_round_wedge_other _ _ _ _ _ _ hj]
      · exact halt_round_wedge_other _ _ _ _ _ _ hj

theorem ep_set_halt_clear (e : HaltEnv) (i : Nat) (ci : ci_hdrc)
    (hen : (ci.ci_hw_ep i).desc.isSome = true) :
    (ep_set_halt e i 0 ci).1 = 0 ∧
    ((ep_set_halt e i 0 ci).2.ci_hw_ep i).wedge = false ∧
    (∀ n d, hw_ep_get_halt ci n d = 0 → hw_ep_get_halt (ep_set_halt e i 0 ci).2 n d = 0) ∧
    (e.setup1 = false →
      hw_ep_get_halt (ep_set_halt e i 0 ci).2 (ci.ci_hw_ep i).num (ci.ci_hw_ep i).dir = 0) := by
  have hd : (ci.ci_hw_ep i).desc.isNone = false := by
    cases h : (ci.ci_hw_ep i).desc with
    | none => rw [h] at hen; exact absurd hen (by simp)
    | some d => rfl
  have h1 := halt_round_clear ci i (ci.ci_hw_ep i).dir e.setup1
  have h2 := halt_round_clear (halt_round ci i (ci.ci_hw_ep i).dir 0 e.setup1).2 i
    (if (ci.ci_hw_ep i).dir == TX then RX else TX) e.setup2
  unfold ep_set_halt
  have hv : ((0 : Nat) != 0) = false := by decide
  simp only [hd, hv, Bool.false_and, if_false, Bool.false_eq_true]
  split
  · simp only [h1.1, if_true]
    exact ⟨h2.1, h2.2.1, fun n d h => h2.2.2.2.1 n d (h1.2.2.2.1 n d h),
      fun hs => h2.2.2.2.1 _ _ (h1.2.2.2.2 hs)⟩
  · exact ⟨h1.1, h1.2.1, h1.2.2.2.1, h1.2.2.2.2⟩

theorem ep_set_wedge_sets (e : HaltEnv) (i : Nat) (ci : ci_hdrc)
    (hen : (ci.ci_hw_ep i).desc.isSome = true) :
    ((ep_set_wedge e i ci).2.ci_hw_ep i).wedge = true := by
  have hd : (ci.ci_hw_ep i).desc.isNone = false := by
    cases h : (ci.ci_hw_ep i).desc with
    | none => rw [h] at hen; exact absurd hen (by simp)
    | some d => rfl
  unfold ep_set_wedge
  simp only [hd, if_false, Bool.false_eq_true]
  rw [sameWedge_ep_set_halt _ _ _ _ (by decide) i]
  simp [setEp]

theorem isr_setup_status_phase_queued (k : Hdr) (e : QueueEnv) (c : ci_hdrc)
    (hq : (c.ci_hw_ep (if c.ep0_dir == TX then ep0out c else ep0in c)).queue = []) :
    ∃ r, isr_setup_status_phase k e c = some r ∧ SameCtl r.2 c ∧ SameWedge r.2 c ∧
      (r.1 = 0 →
        c.status ∈ (r.2.ci_hw_ep (if c.ep0_dir == TX then ep0out c else ep0in c)).queue ∧
        (r.2.reqs c.status).req.length = 0 ∧
        (r.2.reqs c.status).req.complete = some Complete.isr_setup_status_complete) := by
  obtain ⟨r, hr, hC, _⟩ := isr_setup_status_phase_spec k e c hq
  refine ⟨r, hr, hC, sameWedge_isr_setup_status_phase _ _ _ _ hr, ?_⟩
  unfold isr_setup_status_phase at hr
  simp only [] at hr
  have htgt : ∀ j, ep_queue_target j c.status (setReq c c.status { c.reqs c.status with
      req := { (c.reqs c.status).req with
        complete := some Complete.isr_setup_status_complete, length := 0 } }) = j := by
    intro j
    unfold ep_queue_target
    simp
  have hnf := ep_queue_flushed_of_nil k e (if c.ep0_dir == TX then ep0out c else ep0in c)
    c.status (setReq c c.status { c.reqs c.status with
      req := { (c.reqs c.status).req with
        complete := some Complete.isr_setup_status_complete, length := 0 } })
    (by rw [htgt]; exact hq)
  have hf := queueFrame_ep_queue k e _ _ _ hnf r hr
  rw [htgt] at hf
  intro h0
  refine ⟨hf.2 h0, ?_, ?_⟩
  · rw [hf.1.length]
    simp
  · rw [hf.1.complete]
    simp

theorem switchFrame_break (e : SetupEnv) (req : usb_ctrlrequest) (c : ci_hdrc) (x : Int) :
    SwitchFrame e req c (x, c) :=
  ⟨fun _ h => h, Or.inl rfl⟩

theorem switchFrame_delegate (e : SetupEnv) (req : usb_ctrlrequest) (c c1 : ci_hdrc)
    (hw : SameWedge c1 c) (hd : c1.ep0_dir = c.ep0_dir) :
    SwitchFrame e req c (setup_delegate e req c1) := by
  refine ⟨?_, Or.inr ⟨c1, hd, rfl⟩⟩
  intro j hj
  rw [← hw j] at hj
  unfold setup_delegate
  simp only []
  split <;> exact hj

theorem switchFrame_status (k : Hdr) (e : SetupEnv) (req : usb_ctrlrequest) (c c1 : ci_hdrc)
    (r : Int × ci_hdrc) (hw : ∀ j, (c.ci_hw_ep j).wedge = true → (c1.ci_hw_ep j).wedge = true)
    (hd : c1.ep0_dir = c.ep0_dir)
    (hr : isr_setup_status_phase k e.queue c1 = some r) : SwitchFrame e req c r := by
  refine ⟨?_, Or.inl ?_⟩
  · intro j hj
    rw [sameWedge_isr_setup_status_phase _ _ _ _ hr j]
    exact hw j hj
  · rw [(sameCtl_isr_setup_status_phase _ _ _ _ hr).ep0_dir]
    exact hd

theorem frame_ep_queue_checked (k : Hdr) (e : QueueEnv) (i h : Nat) (ci : ci_hdrc)
    (r : Int × ci_hdrc) (hr : ep_queue k e i h ci = some r) :
    SameCtl r.2 ci ∧ SameWedge r.2 ci := by
  unfold ep_queue at hr
  split at hr
  · simp only [Option.some.injEq] at hr
    subst hr
    exact ⟨SameCtl.ctl_refl _, SameWedge.wedge_refl _⟩
  · split at hr
    · simp only [Option.some.injEq] at hr
      subst hr
      exact ⟨SameCtl.ctl_refl _, SameWedge.wedge_refl _⟩
    · exact ⟨sameCtl_ep_queue _ _ _ _ _ _ hr, sameWedge_ep_queue _ _ _ _ _ _ hr⟩

theorem switchFrame_get_status (k : Hdr) (e : SetupEnv) (req : usb_ctrlrequest) (c : ci_hdrc)
    (r : Int × ci_hdrc) (hr : isr_get_status_response k e.queue req c = some r) :
    SwitchFrame e req c r := by
  unfold isr_get_status_response at hr
  simp only [] at hr
  have hf := frame_ep_queue_checked _ _ _ _ _ _ hr
  refine ⟨fun j hj => ?_, Or.inl ?_⟩
  · rw [hf.2 j]
    exact hj
  · exact hf.1.ep0_dir

theorem switchFrame_clear_halt (k : Hdr) (e : SetupEnv) (req : usb_ctrlrequest) (c : ci_hdrc)
    (i : Nat) (r : Int × ci_hdrc)
    (hr : (if !(c.ci_hw_ep i).wedge then
            (if (ep_set_halt e.halt i 0 c).1 ≠ 0 then some (ep_set_halt e.halt i 0 c)
             else isr_setup_status_phase k e.queue (ep_set_halt e.halt i 0 c).2)
          else isr_setup_status_phase k e.queue c) = some r) : SwitchFrame e req c r := by
  have hd := (haltFrame_ep_set_halt e.halt i 0 c).ep0_dir
  split at hr
  · next hw =>
    have hmono : ∀ j, (c.ci_hw_ep j).wedge = true →
        ((ep_set_halt e.halt i 0 c).2.ci_hw_ep j).wedge = true := by
      intro j hj
      have hji : j ≠ i := by
        intro h
        subst h
        rw [hj] at hw
        exact absurd hw (by decide)
      rw [ep_set_halt_wedge_other _ _ _ _ _ hji]
      exact hj
    split at hr
    · simp only [Option.some.injEq] at hr
      subst hr
      exact ⟨hmono, Or.inl hd⟩
    · exact switchFrame_status k e req c _ r hmono hd hr
  · exact switchFrame_status k e req c _ r (fun _ h => h) rfl hr

theorem switchFrame_set_halt (k : Hdr) (e : SetupEnv) (req : usb_ctrlrequest) (c : ci_hdrc)
    (i : Nat) (r : Int × ci_hdrc)
    (hr : (if (ep_set_halt e.halt i 1 c).1 = 0 then
            match isr_setup_status_phase k e.queue (ep_set_halt e.halt i 1 c).2 with
            | none => none
            | some q => some (0, q.2)
          else some (ep_set_halt e.halt i 1 c)) = some r) : SwitchFrame e req c r := by
  have hd := (haltFrame_ep_set_halt e.halt i 1 c).ep0_dir
  have hw := sameWedge_ep_set_halt e.halt i 1 c (by decide)
  have hmono : ∀ j, (c.ci_hw_ep j).wedge = true →
      ((ep_set_halt e.halt i 1 c).2.ci_hw_ep j).wedge = true := by
    intro j hj
    rw [hw j]
    exact hj
  split at hr
  · cases hq : isr_setup_status_phase k e.queue (ep_set_halt e.halt i 1 c).2 with
    | none =>
      rw [hq] at hr
      exact absurd hr (by simp)
    | some q =>
      rw [hq] at hr
      simp only [Option.some.injEq] at hr
      subst hr
      exact ⟨fun j hj => (switchFrame_status k e req c _ q hmono hd hq).1 j hj,
        Or.inl ((sameCtl_isr_setup_status_phase _ _ _ _ hq).ep0_dir.trans hd)⟩
  · simp only [Option.some.injEq] at hr
    subst hr
    exact ⟨hmono, Or.inl hd⟩

theorem setup_switch_frame {err0 : Int} (k : Hdr) (e : SetupEnv) (req : usb_ctrlrequest) (c : ci_hdrc)
    (r : Int × ci_hdrc) (hr : setup_switch k e req err0 c = some r) : SwitchFrame e req c r := by
  unfold setup_switch at hr
  by_cases h1 : req.bRequest = USB_REQ_CLEAR_FEATURE
  · simp only [h1, if_true] at hr
    split at hr
    · split at hr
      · simp only [Option.some.injEq] at hr
        subst hr
        exact switchFrame_break e req c _
      · exact switchFrame_clear_halt k e req c _ r hr
    · repeat' split at hr
      all_goals first
        | exact switchFrame_status k e req c _ r (by exact fun _ h => h) (by rfl) hr
        | (simp only [Option.some.injEq] at hr
           subst hr
           first
             | exact switchFrame_break e req c _
             | exact switchFrame_delegate e req c _ (fun _ => rfl) rfl)
  · simp only [h1, if_false] at hr
    by_cases h2 : req.bRequest = USB_REQ_GET_STATUS
    · simp only [h2, if_true] at hr
      repeat' split at hr
      all_goals first
        | exact switchFrame_get_status k e req c r hr
        | (simp only [Option.some.injEq] at hr
           subst hr
           first
             | exact switchFrame_break e req c _
             | exact switchFrame_delegate e req c _ (fun _ => rfl) rfl)
    · simp only [h2, if_false] at hr
      by_cases h3 : req.bRequest = USB_REQ_SET_ADDRESS
      · simp only [h3, if_true] at hr
        repeat' split at hr
        all_goals first
          | exact switchFrame_status k e req c _ r (by exact fun _ h => h) (by rfl) hr
          | (simp only [Option.some.injEq] at hr
             subst hr
             first
               | exact switchFrame_break e req c _
               | exact switchFrame_delegate e req c _ (fun _ => rfl) rfl)
      · simp only [h3, if_false] at hr
        by_cases h4 : req.bRequest = USB_REQ_SET_CONFIGURATION
        · simp only [h4, if_true, Option.some.injEq] at hr
          subst hr
          split
          · exact switchFrame_delegate e req c _ (fun _ => rfl) rfl
          · exact switchFrame_delegate e req c _ (fun _ => rfl) rfl
        · simp only [h4, if_false] at hr
          by_cases h5 : req.bRequest = USB_REQ_SET_FEATURE
          · simp only [h5, if_true] at hr
            by_cases c1 : (decide (req.bRequestType = USB_DIR_OUT ||| USB_RECIP_ENDPOINT) &&
                decide (req.wValue = USB_ENDPOINT_HALT)) = true
            · simp only [c1, if_true] at hr
              split at hr
              · simp only [Option.some.injEq] at hr
                subst hr
                exact switchFrame_break e req c _
              · exact switchFrame_set_halt k e req c _ r hr
            · simp only [c1, if_false, Bool.false_eq_true] at hr
              by_cases c2 : req.bRequestType = USB_DIR_OUT ||| USB_RECIP_DEVICE
              swap
              · simp only [c2, if_false, Bool.false_eq_true, Option.some.injEq] at hr
                subst hr
                exact switchFrame_delegate e req c _ (fun _ => rfl) rfl
              simp only [c2, if_true, Bool.false_eq_true, if_false] at hr
              by_cases c3 : (req.wLength != 0) = true
              · simp only [c3, if_true, Bool.false_eq_true, if_false, Option.some.injEq] at hr
                subst hr
                exact switchFrame_break e req c _
              simp only [c3, if_false, Bool.false_eq_true] at hr
              repeat' split at hr
              all_goals first
                | exact switchFrame_status k e req c _ r (by exact fun _ h => h) (by rfl) hr
                | (simp only [Option.some.injEq] at hr
                   subst hr
                   exact switchFrame_break e req c _)
          · simp only [h5, if_false, Option.some.injEq] at hr
            subst hr
            exact switchFrame_delegate e req c _ (fun _ => rfl) rfl

theorem SameDesc.desc_refl (a : ci_hdrc) : SameDesc a a := fun _ => rfl

theorem SameDesc.desc_trans {a b c : ci_hdrc} (h1 : SameDesc a b) (h2 : SameDesc b c) :
    SameDesc a c := fun j => (h1 j).trans (h2 j)

theorem sameDesc_of_eq {a b : ci_hdrc} (h : a.ci_hw_ep = b.ci_hw_ep) : SameDesc a b := by
  intro j
  rw [h]

theorem sameDesc_setEp (ci : ci_hdrc) (i : Nat) (e : ci_hw_ep)
    (hw : e.desc = (ci.ci_hw_ep i).desc) : SameDesc (setEp ci i e) ci := by
  intro j
  unfold setEp
  by_cases hj : j = i
  · subst hj
    simp [hw]
  · simp [Function.update_noteq hj]

theorem sameDesc_list_del_init (ci : ci_hdrc) (h : Nat) : SameDesc (list_del_init ci h) ci :=
  fun _ => rfl

theorem sameDesc_list_add_tail (ci : ci_hdrc) (i h : Nat) :
    SameDesc (list_add_tail ci i h) ci :=
  sameDesc_setEp _ _ _ (by rfl)

theorem sameDesc_emit (ci : ci_hdrc) (ev : Event) : SameDesc (emit ci ev) ci :=
  fun _ => rfl

theorem sameDesc_setReq (ci : ci_hdrc) (h : Nat) (r : ci_hw_req) :
    SameDesc (setReq ci h r) ci :=
  fun _ => rfl

theorem sameDesc_pipeid (ci : ci_hdrc) (f : Nat → Nat) : SameDesc { ci with pipeid := f } ci :=
  fun _ => rfl

theorem sameDesc_free_pending_td (ci : ci_hdrc) (i : Nat) :
    SameDesc (free_pending_td ci i) ci := by
  unfold free_pending_td
  split
  · exact SameDesc.desc_refl _
  · exact (sameDesc_setEp _ _ _ (by rfl)).desc_trans (fun _ => rfl)

theorem sameDesc_nuke_one (k : Hdr) (e : NukeEnv) (i h : Nat) (ci : ci_hdrc) :
    SameDesc (nuke_one k e i h ci) ci := by
  unfold nuke_one
  simp only []
  refine (sameDesc_of_eq (call_complete_ci_hw_ep _ _ _)).desc_trans ?_
  have h2 : SameDesc (list_del_init (setReq (free_tds ci (ci.reqs h).tds) h
      { ci.reqs h with tds := [] }) h) ci :=
    (sameDesc_list_del_init _ _).desc_trans ((sameDesc_setReq _ _ _).desc_trans
      (sameDesc_of_eq (free_tds_ci_hw_ep _ _)))
  split <;> split
  · exact (sameDesc_setEp _ _ _ (by rfl)).desc_trans ((sameDesc_setReq _ _ _).desc_trans
      ((sameDesc_emit _ _).desc_trans ((sameDesc_pipeid _ _).desc_trans h2)))
  · exact (sameDesc_setEp _ _ _ (by rfl)).desc_trans ((sameDesc_setReq _ _ _).desc_trans h2)
  · exact (sameDesc_setReq _ _ _).desc_trans
      ((sameDesc_emit _ _).desc_trans ((sameDesc_pipeid _ _).desc_trans h2))
  · exact (sameDesc_setReq _ _ _).desc_trans h2

theorem sameDesc_nuke_loop (k : Hdr) (e : NukeEnv) (i : Nat) (fuel : Nat) (ci : ci_hdrc) :
    SameDesc (nuke_loop k e i fuel ci) ci := by
  induction fuel generalizing ci with
  | zero => exact SameDesc.desc_refl _
  | succ f ih =>
    unfold nuke_loop
    split
    · exact SameDesc.desc_refl _
    · exact (ih _).desc_trans (sameDesc_nuke_one _ _ _ _ _)

theorem sameDesc_ep_nuke (k : Hdr) (e : NukeEnv) (i : Nat) (ci : ci_hdrc) :
    SameDesc (_ep_nuke k e i ci).2 ci := by
  unfold _ep_nuke
  simp only []
  have h2 : SameDesc (hw_ep_flush (del_prime_timer ci i)
      (ci.ci_hw_ep i).num (ci.ci_hw_ep i).dir e.flush) ci :=
    (sameDesc_of_eq (hw_ep_flush_ci_hw_ep _ _ _ _)).desc_trans (sameDesc_setEp _ _ _ (by rfl))
  split
  · exact (sameDesc_free_pending_td _ _).desc_trans
      ((sameDesc_nuke_loop _ _ _ _ _).desc_trans h2)
  · exact (sameDesc_nuke_loop _ _ _ _ _).desc_trans h2

theorem setup_switch_clear_halt {err0 : Int} (k : Hdr) (e : SetupEnv) (w : Nat) (c : ci_hdrc) :
    setup_switch k e (clear_halt_pkt w) err0 c
      = if !(c.ci_hw_ep (setup_ep_index c w)).wedge then
          (if (ep_set_halt e.halt (setup_ep_index c w) 0 c).1 ≠ 0 then
             some (ep_set_halt e.halt (setup_ep_index c w) 0 c)
           else isr_setup_status_phase k e.queue (ep_set_halt e.halt (setup_ep_index c w) 0 c).2)
        else isr_setup_status_phase k e.queue c := rfl

theorem clear_halt_switch {err0 : Int} (k : Hdr) (e : SetupEnv) (w : Nat) (c : ci_hdrc)
    (hd : c.ep0_dir = RX) (hq : (c.ci_hw_ep (ep0in c)).queue = []) :
    ∃ q, setup_switch k e (clear_halt_pkt w) err0 c = some q ∧
      ((c.ci_hw_ep (setup_ep_index c w)).wedge = false →
        (c.ci_hw_ep (setup_ep_index c w)).desc.isSome = true → e.halt.setup1 = false → q.1 = 0 →
          hw_ep_get_halt q.2 (c.ci_hw_ep (setup_ep_index c w)).num
            (c.ci_hw_ep (setup_ep_index c w)).dir = 0 ∧
          (q.2.ci_hw_ep (setup_ep_index c w)).wedge = false ∧ status_phase_queued q.2 c) ∧
      ((c.ci_hw_ep (setup_ep_index c w)).wedge = true →
        SameWedge q.2 c ∧ SameCtl q.2 c ∧ (q.1 = 0 → status_phase_queued q.2 c)) := by
  have hrx : (RX == TX) = false := by decide
  rw [setup_switch_clear_halt]
  generalize setup_ep_index c w = i
  cases hw : (c.ci_hw_ep i).wedge
  · simp only [Bool.not_false, if_true]
    have hF := haltFrame_ep_set_halt e.halt i 0 c
    by_cases h0 : (ep_set_halt e.halt i 0 c).1 ≠ 0
    · rw [if_pos h0]
      refine ⟨_, rfl, ?_, fun h => absurd h (by simp)⟩
      intro _ _ _ hz
      exact absurd hz h0
    · rw [if_neg h0]
      have hq1 : ((ep_set_halt e.halt i 0 c).2.ci_hw_ep
          (if (ep_set_halt e.halt i 0 c).2.ep0_dir == TX then ep0out (ep_set_halt e.halt i 0 c).2
           else ep0in (ep_set_halt e.halt i 0 c).2)).queue = [] := by
        rw [hF.ep0_dir, hd]
        simp only [hrx, Bool.false_eq_true, if_false]
        unfold ep0in
        rw [hF.hw_ep_max, hF.queue]
        exact hq
      obtain ⟨q, hq2, hC, hW, hst⟩ := isr_setup_status_phase_queued k e.queue _ hq1
      refine ⟨q, hq2, ?_, fun h => absurd h (by simp)⟩
      intro _ hen hs hz
      have hcl := ep_set_halt_clear e.halt i c hen
      have hst2 := hst hz
      rw [hF.ep0_dir, hd] at hst2
      simp only [hrx, Bool.false_eq_true, if_false] at hst2
      have hin : ep0in (ep_set_halt e.halt i 0 c).2 = ep0in c := by
        unfold ep0in
        rw [hF.hw_ep_max]
      rw [hin, hF.status] at hst2
      refine ⟨?_, ?_, hst2⟩
      · rw [hw_ep_get_halt_congr hC]
        exact hcl.2.2.2 hs
      · rw [hW i]
        exact hcl.2.1
  · simp only [Bool.not_true, Bool.false_eq_true, if_false]
    have hq1 : (c.ci_hw_ep (if c.ep0_dir == TX then ep0out c else ep0in c)).queue = [] := by
      rw [hd]
      simp only [hrx, Bool.false_eq_true, if_false]
      exact hq
    obtain ⟨q, hq2, hC, hW, hst⟩ := isr_setup_status_phase_queued k e.queue _ hq1
    refine ⟨q, hq2, fun h => absurd h (by simp), ?_⟩
    intro _
    refine ⟨hW, hC, ?_⟩
    intro hz
    have hst2 := hst hz
    rw [hd] at hst2
    simp only [hrx, Bool.false_eq_true, if_false] at hst2
    exact hst2

theorem setup_packet_keeps_wedge {err0 : Int} (k : Hdr) (e : SetupEnv) (ci : ci_hdrc) (r : Int × ci_hdrc)
    (hr : isr_setup_packet k e err0 ci = some r) (j : Nat) (hj : (ci.ci_hw_ep j).wedge = true) :
    (r.2.ci_hw_ep j).wedge = true := by
  have hW1 := sameWedge_ep_nuke k e.nuke_out (ep0out ci) ci
  have hW2 := sameWedge_ep_nuke k e.nuke_in (ep0in (_ep_nuke k e.nuke_out (ep0out ci) ci).2)
    (_ep_nuke k e.nuke_out (ep0out ci) ci).2
  unfold isr_setup_packet at hr
  simp only [] at hr
  generalize (_ep_nuke k e.nuke_out (ep0out ci) ci).2 = ci1 at hW1 hW2 hr
  generalize (_ep_nuke k e.nuke_in (ep0in ci1) ci1).2 = ci2 at hW2 hr
  have hj2 : (ci2.ci_hw_ep j).wedge = true := by
    rw [hW2 j, hW1 j]
    exact hj
  generalize hc3 : ({ ci2 with ep0_dir :=
    if e.pkt.bRequestType &&& USB_DIR_IN != 0 then TX else RX } : ci_hdrc) = ci3 at hr
  have hj3 : (ci3.ci_hw_ep j).wedge = true := by
    rw [← hc3]
    exact hj2
  cases hs : setup_switch k e e.pkt err0 ci3 with
  | none =>
    rw [hs] at hr
    exact absurd hr (by simp)
  | some q =>
    have hf := (setup_switch_frame k e e.pkt ci3 q hs).1 j hj3
    rw [hs] at hr
    obtain ⟨err, c4⟩ := q
    simp only at hr hf
    split at hr
    · simp only [Option.some.injEq] at hr
      subst hr
      simp only
      rw [sameWedge_ep_set_halt _ _ _ _ (by decide) j]
      exact hf
    · simp only [Option.some.injEq] at hr
      subst hr
      exact hf

/-- C11 as stated fails in three ways.  CLEAR_FEATURE(ENDPOINT_HALT) for the
endpoint 1 IN of a controller on which that endpoint is not enabled (and not
wedged): ep_set_halt returns -EINVAL, no status phase is queued and endpoint 0
is stalled.  CLEAR_FEATURE(ENDPOINT_HALT) for the halted endpoint 0 while the
next SETUP packet is pending in ENDPTSETUPSTAT: `err` is 0 and the status
phase is queued, but hw_ep_set_halt returns before it writes the stall bit,
which stays set.  CLEAR_FEATURE(ENDPOINT_HALT) for the wedged endpoint 1 OUT on
a suspended controller without remote wakeup: the halt and the wedge stay, but
`_hardware_enqueue` returns -EAGAIN and no status phase is queued. -/
theorem clear_halt_counterexample :
    ((ci_disabled.ci_hw_ep 3).wedge = false ∧
     (isr_setup_packet hdr0 (setup_env_ok (clear_halt_pkt 129)) (-EINVAL) ci_disabled).map
        (fun r => (r.1, (r.2.ci_hw_ep (ep0in ci_disabled)).queue, hw_ep_get_halt r.2 0 RX))
      = some (-EINVAL, [], 1)) ∧
    ((ci_stalled0.ci_hw_ep 0).wedge = false ∧ (ci_stalled0.ci_hw_ep 0).desc.isSome = true ∧
     hw_ep_get_halt ci_stalled0 0 RX = 1 ∧
     (isr_setup_packet hdr0 (setup_env_setup_pending (clear_halt_pkt 0)) (-EINVAL) ci_stalled0).map
        (fun r => (r.1, (r.2.ci_hw_ep (ep0in ci_stalled0)).queue, hw_ep_get_halt r.2 0 RX))
      = some (0, [ci_stalled0.status], 1)) ∧
    ((ci_wedged.ci_hw_ep 1).wedge = true ∧
     (isr_setup_packet hdr0 (setup_env_ok (clear_halt_pkt 1)) (-EINVAL)
        { ci_wedged with suspended := true }).map
        (fun r => (r.1, (r.2.ci_hw_ep (ep0in ci_wedged)).queue, (r.2.ci_hw_ep 1).wedge))
      = some (-EAGAIN, [], true)) := by
  refine ⟨⟨?_, ?_⟩, ⟨?_, ?_, ?_, ?_⟩, ⟨?_, ?_⟩⟩ <;> decide!

theorem clear_halt_disabled {err0 : Int} (k : Hdr) (e : SetupEnv) (w : Nat) (ci : ci_hdrc)
    (r : Int × ci_hdrc) (hpkt : e.pkt = clear_halt_pkt w)
    (hr : isr_setup_packet k e err0 ci = some r)
    (hw : (ci.ci_hw_ep (setup_ep_index ci w)).wedge = false)
    (hd : (ci.ci_hw_ep (setup_ep_index ci w)).desc.isSome = false) :
    r.1 = -EINVAL ∧ (r.2.ci_hw_ep (ep0in ci)).queue = [] := by
  have hC1 := sameCtl_ep_nuke k e.nuke_out (ep0out ci) ci
  have hW1 := sameWedge_ep_nuke k e.nuke_out (ep0out ci) ci
  have hD1 := sameDesc_ep_nuke k e.nuke_out (ep0out ci) ci
  have hC2 := sameCtl_ep_nuke k e.nuke_in (ep0in (_ep_nuke k e.nuke_out (ep0out ci) ci).2)
    (_ep_nuke k e.nuke_out (ep0out ci) ci).2
  have hW2 := sameWedge_ep_nuke k e.nuke_in (ep0in (_ep_nuke k e.nuke_out (ep0out ci) ci).2)
    (_ep_nuke k e.nuke_out (ep0out ci) ci).2
  have hD2 := sameDesc_ep_nuke k e.nuke_in (ep0in (_ep_nuke k e.nuke_out (ep0out ci) ci).2)
    (_ep_nuke k e.nuke_out (ep0out ci) ci).2
  have hq := ep_nuke_queue_nil k e.nuke_in (ep0in (_ep_nuke k e.nuke_out (ep0out ci) ci).2)
    (_ep_nuke k e.nuke_out (ep0out ci) ci).2
  unfold isr_setup_packet at hr
  simp only [hpkt] at hr
  generalize (_ep_nuke k e.nuke_out (ep0out ci) ci).2 = ci1 at hC1 hW1 hD1 hC2 hW2 hD2 hq hr
  generalize (_ep_nuke k e.nuke_in (ep0in ci1) ci1).2 = ci2 at hC2 hW2 hD2 hq hr
  have hC : SameCtl ci2 ci := hC2.ctl_trans hC1
  have hW : SameWedge ci2 ci := hW2.wedge_trans hW1
  have hD : SameDesc ci2 ci := hD2.desc_trans hD1
  have hq2 : (ci2.ci_hw_ep (ep0in ci)).queue = [] := by
    have hm : ep0in ci = ep0in ci1 := by
      unfold ep0in
      rw [hC1.hw_ep_max]
    rw [hm]
    exact hq
  generalize hc3 : ({ ci2 with ep0_dir :=
    if (clear_halt_pkt w).bRequestType &&& USB_DIR_IN != 0 then TX else RX } : ci_hdrc) = ci3 at hr
  have hep : ci3.ci_hw_ep = ci2.ci_hw_ep := by rw [← hc3]
  have hmax : ci3.hw_ep_max = ci.hw_ep_max := by
    rw [← hc3]
    exact hC.hw_ep_max
  have hidx : setup_ep_index ci3 w = setup_ep_index ci w := setup_ep_index_congr hmax w
  have hw3 : (ci3.ci_hw_ep (setup_ep_index ci w)).wedge = false := by
    rw [hep, hW _]
    exact hw
  have hd3 : (ci3.ci_hw_ep (setup_ep_index ci w)).desc.isNone = true := by
    rw [hep, hD _]
    cases hx : (ci.ci_hw_ep (setup_ep_index ci w)).desc with
    | none => rfl
    | some d =>
      rw [hx] at hd
      exact absurd hd (by simp)
  have hhalt : ep_set_halt e.halt (setup_ep_index ci w) 0 ci3 = (-EINVAL, ci3) := by
    unfold ep_set_halt
    simp only [hd3, if_true]
  rw [setup_switch_clear_halt, hidx] at hr
  simp only [hw3, Bool.not_false, if_true, hhalt] at hr
  rw [if_pos neg_EINVAL_ne_zero] at hr
  simp only [] at hr
  have hneg : (-EINVAL : Int) < 0 := by decide
  rw [if_pos hneg] at hr
  simp only [Option.some.injEq] at hr
  subst hr
  refine ⟨rfl, ?_⟩
  simp only
  rw [(haltFrame_ep_set_halt e.stall 0 1 ci3).queue, hep]
  exact hq2

/-- C11 (amended): handling a CLEAR_FEATURE(ENDPOINT_HALT) packet with
wLength = 0 returns.  If the addressed endpoint is enabled and not wedged, no
SETUP packet is pending while its stall bit is written, and the handling ends
with `err` 0, then its halt is cleared, it is still not wedged, and the
zero-length status request is on the queue of endpoint 0 IN.  If the endpoint
is wedged, the wedge flag of every endpoint is as before, and if the handling
ends with `err` 0 the halt state of every endpoint is as before and the
zero-length status request is on the queue of endpoint 0 IN.  If the endpoint
is not wedged and not enabled, the handling ends with `err` -EINVAL and the
queue of endpoint 0 IN is empty: no status request is queued.  The wedge flag is
set by ep_set_wedge on an enabled endpoint, cleared by ep_set_halt with value 0
on an enabled endpoint, and left as it is by ep_set_halt with another value,
by `_ep_nuke` and by `_ep_queue`; a wedged endpoint is still wedged after the
handling of any SETUP packet.  `err0` is the value of `err` before the
switch. -/
theorem clear_halt_handled {err0 : Int} (k : Hdr) (e : SetupEnv) (w : Nat) (ci : ci_hdrc)
    (hpkt : e.pkt = clear_halt_pkt w) :
    ∃ r, isr_setup_packet k e err0 ci = some r ∧
      ((ci.ci_hw_ep (setup_ep_index ci w)).wedge = false →
        (ci.ci_hw_ep (setup_ep_index ci w)).desc.isSome = true → e.halt.setup1 = false →
        r.1 = 0 →
          hw_ep_get_halt r.2 (ci.ci_hw_ep (setup_ep_index ci w)).num
            (ci.ci_hw_ep (setup_ep_index ci w)).dir = 0 ∧
          (r.2.ci_hw_ep (setup_ep_index ci w)).wedge = false ∧ status_phase_queued r.2 ci) ∧
      ((ci.ci_hw_ep (setup_ep_index ci w)).wedge = true →
        (∀ j, (r.2.ci_hw_ep j).wedge = (ci.ci_hw_ep j).wedge) ∧
        (r.1 = 0 →
          (∀ n d, hw_ep_get_halt r.2 n d = hw_ep_get_halt ci n d) ∧
          status_phase_queued r.2 ci)) ∧
      ((ci.ci_hw_ep (setup_ep_index ci w)).wedge = false →
        (ci.ci_hw_ep (setup_ep_index ci w)).desc.isSome = false →
        r.1 = -EINVAL ∧ (r.2.ci_hw_ep (ep0in ci)).queue = []) ∧
      (∀ (h : HaltEnv) (i : Nat) (c : ci_hdrc), (c.ci_hw_ep i).desc.isSome = true →
        ((ep_set_wedge h i c).2.ci_hw_ep i).wedge = true ∧
        ((ep_set_halt h i 0 c).2.ci_hw_ep i).wedge = false) ∧
      (∀ (h : HaltEnv) (i v : Nat) (c : ci_hdrc), v ≠ 0 →
        ∀ j, ((ep_set_halt h i v c).2.ci_hw_ep j).wedge = (c.ci_hw_ep j).wedge) ∧
      (∀ (n : NukeEnv) (i : Nat) (c : ci_hdrc) (j : Nat),
        ((_ep_nuke k n i c).2.ci_hw_ep j).wedge = (c.ci_hw_ep j).wedge) ∧
      (∀ (q : QueueEnv) (i h : Nat) (c : ci_hdrc) (r2 : Int × ci_hdrc),
        _ep_queue k q i h c = some r2 → ∀ j, (r2.2.ci_hw_ep j).wedge = (c.ci_hw_ep j).wedge) ∧
      (∀ (e2 : SetupEnv) (err2 : Int) (c : ci_hdrc) (r2 : Int × ci_hdrc),
        isr_setup_packet k e2 err2 c = some r2 →
        ∀ j, (c.ci_hw_ep j).wedge = true → (r2.2.ci_hw_ep j).wedge = true) := by
  have hmain : ∃ r, isr_setup_packet k e err0 ci = some r ∧
      ((ci.ci_hw_ep (setup_ep_index ci w)).wedge = false →
        (ci.ci_hw_ep (setup_ep_index ci w)).desc.isSome = true → e.halt.setup1 = false →
        r.1 = 0 →
          hw_ep_get_halt r.2 (ci.ci_hw_ep (setup_ep_index ci w)).num
            (ci.ci_hw_ep (setup_ep_index ci w)).dir = 0 ∧
          (r.2.ci_hw_ep (setup_ep_index ci w)).wedge = false ∧ status_phase_queued r.2 ci) ∧
      ((ci.ci_hw_ep (setup_ep_index ci w)).wedge = true →
        (∀ j, (r.2.ci_hw_ep j).wedge = (ci.ci_hw_ep j).wedge) ∧
        (r.1 = 0 →
          (∀ n d, hw_ep_get_halt r.2 n d = hw_ep_get_halt ci n d) ∧
          status_phase_queued r.2 ci)) := by
    have hC1 := sameCtl_ep_nuke k e.nuke_out (ep0out ci) ci
    have hW1 := sameWedge_ep_nuke k e.nuke_out (ep0out ci) ci
    have hD1 := sameDesc_ep_nuke k e.nuke_out (ep0out ci) ci
    have hI1 := sameIds_ep_nuke k e.nuke_out (ep0out ci) ci
    have hC2 := sameCtl_ep_nuke k e.nuke_in (ep0in (_ep_nuke k e.nuke_out (ep0out ci) ci).2)
      (_ep_nuke k e.nuke_out (ep0out ci) ci).2
    have hW2 := sameWedge_ep_nuke k e.nuke_in (ep0in (_ep_nuke k e.nuke_out (ep0out ci) ci).2)
      (_ep_nuke k e.nuke_out (ep0out ci) ci).2
    have hD2 := sameDesc_ep_nuke k e.nuke_in (ep0in (_ep_nuke k e.nuke_out (ep0out ci) ci).2)
      (_ep_nuke k e.nuke_out (ep0out ci) ci).2
    have hI2 := sameIds_ep_nuke k e.nuke_in (ep0in (_ep_nuke k e.nuke_out (ep0out ci) ci).2)
      (_ep_nuke k e.nuke_out (ep0out ci) ci).2
    have hq := ep_nuke_queue_nil k e.nuke_in (ep0in (_ep_nuke k e.nuke_out (ep0out ci) ci).2)
      (_ep_nuke k e.nuke_out (ep0out ci) ci).2
    unfold isr_setup_packet
    simp only [hpkt]
    generalize (_ep_nuke k e.nuke_out (ep0out ci) ci).2 = ci1 at hC1 hW1 hD1 hI1 hC2 hW2 hD2 hI2 hq ⊢
    generalize (_ep_nuke k e.nuke_in (ep0in ci1) ci1).2 = ci2 at hC2 hW2 hD2 hI2 hq ⊢
    have hC : SameCtl ci2 ci := hC2.ctl_trans hC1
    have hW : SameWedge ci2 ci := hW2.wedge_trans hW1
    have hD : SameDesc ci2 ci := hD2.desc_trans hD1
    have hI : SameIds ci2 ci := hI2.ids_trans hI1
    have hdir : (if (clear_halt_pkt w).bRequestType &&& USB_DIR_IN != 0 then TX else RX) = RX := by
      have h0 : ((USB_DIR_OUT ||| USB_RECIP_ENDPOINT) &&& USB_DIR_IN != 0) = false := by decide
      simp only [clear_halt_pkt, h0]
      rfl
    rw [hdir]
    have hq2 : (ci2.ci_hw_ep (ci2.hw_ep_max / 2)).queue = [] := by
      have hm : ci2.hw_ep_max = ci1.hw_ep_max := hC2.hw_ep_max
      rw [hm]
      exact hq
    obtain ⟨q, hq4, hnw, hwd⟩ := clear_halt_switch k e w { ci2 with ep0_dir := RX } rfl hq2
    rw [hq4]
    have hidx : setup_ep_index { ci2 with ep0_dir := RX } w = setup_ep_index ci w :=
      setup_ep_index_congr hC.hw_ep_max w
    rw [hidx] at hnw hwd
    have hin : ep0in { ci2 with ep0_dir := RX } = ep0in ci := by
      unfold ep0in
      exact congrArg (fun n => n / 2) hC.hw_ep_max
    have hsq : ∀ x, status_phase_queued x { ci2 with ep0_dir := RX } → status_phase_queued x ci := by
      intro x hx
      unfold status_phase_queued at hx ⊢
      rw [hin] at hx
      have hst : ({ ci2 with ep0_dir := RX } : ci_hdrc).status = ci.status := hC.status
      rw [hst] at hx
      exact hx
    obtain ⟨err, c5⟩ := q
    simp only at hnw hwd ⊢
    by_cases hneg : err < 0
    · simp only [hneg, if_true]
      refine ⟨_, rfl, ?_, ?_⟩
      · intro _ _ _ h0
        simp only at h0
        rw [h0] at hneg
        exact absurd hneg (by decide)
      · intro hw
        have hw3 : (({ ci2 with ep0_dir := RX } : ci_hdrc).ci_hw_ep (setup_ep_index ci w)).wedge
            = true := (hW _).trans hw
        refine ⟨?_, ?_⟩
        · intro j
          simp only
          rw [sameWedge_ep_set_halt _ _ _ _ (by decide) j, (hwd hw3).1 j]
          exact hW j
        · intro h0
          simp only at h0
          rw [h0] at hneg
          exact absurd hneg (by decide)
    · simp only [hneg, if_false]
      refine ⟨_, rfl, ?_, ?_⟩
      · intro hw hen hs h0
        have hw3 : (({ ci2 with ep0_dir := RX } : ci_hdrc).ci_hw_ep (setup_ep_index ci w)).wedge
            = false := (hW _).trans hw
        have hen3 : (({ ci2 with ep0_dir := RX } : ci_hdrc).ci_hw_ep
            (setup_ep_index ci w)).desc.isSome = true := by
          have hd3 : (({ ci2 with ep0_dir := RX } : ci_hdrc).ci_hw_ep (setup_ep_index ci w)).desc
              = (ci.ci_hw_ep (setup_ep_index ci w)).desc := hD _
          rw [hd3]
          exact hen
        have h3 := hnw hw3 hen3 hs h0
        have hn3 : (({ ci2 with ep0_dir := RX } : ci_hdrc).ci_hw_ep (setup_ep_index ci w)).num
            = (ci.ci_hw_ep (setup_ep_index ci w)).num := (hI _).1
        have hd3 : (({ ci2 with ep0_dir := RX } : ci_hdrc).ci_hw_ep (setup_ep_index ci w)).dir
            = (ci.ci_hw_ep (setup_ep_index ci w)).dir := (hI _).2
        rw [hn3, hd3] at h3
        exact ⟨h3.1, h3.2.1, hsq _ h3.2.2⟩
      · intro hw
        have hw3 : (({ ci2 with ep0_dir := RX } : ci_hdrc).ci_hw_ep (setup_ep_index ci w)).wedge
            = true := (hW _).trans hw
        have h3 := hwd hw3
        refine ⟨fun j => (h3.1 j).trans (hW j), ?_⟩
        intro h0
        refine ⟨?_, hsq _ (h3.2.2 h0)⟩
        intro n d
        rw [hw_ep_get_halt_congr h3.2.1]
        unfold hw_ep_get_halt
        simp only [hC.rxs, hC.txs]
  obtain ⟨r, hr, h1, h2⟩ := hmain
  refine ⟨r, hr, h1, h2, clear_halt_disabled k e w ci r hpkt hr, ?_, ?_, ?_, ?_, ?_⟩
  · intro h i c hen
    exact ⟨ep_set_wedge_sets h i c hen, (ep_set_halt_clear h i c hen).2.1⟩
  · intro h i v c hv
    exact sameWedge_ep_set_halt h i v c hv
  · intro n i c
    exact sameWedge_ep_nuke k n i c
  · intro q i h c r2 hr2
    exact sameWedge_ep_queue k q i h c r2 hr2
  · intro e2 err2 c r2 hr2
    exact setup_packet_keeps_wedge k e2 c r2 hr2

theorem clear_halt_handled_witness :
    ∃ r, isr_setup_packet hdr0 (setup_env_ok (clear_halt_pkt 1)) (-EINVAL) ci_stalled = some r ∧
      hw_ep_get_halt ci_stalled 1 RX = 1 ∧
      hw_ep_get_halt r.2 1 RX = 0 ∧ status_phase_queued r.2 ci_stalled := by
  obtain ⟨r, hr, h1, _⟩ :=
    @clear_halt_handled (-EINVAL) hdr0 (setup_env_ok (clear_halt_pkt 1)) 1 ci_stalled rfl
  have h0 : r.1 = 0 := by
    have hv : (isr_setup_packet hdr0 (setup_env_ok (clear_halt_pkt 1)) (-EINVAL) ci_stalled).map Prod.fst
        = some 0 := by decide!
    rw [hr] at hv
    simpa using hv
  have h2 := h1 (by decide!) (by decide!) rfl h0
  refine ⟨r, hr, by decide!, ?_, h2.2.2⟩
  have hn : (ci_stalled.ci_hw_ep (setup_ep_index ci_stalled 1)).num = 1 := by decide!
  have hd : (ci_stalled.ci_hw_ep (setup_ep_index ci_stalled 1)).dir = RX := by decide!
  rw [hn, hd] at h2
  exact h2.1

/-- C12: the code departs from the claim on SET_FEATURE(ENDPOINT_HALT).  On the
suspended sample controller without remote wakeup the packet for the enabled
endpoint 1 IN halts that endpoint, the status phase then fails in
`_hardware_enqueue` with -EAGAIN, and the result is dropped: `err` stays 0,
nothing is queued on either half of endpoint 0, the function driver's `setup`
is not called and endpoint 0 is not stalled.  The CLEAR_FEATURE(ENDPOINT_HALT)
packet for the same endpoint on the same controller keeps the result of the
status phase: `err` is -EAGAIN and endpoint 0 is stalled. -/
theorem set_halt_status_dropped :
    (ci_suspended.ci_hw_ep 3).desc.isSome = true ∧
    (isr_setup_packet hdr0 (setup_env_ok (set_halt_pkt 129)) (-EINVAL) ci_suspended).map
        (fun r => (r.1, (r.2.ci_hw_ep (ep0out r.2)).queue, (r.2.ci_hw_ep (ep0in r.2)).queue))
      = some (0, [], []) ∧
    (isr_setup_packet hdr0 (setup_env_ok (set_halt_pkt 129)) (-EINVAL) ci_suspended).map
        (fun r => (setup_calls r.2.trace, hw_ep_get_halt r.2 0 RX, hw_ep_get_halt r.2 0 TX))
      = some ([], 0, 0) ∧
    (isr_setup_status_phase hdr0 queue_env_ok
        { (ep_set_halt halt_env_ok 3 1 ci_suspended).2 with ep0_dir := RX }).map Prod.fst
      = some (-EAGAIN) ∧
    (isr_setup_packet hdr0 (setup_env_ok (clear_halt_pkt 129)) (-EINVAL) ci_suspended).map
        (fun r => (r.1, hw_ep_get_halt r.2 0 RX, hw_ep_get_halt r.2 0 TX))
      = some (-EAGAIN, 1, 1) := by
  refine ⟨?_, ?_, ?_, ?_, ?_⟩ <;> decide!

/-- C13 as stated fails.  The SET_ADDRESS packet has wLength = 0 and is handled
by the driver itself: ep0_dir is RX, the direction bit of bmRequestType, when
isr_setup_status_phase runs, so the status request goes to the queue of
endpoint 0 IN and ep0_dir is still RX at the end.  Had ep0_dir been TX, the
status request would have gone to the queue of endpoint 0 OUT. -/
theorem zero_length_setup_counterexample :
    (set_address_pkt 5).wLength = 0 ∧
    (isr_setup_packet hdr0 (setup_env_ok (set_address_pkt 5)) (-EINVAL) ci_sample).map
        (fun r => (r.1, r.2.ep0_dir, (r.2.ci_hw_ep (ep0in r.2)).queue,
          (r.2.ci_hw_ep (ep0out r.2)).queue))
      = some (0, RX, [ci_sample.status], []) ∧
    (isr_setup_status_phase hdr0 queue_env_ok { ci_sample with ep0_dir := TX }).map
        (fun r => (r.1, (r.2.ci_hw_ep (ep0in r.2)).queue, (r.2.ci_hw_ep (ep0out r.2)).queue))
      = some (0, [], [ci_sample.status]) := by
  refine ⟨rfl, ?_, ?_⟩ <;> decide!

theorem ep0_dir_ep_set_halt (e : HaltEnv) (i v : Nat) (ci : ci_hdrc) :
    (ep_set_halt e i v ci).2.ep0_dir = ci.ep0_dir :=
  (haltFrame_ep_set_halt e i v ci).ep0_dir

/-- C13 (amended): for a SETUP packet with wLength = 0 the control direction
ep0_dir is TX when the function driver's `setup` is called at the delegate
label.  The switch writes ep0_dir nowhere else: a packet the driver handles
itself (status phase, GET_STATUS response, halt operation) leaves ep0_dir as
latched from the direction bit of bmRequestType, so at the end of the handling
ep0_dir is that direction or TX. -/
theorem zero_length_setup_direction (k : Hdr) (e : SetupEnv) (hlen : e.pkt.wLength = 0) :
    (∀ c, (setup_delegate e e.pkt c).2.ep0_dir = TX ∧
      (setup_delegate e e.pkt c).2.trace = c.trace ++ [Event.setup e.pkt.bRequestType
        e.pkt.bRequest e.pkt.wValue e.pkt.wIndex e.pkt.wLength]) ∧
    (∀ (err0 : Int) c q, setup_switch k e e.pkt err0 c = some q →
      q.2.ep0_dir = c.ep0_dir ∨ ∃ c1, c1.ep0_dir = c.ep0_dir ∧ q = setup_delegate e e.pkt c1) ∧
    (∀ (err0 : Int) ci r, isr_setup_packet k e err0 ci = some r →
      r.2.ep0_dir = (if e.pkt.bRequestType &&& USB_DIR_IN != 0 then TX else RX) ∨
      r.2.ep0_dir = TX) := by
  have hdel : ∀ c, (setup_delegate e e.pkt c).2.ep0_dir = TX ∧
      (setup_delegate e e.pkt c).2.trace = c.trace ++ [Event.setup e.pkt.bRequestType
        e.pkt.bRequest e.pkt.wValue e.pkt.wIndex e.pkt.wLength] := by
    intro c
    unfold setup_delegate
    simp only [hlen, if_true]
    exact ⟨rfl, rfl⟩
  refine ⟨hdel, fun _ c q hq => (setup_switch_frame k e e.pkt c q hq).2, ?_⟩
  intro err0 ci r hr
  unfold isr_setup_packet at hr
  simp only [] at hr
  generalize (_ep_nuke k e.nuke_in (ep0in (_ep_nuke k e.nuke_out (ep0out ci) ci).2)
    (_ep_nuke k e.nuke_out (ep0out ci) ci).2).2 = ci2 at hr
  generalize hc3 : ({ ci2 with ep0_dir :=
    if e.pkt.bRequestType &&& USB_DIR_IN != 0 then TX else RX } : ci_hdrc) = ci3 at hr
  have hd3 : ci3.ep0_dir = (if e.pkt.bRequestType &&& USB_DIR_IN != 0 then TX else RX) := by
    rw [← hc3]
  cases hs : setup_switch k e e.pkt err0 ci3 with
  | none =>
    rw [hs] at hr
    exact absurd hr (by simp)
  | some q =>
    have hf : q.2.ep0_dir = (if e.pkt.bRequestType &&& USB_DIR_IN != 0 then TX else RX) ∨
        q.2.ep0_dir = TX := by
      rcases (setup_switch_frame k e e.pkt ci3 q hs).2 with h | ⟨c1, _, h⟩
      · exact Or.inl (h.trans hd3)
      · rw [h]
        exact Or.inr (hdel c1).1
    rw [hs] at hr
    obtain ⟨err, c4⟩ := q
    simp only at hr hf
    split at hr
    · simp only [Option.some.injEq] at hr
      subst hr
      simp only
      rw [ep0_dir_ep_set_halt]
      exact hf
    · simp only [Option.some.injEq] at hr
      subst hr
      exact hf

theorem zero_length_setup_direction_witness :
    (setup_env_ok (set_config_pkt 1)).pkt.wLength = 0 ∧
    (setup_delegate (setup_env_ok (set_config_pkt 1)) (set_config_pkt 1) ci_sample).2.ep0_dir
      = TX :=
  ⟨rfl, ((zero_length_setup_direction hdr0 (setup_env_ok (set_config_pkt 1)) rfl).1
    ci_sample).1⟩

/-! ## The handlers return -/

theorem td_loop_isSome_mod (k : Hdr) (cap : Nat) (alloc : Nat → Option Nat)
    (halloc : ∀ m, (alloc m).isSome = true) (hcap : 0 < cap) :
    ∀ (fuel n rest : Nat) (r : ci_hw_req), rest < U32 → r.req.actual < U32 →
      (r.req.actual + rest) % U32 = r.req.length % U32 → rest ≤ fuel →
      (td_loop k cap alloc fuel n rest r).isSome = true := by
  have hU : U32 = 4294967296 := by decide
  intro fuel
  induction fuel with
  | zero =>
    intro n rest r _ _ _ hle
    have h0 : rest = 0 := Nat.le_zero.mp hle
    subst h0
    simp [td_loop]
  | succ f ih =>
    intro n rest r hR hA hinv hle
    unfold td_loop
    by_cases h0 : rest = 0
    · simp [h0]
    · simp only [h0, if_false]
      obtain ⟨dma, hdma⟩ := Option.isSome_iff_exists.mp (halloc n)
      rw [hdma]
      have hsub : (r.req.length + U32 - r.req.actual % U32) % U32 = rest := by
        rw [hU] at hR hA hinv ⊢
        omega
      rw [hsub]
      have hc1 : 1 ≤ min rest cap := by
        have : 1 ≤ rest := Nat.one_le_iff_ne_zero.mpr h0
        exact le_min this hcap
      have hc2 : min rest cap ≤ rest := min_le_left _ _
      have hrest : (rest + U32 - min rest cap) % U32 = rest - min rest cap := by
        rw [hU] at hR ⊢
        omega
      rw [hrest]
      apply ih
      · omega
      · rw [(add_td_to_list_some k dma r _).2]
        exact Nat.mod_lt _ (by decide)
      · rw [(add_td_to_list_some k dma r _).2, (add_td_to_list_some k dma r _).1]
        rw [hU] at hR hA hinv ⊢
        omega
      · omega

theorem enqueue_chain_returns (k : Hdr) (e : EnqEnv) (mp : Nat) (r0 : ci_hw_req)
    (hk : k.sane) (halloc : ∀ m, (e.alloc m).isSome = true) (hact : r0.req.actual = 0) :
    (enqueue_chain k e mp r0).isSome = true := by
  unfold enqueue_chain
  simp only []
  have hl : (td_loop k (td_capacity k r0.req.dma) e.alloc
        (r0.req.length % U32) (if r0.req.length % U32 = 0 then 1 else 0) (r0.req.length % U32)
        (if r0.req.length % U32 = 0 then (add_td_to_list k (e.alloc 0) r0 0).2 else r0)).isSome
      = true := by
    by_cases h0 : r0.req.length % U32 = 0
    · simp only [h0, if_true]
      unfold td_loop
      simp
    · simp only [h0, if_false]
      apply td_loop_isSome_mod k _ e.alloc halloc (cap_pos k hk _ (by split <;> simp))
      · exact Nat.mod_lt _ (by decide)
      · rw [hact]
        decide
      · rw [hact, Nat.zero_add, Nat.mod_mod]
      · exact le_refl _
  obtain ⟨⟨n, r2⟩, hv⟩ := Option.isSome_iff_exists.mp hl
  rw [hv]
  rfl

theorem hardware_enqueue_returns (k : Hdr) (e : EnqEnv) (i h : Nat) (ci : ci_hdrc)
    (hk : k.sane) (halloc : ∀ m, (e.alloc m).isSome = true)
    (hact : (ci.reqs h).req.actual = 0) :
    (_hardware_enqueue k e i h ci).isSome = true := by
  unfold _hardware_enqueue
  simp only []
  split
  · rfl
  · split
    · rfl
    · have hc := enqueue_chain_returns k e (ci.ci_hw_ep i).maxpacket
        { ci.reqs h with req := (usb_gadget_map_request e.map
            { (ci.reqs h).req with status := -EALREADY }).2 } hk halloc hact
      obtain ⟨v, hv⟩ := Option.isSome_iff_exists.mp hc
      simp only [hv]
      split <;> rfl

theorem ep_queue_returns (k : Hdr) (e : QueueEnv) (i h : Nat) (ci : ci_hdrc)
    (hk : k.sane) (halloc : ∀ m, (e.enq.alloc m).isSome = true) :
    (_ep_queue k e i h ci).isSome = true :=
  ep_queue_isSome_of k e i h ci
    (fun j c _ ha => hardware_enqueue_returns k e.enq j h c hk halloc ha)

theorem isr_setup_status_phase_returns (k : Hdr) (e : QueueEnv) (ci : ci_hdrc)
    (hk : k.sane) (halloc : ∀ m, (e.enq.alloc m).isSome = true) :
    (isr_setup_status_phase k e ci).isSome = true := by
  unfold isr_setup_status_phase
  exact ep_queue_returns k e _ _ _ hk halloc

theorem ep_queue_checked_returns (k : Hdr) (e : QueueEnv) (i h : Nat) (ci : ci_hdrc)
    (hk : k.sane) (halloc : ∀ m, (e.enq.alloc m).isSome = true) :
    (ep_queue k e i h ci).isSome = true := by
  unfold ep_queue
  split
  · rfl
  · split
    · rfl
    · exact ep_queue_returns k e _ _ _ hk halloc

theorem isr_get_status_response_returns (k : Hdr) (e : QueueEnv) (req : usb_ctrlrequest)
    (ci : ci_hdrc) (hk : k.sane) (halloc : ∀ m, (e.enq.alloc m).isSome = true) :
    (isr_get_status_response k e req ci).isSome = true := by
  unfold isr_get_status_response
  exact ep_queue_checked_returns k e _ _ _ hk halloc

theorem setup_switch_returns {err : Int} (k : Hdr) (e : SetupEnv) (req : usb_ctrlrequest)
    (c : ci_hdrc) (hk : k.sane) (halloc : ∀ m, (e.queue.enq.alloc m).isSome = true) :
    (setup_switch k e req err c).isSome = true := by
  have hst := fun c1 => isr_setup_status_phase_returns k e.queue c1 hk halloc
  unfold setup_switch
  by_cases h1 : req.bRequest = USB_REQ_CLEAR_FEATURE
  · simp only [h1, if_true]
    repeat' split
    all_goals first
      | rfl
      | exact hst _
  · simp only [h1, if_false]
    by_cases h2 : req.bRequest = USB_REQ_GET_STATUS
    · simp only [h2, if_true]
      repeat' split
      all_goals first
        | rfl
        | exact isr_get_status_response_returns k e.queue req c hk halloc
    · simp only [h2, if_false]
      by_cases h3 : req.bRequest = USB_REQ_SET_ADDRESS
      · simp only [h3, if_true]
        repeat' split
        all_goals first
          | rfl
          | exact hst _
      · simp only [h3, if_false]
        by_cases h4 : req.bRequest = USB_REQ_SET_CONFIGURATION
        · simp only [h4, if_true]
          rfl
        · simp only [h4, if_false]
          by_cases h5 : req.bRequest = USB_REQ_SET_FEATURE
          · simp only [h5, if_true]
            by_cases c1 : (decide (req.bRequestType = USB_DIR_OUT ||| USB_RECIP_ENDPOINT) &&
                decide (req.wValue = USB_ENDPOINT_HALT)) = true
            · simp only [c1, if_true]
              split
              · rfl
              · split
                · obtain ⟨q, hq⟩ := Option.isSome_iff_exists.mp
                    (hst (ep_set_halt e.halt (setup_ep_index c req.wIndex) 1 c).2)
                  rw [hq]
                  rfl
                · rfl
            · simp only [c1, if_false, Bool.false_eq_true]
              by_cases c2 : req.bRequestType = USB_DIR_OUT ||| USB_RECIP_DEVICE
              swap
              · simp only [c2, if_false, Bool.false_eq_true]
                rfl
              simp only [c2, if_true, Bool.false_eq_true, if_false]
              by_cases c3 : (req.wLength != 0) = true
              · simp only [c3, if_true, Bool.false_eq_true, if_false]
                rfl
              simp only [c3, if_false, Bool.false_eq_true]
              repeat' split
              all_goals first
                | rfl
                | exact hst _
          · simp only [h5, if_false]
            rfl

theorem isr_setup_packet_returns {err : Int} (k : Hdr) (e : SetupEnv) (ci : ci_hdrc)
    (hk : k.sane) (halloc : ∀ m, (e.queue.enq.alloc m).isSome = true) :
    (isr_setup_packet k e err ci).isSome = true := by
  unfold isr_setup_packet
  simp only []
  obtain ⟨q, hq⟩ := Option.isSome_iff_exists.mp (@setup_switch_returns err k e e.pkt
    ({ (_ep_nuke k e.nuke_in (ep0in (_ep_nuke k e.nuke_out (ep0out ci) ci).2)
        (_ep_nuke k e.nuke_out (ep0out ci) ci).2).2 with
      ep0_dir := if e.pkt.bRequestType &&& USB_DIR_IN != 0 then TX else RX } : ci_hdrc) hk halloc)
  rw [hq]
  obtain ⟨err2, c4⟩ := q
  simp only
  split <;> rfl

theorem tr_complete_returns (k : Hdr) (e : TrEnv) (i : Nat) (ci : ci_hdrc)
    (hk : k.sane) (ha : e.allocs) : (tr_complete k e i ci).isSome = true := by
  unfold tr_complete
  split
  · rfl
  · obtain ⟨q, hq⟩ := Option.isSome_iff_exists.mp
      (isr_tr_complete_low_isSome k e.low i ci hk ha.1)
    rw [hq]
    obtain ⟨err, c1⟩ := q
    simp only
    split
    · by_cases hpos : err > 0
      · simp only [hpos, if_true]
        obtain ⟨q2, hq2⟩ := Option.isSome_iff_exists.mp
          (isr_setup_status_phase_returns k e.status c1 hk ha.2.1)
        rw [hq2]
        obtain ⟨err2, c2⟩ := q2
        simp only
        split <;> rfl
      · simp only [hpos, if_false]
        split <;> rfl
    · rfl

theorem tr_round_returns (k : Hdr) (e : TrEnv) (i : Nat) (ci : ci_hdrc)
    (hk : k.sane) (ha : e.allocs) : (tr_round k e i ci).isSome = true := by
  unfold tr_round
  split
  · rfl
  · obtain ⟨p1, hc1⟩ := Option.isSome_iff_exists.mp (tr_complete_returns k e i ci hk ha)
    rw [hc1]
    obtain ⟨err, c1⟩ := p1
    simp only
    split
    · rfl
    · split
      · rfl
      · obtain ⟨q, hq⟩ := Option.isSome_iff_exists.mp
          (@isr_setup_packet_returns err k e.setup c1 hk ha.2.2)
        rw [hq]
        rfl

theorem tr_loop_returns (k : Hdr) (e : Nat → TrEnv) (hk : k.sane) (ha : ∀ i, (e i).allocs) :
    ∀ (l : List Nat) (ci : ci_hdrc), (tr_loop k e l ci).isSome = true := by
  intro l
  induction l with
  | nil =>
    intro ci
    rfl
  | cons i rest ih =>
    intro ci
    unfold tr_loop
    obtain ⟨c1, hc1⟩ := Option.isSome_iff_exists.mp (tr_round_returns k (e i) i ci hk (ha i))
    rw [hc1]
    exact ih c1

theorem isr_tr_complete_handler_returns (k : Hdr) (e : Nat → TrEnv) (ci : ci_hdrc)
    (hk : k.sane) (ha : ∀ i, (e i).allocs) :
    (isr_tr_complete_handler k e ci).isSome = true :=
  tr_loop_returns k e hk ha _ ci

theorem hdr0_sane : hdr0.sane := by
  unfold Hdr.sane
  decide

theorem tr_env_idle_allocs : tr_env_idle.allocs :=
  ⟨fun _ _ => rfl, fun _ => rfl, fun _ => rfl⟩

theorem udc_irq_returns (k : Hdr) (q : IrqHdr) (e : IrqEnv) (ci : ci_hdrc) (hk : k.sane)
    (ha : ∀ i, (e.tr i).allocs) : (udc_irq k q e (some ci)).isSome = true := by
  unfold udc_irq
  simp only []
  split
  · rfl
  · split
    · have h3 : ∀ c2, ∃ ci3, (if (q.USBi_UI &&&
          (hw_test_and_clear_intr_active ci e.status e.enable).1 != 0) = true then
          isr_tr_complete_handler k e.tr c2 else some c2) = some ci3 := by
        intro c2
        split
        · exact Option.isSome_iff_exists.mp (isr_tr_complete_handler_returns k e.tr c2 hk ha)
        · exact ⟨_, rfl⟩
      obtain ⟨ci3, hci3⟩ := h3 _
      rw [hci3]
      rfl
    · rfl

theorem chain_counts_zero (cap fuel : Nat) : chain_counts cap fuel 0 = [] := by
  cases fuel <;> simp [chain_counts]

theorem chain_counts_bounds (cap : Nat) (hcap : 0 < cap) :
    ∀ (fuel rest : Nat), ∀ c ∈ chain_counts cap fuel rest, 0 < c ∧ c ≤ cap := by
  intro fuel
  induction fuel with
  | zero =>
    intro rest c hc
    simp [chain_counts] at hc
  | succ f ih =>
    intro rest c hc
    unfold chain_counts at hc
    by_cases h0 : rest = 0
    · simp [h0] at hc
    · simp only [h0, if_false, List.mem_cons] at hc
      rcases hc with h | h
      · subst h
        have h1 : 0 < rest := Nat.pos_of_ne_zero h0
        exact ⟨lt_min h1 hcap, min_le_right _ _⟩
      · exact ih _ c h

theorem chain_counts_sum (cap : Nat) (hcap : 0 < cap) :
    ∀ (fuel rest : Nat), rest ≤ fuel → (chain_counts cap fuel rest).sum = rest := by
  intro fuel
  induction fuel with
  | zero =>
    intro rest hle
    have h0 : rest = 0 := Nat.le_zero.mp hle
    subst h0
    rfl
  | succ f ih =>
    intro rest hle
    unfold chain_counts
    by_cases h0 : rest = 0
    · simp [h0]
    · simp only [h0, if_false, List.sum_cons]
      have h1 : 0 < rest := Nat.pos_of_ne_zero h0
      have hc1 : 1 ≤ min rest cap := le_min h1 hcap
      have hc2 : min rest cap ≤ rest := min_le_left _ _
      rw [ih _ (by omega)]
      omega

theorem chain_counts_length (cap : Nat) (hcap : 0 < cap) :
    ∀ (fuel rest : Nat), rest ≤ fuel →
      (chain_counts cap fuel rest).length = (rest + cap - 1) / cap := by
  intro fuel
  induction fuel with
  | zero =>
    intro rest hle
    have h0 : rest = 0 := Nat.le_zero.mp hle
    subst h0
    simp only [chain_counts, List.length_nil, Nat.zero_add]
    exact (Nat.div_eq_of_lt (by omega)).symm
  | succ f ih =>
    intro rest hle
    unfold chain_counts
    by_cases h0 : rest = 0
    · subst h0
      simp only [if_true, List.length_nil, Nat.zero_add]
      exact (Nat.div_eq_of_lt (by omega)).symm
    · simp only [h0, if_false, List.length_cons]
      have h1 : 0 < rest := Nat.pos_of_ne_zero h0
      have hc1 : 1 ≤ min rest cap := le_min h1 hcap
      have hc2 : min rest cap ≤ rest := min_le_left _ _
      rw [ih _ (by omega)]
      by_cases hrc : rest ≤ cap
      · rw [min_eq_left hrc, Nat.sub_self, Nat.zero_add]
        have e1 : (cap - 1) / cap = 0 := Nat.div_eq_of_lt (by omega)
        have e2 : (rest + cap - 1) / cap = 1 := by
          apply Nat.div_eq_of_lt_le <;> omega
        rw [e1, e2]
      · have hcr : cap ≤ rest := by omega
        rw [min_eq_right hcr]
        have e : rest + cap - 1 = (rest - cap + cap - 1) + cap := by omega
        rw [e, Nat.add_div_right _ hcap]
theorem modifyLast_map {α β : Type} (f : α → α) (g : α → β) (hfg : ∀ a, g (f a) = g a) :
    ∀ l : List α, (modifyLast f l).map g = l.map g := by
  intro l
  induction l with
  | nil => rfl
  | cons a t ih =>
    cases t with
    | nil => simp [modifyLast, hfg]
    | cons b t2 =>
      simp only [modifyLast, List.map_cons] at ih ⊢
      rw [ih]

theorem modifyLast_length {α : Type} (f : α → α) (l : List α) :
    (modifyLast f l).length = l.length := by
  have h := congrArg List.length (modifyLast_map f (fun _ => ()) (fun _ => rfl) l)
  simpa using h

theorem modifyLast_link_bytes (d : Nat) (l : List td_node) :
    (modifyLast (fun ln : td_node => { ln with ptr := { ln.ptr with next := Link.addr d } })
      l).map (fun nd => nd.ptr.total_bytes) = l.map (fun nd => nd.ptr.total_bytes) :=
  modifyLast_map (fun ln : td_node => { ln with ptr := { ln.ptr with next := Link.addr d } })
    (fun nd => nd.ptr.total_bytes) (fun _ => rfl) l

theorem linked_snoc (d : Nat) (node : td_node) (hd : node.dma = d) :
    ∀ l : List td_node, Linked l →
      Linked (modifyLast (fun ln => { ln with ptr := { ln.ptr with next := Link.addr d } })
        l ++ [node]) := by
  subst hd
  intro l
  induction l with
  | nil =>
    intro _
    simp [Linked, modifyLast]
  | cons a t ih =>
    intro hl
    cases t with
    | nil => simp [Linked, modifyLast]
    | cons b t2 =>
      unfold Linked at hl ih ⊢
      rw [List.chain'_cons] at hl
      have h2 := ih hl.2
      cases t2 with
      | nil =>
        simp only [modifyLast, List.cons_append, List.nil_append] at h2 ⊢
        exact List.Chain'.cons hl.1 h2
      | cons c t3 =>
        simp only [modifyLast, List.cons_append] at h2 ⊢
        exact List.Chain'.cons hl.1 h2

theorem td_loop_chain (k : Hdr) (cap : Nat) (alloc : Nat → Option Nat)
    (halloc : ∀ m, (alloc m).isSome = true) (hcap : 0 < cap) (hm : k.holds cap) :
    ∀ (fuel n rest : Nat) (r : ci_hw_req), r.req.length < U32 →
      r.req.actual + rest = r.req.length → rest ≤ fuel →
      ∃ r2, td_loop k cap alloc fuel n rest r
          = some (n + (chain_counts cap fuel rest).length, r2) ∧
        r2.req.actual = r.req.length ∧
        r2.tds.map (fun nd => nd.ptr.total_bytes)
          = r.tds.map (fun nd => nd.ptr.total_bytes) ++ chain_counts cap fuel rest ∧
        (Linked r.tds → Linked r2.tds) := by
  intro fuel
  induction fuel with
  | zero =>
    intro n rest r _ hinv hle
    have h0 : rest = 0 := Nat.le_zero.mp hle
    subst h0
    refine ⟨r, by simp [td_loop, chain_counts], by omega, by simp [chain_counts], fun h => h⟩
  | succ f ih =>
    intro n rest r hL hinv hle
    by_cases h0 : rest = 0
    · subst h0
      refine ⟨r, by simp [td_loop, chain_counts], by omega, by simp [chain_counts], fun h => h⟩
    · unfold td_loop chain_counts
      simp only [h0, if_false]
      obtain ⟨dma, hdma⟩ := Option.isSome_iff_exists.mp (halloc n)
      rw [hdma]
      have hact : r.req.actual % U32 = r.req.actual := Nat.mod_eq_of_lt (by omega)
      have hsub : (r.req.length + U32 - r.req.actual % U32) % U32 = rest := by
        rw [hact]
        have : r.req.length + U32 - r.req.actual = rest + U32 := by omega
        rw [this, Nat.add_mod_right]
        exact Nat.mod_eq_of_lt (by omega)
      rw [hsub]
      have hc1 : 1 ≤ min rest cap := by
        have : 1 ≤ rest := Nat.one_le_iff_ne_zero.mpr h0
        exact le_min this hcap
      have hc2 : min rest cap ≤ rest := min_le_left _ _
      have hrest : (rest + U32 - min rest cap) % U32 = rest - min rest cap := by
        have : rest + U32 - min rest cap = (rest - min rest cap) + U32 := by omega
        rw [this, Nat.add_mod_right]
        exact Nat.mod_eq_of_lt (by omega)
      rw [hrest]
      have ha2 : (add_td_to_list k (some dma) r (min rest cap)).2.req.actual
          = r.req.actual + min rest cap := by
        rw [(add_td_to_list_some k dma r _).2]
        exact Nat.mod_eq_of_lt (by omega)
      have hl2 := (add_td_to_list_some k dma r (min rest cap)).1
      obtain ⟨r2, hr2, hact2, hmap2, hlink2⟩ := ih (n + 1) (rest - min rest cap)
        (add_td_to_list k (some dma) r (min rest cap)).2 (by rw [hl2]; exact hL)
        (by rw [ha2, hl2]; omega) (by omega)
      refine ⟨r2, ?_, ?_, ?_, ?_⟩
      · rw [hr2, List.length_cons]
        have : n + 1 + (chain_counts cap f (rest - min rest cap)).length
            = n + ((chain_counts cap f (rest - min rest cap)).length + 1) := by omega
        rw [this]
      · rw [hact2, hl2]
      · rw [hmap2]
        have hb : min rest cap &&& k.TD_TOTAL_BYTES = min rest cap := hm _ (min_le_right _ _)
        simp only [add_td_to_list, List.map_append, List.map_cons, List.map_nil,
          List.append_assoc, List.singleton_append]
        rw [modifyLast_link_bytes, hb]
      · intro hl
        apply hlink2
        simp only [add_td_to_list]
        exact linked_snoc dma _ (by rfl) _ hl
theorem modifyLast_append_singleton {α : Type} (f : α → α) (a : α) :
    ∀ l : List α, modifyLast f (l ++ [a]) = l ++ [f a] := by
  intro l
  induction l with
  | nil => rfl
  | cons b t ih =>
    cases t with
    | nil => rfl
    | cons c t2 =>
      simp only [List.cons_append, modifyLast] at ih ⊢
      exact congrArg (List.cons b) ih

theorem modifyLast_getLast? {α : Type} (f : α → α) :
    ∀ l : List α, (modifyLast f l).getLast? = l.getLast?.map f := by
  intro l
  induction l with
  | nil => rfl
  | cons b t ih =>
    cases t with
    | nil => rfl
    | cons c t2 =>
      cases t2 with
      | nil => rfl
      | cons d t3 =>
        simp only [modifyLast] at ih ⊢
        rw [List.getLast?_cons_cons, List.getLast?_cons_cons, ih]

theorem linked_terminate (nx : ci_hw_td → ci_hw_td) :
    ∀ l : List td_node, Linked l →
      Linked (modifyLast (fun ln => { ln with ptr := nx ln.ptr }) l) := by
  intro l
  induction l with
  | nil =>
    intro _
    simp [Linked, modifyLast]
  | cons a t ih =>
    intro hl
    cases t with
    | nil => simp [Linked, modifyLast]
    | cons b t2 =>
      unfold Linked at hl ih ⊢
      rw [List.chain'_cons] at hl
      have h2 := ih hl.2
      cases t2 with
      | nil =>
        simp only [modifyLast] at h2 ⊢
        exact List.Chain'.cons hl.1 h2
      | cons c t3 =>
        simp only [modifyLast] at h2 ⊢
        exact List.Chain'.cons hl.1 h2

theorem enqueue_prime_reqs (k : Hdr) (e : EnqEnv) (i h : Nat) (ci : ci_hdrc) :
    (enqueue_prime k e i h ci).2.reqs = ci.reqs := by
  unfold enqueue_prime arm_timer hw_ep_prime qh_config enqueue_pipe_id
  simp only []
  repeat' split
  all_goals rfl

theorem enqueue_link_tds (k : Hdr) (e : EnqEnv) (i h : Nat) (ci : ci_hdrc)
    (hq : (ci.ci_hw_ep i).queue.getLast? ≠ some h) :
    ((enqueue_link k e i h ci).2.reqs h).tds = (ci.reqs h).tds := by
  unfold enqueue_link
  split
  · rw [enqueue_prime_reqs]
  · next hprev hp =>
    have hne : h ≠ hprev := by
      intro he
      rw [hp, he] at hq
      exact hq rfl
    simp only []
    split
    · simp [setReq, Function.update_noteq hne]
    · split
      · simp [setReq, emit, Function.update_noteq hne]
      · split
        · simp [setReq, emit, Function.update_noteq hne]
        · rw [enqueue_prime_reqs]
          simp [setReq, emit, Function.update_noteq hne]
theorem chain_sps_plain (r : ci_hw_req)
    (hs : (r.req.udc_priv.msm_vendor && r.req.udc_priv.sps_mode) = false) :
    (chain_sps r).tds = r.tds ∧ (chain_sps r).req.zero = r.req.zero ∧
    (chain_sps r).req.length = r.req.length ∧ (chain_sps r).req.actual = r.req.actual := by
  unfold chain_sps
  cases hv : r.req.udc_priv.msm_vendor
  · simp
  · rw [hv] at hs
    have h2 : r.req.udc_priv.sps_mode = false := by simpa using hs
    simp [h2]

theorem chain_terminate_spec (r : ci_hw_req) (hne : r.tds ≠ []) (hl : Linked r.tds) :
    (chain_terminate r).tds.map (fun nd => nd.ptr.total_bytes)
      = r.tds.map (fun nd => nd.ptr.total_bytes) ∧
    Linked (chain_terminate r).tds ∧
    (chain_terminate r).tds.getLast?.map (fun nd => nd.ptr.next) = some Link.terminate := by
  unfold chain_terminate
  simp only []
  refine ⟨?_, ?_, ?_⟩
  · apply modifyLast_map
    intro a
    rfl
  · exact linked_terminate
      (fun p => { p with next := Link.terminate, ioc := p.ioc || !r.req.no_interrupt }) _ hl
  · rw [modifyLast_getLast?]
    cases hg : r.tds.getLast? with
    | none =>
      rw [List.getLast?_eq_none_iff] at hg
      exact absurd hg hne
    | some x => rfl

theorem enqueue_chain_spec (k : Hdr) (e : EnqEnv) (mp : Nat) (r0 : ci_hw_req) (hk : k.sane)
    (halloc : ∀ m, (e.alloc m).isSome = true) (hm : k.holds (td_capacity k r0.req.dma))
    (ht : r0.tds = []) (ha : r0.req.actual = 0) (hL : r0.req.length < U32)
    (hs : (r0.req.udc_priv.msm_vendor && r0.req.udc_priv.sps_mode) = false) :
    ∃ r5 counts, enqueue_chain k e mp r0 = some r5 ∧
      r5.tds.map (fun nd => nd.ptr.total_bytes)
        = counts ++ (if r0.req.zero && r0.req.length != 0 && r0.req.length % mp == 0
                     then [0] else []) ∧
      counts.length
        = max 1 ((r0.req.length + td_capacity k r0.req.dma - 1) / td_capacity k r0.req.dma) ∧
      (∀ c ∈ counts, c ≤ td_capacity k r0.req.dma) ∧ counts.sum = r0.req.length ∧
      Linked r5.tds ∧
      r5.tds.getLast?.map (fun nd => nd.ptr.next) = some Link.terminate := by
  have hcap : 0 < td_capacity k r0.req.dma := cap_pos k hk _ (by split <;> simp)
  generalize hcd : td_capacity k r0.req.dma = cap at hm hcap ⊢
  unfold enqueue_chain
  simp only [hcd, Nat.mod_eq_of_lt hL]
  by_cases h0 : r0.req.length = 0
  · obtain ⟨d, hd⟩ := Option.isSome_iff_exists.mp (halloc 0)
    simp only [h0, if_true, hd]
    have hloop : ∀ r, td_loop k cap e.alloc 0 1 0 r = some (1, r) := by
      intro r
      unfold td_loop
      simp
    rw [hloop]
    simp only []
    generalize hr1 : (add_td_to_list k (some d) r0 0).2 = r1
    have ht1 : r1.tds.map (fun nd => nd.ptr.total_bytes) = [0] := by
      rw [← hr1]
      simp [add_td_to_list, ht, modifyLast]
    have hl1 : Linked r1.tds := by
      rw [← hr1]
      simp [add_td_to_list, ht, modifyLast, Linked]
    have hlen1 : r1.req.length = 0 := by
      rw [← hr1]
      exact h0
    have hs1 : (r1.req.udc_priv.msm_vendor && r1.req.udc_priv.sps_mode) = false := by
      rw [← hr1]
      exact hs
    obtain ⟨hst, _, hsl, _⟩ := chain_sps_plain r1 hs1
    have hz : chain_zero k e mp 1 (chain_sps r1) = chain_sps r1 := by
      unfold chain_zero
      rw [hsl, hlen1]
      simp
    rw [hz]
    have hne : (chain_sps r1).tds ≠ [] := by
      rw [hst]
      intro hn
      rw [hn] at ht1
      simp at ht1
    obtain ⟨hb, hlk, hlast⟩ := chain_terminate_spec (chain_sps r1) hne (by rw [hst]; exact hl1)
    refine ⟨_, [0], rfl, ?_, ?_, ?_, ?_, hlk, hlast⟩
    · rw [hb, hst, ht1]
      simp
    · have e1 : (0 + cap - 1) / cap = 0 := Nat.div_eq_of_lt (by omega)
      rw [e1]
      rfl
    · intro c hc
      simp only [List.mem_singleton] at hc
      omega
    · simp
  · simp only [h0, if_false]
    obtain ⟨r2, hr2, hact2, hmap2, hlink2⟩ := td_loop_chain k cap e.alloc halloc hcap hm
      r0.req.length 0 r0.req.length r0 hL (by omega) (le_refl _)
    rw [hr2]
    simp only []
    have hsame := reqSame_td_loop k cap e.alloc _ _ _ _ _ hr2
    simp only at hsame
    have hs2 : (r2.req.udc_priv.msm_vendor && r2.req.udc_priv.sps_mode) = false := by
      rw [hsame.udc_priv]
      exact hs
    obtain ⟨hst, hsz, hsl, _⟩ := chain_sps_plain r2 hs2
    have hcl := chain_counts_length cap hcap r0.req.length r0.req.length (le_refl _)
    have hpos : 0 < (chain_counts cap r0.req.length r0.req.length).length := by
      rw [hcl]
      apply Nat.div_pos <;> omega
    rw [ht] at hmap2
    simp only [List.map_nil, List.nil_append] at hmap2
    have hl2 : Linked r2.tds := hlink2 (by rw [ht]; simp [Linked])
    have hne2 : r2.tds ≠ [] := by
      intro hn
      rw [hn] at hmap2
      rw [← hmap2] at hpos
      simp at hpos
    generalize hn : 0 + (chain_counts cap r0.req.length r0.req.length).length = n
    generalize hr3 : chain_sps r2 = r3 at hst hsz hsl
    have hcond : (r3.req.zero && r3.req.length != 0 && r3.req.length % mp == 0)
        = (r0.req.zero && r0.req.length != 0 && r0.req.length % mp == 0) := by
      rw [hsz, hsl, hsame.zero, hsame.length]
    have hz : ∃ r4, chain_zero k e mp n r3 = r4 ∧ r4.tds ≠ [] ∧ Linked r4.tds ∧
        r4.tds.map (fun nd => nd.ptr.total_bytes)
          = chain_counts cap r0.req.length r0.req.length
            ++ (if r0.req.zero && r0.req.length != 0 && r0.req.length % mp == 0
                then [0] else []) := by
      unfold chain_zero
      rw [hcond]
      cases hc : (r0.req.zero && r0.req.length != 0 && r0.req.length % mp == 0)
      · simp only [Bool.false_eq_true, if_false]
        refine ⟨_, rfl, by rw [hst]; exact hne2, by rw [hst]; exact hl2, ?_⟩
        rw [hst, hmap2]
        simp
      · simp only [if_true]
        obtain ⟨d, hd⟩ := Option.isSome_iff_exists.mp (halloc n)
        rw [hd]
        refine ⟨_, rfl, ?_, ?_, ?_⟩
        · simp [add_td_to_list]
        · simp only [add_td_to_list]
          exact linked_snoc d _ (by rfl) _ (by rw [hst]; exact hl2)
        · simp only [add_td_to_list, List.map_append, List.map_cons, List.map_nil]
          rw [modifyLast_link_bytes, hst, hmap2]
          simp
    obtain ⟨r4, hr4, hne4, hl4, hb4⟩ := hz
    rw [hr4]
    obtain ⟨hb, hlk, hlast⟩ := chain_terminate_spec r4 hne4 hl4
    refine ⟨_, chain_counts cap r0.req.length r0.req.length, rfl, ?_, ?_, ?_, ?_, hlk, hlast⟩
    · rw [hb, hb4]
    · rw [hcl]
      have : 1 ≤ (r0.req.length + cap - 1) / cap := by
        apply Nat.div_pos <;> omega
      omega
    · intro c hc
      exact (chain_counts_bounds cap hcap _ _ c hc).2
    · exact chain_counts_sum cap hcap _ _ (le_refl _)
theorem hardware_enqueue_tds (k : Hdr) (e : EnqEnv) (i h : Nat) (ci : ci_hdrc)
    (hst : (ci.reqs h).req.status ≠ -EALREADY) (hmap : e.map.ret = 0)
    (hq : (ci.ci_hw_ep i).queue.getLast? ≠ some h) (r5 : ci_hw_req)
    (hc : enqueue_chain k e (ci.ci_hw_ep i).maxpacket
      { ci.reqs h with req := (usb_gadget_map_request e.map
          { (ci.reqs h).req with status := -EALREADY }).2 } = some r5) :
    ∃ r, _hardware_enqueue k e i h ci = some r ∧ (r.2.reqs h).tds = r5.tds := by
  unfold _hardware_enqueue
  have hm1 : (usb_gadget_map_request e.map { (ci.reqs h).req with status := -EALREADY }).1 = 0 :=
    hmap
  simp only [hst, if_false, hm1, ne_eq, not_true_eq_false, hc]
  split
  · exact ⟨_, rfl, by simp [setReq]⟩
  · refine ⟨_, rfl, ?_⟩
    rw [enqueue_link_tds]
    · simp [setReq]
    · split
      · exact hq
      · exact hq

/-- C21 as stated fails.  For an MSM request in SPS mode with the finite
transfer bit, of 512 bytes, with no descriptor, `req.actual` 0 and every
allocation succeeding, _hardware_enqueue builds one descriptor and then stores
the token TD_STATUS_ACTIVE into it: its byte count is 0, not 512.  A request
whose status is -EALREADY on entry is refused with -EALREADY, and one whose
mapping fails is given back with the error of the mapping: in both cases no
descriptor is built.  For a request that is the last on the queue of the
endpoint, the link to the previous request stores the address of the first
descriptor of the request into its own last descriptor, in place of the
terminate sentinel. -/
theorem hardware_enqueue_chain_counterexample :
    ((setReq ci_sample 10 { (ci_sample.reqs 10) with
          req := { (ci_sample.reqs 10).req with udc_priv := sps_finite } }).reqs 10).tds = [] ∧
    (_hardware_enqueue hdr0 enq_env_ok 1 10
        (setReq ci_sample 10 { (ci_sample.reqs 10) with
          req := { (ci_sample.reqs 10).req with udc_priv := sps_finite } })).map
        (fun r => (r.1, (r.2.reqs 10).req.length,
          (r.2.reqs 10).tds.map (fun nd => nd.ptr.total_bytes)))
      = some (0, 512, [0]) ∧
    (_hardware_enqueue hdr0 enq_env_ok 1 10
        (setReq ci_sample 10 { (ci_sample.reqs 10) with
          req := { (ci_sample.reqs 10).req with status := -EALREADY } })).map
        (fun r => (r.1, (r.2.reqs 10).tds.length))
      = some (-EALREADY, 0) ∧
    (_hardware_enqueue hdr0 { enq_env_ok with map := { ret := -ENOMEM, dma := 0 } } 1 10
        ci_sample).map (fun r => (r.1, (r.2.reqs 10).tds.length))
      = some (-ENOMEM, 0) ∧
    (_hardware_enqueue hdr0 enq_env_ok 1 10
        (setEp ci_sample 1 { ci_sample.ci_hw_ep 1 with queue := [10] })).map
        (fun r => (r.2.reqs 10).tds.map (fun nd => (nd.dma, nd.ptr.next)))
      = some [(1024, Link.addr 1024)] := by
  refine ⟨?_, ?_, ?_, ?_, ?_⟩ <;> decide!

/-- C21 (amended): for a request that is not an MSM request in SPS mode, is
not on the queue of the endpoint, enters _hardware_enqueue with a status other
than -EALREADY, an empty descriptor list and `req.actual` 0, whose mapping
succeeds, with every allocation succeeding and `cap` the capacity of a
descriptor (TD_PAGE_COUNT pages, one less when the bus address is not page
aligned): the call returns, and the chain it leaves on the request has
max(1, ceil(length / cap)) data descriptors, each with a byte count of at most
`cap` and the counts adding up to the length, followed by one descriptor of
byte count 0 exactly when `req.zero` is set, the length is not 0 and it is a
multiple of the maximum packet size; every descriptor but the last has the
address of its successor as its link word and the last has the terminate
sentinel. -/
theorem hardware_enqueue_chain (k : Hdr) (e : EnqEnv) (i h : Nat) (ci : ci_hdrc)
    (hk : k.sane) (halloc : ∀ m, (e.alloc m).isSome = true)
    (hm : k.holds (td_capacity k e.map.dma))
    (hst : (ci.reqs h).req.status ≠ -EALREADY) (hmap : e.map.ret = 0)
    (ht : (ci.reqs h).tds = []) (ha : (ci.reqs h).req.actual = 0)
    (hL : (ci.reqs h).req.length < U32)
    (hs : ((ci.reqs h).req.udc_priv.msm_vendor && (ci.reqs h).req.udc_priv.sps_mode) = false)
    (hq : (ci.ci_hw_ep i).queue.getLast? ≠ some h) :
    ∃ r counts, _hardware_enqueue k e i h ci = some r ∧
      (r.2.reqs h).tds.map (fun nd => nd.ptr.total_bytes)
        = counts ++ (if (ci.reqs h).req.zero && (ci.reqs h).req.length != 0 &&
                        (ci.reqs h).req.length % (ci.ci_hw_ep i).maxpacket == 0
                     then [0] else []) ∧
      counts.length
        = max 1 (((ci.reqs h).req.length + td_capacity k e.map.dma - 1)
            / td_capacity k e.map.dma) ∧
      (∀ c ∈ counts, c ≤ td_capacity k e.map.dma) ∧ counts.sum = (ci.reqs h).req.length ∧
      Linked (r.2.reqs h).tds ∧
      (r.2.reqs h).tds.getLast?.map (fun nd => nd.ptr.next) = some Link.terminate := by
  obtain ⟨r5, counts, hc, h1, h2, h3, h4, h5, h6⟩ := enqueue_chain_spec k e
    (ci.ci_hw_ep i).maxpacket
    { ci.reqs h with req := (usb_gadget_map_request e.map
        { (ci.reqs h).req with status := -EALREADY }).2 } hk halloc hm ht ha hL hs
  obtain ⟨r, hr, htds⟩ := hardware_enqueue_tds k e i h ci hst hmap hq r5 hc
  refine ⟨r, counts, hr, ?_, h2, h3, h4, ?_, ?_⟩
  · rw [htds]
    exact h1
  · rw [htds]
    exact h5
  · rw [htds]
    exact h6

theorem hdr0_holds : hdr0.holds (td_capacity hdr0 8192) := by
  intro c hc
  have h1 : td_capacity hdr0 8192 = 20480 := by decide
  rw [h1] at hc
  have h2 : hdr0.TD_TOTAL_BYTES = 2 ^ 15 - 1 := by decide
  rw [h2, Nat.and_pow_two_sub_one_eq_mod]
  exact Nat.mod_eq_of_lt (by omega)

theorem hardware_enqueue_chain_witness :
    ∃ r, _hardware_enqueue hdr0 enq_env_ok 1 10 ci_long = some r ∧
      (r.2.reqs 10).tds.map (fun nd => nd.ptr.total_bytes) = [20480, 20480, 512, 0] ∧
      Linked (r.2.reqs 10).tds ∧
      (r.2.reqs 10).tds.getLast?.map (fun nd => nd.ptr.next) = some Link.terminate := by
  obtain ⟨r, counts, hr, h1, _, _, _, h5, h6⟩ := hardware_enqueue_chain hdr0 enq_env_ok 1 10
    ci_long hdr0_sane (fun _ => rfl) hdr0_holds (by decide) rfl rfl rfl (by decide) rfl
    (by decide)
  refine ⟨r, hr, ?_, h5, h6⟩
  have hv : (_hardware_enqueue hdr0 enq_env_ok 1 10 ci_long).map
      (fun r => (r.2.reqs 10).tds.map (fun nd => nd.ptr.total_bytes))
        = some [20480, 20480, 512, 0] := by
    decide!
  rw [hr] at hv
  simpa using hv
theorem td_loop_step (k : Hdr) (cap : Nat) (alloc : Nat → Option Nat) (fuel n rest : Nat)
    (r : ci_hw_req) (hL : r.req.length < U32) (hinv : r.req.actual + rest = r.req.length)
    (h0 : rest ≠ 0) :
    td_loop k cap alloc (fuel + 1) n rest r
      = td_loop k cap alloc fuel (n + 1) (rest - min rest cap)
          (add_td_to_list k (alloc n) r (min rest cap)).2 := by
  have hact : r.req.actual % U32 = r.req.actual := Nat.mod_eq_of_lt (by omega)
  have hsub : (r.req.length + U32 - r.req.actual % U32) % U32 = rest := by
    rw [hact]
    have : r.req.length + U32 - r.req.actual = rest + U32 := by omega
    rw [this, Nat.add_mod_right]
    exact Nat.mod_eq_of_lt (by omega)
  have hc2 : min rest cap ≤ rest := min_le_left _ _
  have hrest : (rest + U32 - min rest cap) % U32 = rest - min rest cap := by
    have : rest + U32 - min rest cap = (rest - min rest cap) + U32 := by omega
    rw [this, Nat.add_mod_right]
    exact Nat.mod_eq_of_lt (by omega)
  conv_lhs => unfold td_loop
  simp only [h0, if_false, hsub, hrest]

/-- C30: for a request of any length below 2^32 with `req.actual` 0 and every
allocation succeeding, and `cap` the capacity of a descriptor, the loop
`while (rest > 0)` of _hardware_enqueue, run with the length as its counter,
returns after exactly ceil(length / cap) calls of add_td_to_list; every call
appends a descriptor with a byte count above 0 and of at most `cap`; the byte
counts add up to the length, which is also the value of `req.actual` at the
end; and in every round reached with `actual + rest = length` the unsigned
subtraction `rest -= count` takes away at most `rest`, so the round is the one
of exact arithmetic. -/
theorem td_loop_terminates (k : Hdr) (alloc : Nat → Option Nat) (r : ci_hw_req) (hk : k.sane)
    (halloc : ∀ m, (alloc m).isSome = true) (hm : k.holds (td_capacity k r.req.dma))
    (hL : r.req.length < U32) (ha : r.req.actual = 0) (fuel : Nat) (hf : r.req.length ≤ fuel) :
    ∃ r2 counts,
      td_loop k (td_capacity k r.req.dma) alloc fuel 0 r.req.length r
        = some ((r.req.length + td_capacity k r.req.dma - 1) / td_capacity k r.req.dma, r2) ∧
      r2.tds.map (fun nd => nd.ptr.total_bytes)
        = r.tds.map (fun nd => nd.ptr.total_bytes) ++ counts ∧
      counts.length
        = (r.req.length + td_capacity k r.req.dma - 1) / td_capacity k r.req.dma ∧
      (∀ c ∈ counts, 0 < c ∧ c ≤ td_capacity k r.req.dma) ∧
      counts.sum = r.req.length ∧ r2.req.actual = r.req.length ∧
      ∀ (f n rest : Nat) (r1 : ci_hw_req), r1.req.length < U32 →
        r1.req.actual + rest = r1.req.length → rest ≠ 0 →
        min rest (td_capacity k r.req.dma) ≤ rest ∧
        td_loop k (td_capacity k r.req.dma) alloc (f + 1) n rest r1
          = td_loop k (td_capacity k r.req.dma) alloc f (n + 1)
              (rest - min rest (td_capacity k r.req.dma))
              (add_td_to_list k (alloc n) r1 (min rest (td_capacity k r.req.dma))).2 := by
  have hcap : 0 < td_capacity k r.req.dma := cap_pos k hk _ (by split <;> simp)
  generalize td_capacity k r.req.dma = cap at hm hcap ⊢
  obtain ⟨r2, hr2, hact2, hmap2, _⟩ := td_loop_chain k cap alloc halloc hcap hm
    fuel 0 r.req.length r hL (by omega) hf
  have hcl := chain_counts_length cap hcap fuel r.req.length hf
  refine ⟨r2, chain_counts cap fuel r.req.length, ?_, hmap2, hcl,
    chain_counts_bounds cap hcap fuel r.req.length, chain_counts_sum cap hcap fuel _ hf, hact2, ?_⟩
  · rw [hr2, hcl, Nat.zero_add]
  · intro f n rest r1 h1 h2 h3
    exact ⟨min_le_left _ _, td_loop_step k cap alloc f n rest r1 h1 h2 h3⟩

theorem td_loop_terminates_witness :
    ∃ (r2 : ci_hw_req) (counts : List Nat),
      td_loop hdr0 (td_capacity hdr0 (ci_long.reqs 10).req.dma) enq_env_ok.alloc 41472 0
          (ci_long.reqs 10).req.length (ci_long.reqs 10)
        = some (3, r2) ∧
      counts.length = 3 ∧ counts.sum = 41472 ∧ r2.req.actual = 41472 := by
  obtain ⟨r2, counts, h1, _, h3, _, h5, h6, _⟩ := td_loop_terminates hdr0 enq_env_ok.alloc
    (ci_long.reqs 10) hdr0_sane (fun _ => rfl)
    (by
      intro c hc
      have h1 : td_capacity hdr0 (ci_long.reqs 10).req.dma = 20480 := by decide
      rw [h1] at hc
      have h2 : hdr0.TD_TOTAL_BYTES = 2 ^ 15 - 1 := by decide
      rw [h2, Nat.and_pow_two_sub_one_eq_mod]
      exact Nat.mod_eq_of_lt (by omega))
    (by decide) rfl 41472 (by decide)
  exact ⟨r2, counts, h1, h3, h5, h6⟩

/-! ## The descriptor list after _hardware_dequeue -/

theorem td_end_status_neg (t : td_node) : td_end_status t < 0 := by
  unfold td_end_status
  split
  · decide
  · split
    · decide
    · split <;> decide

theorem hardware_dequeue_nonneg_tds (i h : Nat) (ci : ci_hdrc)
    (hres : 0 ≤ (_hardware_dequeue i h ci).1) :
    ((_hardware_dequeue i h ci).2.reqs h).tds = [] := by
  by_cases hst : (ci.reqs h).req.status = -EALREADY
  · by_cases hen : walk_entered (ci.reqs h) = true
    · have hheld := (hardware_dequeue_held i h ci hst hen).2.2
      obtain ⟨c1, _, _, _, _, _, heq⟩ := hardware_dequeue_spec i h ci
        ((ci.reqs h).tds.takeWhile (td_retires (ci.ci_hw_ep i).dir))
        ((ci.reqs h).tds.dropWhile (td_retires (ci.ci_hw_ep i).dir)) hst hen
        (List.takeWhile_append_dropWhile _ _).symm
        (fun n hn => List.mem_takeWhile_imp hn)
        (head?_dropWhile_not _ _)
      rw [hheld]
      rw [heq] at hres
      generalize (ci.reqs h).tds.dropWhile (td_retires (ci.ci_hw_ep i).dir) = rest at hres ⊢
      cases rest with
      | nil => rfl
      | cons t post =>
        exfalso
        simp only [walk_outcome] at hres
        by_cases ha : t.ptr.active = true
        · simp only [ha, if_true] at hres
          exact absurd hres (by decide)
        · simp only [ha, if_false, Bool.false_eq_true, dequeue_finish] at hres
          have hneg := td_end_status_neg t
          have hne : td_end_status t ≠ 0 := by omega
          rw [if_pos hne] at hres
          simp only at hres
          omega
    · exfalso
      unfold _hardware_dequeue at hres
      unfold walk_entered at hen
      simp only [hst, ne_eq, not_true_eq_false, if_false] at hres
      have hb : ((ci.reqs h).req.udc_priv.msm_vendor && (ci.reqs h).req.udc_priv.sps_mode
          && (ci.reqs h).req.udc_priv.finite_transfer) = true := by
        simpa using hen
      rw [if_pos hb] at hres
      simp only at hres
      exact absurd hres (by decide)
  · exfalso
    unfold _hardware_dequeue at hres
    simp only [ne_eq, hst, not_false_eq_true, if_true] at hres
    exact absurd hres (by decide)

theorem modifyLast_dma (f : ci_hw_td → ci_hw_td) (l : List td_node) :
    (modifyLast (fun ln => { ln with ptr := f ln.ptr }) l).map td_node.dma = l.map td_node.dma := by
  apply modifyLast_map
  intro a
  rfl

theorem add_td_to_list_dma (k : Hdr) (d : Nat) (r : ci_hw_req) (len : Nat) :
    (add_td_to_list k (some d) r len).2.tds.map td_node.dma = r.tds.map td_node.dma ++ [d] := by
  simp only [add_td_to_list, List.map_append, List.map_cons, List.map_nil]
  rw [modifyLast_dma (fun p => { p with next := Link.addr d })]

theorem td_loop_dma (k : Hdr) (cap : Nat) (alloc : Nat → Option Nat)
    (halloc : ∀ m, (alloc m).isSome = true) (hcap : 0 < cap) :
    ∀ (fuel n rest : Nat) (r : ci_hw_req), r.req.length < U32 →
      r.req.actual + rest = r.req.length → rest ≤ fuel →
      ∃ r2 m, td_loop k cap alloc fuel n rest r = some (n + m, r2) ∧
        r2.tds.map td_node.dma = r.tds.map td_node.dma ++ (List.range' n m).filterMap alloc ∧
        (rest ≠ 0 → 0 < m) := by
  intro fuel
  induction fuel with
  | zero =>
    intro n rest r _ _ hle
    have h0 : rest = 0 := Nat.le_zero.mp hle
    subst h0
    exact ⟨r, 0, by simp [td_loop], by simp, fun h => absurd rfl h⟩
  | succ f ih =>
    intro n rest r hL hinv hle
    by_cases h0 : rest = 0
    · subst h0
      exact ⟨r, 0, by simp [td_loop], by simp, fun h => absurd rfl h⟩
    · rw [td_loop_step k cap alloc f n rest r hL hinv h0]
      obtain ⟨d, hd⟩ := Option.isSome_iff_exists.mp (halloc n)
      rw [hd]
      have hc1 : 1 ≤ min rest cap := le_min (Nat.one_le_iff_ne_zero.mpr h0) hcap
      have hc2 : min rest cap ≤ rest := min_le_left _ _
      have hl2 := (add_td_to_list_some k d r (min rest cap)).1
      have ha2 : (add_td_to_list k (some d) r (min rest cap)).2.req.actual
          = r.req.actual + min rest cap := by
        rw [(add_td_to_list_some k d r _).2]
        exact Nat.mod_eq_of_lt (by omega)
      obtain ⟨r2, m, hr2, hdma, _⟩ := ih (n + 1) (rest - min rest cap)
        (add_td_to_list k (some d) r (min rest cap)).2 (by rw [hl2]; exact hL)
        (by rw [ha2, hl2]; omega) (by omega)
      refine ⟨r2, m + 1, ?_, ?_, fun _ => Nat.succ_pos m⟩
      · rw [hr2]
        have : n + 1 + m = n + (m + 1) := by omega
        rw [this]
      · rw [hdma, add_td_to_list_dma, List.range'_succ, List.filterMap_cons, hd,
          List.append_assoc]
        rfl

theorem chain_sps_dma (r : ci_hw_req) :
    (chain_sps r).tds.map td_node.dma = r.tds.map td_node.dma := by
  unfold chain_sps
  split
  · simp only []
    split
    · cases r.tds with
      | nil => rfl
      | cons a t => rfl
    · rfl
  · rfl

theorem chain_terminate_dma (r : ci_hw_req) :
    (chain_terminate r).tds.map td_node.dma = r.tds.map td_node.dma := by
  unfold chain_terminate
  apply modifyLast_map
  intro a
  rfl

theorem chain_zero_dma (k : Hdr) (e : EnqEnv) (mp n : Nat) (r : ci_hw_req)
    (halloc : ∀ m, (e.alloc m).isSome = true) :
    ∃ c, (chain_zero k e mp n r).tds.map td_node.dma
      = r.tds.map td_node.dma ++ (List.range' n c).filterMap e.alloc := by
  unfold chain_zero
  split
  · obtain ⟨d, hd⟩ := Option.isSome_iff_exists.mp (halloc n)
    refine ⟨1, ?_⟩
    rw [hd, add_td_to_list_dma]
    simp [List.range', hd]
  · exact ⟨0, by simp⟩

theorem enqueue_chain_dma (k : Hdr) (e : EnqEnv) (mp : Nat) (r0 : ci_hw_req) (hk : k.sane)
    (halloc : ∀ m, (e.alloc m).isSome = true) (ht : r0.tds = []) (ha : r0.req.actual = 0)
    (hL : r0.req.length < U32) :
    ∃ r5 cnt, enqueue_chain k e mp r0 = some r5 ∧ 0 < cnt ∧
      r5.tds.map td_node.dma = (List.range cnt).filterMap e.alloc := by
  have hcap : 0 < td_capacity k r0.req.dma := cap_pos k hk _ (by split <;> simp)
  generalize hcd : td_capacity k r0.req.dma = cap at hcap
  unfold enqueue_chain
  simp only [hcd, Nat.mod_eq_of_lt hL]
  by_cases h0 : r0.req.length = 0
  · obtain ⟨d, hd⟩ := Option.isSome_iff_exists.mp (halloc 0)
    simp only [h0, if_true, hd]
    have hloop : ∀ r, td_loop k cap e.alloc 0 1 0 r = some (1, r) := by
      intro r
      unfold td_loop
      simp
    rw [hloop]
    simp only []
    obtain ⟨c, hc⟩ := chain_zero_dma k e mp 1 (chain_sps (add_td_to_list k (some d) r0 0).2) halloc
    refine ⟨_, 1 + c, rfl, by omega, ?_⟩
    have hr : List.range' 0 (1 + c) = List.range' 0 1 ++ List.range' (0 + 1) c := by
      rw [List.range'_append_1, Nat.add_comm]
    rw [chain_terminate_dma, hc, chain_sps_dma, add_td_to_list_dma, ht, List.range_eq_range',
      hr, List.filterMap_append]
    simp [List.range', hd]
  · simp only [h0, if_false]
    obtain ⟨r2, m, hr2, hdma, hpos⟩ := td_loop_dma k cap e.alloc halloc hcap
      r0.req.length 0 r0.req.length r0 hL (by omega) (le_refl _)
    rw [hr2]
    simp only []
    obtain ⟨c, hc⟩ := chain_zero_dma k e mp (0 + m) (chain_sps r2) halloc
    refine ⟨_, m + c, rfl, by have := hpos h0; omega, ?_⟩
    have hr : List.range' 0 (m + c) = List.range' 0 m ++ List.range' (0 + m) c := by
      rw [List.range'_append_1, Nat.add_comm]
    rw [chain_terminate_dma, hc, chain_sps_dma, hdma, ht, List.range_eq_range',
      hr, List.filterMap_append]
    simp
/-- C26 as stated fails.  On the bulk OUT endpoint with request 10 queued and
its one descriptor (at 1024) stopped with the halted bit, _hardware_dequeue
returns -EPIPE, an error that is neither -EBUSY nor -EINVAL, and the descriptor
is still on the list of the request; the request is still on the queue of the
endpoint. -/
theorem hardware_dequeue_error_keeps_td :
    (_hardware_dequeue 1 10 ci_halted).1 = -EPIPE ∧
    ((_hardware_dequeue 1 10 ci_halted).2.reqs 10).tds.map (fun n => (n.dma, n.ptr.halted))
      = [(1024, true)] ∧
    ((_hardware_dequeue 1 10 ci_halted).2.ci_hw_ep 1).queue = [10] := by
  refine ⟨?_, ?_, ?_⟩ <;> decide!

/-- C26 (amended): whenever _hardware_dequeue returns a non-negative result,
the descriptor list of the request is empty; and when the request, with that
list, a status other than -EALREADY, `req.actual` 0 and a length below 2^32,
off the queue of the endpoint, is then pushed by _hardware_enqueue with the
mapping and every allocation succeeding, the call returns and the chain it
leaves has as bus addresses exactly the results of the first `cnt` allocations
of this call, in order, with `cnt` at least 1: every descriptor is new and the
first one is the first of the new transfer. -/
theorem hardware_dequeue_empties_chain (i h : Nat) (ci : ci_hdrc)
    (hres : 0 ≤ (_hardware_dequeue i h ci).1) :
    ((_hardware_dequeue i h ci).2.reqs h).tds = [] ∧
    ∀ (k : Hdr) (e : EnqEnv) (j : Nat) (ci2 : ci_hdrc), k.sane →
      (∀ m, (e.alloc m).isSome = true) →
      (ci2.reqs h).tds = ((_hardware_dequeue i h ci).2.reqs h).tds →
      (ci2.reqs h).req.status ≠ -EALREADY → e.map.ret = 0 →
      (ci2.reqs h).req.actual = 0 → (ci2.reqs h).req.length < U32 →
      (ci2.ci_hw_ep j).queue.getLast? ≠ some h →
      ∃ r cnt, _hardware_enqueue k e j h ci2 = some r ∧ 0 < cnt ∧
        (r.2.reqs h).tds.map td_node.dma = (List.range cnt).filterMap e.alloc := by
  have hnil := hardware_dequeue_nonneg_tds i h ci hres
  refine ⟨hnil, ?_⟩
  intro k e j ci2 hk halloc htds hst hmap ha hL hq
  rw [hnil] at htds
  obtain ⟨r5, cnt, hc, hpos, hdma⟩ := enqueue_chain_dma k e (ci2.ci_hw_ep j).maxpacket
    { ci2.reqs h with req := (usb_gadget_map_request e.map
        { (ci2.reqs h).req with status := -EALREADY }).2 } hk halloc htds ha hL
  obtain ⟨r, hr, hrt⟩ := hardware_enqueue_tds k e j h ci2 hst hmap hq r5 hc
  exact ⟨r, cnt, hr, hpos, by rw [hrt]; exact hdma⟩

theorem hardware_dequeue_empties_chain_witness :
    0 ≤ (_hardware_dequeue 1 10 ci_two_done).1 ∧
    ((_hardware_dequeue 1 10 ci_two_done).2.reqs 10).tds = [] ∧
    ∃ r cnt, _hardware_enqueue hdr0 enq_env_ok 1 10 ci_two_again = some r ∧ 0 < cnt ∧
      (r.2.reqs 10).tds.map td_node.dma = (List.range cnt).filterMap enq_env_ok.alloc :=
  ⟨by decide!, (hardware_dequeue_empties_chain 1 10 ci_two_done (by decide!)).1,
    (hardware_dequeue_empties_chain 1 10 ci_two_done (by decide!)).2 hdr0 enq_env_ok 1 ci_two_again
      hdr0_sane (fun _ => rfl) (by decide!) (by decide!) rfl (by decide!) (by decide!)
      (by decide!)⟩
/-! ## The prime timer -/

theorem head_active_queue (ci : ci_hdrc) (i : Nat) (h : (head_active ci i).isSome = true) :
    (ci.ci_hw_ep i).queue.isEmpty = false := by
  unfold head_active at h
  cases hq : (ci.ci_hw_ep i).queue with
  | nil => rw [hq] at h; simp at h
  | cons a t => rfl

theorem head_active_setEp_timer (ci : ci_hdrc) (i j : Nat) (ep : ci_hw_ep)
    (hq : ep.queue = (ci.ci_hw_ep j).queue) :
    head_active (setEp ci j ep) i = head_active ci i := by
  unfold head_active
  by_cases hij : i = j
  · subst hij
    simp [setEp, hq]
  · simp [setEp, hij]

theorem prime_timer_retry (e : PrimeEnv) (i : Nat) (ci : ci_hdrc) (hp : PrimePending e i ci)
    (hc : (ci.ci_hw_ep i).prime_timer_count + 1 ≠ MAX_PRIME_CHECK_RETRY) :
    ep_prime_timer_func e i ci
      = emit (setEp ci i { ci.ci_hw_ep i with
          prime_timer_count := (ci.ci_hw_ep i).prime_timer_count + 1, prime_timer := true })
        (Event.mod_timer i) := by
  obtain ⟨hv, hs, hpr, hh⟩ := hp
  have hq := head_active_queue ci i hh
  unfold ep_prime_timer_func
  simp [hv, hs, hpr, hq, hc, Option.isSome_iff_ne_none.mp hh]

theorem prime_timer_give_up (e : PrimeEnv) (i : Nat) (ci : ci_hdrc) (hp : PrimePending e i ci)
    (hc : (ci.ci_hw_ep i).prime_timer_count + 1 = MAX_PRIME_CHECK_RETRY) :
    ep_prime_timer_func e i ci
      = setEp ci i { ci.ci_hw_ep i with
          prime_timer := false, prime_timer_count := 0
          prime_fail_count := (ci.ci_hw_ep i).prime_fail_count + 1 } := by
  obtain ⟨hv, hs, hpr, hh⟩ := hp
  have hq := head_active_queue ci i hh
  unfold ep_prime_timer_func
  simp [hv, hs, hpr, hq, hc, Option.isSome_iff_ne_none.mp hh]

theorem prime_timer_keeps_pending (e e2 : PrimeEnv) (i : Nat) (ci : ci_hdrc)
    (hp : PrimePending e i ci) : PrimePending e i (ep_prime_timer_func e2 i ci) := by
  obtain ⟨hv, hs, hpr, hh⟩ := hp
  have key : ∀ ep : ci_hw_ep, ep.queue = (ci.ci_hw_ep i).queue →
      PrimePending e i (setEp ci i ep) := by
    intro ep hq
    exact ⟨hv, hs, hpr, by rw [head_active_setEp_timer ci i i ep hq]; exact hh⟩
  have key2 : ∀ (ep : ci_hw_ep) (ev : Event), ep.queue = (ci.ci_hw_ep i).queue →
      PrimePending e i (emit (setEp ci i ep) ev) := by
    intro ep ev hq
    exact key ep hq
  unfold ep_prime_timer_func
  simp only []
  split
  · exact key _ rfl
  · split
    · exact key _ rfl
    · split
      · exact key _ rfl
      · split
        · exact key _ rfl
        · split
          · exact key _ rfl
          · exact key2 _ _ rfl

theorem prime_timer_suppressed (e : PrimeEnv) (i : Nat) (ci : ci_hdrc) (hu : e.udc = true)
    (hs : ci.vbus_active = false ∨ ci.suspended = true) :
    ep_prime_timer_func e i ci
      = setEp ci i { ci.ci_hw_ep i with prime_timer := false, prime_timer_count := 0 } := by
  unfold ep_prime_timer_func
  rcases hs with h | h <;> simp [hu, h]

theorem prime_timer_count_le (e : PrimeEnv) (i : Nat) (ci : ci_hdrc)
    (hc : (ci.ci_hw_ep i).prime_timer_count < MAX_PRIME_CHECK_RETRY) :
    ((ep_prime_timer_func e i ci).ci_hw_ep i).prime_timer_count < MAX_PRIME_CHECK_RETRY := by
  have h3 : MAX_PRIME_CHECK_RETRY = 3 := rfl
  unfold ep_prime_timer_func
  simp only []
  split
  · simp [setEp, h3]
  · split
    · simp [setEp, h3]
    · split
      · simp [setEp, h3]
      · split
        · simp [setEp, h3]
        · split
          · simp [setEp, h3]
          · next hne =>
            simp only [emit, setEp, Function.update_same]
            omega

/-- C22: a firing of ep_prime_timer_func for the endpoint at index `i` that
finds the prime still pending (bus session active, device not suspended,
ENDPTPRIME bit set, first descriptor of the oldest request active) with the
counter at 0 or 1 arms the timer again, adds 1 to the counter and leaves
`prime_fail_count` alone; with the counter at 2 it adds 1 to
`prime_fail_count`, sets the counter to 0 and does not arm the timer.  So of
three such firings in a row that start with the counter at 0, the first and the
second arm the timer and the third gives up.  A counter below
MAX_PRIME_CHECK_RETRY (3) on entry is below 3 on return.  With `_udc` set, a
firing while the bus session is inactive or the device is suspended sets the
counter to 0, does not arm the timer and leaves `prime_fail_count` alone. -/
theorem prime_timer_watchdog (e : PrimeEnv) (i : Nat) (ci : ci_hdrc) :
    (PrimePending e i ci →
      (ci.ci_hw_ep i).prime_timer_count = 0 ∨ (ci.ci_hw_ep i).prime_timer_count = 1 →
      ((ep_prime_timer_func e i ci).ci_hw_ep i).prime_timer_count
        = (ci.ci_hw_ep i).prime_timer_count + 1 ∧
      ((ep_prime_timer_func e i ci).ci_hw_ep i).prime_timer = true ∧
      (ep_prime_timer_func e i ci).trace = ci.trace ++ [Event.mod_timer i] ∧
      ((ep_prime_timer_func e i ci).ci_hw_ep i).prime_fail_count
        = (ci.ci_hw_ep i).prime_fail_count) ∧
    (PrimePending e i ci → (ci.ci_hw_ep i).prime_timer_count = 2 →
      ((ep_prime_timer_func e i ci).ci_hw_ep i).prime_timer_count = 0 ∧
      ((ep_prime_timer_func e i ci).ci_hw_ep i).prime_timer = false ∧
      (ep_prime_timer_func e i ci).trace = ci.trace ∧
      ((ep_prime_timer_func e i ci).ci_hw_ep i).prime_fail_count
        = (ci.ci_hw_ep i).prime_fail_count + 1) ∧
    (∀ e2 e3 : PrimeEnv, PrimePending e i ci → e2.prime = true → e3.prime = true →
      (ci.ci_hw_ep i).prime_timer_count = 0 →
      ((ep_prime_timer_func e3 i (ep_prime_timer_func e2 i
          (ep_prime_timer_func e i ci))).ci_hw_ep i).prime_timer_count = 0 ∧
      ((ep_prime_timer_func e3 i (ep_prime_timer_func e2 i
          (ep_prime_timer_func e i ci))).ci_hw_ep i).prime_timer = false ∧
      (ep_prime_timer_func e3 i (ep_prime_timer_func e2 i (ep_prime_timer_func e i ci))).trace
        = ci.trace ++ [Event.mod_timer i, Event.mod_timer i] ∧
      ((ep_prime_timer_func e3 i (ep_prime_timer_func e2 i
          (ep_prime_timer_func e i ci))).ci_hw_ep i).prime_fail_count
        = (ci.ci_hw_ep i).prime_fail_count + 1) ∧
    ((ci.ci_hw_ep i).prime_timer_count < MAX_PRIME_CHECK_RETRY →
      ((ep_prime_timer_func e i ci).ci_hw_ep i).prime_timer_count < MAX_PRIME_CHECK_RETRY) ∧
    (e.udc = true → ci.vbus_active = false ∨ ci.suspended = true →
      ((ep_prime_timer_func e i ci).ci_hw_ep i).prime_timer_count = 0 ∧
      ((ep_prime_timer_func e i ci).ci_hw_ep i).prime_timer = false ∧
      (ep_prime_timer_func e i ci).trace = ci.trace ∧
      ((ep_prime_timer_func e i ci).ci_hw_ep i).prime_fail_count
        = (ci.ci_hw_ep i).prime_fail_count) := by
  have h3 : MAX_PRIME_CHECK_RETRY = 3 := rfl
  have step1 : ∀ (e1 : PrimeEnv) (c : ci_hdrc), PrimePending e1 i c →
      (c.ci_hw_ep i).prime_timer_count = 0 ∨ (c.ci_hw_ep i).prime_timer_count = 1 →
      ((ep_prime_timer_func e1 i c).ci_hw_ep i).prime_timer_count
        = (c.ci_hw_ep i).prime_timer_count + 1 ∧
      ((ep_prime_timer_func e1 i c).ci_hw_ep i).prime_timer = true ∧
      (ep_prime_timer_func e1 i c).trace = c.trace ++ [Event.mod_timer i] ∧
      ((ep_prime_timer_func e1 i c).ci_hw_ep i).prime_fail_count
        = (c.ci_hw_ep i).prime_fail_count := by
    intro e1 c hp hc
    rw [prime_timer_retry e1 i c hp (by rw [h3]; omega)]
    simp [emit, setEp]
  have step3 : ∀ (e1 : PrimeEnv) (c : ci_hdrc), PrimePending e1 i c →
      (c.ci_hw_ep i).prime_timer_count = 2 →
      ((ep_prime_timer_func e1 i c).ci_hw_ep i).prime_timer_count = 0 ∧
      ((ep_prime_timer_func e1 i c).ci_hw_ep i).prime_timer = false ∧
      (ep_prime_timer_func e1 i c).trace = c.trace ∧
      ((ep_prime_timer_func e1 i c).ci_hw_ep i).prime_fail_count
        = (c.ci_hw_ep i).prime_fail_count + 1 := by
    intro e1 c hp hc
    rw [prime_timer_give_up e1 i c hp (by rw [h3]; omega)]
    simp [setEp]
  refine ⟨step1 e ci, step3 e ci, ?_, prime_timer_count_le e i ci, ?_⟩
  · intro e2 e3 hp h2 h3p h0
    have hp2 : PrimePending e2 i ci := ⟨hp.1, hp.2.1, h2, hp.2.2.2⟩
    have hp3 : PrimePending e3 i ci := ⟨hp.1, hp.2.1, h3p, hp.2.2.2⟩
    obtain ⟨a1, _, a3, a4⟩ := step1 e ci hp (Or.inl h0)
    have q2 := prime_timer_keeps_pending e2 e i ci hp2
    obtain ⟨b1, _, b3, b4⟩ := step1 e2 _ q2 (Or.inr (by rw [a1, h0]))
    have q3 := prime_timer_keeps_pending e3 e2 i _ (prime_timer_keeps_pending e3 e i ci hp3)
    obtain ⟨c1, c2, c3, c4⟩ := step3 e3 _ q3 (by rw [b1, a1, h0])
    refine ⟨c1, c2, ?_, ?_⟩
    · rw [c3, b3, a3]
      simp
    · rw [c4, b4, a4]
  · intro hu hs
    rw [prime_timer_suppressed e i ci hu hs]
    simp [setEp]

theorem prime_timer_watchdog_witness :
    ((ep_prime_timer_func prime_env_set 1 ci_queued).ci_hw_ep 1).prime_timer_count = 1 ∧
    ((ep_prime_timer_func prime_env_set 1 (ep_prime_timer_func prime_env_set 1
        (ep_prime_timer_func prime_env_set 1 ci_queued))).ci_hw_ep 1).prime_fail_count = 1 ∧
    ((ep_prime_timer_func prime_env_set 1 ci_primed_twice).ci_hw_ep 1).prime_timer_count = 0 ∧
    ((ep_prime_timer_func prime_env_set 1 ci_primed_twice).ci_hw_ep 1).prime_timer_count
      < MAX_PRIME_CHECK_RETRY ∧
    ((ep_prime_timer_func prime_env_set 1
      { ci_queued with suspended := true }).ci_hw_ep 1).prime_timer_count = 0 :=
  ⟨((prime_timer_watchdog prime_env_set 1 ci_queued).1
      ⟨by decide!, by decide!, rfl, by decide!⟩ (Or.inl (by decide!))).1,
   ((prime_timer_watchdog prime_env_set 1 ci_queued).2.2.1 prime_env_set prime_env_set
      ⟨by decide!, by decide!, rfl, by decide!⟩ rfl rfl (by decide!)).2.2.2,
   ((prime_timer_watchdog prime_env_set 1 ci_primed_twice).2.1
      ⟨by decide!, by decide!, rfl, by decide!⟩ (by decide!)).1,
   (prime_timer_watchdog prime_env_set 1 ci_primed_twice).2.2.2.1 (by decide!),
   ((prime_timer_watchdog prime_env_set 1 { ci_queued with suspended := true }).2.2.2.2 rfl
      (Or.inr rfl)).1⟩
/-! ## Closed evaluations of the driver -/

/-- C24: on the sample controller with request 10 queued on the bulk OUT
endpoint at index 1 and a function driver bound, _gadget_stop_activity returns
0, sets the speed to unknown and clears `remote_wakeup`, `suspended` and
`configured`, tells the driver of the disconnect and flushes the two halves of
endpoint 0; the queue of endpoint 1 still holds request 10, its status is
still -EALREADY and no completion callback has run.  The same holds after
isr_reset_handler. -/
theorem stop_activity_skips_bulk_endpoint :
    (_gadget_stop_activity hdr0 gadget_env_ok stop_env_ok ci_queued).1 = 0 ∧
    ((_gadget_stop_activity hdr0 gadget_env_ok stop_env_ok ci_queued).2.speed,
      (_gadget_stop_activity hdr0 gadget_env_ok stop_env_ok ci_queued).2.remote_wakeup,
      (_gadget_stop_activity hdr0 gadget_env_ok stop_env_ok ci_queued).2.suspended)
      = (USB_SPEED_UNKNOWN, false, false) ∧
    (_gadget_stop_activity hdr0 gadget_env_ok stop_env_ok ci_queued).2.configured = false ∧
    (ci_queued.ci_hw_ep 1).queue = [10] ∧
    ((_gadget_stop_activity hdr0 gadget_env_ok stop_env_ok ci_queued).2.ci_hw_ep 1).queue = [10] ∧
    ((_gadget_stop_activity hdr0 gadget_env_ok stop_env_ok ci_queued).2.reqs 10).req.status
      = -EALREADY ∧
    completions (_gadget_stop_activity hdr0 gadget_env_ok stop_env_ok ci_queued).2.trace = [] ∧
    (_gadget_stop_activity hdr0 gadget_env_ok stop_env_ok ci_queued).2.trace
      = ci_queued.trace ++ [Event.driver_disconnect,
          Event.hw_write (HwField.ENDPTFLUSH 0) 1, Event.hw_write (HwField.ENDPTFLUSH 16) 1] ∧
    ((isr_reset_handler hdr0 gadget_env_ok stop_env_ok ci_queued).ci_hw_ep 1).queue = [10] ∧
    completions (isr_reset_handler hdr0 gadget_env_ok stop_env_ok ci_queued).trace = [] := by
  refine ⟨?_, ?_, ?_, ?_, ?_, ?_, ?_, ?_, ?_, ?_⟩ <;> decide!

/-- C25: on endpoint 0 with `ep0_dir = RX`, request 20 (512 bytes) queued
through ep0 IN is linked on ep0 OUT and request 21 (zero length) on ep0 IN;
both halves have `multi_req` set.  ep_dequeue of request 20 through ep0 IN
returns 0 and completes it with -ECONNRESET, but clears `multi_req` of ep0 IN,
whose queue still holds request 21, and leaves `multi_req` of ep0 OUT set
although its queue is now empty.  _ep_queue of the fresh request 22 (512
bytes) then returns -EAGAIN, also after _ep_nuke of ep0 OUT.  With the queue
of ep0 IN empty (state `ci_ctrl_queued`) the same ep_dequeue returns -EINVAL. -/
theorem ep_dequeue_wrong_half :
    ((ci_ctrl_both.ci_hw_ep 0).queue, (ci_ctrl_both.ci_hw_ep 0).multi_req) = ([20], true) ∧
    ((ci_ctrl_both.ci_hw_ep 2).queue, (ci_ctrl_both.ci_hw_ep 2).multi_req) = ([21], true) ∧
    (ep_dequeue hdr0 { flush1 := flush_ok, flush2 := flush_ok } 2 20 ci_ctrl_both).1 = 0 ∧
    completions ci_ctrl_dequeued.trace = completions ci_ctrl_both.trace ++ [(20, -ECONNRESET)] ∧
    ((ci_ctrl_dequeued.ci_hw_ep 0).queue, (ci_ctrl_dequeued.ci_hw_ep 0).multi_req,
      (ci_ctrl_dequeued.ci_hw_ep 0).desc.isSome) = ([], true, true) ∧
    ((ci_ctrl_dequeued.ci_hw_ep 2).queue, (ci_ctrl_dequeued.ci_hw_ep 2).multi_req)
      = ([21], false) ∧
    (_ep_queue hdr0 queue_env_ok 2 22 ci_ctrl_dequeued).map
        (fun r => (r.1, (r.2.ci_hw_ep 0).queue)) = some (-EAGAIN, []) ∧
    (_ep_queue hdr0 queue_env_ok 2 22 (_ep_nuke hdr0 nuke_env_ok 0 ci_ctrl_dequeued).2).map
        (fun r => (r.1, (r.2.ci_hw_ep 0).queue)) = some (-EAGAIN, []) ∧
    (ep_dequeue hdr0 { flush1 := flush_ok, flush2 := flush_ok } 2 20 ci_ctrl_queued).1 = -EINVAL := by
  refine ⟨?_, ?_, ?_, ?_, ?_, ?_, ?_, ?_, ?_⟩ <;> decide!

/-- C27: request 10, of 40960 bytes, is queued on the bulk OUT endpoint with a
chain of two descriptors; the controller retires the first with 100 bytes not
transferred and the second is still active.  The first call of
_hardware_dequeue unlinks the first descriptor and returns -EBUSY with
`req.actual` still 0.  After the controller has retired the second descriptor
with no byte left, the second call returns 40960 and sets `req.actual` to
40960, while one walk over the chain with both descriptors retired returns
40860, the length less the 100 bytes left.  The same happens within one call
of isr_tr_complete_low when the second look finds the descriptor retired: the
request completes with status 0 and `actual` 40960. -/
theorem hardware_dequeue_busy_loses_count :
    (ci_two_part.reqs 10).tds.map (fun n => (n.ptr.active, n.ptr.total_bytes))
      = [(false, 100), (true, 20480)] ∧
    (_hardware_dequeue 1 10 ci_two_part).1 = -EBUSY ∧
    ((_hardware_dequeue 1 10 ci_two_part).2.reqs 10).tds.map
        (fun n => (n.ptr.active, n.ptr.total_bytes)) = [(true, 20480)] ∧
    ((_hardware_dequeue 1 10 ci_two_part).2.reqs 10).req.actual = 0 ∧
    (_hardware_dequeue 1 10 (hw_finish (_hardware_dequeue 1 10 ci_two_part).2)).1 = 40960 ∧
    ((_hardware_dequeue 1 10 (hw_finish (_hardware_dequeue 1 10 ci_two_part).2)).2.reqs 10).req.actual
      = 40960 ∧
    (_hardware_dequeue 1 10 (hw_finish ci_two_part)).1 = 40860 ∧
    ((_hardware_dequeue 1 10 (hw_finish ci_two_part)).2.reqs 10).req.actual = 40860 ∧
    (isr_tr_complete_low hdr0 low_env_late 1 ci_two_part).map
        (fun r => (callbacks r.2.trace).map (fun c => (c.1, c.2.status, c.2.actual, c.2.length)))
      = some [(10, 0, 40960, 40960)] := by
  refine ⟨?_, ?_, ?_, ?_, ?_, ?_, ?_, ?_, ?_⟩ <;> decide!

/-- C28 as stated fails.  On the sample controller (device address 0) a
SET_ADDRESS(5) packet is handled: address 5 is latched and the status request is queued on ep0 IN.
When a SET_CONFIGURATION packet arrives before that status request has
completed, its handling flushes endpoint 0, the status request completes with
-ESHUTDOWN, and isr_setup_status_complete writes 5 to the device-address
register and clears the latch.  _ep_nuke of ep0 IN alone does the same. -/
theorem status_complete_ignores_shutdown :
    (isr_setup_packet hdr0 (setup_env_ok (set_address_pkt 5)) (-EINVAL) ci_sample).map
        (fun r => (r.2.usbadr, r.2.setaddr, addr_writes r.2.trace)) = some (0, true, []) ∧
    ((isr_setup_packet hdr0 (setup_env_ok (set_address_pkt 5)) (-EINVAL) ci_sample).bind
        (fun r => isr_setup_packet hdr0 (setup_env_ok (set_config_pkt 1)) (-EINVAL) r.2)).map
        (fun r => (r.2.usbadr, r.2.setaddr, addr_writes r.2.trace)) = some (5, false, [5]) ∧
    ((isr_setup_packet hdr0 (setup_env_ok (set_address_pkt 5)) (-EINVAL) ci_sample).bind
        (fun r => isr_setup_packet hdr0 (setup_env_ok (set_config_pkt 1)) (-EINVAL) r.2)).map
        (fun r => completions r.2.trace) = some [(ci_sample.status, -ESHUTDOWN)] ∧
    (isr_setup_packet hdr0 (setup_env_ok (set_address_pkt 5)) (-EINVAL) ci_sample).map
        (fun r => ((_ep_nuke hdr0 nuke_env_ok (ep0in r.2) r.2).2.usbadr,
          (_ep_nuke hdr0 nuke_env_ok (ep0in r.2) r.2).2.setaddr,
          completions (_ep_nuke hdr0 nuke_env_ok (ep0in r.2) r.2).2.trace))
      = some (5, false, [(ci_sample.status, -ESHUTDOWN)]) := by
  refine ⟨?_, ?_, ?_, ?_⟩ <;> decide!

theorem ep_to_bit_index (ci : ci_hdrc) (num dir : Nat) (hn : num < ci.hw_ep_max / 2)
    (hd : dir = RX ∨ dir = TX) :
    ep_to_bit ci ((num + dir * (ci.hw_ep_max / 2) : Nat) : Int) = (hw_ep_bit num dir : Nat) := by
  unfold ep_to_bit hw_ep_bit
  generalize ci.hw_ep_max / 2 = m at hn
  rcases hd with h | h
  · subst h
    simp only [RX, Nat.zero_mul, Nat.add_zero]
    rw [if_neg (by omega)]
    rfl
  · subst h
    simp only [TX, Nat.one_mul]
    rw [if_pos (by omega)]
    have : (if (1 != 0) = true then 16 else 0) = 16 := rfl
    rw [this]
    push_cast
    omega

/-- C29: on a controller with `hw_ep_max` 24, endpoint 1 IN has the index
1 + 12 = 13 in the endpoint array and the bit ep_to_bit(13) = hw_ep_bit(1, TX)
= 17.  Its queue holds request 10, and the queue of the record at index 17
(endpoint 5 IN) is empty.  hw_ep_flush for endpoint 1 IN tests the record at
index 17 and returns without writing the flush register, and _ep_nuke of the
endpoint frees the descriptor of request 10 with no flush written; with a
request on the queue at index 17 and none at index 13 the flush is written.
On the sample controller (`hw_ep_max` 4) the index 17 is not below
`hw_ep_max`. -/
theorem hw_ep_flush_tests_bit_index :
    ((ci_wide.ci_hw_ep 13).num, (ci_wide.ci_hw_ep 13).dir, (ci_wide.ci_hw_ep 13).queue)
      = (1, TX, [10]) ∧
    ep_to_bit ci_wide 13 = 17 ∧ hw_ep_bit 1 TX = 17 ∧ (ci_wide.ci_hw_ep 17).queue = [] ∧
    (hw_ep_flush ci_wide 1 TX flush_ok).trace = ci_wide.trace ∧
    (_ep_nuke hdr0 nuke_env_ok 13 ci_wide).2.trace.map (fun ev => match ev with
        | Event.hw_write _ _ => 1
        | Event.td_free _ => 2
        | _ => 0) = [2, 0] ∧
    (hw_ep_flush (setEp (setEp ci_wide 13 { ci_wide.ci_hw_ep 13 with queue := [] }) 17
        { ci_wide.ci_hw_ep 17 with queue := [11] }) 1 TX flush_ok).trace
      = [Event.hw_write (HwField.ENDPTFLUSH 17) 1] ∧
    ¬ hw_ep_bit 1 TX < ci_sample.hw_ep_max := by
  refine ⟨?_, ?_, ?_, ?_, ?_, ?_, ?_, ?_⟩ <;> decide!
/-! ## The flush-skip flag -/

theorem KeepsSkip.skip_refl (a : ci_hdrc) : KeepsSkip a a := fun h => h

theorem KeepsSkip.skip_trans {a b c : ci_hdrc} (h1 : KeepsSkip a b) (h2 : KeepsSkip b c) :
    KeepsSkip a c := fun h => h1 (h2 h)

theorem keepsSkip_of_eq {a b : ci_hdrc} (h : a.skip_flush = b.skip_flush) : KeepsSkip a b :=
  fun hb => h.trans hb

theorem skip_flush_writes (ci : ci_hdrc) (n m : Nat) :
    (flush_writes ci n m).skip_flush = ci.skip_flush := by
  induction m generalizing ci with
  | zero => rfl
  | succ m ih => exact ih _

theorem hw_ep_flush_skipped (ci : ci_hdrc) (num dir : Nat) (e : FlushEnv)
    (h : ci.skip_flush = true) : hw_ep_flush ci num dir e = ci := by
  unfold hw_ep_flush
  simp [h]

theorem keepsSkip_hw_ep_flush (ci : ci_hdrc) (num dir : Nat) (e : FlushEnv) :
    KeepsSkip (hw_ep_flush ci num dir e) ci := by
  intro h
  rw [hw_ep_flush_skipped ci num dir e h]
  exact h

theorem skip_isr_setup_status_complete {k : Hdr} (ci : ci_hdrc) :
    (isr_setup_status_complete k ci).skip_flush = ci.skip_flush := by
  unfold isr_setup_status_complete
  simp only []
  split <;> split <;> rfl

theorem skip_call_complete {k : Hdr} (ci : ci_hdrc) (ep h : Nat) :
    (call_complete k ci ep h).skip_flush = ci.skip_flush := by
  unfold call_complete
  split
  · rfl
  · split
    · exact skip_isr_setup_status_complete _
    · rfl

theorem skip_free_tds (ci : ci_hdrc) (l : List td_node) :
    (free_tds ci l).skip_flush = ci.skip_flush := by
  induction l generalizing ci with
  | nil => rfl
  | cons a t ih => exact ih _

theorem skip_free_pending_td (ci : ci_hdrc) (i : Nat) :
    (free_pending_td ci i).skip_flush = ci.skip_flush := by
  unfold free_pending_td
  split <;> rfl

theorem skip_nuke_one (k : Hdr) (e : NukeEnv) (i h : Nat) (ci : ci_hdrc) :
    (nuke_one k e i h ci).skip_flush = ci.skip_flush := by
  unfold nuke_one
  simp only []
  rw [skip_call_complete]
  split <;> split <;> exact skip_free_tds _ _

theorem skip_nuke_loop (k : Hdr) (e : NukeEnv) (i : Nat) (fuel : Nat) (ci : ci_hdrc) :
    (nuke_loop k e i fuel ci).skip_flush = ci.skip_flush := by
  induction fuel generalizing ci with
  | zero => rfl
  | succ f ih =>
    unfold nuke_loop
    split
    · rfl
    · rw [ih, skip_nuke_one]

theorem keepsSkip_ep_nuke (k : Hdr) (e : NukeEnv) (i : Nat) (ci : ci_hdrc) :
    KeepsSkip (_ep_nuke k e i ci).2 ci := by
  intro hs
  unfold _ep_nuke
  simp only []
  have h1 : (del_prime_timer ci i).skip_flush = true := hs
  rw [hw_ep_flush_skipped _ _ _ _ h1]
  split
  · rw [skip_free_pending_td, skip_nuke_loop]
    exact hs
  · rw [skip_nuke_loop]
    exact hs

theorem skip_hw_ep_prime (ci : ci_hdrc) (num dir : Nat) (c : Bool) (e : EnqEnv) :
    (hw_ep_prime ci num dir c e).2.skip_flush = ci.skip_flush := by
  unfold hw_ep_prime
  simp only []
  split
  · rfl
  · split <;> rfl

theorem skip_enqueue_pipe_id (k : Hdr) (ci : ci_hdrc) (mEp : ci_hw_ep) (r : ci_hw_req) :
    (enqueue_pipe_id k ci mEp r).skip_flush = ci.skip_flush := by
  unfold enqueue_pipe_id
  split <;> rfl

theorem skip_qh_config (k : Hdr) (i h : Nat) (ci : ci_hdrc) :
    (qh_config k i h ci).skip_flush = ci.skip_flush := by
  unfold qh_config
  split
  · rfl
  · exact skip_enqueue_pipe_id _ _ _ _

theorem skip_arm_timer (i : Nat) (r : Int × ci_hdrc) :
    (arm_timer i r).2.skip_flush = r.2.skip_flush := by
  unfold arm_timer
  split <;> rfl

theorem skip_enqueue_prime (k : Hdr) (e : EnqEnv) (i h : Nat) (ci : ci_hdrc) :
    (enqueue_prime k e i h ci).2.skip_flush = ci.skip_flush := by
  unfold enqueue_prime
  simp only []
  rw [skip_arm_timer, skip_hw_ep_prime, skip_qh_config]

theorem skip_enqueue_link (k : Hdr) (e : EnqEnv) (i h : Nat) (ci : ci_hdrc) :
    (enqueue_link k e i h ci).2.skip_flush = ci.skip_flush := by
  unfold enqueue_link
  split
  · exact skip_enqueue_prime _ _ _ _ _
  · simp only []
    split
    · rfl
    · split
      · rfl
      · split
        · rfl
        · rw [skip_enqueue_prime]
          rfl

theorem skip_hardware_enqueue (k : Hdr) (e : EnqEnv) (i h : Nat) (ci : ci_hdrc)
    (r : Int × ci_hdrc) (hr : _hardware_enqueue k e i h ci = some r) :
    r.2.skip_flush = ci.skip_flush := by
  unfold _hardware_enqueue at hr
  simp only [] at hr
  split at hr
  · simp only [Option.some.injEq] at hr
    subst hr
    rfl
  · split at hr
    · simp only [Option.some.injEq] at hr
      subst hr
      rfl
    · split at hr
      · exact absurd hr (by simp)
      · split at hr
        · simp only [Option.some.injEq] at hr
          subst hr
          rfl
        · simp only [Option.some.injEq] at hr
          subst hr
          rw [skip_enqueue_link]
          split <;> rfl
theorem keepsSkip_ep_queue_flushed (k : Hdr) (e : QueueEnv) (i h : Nat) (ci : ci_hdrc) :
    KeepsSkip (ep_queue_flushed k e i h ci) ci := by
  unfold ep_queue_flushed
  split
  · exact keepsSkip_ep_nuke _ _ _ _
  · exact KeepsSkip.skip_refl _

theorem keepsSkip_ep_queue_inner (k : Hdr) (e : QueueEnv) (i h : Nat) (ci : ci_hdrc)
    (r : Int × ci_hdrc) (hr : _ep_queue k e i h ci = some r) : KeepsSkip r.2 ci := by
  have hf := keepsSkip_ep_queue_flushed k e i h ci
  unfold _ep_queue at hr
  simp only [] at hr
  split at hr
  · simp only [Option.some.injEq] at hr
    subst hr
    exact KeepsSkip.skip_refl _
  · split at hr
    · simp only [Option.some.injEq] at hr
      subst hr
      exact hf
    · split at hr
      · simp only [Option.some.injEq] at hr
        subst hr
        exact hf
      · split at hr
        · simp only [Option.some.injEq] at hr
          subst hr
          exact hf
        · split at hr
          · exact absurd hr (by simp)
          · next ret ci4 he =>
            have h4 := skip_hardware_enqueue _ _ _ _ _ _ he
            simp only at h4
            have h5 : KeepsSkip ci4 ci := (keepsSkip_of_eq h4).skip_trans hf
            split at hr
            · simp only [Option.some.injEq] at hr
              subst hr
              exact h5
            · split at hr
              · simp only [Option.some.injEq] at hr
                subst hr
                exact h5
              · simp only [Option.some.injEq] at hr
                subst hr
                exact h5

theorem keepsSkip_ep_queue (k : Hdr) (e : QueueEnv) (i h : Nat) (ci : ci_hdrc)
    (r : Int × ci_hdrc) (hr : ep_queue k e i h ci = some r) : KeepsSkip r.2 ci := by
  unfold ep_queue at hr
  split at hr
  · simp only [Option.some.injEq] at hr
    subst hr
    exact KeepsSkip.skip_refl _
  · split at hr
    · simp only [Option.some.injEq] at hr
      subst hr
      exact KeepsSkip.skip_refl _
    · exact keepsSkip_ep_queue_inner _ _ _ _ _ _ hr

theorem keepsSkip_ep_dequeue {k : Hdr} (e : DequeueEnv) (i h : Nat) (ci : ci_hdrc) :
    KeepsSkip (ep_dequeue k e i h ci).2 ci := by
  intro hs
  unfold ep_dequeue
  simp only []
  split
  · exact hs
  · split
    · exact hs
    · rw [skip_call_complete]
      have hf : ∀ c : ci_hdrc, c.skip_flush = true →
          (if (ci.ci_hw_ep i).multi_req = true then
            setEp (setReq (list_del_init c h) h (restore_original_req
              { ci.reqs h with req := { (ci.reqs h).req with status := -ECONNRESET } })) i
              { (list_del_init c h).ci_hw_ep i with multi_req := false }
          else setReq (list_del_init c h) h
              { ci.reqs h with req := { (ci.reqs h).req with status := -ECONNRESET } }).skip_flush
            = true := by
        intro c hc
        split <;> exact hc
      apply hf
      split
      · rw [hw_ep_flush_skipped _ _ _ _ (by rw [hw_ep_flush_skipped _ _ _ _ hs]; exact hs),
          hw_ep_flush_skipped _ _ _ _ hs]
        exact hs
      · rw [hw_ep_flush_skipped _ _ _ _ hs]
        exact hs

theorem skip_dequeue_walk (i h : Nat) :
    ∀ (l : List td_node) (actual : Nat) (status : Int) (ci : ci_hdrc),
      (dequeue_walk i h l actual status ci).state.skip_flush = ci.skip_flush := by
  intro l
  induction l with
  | nil => intro actual status ci; rfl
  | cons node rest ih =>
    intro actual status ci
    unfold dequeue_walk
    simp only []
    split
    · rfl
    · split
      · rfl
      · split
        · rfl
        · split
          · rfl
          · split
            · rfl
            · rw [ih]
              split
              · exact skip_free_pending_td _ _
              · rfl

theorem skip_hardware_dequeue (i h : Nat) (ci : ci_hdrc) :
    (_hardware_dequeue i h ci).2.skip_flush = ci.skip_flush := by
  unfold _hardware_dequeue
  simp only []
  split
  · rfl
  · split
    · rfl
    · have hw := skip_dequeue_walk i h (ci.reqs h).tds ((ci.reqs h).req.length % U32) 0
        (setReq ci h { ci.reqs h with req := { (ci.reqs h).req with status := 0 } })
      split
      · next ci1 heq =>
        rw [heq] at hw
        exact hw
      · next ci1 a s heq =>
        rw [heq] at hw
        split <;> exact hw

theorem skip_dequeue_retry (e : LowEnv) (i h : Nat) (b : Bool) (ci : ci_hdrc) :
    (dequeue_retry e i h b ci).2.2.skip_flush = ci.skip_flush := by
  unfold dequeue_retry
  simp only []
  split
  · split
    · rw [skip_hardware_dequeue]
      exact skip_hardware_dequeue _ _ _
    · exact skip_hardware_dequeue _ _ _
  · exact skip_hardware_dequeue _ _ _

theorem skip_low_complete {k : Hdr} (i h t : Nat) (ci : ci_hdrc) :
    (low_complete k i h t ci).2.skip_flush = ci.skip_flush := by
  unfold low_complete
  split
  · exact skip_call_complete _ _ _
  · rfl
theorem skip_low_reslice (k : Hdr) (e : LowEnv) (i h t : Nat) (r1 : ci_hw_req) (n : Nat)
    (ci : ci_hdrc) (s : LowStep) (hs : low_reslice k e i h t r1 n ci = some s) :
    s.state.skip_flush = ci.skip_flush := by
  unfold low_reslice at hs
  simp only [] at hs
  split at hs
  · exact absurd hs (by simp)
  · next ret ci3 he =>
    have h3 := skip_hardware_enqueue _ _ _ _ _ _ he
    simp only at h3
    split at hs
    · simp only [Option.some.injEq] at hs
      subst hs
      simp only [LowStep.state]
      rw [skip_low_complete]
      exact h3
    · simp only [Option.some.injEq] at hs
      subst hs
      exact h3

theorem skip_low_multi (k : Hdr) (e : LowEnv) (i h t : Nat) (retval : Int)
    (ci : ci_hdrc) (s : LowStep) (hs : low_multi k e i h t retval ci = some s) :
    s.state.skip_flush = ci.skip_flush := by
  unfold low_multi at hs
  simp only [] at hs
  split at hs
  · simp only [Option.some.injEq] at hs
    subst hs
    simp only [LowStep.state]
    rw [skip_low_complete]
    rfl
  · exact skip_low_reslice _ _ _ _ _ _ _ _ _ hs

theorem skip_low_body (k : Hdr) (e : LowEnv) (i h : Nat) (b : Bool) (t : Nat)
    (ci : ci_hdrc) (s : LowStep) (hs : low_body k e i h b t ci = some s) :
    s.state.skip_flush = ci.skip_flush := by
  have hd := skip_dequeue_retry e i h b ci
  unfold low_body at hs
  simp only [] at hs
  split at hs
  · simp only [Option.some.injEq] at hs
    subst hs
    exact hd
  · split at hs
    · exact (skip_low_multi _ _ _ _ _ _ _ _ hs).trans hd
    · simp only [Option.some.injEq] at hs
      subst hs
      simp only [LowStep.state]
      rw [skip_low_complete]
      exact hd

theorem skip_low_loop (k : Hdr) (e : LowEnv) (i : Nat) :
    ∀ (l : List Nat) (retval : Int) (b : Bool) (t : Nat) (ci : ci_hdrc) (r : Int × ci_hdrc),
      low_loop k e i l retval b t ci = some r → r.2.skip_flush = ci.skip_flush := by
  intro l
  induction l with
  | nil =>
    intro retval b t ci r hr
    simp only [low_loop, Option.some.injEq] at hr
    subst hr
    rfl
  | cons h rest ih =>
    intro retval b t ci r hr
    unfold low_loop at hr
    cases hb : low_body k e i h b t ci with
    | none =>
      rw [hb] at hr
      exact absurd hr (by simp)
    | some s =>
      rw [hb] at hr
      have h1 := skip_low_body _ _ _ _ _ _ _ _ hb
      cases s with
      | stop rv c1 =>
        simp only [Option.some.injEq] at hr
        subst hr
        exact h1
      | next rv t1 c1 =>
        simp only at hr
        exact (ih _ _ _ _ _ hr).trans h1

theorem skip_isr_tr_complete_low (k : Hdr) (e : LowEnv) (i : Nat) (ci : ci_hdrc)
    (r : Int × ci_hdrc) (hr : isr_tr_complete_low k e i ci = some r) :
    r.2.skip_flush = ci.skip_flush := by
  unfold isr_tr_complete_low at hr
  simp only [] at hr
  exact skip_low_loop k e i _ 0 true i (del_prime_timer ci i) r hr

theorem skip_hw_ep_set_halt (ci : ci_hdrc) (num dir value : Nat) (sp : Bool) :
    (hw_ep_set_halt ci num dir value sp).2.skip_flush = ci.skip_flush := by
  unfold hw_ep_set_halt
  split
  · rfl
  · split
    · rfl
    · simp only []
      split <;> rfl

theorem skip_halt_round (ci : ci_hdrc) (i dir value : Nat) (sp : Bool) :
    (halt_round ci i dir value sp).2.skip_flush = ci.skip_flush := by
  unfold halt_round
  simp only []
  split
  · exact skip_hw_ep_set_halt _ _ _ _ _
  · exact skip_hw_ep_set_halt _ _ _ _ _

theorem skip_ep_set_halt (e : HaltEnv) (i value : Nat) (ci : ci_hdrc) :
    (ep_set_halt e i value ci).2.skip_flush = ci.skip_flush := by
  unfold ep_set_halt
  simp only []
  split
  · rfl
  · split
    · rfl
    · split
      · rw [skip_halt_round, skip_halt_round]
      · exact skip_halt_round _ _ _ _ _

theorem skip_ep_set_wedge (e : HaltEnv) (i : Nat) (ci : ci_hdrc) :
    (ep_set_wedge e i ci).2.skip_flush = ci.skip_flush := by
  unfold ep_set_wedge
  split
  · rfl
  · rw [skip_ep_set_halt]
    rfl

theorem keepsSkip_isr_setup_status_phase (k : Hdr) (e : QueueEnv) (ci : ci_hdrc)
    (r : Int × ci_hdrc) (hr : isr_setup_status_phase k e ci = some r) : KeepsSkip r.2 ci := by
  unfold isr_setup_status_phase at hr
  simp only [] at hr
  intro hs
  exact keepsSkip_ep_queue_inner k e _ _ _ r hr hs

theorem keepsSkip_isr_get_status_response (k : Hdr) (e : QueueEnv) (s : usb_ctrlrequest)
    (ci : ci_hdrc) (r : Int × ci_hdrc) (hr : isr_get_status_response k e s ci = some r) :
    KeepsSkip r.2 ci := by
  unfold isr_get_status_response at hr
  simp only [] at hr
  intro hs
  exact keepsSkip_ep_queue k e _ _ _ r hr hs
theorem keepsSkip_status_from (k : Hdr) (e : QueueEnv) (c c1 : ci_hdrc) (r : Int × ci_hdrc)
    (h1 : c1.skip_flush = c.skip_flush) (hr : isr_setup_status_phase k e c1 = some r) :
    KeepsSkip r.2 c :=
  (keepsSkip_isr_setup_status_phase _ _ _ _ hr).skip_trans (keepsSkip_of_eq h1)

theorem keepsSkip_delegate (e : SetupEnv) (req : usb_ctrlrequest) (c c1 : ci_hdrc)
    (h1 : c1.skip_flush = c.skip_flush) : KeepsSkip (setup_delegate e req c1).2 c := by
  apply keepsSkip_of_eq
  unfold setup_delegate
  simp only []
  split <;> exact h1

theorem keepsSkip_clear_halt (k : Hdr) (e : SetupEnv) (c : ci_hdrc) (i : Nat)
    (r : Int × ci_hdrc)
    (hr : (if !(c.ci_hw_ep i).wedge then
            (if (ep_set_halt e.halt i 0 c).1 ≠ 0 then some (ep_set_halt e.halt i 0 c)
             else isr_setup_status_phase k e.queue (ep_set_halt e.halt i 0 c).2)
          else isr_setup_status_phase k e.queue c) = some r) : KeepsSkip r.2 c := by
  have hh := skip_ep_set_halt e.halt i 0 c
  split at hr
  · split at hr
    · simp only [Option.some.injEq] at hr
      subst hr
      exact keepsSkip_of_eq hh
    · exact keepsSkip_status_from k e.queue c _ r hh hr
  · exact keepsSkip_status_from k e.queue c _ r rfl hr

theorem keepsSkip_set_halt (k : Hdr) (e : SetupEnv) (c : ci_hdrc) (i : Nat)
    (r : Int × ci_hdrc)
    (hr : (if (ep_set_halt e.halt i 1 c).1 = 0 then
            match isr_setup_status_phase k e.queue (ep_set_halt e.halt i 1 c).2 with
            | none => none
            | some q => some (0, q.2)
          else some (ep_set_halt e.halt i 1 c)) = some r) : KeepsSkip r.2 c := by
  have hh := skip_ep_set_halt e.halt i 1 c
  split at hr
  · cases hq : isr_setup_status_phase k e.queue (ep_set_halt e.halt i 1 c).2 with
    | none =>
      rw [hq] at hr
      exact absurd hr (by simp)
    | some q =>
      rw [hq] at hr
      simp only [Option.some.injEq] at hr
      subst hr
      exact keepsSkip_status_from k e.queue c _ q hh hq
  · simp only [Option.some.injEq] at hr
    subst hr
    exact keepsSkip_of_eq hh

theorem keepsSkip_setup_switch {err : Int} (k : Hdr) (e : SetupEnv) (req : usb_ctrlrequest)
    (c : ci_hdrc) (r : Int × ci_hdrc) (hr : setup_switch k e req err c = some r) :
    KeepsSkip r.2 c := by
  unfold setup_switch at hr
  by_cases h1 : req.bRequest = USB_REQ_CLEAR_FEATURE
  · simp only [h1, if_true] at hr
    split at hr
    · split at hr
      · simp only [Option.some.injEq] at hr
        subst hr
        exact KeepsSkip.skip_refl _
      · exact keepsSkip_clear_halt k e c _ r hr
    · repeat' split at hr
      all_goals first
        | exact keepsSkip_status_from k e.queue c _ r (by rfl) hr
        | (simp only [Option.some.injEq] at hr
           subst hr
           first
             | exact KeepsSkip.skip_refl _
             | exact keepsSkip_delegate e req c _ (by rfl))
  · simp only [h1, if_false] at hr
    by_cases h2 : req.bRequest = USB_REQ_GET_STATUS
    · simp only [h2, if_true] at hr
      repeat' split at hr
      all_goals first
        | exact keepsSkip_isr_get_status_response k e.queue req c r hr
        | (simp only [Option.some.injEq] at hr
           subst hr
           first
             | exact KeepsSkip.skip_refl _
             | exact keepsSkip_delegate e req c _ (by rfl))
    · simp only [h2, if_false] at hr
      by_cases h3 : req.bRequest = USB_REQ_SET_ADDRESS
      · simp only [h3, if_true] at hr
        repeat' split at hr
        all_goals first
          | exact keepsSkip_status_from k e.queue c _ r (by rfl) hr
          | (simp only [Option.some.injEq] at hr
             subst hr
             first
               | exact KeepsSkip.skip_refl _
               | exact keepsSkip_delegate e req c _ (by rfl))
      · simp only [h3, if_false] at hr
        by_cases h4 : req.bRequest = USB_REQ_SET_CONFIGURATION
        · simp only [h4, if_true, Option.some.injEq] at hr
          subst hr
          split
          · exact keepsSkip_delegate e req c _ (by rfl)
          · exact keepsSkip_delegate e req c _ (by rfl)
        · simp only [h4, if_false] at hr
          by_cases h5 : req.bRequest = USB_REQ_SET_FEATURE
          · simp only [h5, if_true] at hr
            by_cases c1 : (decide (req.bRequestType = USB_DIR_OUT ||| USB_RECIP_ENDPOINT) &&
                decide (req.wValue = USB_ENDPOINT_HALT)) = true
            · simp only [c1, if_true] at hr
              split at hr
              · simp only [Option.some.injEq] at hr
                subst hr
                exact KeepsSkip.skip_refl _
              · exact keepsSkip_set_halt k e c _ r hr
            · simp only [c1, if_false, Bool.false_eq_true] at hr
              by_cases c2 : req.bRequestType = USB_DIR_OUT ||| USB_RECIP_DEVICE
              swap
              · simp only [c2, if_false, Bool.false_eq_true, Option.some.injEq] at hr
                subst hr
                exact keepsSkip_delegate e req c _ (by rfl)
              simp only [c2, if_true, Bool.false_eq_true, if_false] at hr
              by_cases c3 : (req.wLength != 0) = true
              · simp only [c3, if_true, Bool.false_eq_true, if_false, Option.some.injEq] at hr
                subst hr
                exact KeepsSkip.skip_refl _
              simp only [c3, if_false, Bool.false_eq_true] at hr
              repeat' split at hr
              all_goals first
                | exact keepsSkip_status_from k e.queue c _ r (by rfl) hr
                | (simp only [Option.some.injEq] at hr
                   subst hr
                   exact KeepsSkip.skip_refl _)
          · simp only [h5, if_false, Option.some.injEq] at hr
            subst hr
            exact keepsSkip_delegate e req c _ (by rfl)

theorem keepsSkip_isr_setup_packet {err : Int} (k : Hdr) (e : SetupEnv) (ci : ci_hdrc)
    (r : Int × ci_hdrc) (hr : isr_setup_packet k e err ci = some r) : KeepsSkip r.2 ci := by
  have h1 := keepsSkip_ep_nuke k e.nuke_out (ep0out ci) ci
  have h2 := keepsSkip_ep_nuke k e.nuke_in (ep0in (_ep_nuke k e.nuke_out (ep0out ci) ci).2)
    (_ep_nuke k e.nuke_out (ep0out ci) ci).2
  have h12 := h2.skip_trans h1
  unfold isr_setup_packet at hr
  simp only [] at hr
  split at hr
  · exact absurd hr (by simp)
  · next err ci4 hsw =>
    have h3 := keepsSkip_setup_switch _ _ _ _ _ hsw
    have h4 : KeepsSkip ci4 ci := fun hs => h3 (h12 hs)
    split at hr
    · simp only [Option.some.injEq] at hr
      subst hr
      exact (keepsSkip_of_eq (skip_ep_set_halt _ _ _ _)).skip_trans h4
    · simp only [Option.some.injEq] at hr
      subst hr
      exact h4
theorem keepsSkip_gadget_stop_activity (k : Hdr) (g : GadgetEnv) (e : StopEnv) (ci : ci_hdrc) :
    KeepsSkip (_gadget_stop_activity k g e ci).2 ci := by
  intro hs
  have key : ∀ c3 : ci_hdrc, c3.skip_flush = true →
      (match e.last_zptr with
        | some dma => emit (_ep_nuke k e.nuke_in (ep0in (_ep_nuke k e.nuke_out (ep0out c3) c3).2)
            (_ep_nuke k e.nuke_out (ep0out c3) c3).2).2 (Event.td_free dma)
        | none => (_ep_nuke k e.nuke_in (ep0in (_ep_nuke k e.nuke_out (ep0out c3) c3).2)
            (_ep_nuke k e.nuke_out (ep0out c3) c3).2).2).skip_flush = true := by
    intro c3 h3
    have h4 := keepsSkip_ep_nuke k e.nuke_out (ep0out c3) c3 h3
    have h5 := keepsSkip_ep_nuke k e.nuke_in (ep0in (_ep_nuke k e.nuke_out (ep0out c3) c3).2)
      (_ep_nuke k e.nuke_out (ep0out c3) c3).2 h4
    split
    · exact h5
    · exact h5
  unfold _gadget_stop_activity
  simp only []
  apply key
  split <;> exact hs

theorem skip_resume_calls (g : GadgetEnv) (ci : ci_hdrc) :
    (resume_calls g ci).skip_flush = ci.skip_flush := by
  unfold resume_calls
  simp only []
  split <;> split <;> rfl

theorem isr_reset_handler_clears (k : Hdr) (g : GadgetEnv) (e : StopEnv) (ci : ci_hdrc) :
    (isr_reset_handler k g e ci).skip_flush = false := by
  unfold isr_reset_handler
  simp only []
  have h0 : ∀ c, (_gadget_stop_activity k g e c).1 = 0 := fun c => rfl
  rw [if_neg (by rw [h0]; simp)]
  rfl

theorem skip_irq_port_change (g : GadgetEnv) (hsp : Bool) (ci : ci_hdrc) :
    (irq_port_change g hsp ci).skip_flush = ci.skip_flush := by
  unfold irq_port_change
  simp only []
  split
  · rw [skip_resume_calls]
  · rfl

theorem skip_irq_suspend (g : GadgetEnv) (ci : ci_hdrc) :
    (irq_suspend g ci).skip_flush = ci.skip_flush := by
  unfold irq_suspend
  split
  · simp only []
    split <;> split <;> rfl
  · rfl

theorem keepsSkip_tr_complete (k : Hdr) (e : TrEnv) (i : Nat) (ci : ci_hdrc)
    (r : Int × ci_hdrc) (hr : tr_complete k e i ci = some r) : KeepsSkip r.2 ci := by
  unfold tr_complete at hr
  split at hr
  · simp only [Option.some.injEq] at hr
    subst hr
    exact KeepsSkip.skip_refl _
  · split at hr
    · exact absurd hr (by simp)
    · next err ci1 hl =>
      have h1 : KeepsSkip ci1 ci := keepsSkip_of_eq (skip_isr_tr_complete_low _ _ _ _ _ hl)
      split at hr
      · split at hr
        · exact absurd hr (by simp)
        · next err2 ci2 hq =>
          have h2 : KeepsSkip ci2 ci := by
            split at hq
            · exact (keepsSkip_isr_setup_status_phase _ _ _ _ hq).skip_trans h1
            · simp only [Option.some.injEq, Prod.mk.injEq] at hq
              rw [← hq.2]
              exact h1
          split at hr
          · simp only [Option.some.injEq] at hr
            subst hr
            exact (keepsSkip_of_eq (skip_ep_set_halt _ _ _ _)).skip_trans h2
          · simp only [Option.some.injEq] at hr
            subst hr
            exact h2
      · simp only [Option.some.injEq] at hr
        subst hr
        exact h1

theorem keepsSkip_tr_round (k : Hdr) (e : TrEnv) (i : Nat) (ci r : ci_hdrc)
    (hr : tr_round k e i ci = some r) : KeepsSkip r ci := by
  unfold tr_round at hr
  split at hr
  · simp only [Option.some.injEq] at hr
    subst hr
    exact KeepsSkip.skip_refl _
  · split at hr
    · exact absurd hr (by simp)
    · next err ci1 hc =>
      have h1 : KeepsSkip ci1 ci := keepsSkip_tr_complete _ _ _ _ _ hc
      split at hr
      · simp only [Option.some.injEq] at hr
        subst hr
        exact h1
      · split at hr
        · simp only [Option.some.injEq] at hr
          subst hr
          exact h1
        · cases hp : isr_setup_packet k e.setup err ci1 with
          | none =>
            rw [hp] at hr
            exact absurd hr (by simp)
          | some p =>
            rw [hp] at hr
            simp only [Option.map_some', Option.some.injEq] at hr
            subst hr
            exact (keepsSkip_isr_setup_packet _ _ _ _ hp).skip_trans h1

theorem keepsSkip_tr_loop (k : Hdr) (e : Nat → TrEnv) :
    ∀ (l : List Nat) (ci r : ci_hdrc), tr_loop k e l ci = some r → KeepsSkip r ci := by
  intro l
  induction l with
  | nil =>
    intro ci r hr
    simp only [tr_loop, Option.some.injEq] at hr
    subst hr
    exact KeepsSkip.skip_refl _
  | cons i rest ih =>
    intro ci r hr
    unfold tr_loop at hr
    split at hr
    · exact absurd hr (by simp)
    · next ci1 h1 =>
      exact (ih _ _ hr).skip_trans (keepsSkip_tr_round _ _ _ _ _ h1)

theorem keepsSkip_isr_tr_complete_handler (k : Hdr) (e : Nat → TrEnv) (ci r : ci_hdrc)
    (hr : isr_tr_complete_handler k e ci = some r) : KeepsSkip r ci :=
  keepsSkip_tr_loop k e _ ci r hr

theorem keepsSkip_udc_irq (k : Hdr) (q : IrqHdr) (e : IrqEnv) (ci r : ci_hdrc)
    (ret : irqreturn_t) (hr : udc_irq k q e (some ci) = some (ret, some r))
    (hno : q.USBi_URI &&& (e.status &&& e.enable) = 0) : KeepsSkip r ci := by
  unfold udc_irq at hr
  simp only [hw_test_and_clear_intr_active] at hr
  split at hr
  · simp only [Option.some.injEq, Prod.mk.injEq] at hr
    rw [← hr.2]
    exact KeepsSkip.skip_refl _
  · split at hr
    · simp only [hno, bne_self_eq_false, Bool.false_eq_true, if_false] at hr
      split at hr
      · exact absurd hr (by simp)
      · next ci3 h3 =>
        simp only [Option.some.injEq, Prod.mk.injEq] at hr
        rw [← hr.2]
        have h2 : KeepsSkip (if (q.USBi_PCI &&& (e.status &&& e.enable) != 0) = true then
            irq_port_change e.gadget e.high_speed
              (emit ci (Event.hw_write HwField.USBSTS (e.status &&& e.enable)))
            else emit ci (Event.hw_write HwField.USBSTS (e.status &&& e.enable))) ci := by
          split
          · exact keepsSkip_of_eq (skip_irq_port_change _ _ _)
          · exact KeepsSkip.skip_refl _
        have h3k : KeepsSkip ci3 ci := by
          split at h3
          · exact (keepsSkip_isr_tr_complete_handler _ _ _ _ h3).skip_trans h2
          · simp only [Option.some.injEq] at h3
            rw [← h3]
            exact h2
        split
        · exact (keepsSkip_of_eq (skip_irq_suspend _ _)).skip_trans h3k
        · exact h3k
    · simp only [Option.some.injEq, Prod.mk.injEq] at hr
      rw [← hr.2]
      exact KeepsSkip.skip_refl _

theorem skip_ep_prime_timer_func (e : PrimeEnv) (i : Nat) (ci : ci_hdrc) :
    (ep_prime_timer_func e i ci).skip_flush = ci.skip_flush := by
  unfold ep_prime_timer_func
  simp only []
  repeat' split
  all_goals rfl

theorem flush_writes_events (ci : ci_hdrc) (n m : Nat) :
    (flush_writes ci n m).trace
      = ci.trace ++ List.replicate m (Event.hw_write (HwField.ENDPTFLUSH n) 1) := by
  induction m generalizing ci with
  | zero => simp [flush_writes]
  | succ m ih =>
    unfold flush_writes
    rw [ih]
    simp [emit, List.replicate_succ]
/-- C23: hw_ep_flush returns 0 for every input.  A call that gets past its
entry test (flag clear, and endpoint number 0 or the tested queue not empty)
and whose poll of the flush register times out sets `skip_flush`.  While
`skip_flush` is set a call of hw_ep_flush returns without any write: the state
is unchanged.  A flag that is set stays set through _ep_nuke, ep_queue,
ep_dequeue, ep_set_halt, ep_set_wedge, isr_tr_complete_low,
_gadget_stop_activity, ep_prime_timer_func and through udc_irq when the reset
bit is not among the active interrupts.  isr_reset_handler ends with the flag
clear, and a flush of endpoint 0 or of an endpoint whose tested queue is not
empty then writes the flush register again, once per round. -/
theorem flush_skip_flag (k : Hdr) (q : IrqHdr) (ci : ci_hdrc) (num dir : Nat) (e : FlushEnv) :
    hw_ep_flush_ret ci num dir e = 0 ∧
    (ci.skip_flush = false → num = 0 ∨ (ci.ci_hw_ep (hw_ep_bit num dir)).queue ≠ [] →
      e.timedOut = true → (hw_ep_flush ci num dir e).skip_flush = true) ∧
    (ci.skip_flush = true → hw_ep_flush ci num dir e = ci) ∧
    (ci.skip_flush = true →
      (∀ (ne : NukeEnv) (i : Nat), (_ep_nuke k ne i ci).2.skip_flush = true) ∧
      (∀ (qe : QueueEnv) (i h : Nat) (r : Int × ci_hdrc), ep_queue k qe i h ci = some r →
        r.2.skip_flush = true) ∧
      (∀ (de : DequeueEnv) (i h : Nat), (ep_dequeue k de i h ci).2.skip_flush = true) ∧
      (∀ (he : HaltEnv) (i value : Nat), (ep_set_halt he i value ci).2.skip_flush = true) ∧
      (∀ (he : HaltEnv) (i : Nat), (ep_set_wedge he i ci).2.skip_flush = true) ∧
      (∀ (le : LowEnv) (i : Nat) (r : Int × ci_hdrc), isr_tr_complete_low k le i ci = some r →
        r.2.skip_flush = true) ∧
      (∀ (g : GadgetEnv) (s : StopEnv), (_gadget_stop_activity k g s ci).2.skip_flush = true) ∧
      (∀ (pe : PrimeEnv) (i : Nat), (ep_prime_timer_func pe i ci).skip_flush = true) ∧
      (∀ (ie : IrqEnv) (ret : irqreturn_t) (r : ci_hdrc),
        udc_irq k q ie (some ci) = some (ret, some r) →
        q.USBi_URI &&& (ie.status &&& ie.enable) = 0 → r.skip_flush = true)) ∧
    (∀ (g : GadgetEnv) (s : StopEnv),
      (isr_reset_handler k g s ci).skip_flush = false ∧
      (num = 0 ∨ ((isr_reset_handler k g s ci).ci_hw_ep (hw_ep_bit num dir)).queue ≠ [] →
        (hw_ep_flush (isr_reset_handler k g s ci) num dir e).trace
          = (isr_reset_handler k g s ci).trace
            ++ List.replicate (e.retries + 1)
                (Event.hw_write (HwField.ENDPTFLUSH (hw_ep_bit num dir)) 1))) := by
  have hgo : ∀ c : ci_hdrc, c.skip_flush = false →
      num = 0 ∨ (c.ci_hw_ep (hw_ep_bit num dir)).queue ≠ [] →
      (c.skip_flush || (num != 0 && (c.ci_hw_ep (hw_ep_bit num dir)).queue.isEmpty)) = false := by
    intro c hc hq
    rw [hc]
    rcases hq with h | h
    · subst h
      rfl
    · cases hl : (c.ci_hw_ep (hw_ep_bit num dir)).queue with
      | nil => exact absurd hl h
      | cons a t => simp
  refine ⟨?_, ?_, hw_ep_flush_skipped ci num dir e, ?_, ?_⟩
  · unfold hw_ep_flush_ret
    simp only []
    split
    · rfl
    · split <;> rfl
  · intro hc hq ht
    unfold hw_ep_flush
    simp only [hgo ci hc hq, ht, Bool.false_eq_true, if_false, if_true]
  · intro hs
    refine ⟨fun ne i => keepsSkip_ep_nuke k ne i ci hs,
      fun qe i h r hr => keepsSkip_ep_queue k qe i h ci r hr hs,
      fun de i h => keepsSkip_ep_dequeue de i h ci hs,
      fun he i value => (skip_ep_set_halt he i value ci).trans hs,
      fun he i => (skip_ep_set_wedge he i ci).trans hs,
      fun le i r hr => (skip_isr_tr_complete_low k le i ci r hr).trans hs,
      fun g s => keepsSkip_gadget_stop_activity k g s ci hs,
      fun pe i => (skip_ep_prime_timer_func pe i ci).trans hs,
      fun ie ret r hr hno => keepsSkip_udc_irq k q ie ci r ret hr hno hs⟩
  · intro g s
    have hc := isr_reset_handler_clears k g s ci
    refine ⟨hc, ?_⟩
    intro hq
    unfold hw_ep_flush
    simp only [hgo _ hc hq, Bool.false_eq_true, if_false]
    split
    · exact flush_writes_events _ _ _
    · exact flush_writes_events _ _ _

theorem flush_skip_flag_witness :
    (hw_ep_flush ci_queued 1 RX flush_late).skip_flush = true ∧
    hw_ep_flush ci_skipping 1 RX flush_ok = ci_skipping ∧
    (_ep_nuke hdr0 nuke_env_ok 1 ci_skipping).2.skip_flush = true ∧
    (hw_ep_flush (isr_reset_handler hdr0 gadget_env_ok stop_env_ok ci_skipping) 1 RX flush_ok).trace
      = (isr_reset_handler hdr0 gadget_env_ok stop_env_ok ci_skipping).trace
        ++ List.replicate (flush_ok.retries + 1)
            (Event.hw_write (HwField.ENDPTFLUSH (hw_ep_bit 1 RX)) 1) :=
  ⟨(flush_skip_flag hdr0 irq_hdr0 ci_queued 1 RX flush_late).2.1 rfl (Or.inr (by decide!)) rfl,
   (flush_skip_flag hdr0 irq_hdr0 ci_skipping 1 RX flush_ok).2.2.1 (by decide!),
   ((flush_skip_flag hdr0 irq_hdr0 ci_skipping 1 RX flush_ok).2.2.2.1 (by decide!)).1
      nuke_env_ok 1,
   ((flush_skip_flag hdr0 irq_hdr0 ci_skipping 1 RX flush_ok).2.2.2.2
      gadget_env_ok stop_env_ok).2 (Or.inr (by decide!))⟩

theorem status_complete_latched (k : Hdr) (ci : ci_hdrc) (hs : ci.setaddr = true) :
    (isr_setup_status_complete k ci).usbadr = (ci.address % 256) &&& k.DEVICEADDR_USBADR ∧
    (isr_setup_status_complete k ci).setaddr = false ∧
    addr_writes (isr_setup_status_complete k ci).trace
      = addr_writes ci.trace ++ [(ci.address % 256) &&& k.DEVICEADDR_USBADR] := by
  unfold isr_setup_status_complete
  simp only [hs, if_true]
  split
  · refine ⟨rfl, rfl, ?_⟩
    simp [hw_port_test_set, hw_usb_set_address, emit, addr_writes, List.filterMap_append]
  · refine ⟨rfl, rfl, ?_⟩
    simp [hw_usb_set_address, emit, addr_writes, List.filterMap_append]

/-- C28 (amended): isr_setup_status_complete does not look at the status of
the request.  Whenever it runs with the latch `setaddr` set it writes the
latched address to the device-address register under the mask
DEVICEADDR_USBADR, so that the field holds the bits of the latched address
(a `u8`) that the mask has, and clears the latch; with the latch clear it
leaves the register and the latch as they are and does not write the register.
The completion call of a request whose callback it is leaves the same register
value, latch and register writes whatever status the request has been given,
-ESHUTDOWN included. -/
theorem status_complete_any_status (k : Hdr) (ci : ci_hdrc) :
    (ci.setaddr = true →
      (isr_setup_status_complete k ci).usbadr = (ci.address % 256) &&& k.DEVICEADDR_USBADR ∧
      (isr_setup_status_complete k ci).setaddr = false ∧
      addr_writes (isr_setup_status_complete k ci).trace
        = addr_writes ci.trace ++ [(ci.address % 256) &&& k.DEVICEADDR_USBADR]) ∧
    (ci.setaddr = false →
      (isr_setup_status_complete k ci).usbadr = ci.usbadr ∧
      (isr_setup_status_complete k ci).setaddr = false ∧
      addr_writes (isr_setup_status_complete k ci).trace = addr_writes ci.trace) ∧
    (∀ (ep h : Nat) (s : Int),
      (ci.reqs h).req.complete = some Complete.isr_setup_status_complete →
      (call_complete k (setReq ci h { ci.reqs h with
          req := { (ci.reqs h).req with status := s } }) ep h).usbadr
        = (call_complete k ci ep h).usbadr ∧
      (call_complete k (setReq ci h { ci.reqs h with
          req := { (ci.reqs h).req with status := s } }) ep h).setaddr
        = (call_complete k ci ep h).setaddr ∧
      addr_writes (call_complete k (setReq ci h { ci.reqs h with
          req := { (ci.reqs h).req with status := s } }) ep h).trace
        = addr_writes (call_complete k ci ep h).trace) := by
  refine ⟨status_complete_latched k ci, ?_, ?_⟩
  · intro hs
    have h := @sameAddr_isr_setup_status_complete k ci hs
    exact ⟨h.usbadr, h.setaddr.trans hs, h.addr_writes⟩
  · intro ep h s hc
    have key : ∀ c : ci_hdrc, (c.reqs h).req.complete = some Complete.isr_setup_status_complete →
        c.setaddr = ci.setaddr → c.usbadr = ci.usbadr → c.address = ci.address →
        addr_writes c.trace = addr_writes ci.trace →
        (call_complete k c ep h).usbadr
          = (if ci.setaddr then (ci.address % 256) &&& k.DEVICEADDR_USBADR else ci.usbadr) ∧
        (call_complete k c ep h).setaddr = false ∧
        addr_writes (call_complete k c ep h).trace
          = addr_writes ci.trace
            ++ (if ci.setaddr then [(ci.address % 256) &&& k.DEVICEADDR_USBADR] else []) := by
      intro c hcc h1 h2 h3 h4
      unfold call_complete
      rw [hcc]
      simp only []
      have e1 : addr_writes (emit c (Event.complete Complete.isr_setup_status_complete ep h
          (c.reqs h).req)).trace = addr_writes ci.trace := by
        rw [← h4]
        simp [emit, addr_writes, List.filterMap_append]
      have e3 : (emit c (Event.complete Complete.isr_setup_status_complete ep h
          (c.reqs h).req)).address = ci.address := h3
      cases hsa : ci.setaddr with
      | true =>
        obtain ⟨a1, a2, a3⟩ := status_complete_latched k (emit c (Event.complete
          Complete.isr_setup_status_complete ep h (c.reqs h).req)) (h1.trans hsa)
        rw [e3] at a1 a3
        refine ⟨a1, a2, ?_⟩
        rw [a3, e1]
        rfl
      | false =>
        have hh := @sameAddr_isr_setup_status_complete k (emit c (Event.complete
          Complete.isr_setup_status_complete ep h (c.reqs h).req)) (h1.trans hsa)
        refine ⟨hh.usbadr.trans h2, hh.setaddr.trans (h1.trans hsa), ?_⟩
        rw [hh.addr_writes, e1]
        simp
    obtain ⟨a1, a2, a3⟩ := key ci hc rfl rfl rfl rfl
    obtain ⟨b1, b2, b3⟩ := key (setReq ci h { ci.reqs h with
      req := { (ci.reqs h).req with status := s } }) (by simp [setReq, hc]) rfl rfl rfl rfl
    exact ⟨b1.trans a1.symm, b2.trans a2.symm, b3.trans a3.symm⟩

theorem status_complete_any_status_witness :
    (isr_setup_status_complete hdr0 { ci_sample with address := 5, setaddr := true }).usbadr = 5 ∧
    (isr_setup_status_complete hdr0 { ci_sample with address := 200, setaddr := true }).usbadr
      = 72 ∧
    (isr_setup_status_complete hdr0 ci_sample).usbadr = 0 ∧
    (call_complete hdr0 (setReq ci_latched ci_latched.status { ci_latched.reqs ci_latched.status with
        req := { (ci_latched.reqs ci_latched.status).req with status := -ESHUTDOWN } })
        2 ci_latched.status).usbadr
      = (call_complete hdr0 ci_latched 2 ci_latched.status).usbadr ∧
    (call_complete hdr0 ci_latched 2 ci_latched.status).usbadr = 5 :=
  ⟨((status_complete_any_status hdr0 { ci_sample with address := 5, setaddr := true }).1 rfl).1,
   ((status_complete_any_status hdr0 { ci_sample with address := 200, setaddr := true }).1
      rfl).1,
   ((status_complete_any_status hdr0 ci_sample).2.1 rfl).1,
   ((status_complete_any_status hdr0 ci_latched).2.2 2 ci_latched.status (-ESHUTDOWN)
      (by decide!)).1,
   by decide!⟩

end Udc
